import Mathlib

/-!
# OpenSCAD `MainWindow` compile coordinator

A shallow embedding of the compile pipeline of `src/mainwin.cc`
(`compile`, `waitAfterReload`, `compileDone`, `compileEnded`,
`instantiateRoot`, `compileCSG`, `fileChangedOnDisk`,
`compileTopLevelDocument`, `checkEditorModified`, the render slots and the
view-mode switches), written as explicit state passing over a record of the
`MainWindow` members the pipeline reads and writes.

Everything the pipeline calls that is defined outside `mainwin.cc` (the
parser, `FileModule`, `find_root_tag`, `CSGTermEvaluator`,
`CSGTermNormalizer`, `CSGChain::import`, the file system, the message box,
the preferences) is a field of `Env`: an arbitrary function over an
arbitrary external `World`, so every theorem holds for all behaviours of the
collaborators.  Both `ENABLE_CGAL` and `ENABLE_OPENCSG` are taken as defined.
Strings stand for `QString`/`std::string`; local-8-bit conversions are the
identity.  Re-entrant event delivery inside `QApplication::processEvents()`
is not modelled beyond its effect on the external world.
-/

namespace OpenSCAD

/-! ## Carriers and collaborators -/

/-- Types of the collaborators declared outside `mainwin.cc`. -/
structure Carrier where
  /-- Everything outside the `MainWindow` members: file system, heap contents
  of modules and nodes, caches, camera, evaluation context, the user. -/
  World : Type
  /-- A `FileModule*` that is not null. -/
  FileModule : Type
  /-- An `AbstractNode*` that is not null. -/
  AbstractNode : Type
  /-- The pointee of a non-null `shared_ptr<CSGTerm>`. -/
  CSGTerm : Type
  /-- One `CSGChainObject`. -/
  CSGChainObject : Type
  /-- The state of a `CSGTermNormalizer` object. -/
  CSGTermNormalizer : Type
  /-- The pointee of a non-null `shared_ptr<const Geometry>`. -/
  Geometry : Type

/-- The `CSGChain` members used by `mainwin.cc`: the `objects` vector. -/
structure CSGChain (C : Carrier) where
  objects : List C.CSGChainObject

/-- An `OpenCSGRenderer` or `ThrownTogetherRenderer`: the three chain pointers
handed to its constructor. -/
structure ChainRenderer (C : Carrier) where
  root_chain : Option (CSGChain C)
  highlights_chain : Option (CSGChain C)
  background_chain : Option (CSGChain C)

/-- What one call of `CSGTermEvaluator::evaluateCSGTerm(node, highlights,
background)` did: `result = none` when it threw `ProgressCancelException`,
otherwise the returned `shared_ptr<CSGTerm>`; the two vectors passed by
reference as they are when control leaves the call. -/
structure EvalOutcome (C : Carrier) where
  result : Option (Option C.CSGTerm)
  highlights : List (Option C.CSGTerm)
  background : List (Option C.CSGTerm)

/-- The `const char *` slot names passed to `QMetaObject::invokeMethod`. -/
inductive Slot where
  | csgRender
  | csgReloadRender
  | cgalRender
  | compileEnded
  deriving DecidableEq, Repr

/-- Which member renderer `qglview->setRenderer` was last given. -/
inductive RendererRef where
  | opencsg
  | thrownTogether
  | cgal
  deriving DecidableEq, Repr

/-- Calls whose effect is confined to the external world. -/
inductive Helper where
  | processEvents
  | setCurrentOutput
  | clearCurrentOutput
  | saveBackup
  | updateTemporalVariables
  | resetPrintedDeprecations
  | deleteModule
  | updateCamera
  | deleteTree
  | treeGetString
  | cachePrint
  | settingsSetValue
  | updateColorScheme
  | updateGL
  | dumpFrame
  | setShowFaces (faces : Bool)
  | newMainWindow (filename : String)
  | setWindowFilePath (path : String)
  | resetDocumentPath
  | setCurrentDirOf (filename : String)
  | setDocumentPathOf (filename : String)
  | editorTopLevelChanged
  | consoleTopLevelChanged
  | updateRecentFileActions
  deriving DecidableEq, Repr

/-- Observable steps of the pipeline, in program order. -/
inductive Event where
  | print (msg : String)
  | printB (fmt : String) (args : List String)
  | printRenderingTime
  | helper (h : Helper)
  | consoleClear
  | fileChangedOnDisk (result : Bool)
  | checkEditorModified (result : Bool)
  | refreshDocument
  | includesChanged (result : Bool)
  | compileTopLevelDocument
  | parse (ok : Bool)
  | handleDependencies (changed : Bool)
  | waitAfterReloadTimerStart
  | autoReloadTimerStart
  | autoReloadTimerStop
  | unhighlightLastError
  | highlightError (pos : Int)
  | compileDone (didchange : Bool)
  | invokeMethod (slot : Slot)
  | instantiateRoot
  | setRenderer (r : Option RendererRef)
  | resetIndexCounter
  | instantiate (ok : Bool)
  | compileCSG
  | progressReportPrep
  | progressReportFin
  | evaluateCSGTerm (threw : Bool)
  | newNormalizer (limit : Nat)
  | compileEnded
  | guiLock
  | guiUnlock
  | cgalworkerStart
  | progressSetValue (permille : Int)
  deriving DecidableEq, Repr

/-- What `actionRenderDone` finds out about the geometry handed to it: which
of its `dynamic_cast`s succeeds, and the values it tests and prints. -/
inductive GeometryKind where
  /-- A `CGAL_Nef_polyhedron`: `isEmpty()`, `getDimension()`, and what is
  printed of `p3` for a 3D object. -/
  | nef (isEmpty : Bool) (dimension : Nat) (is_simple : Bool)
      (vertices halfedges edges halffacets facets volumes : Nat)
  /-- A `PolySet`: `getDimension()` and `numPolygons()`. -/
  | polySet (dimension : Nat) (numPolygons : Nat)
  /-- A `Polygon2d`: `outlines().size()`. -/
  | polygon2d (outlines : Nat)
  /-- None of the three. -/
  | unknown
  deriving DecidableEq, Repr

/-- The collaborators of the pipeline. -/
structure Env (C : Carrier) where
  /-- `stat(fileName)`: `some (st_mtime, st_size)` when it returns 0. -/
  stat : String → C.World → Option (Nat × Nat) × C.World
  /-- `QFile::open` + `readAll`: the text, or the error string. -/
  readFile : String → C.World → Except String String × C.World
  /-- `editor->isContentModified()`. -/
  isContentModified : C.World → Bool
  /-- The answer to the "Do you really want to reload the file?" box is Yes. -/
  askReload : C.World → Bool × C.World
  /-- `QFileInfo(fileName).absolutePath()`. -/
  absolutePath : String → String
  /-- `parse(text, path, false)`: the module (null on failure) and the value
  left in the global `parser_error_pos`. -/
  parse : String → String → C.World → (Option C.FileModule × Int) × C.World
  includesChanged : C.FileModule → C.World → Bool × C.World
  handleDependencies : C.FileModule → C.World → Bool × C.World
  hasIncludes : C.FileModule → C.World → Bool
  usesLibraries : C.FileModule → C.World → Bool
  /-- `ModuleCache::instance()->size()`. -/
  moduleCacheSize : C.World → Nat
  /-- `root_module->instantiate(&top_ctx, &root_inst, NULL)`. -/
  instantiate : C.FileModule → C.World → Option C.AbstractNode × C.World
  /-- The number of nodes that `root_module->instantiate(...)` creates. -/
  nodesCreated : C.FileModule → C.World → Nat
  find_root_tag : C.AbstractNode → Option C.AbstractNode
  evaluateCSGTerm : C.AbstractNode → List (Option C.CSGTerm) → List (Option C.CSGTerm) →
    C.World → EvalOutcome C × C.World
  /-- `CSGTermNormalizer normalizer(limit)`. -/
  newNormalizer : Nat → C.CSGTermNormalizer
  /-- `normalizer.normalize(term)`. -/
  normalize : C.CSGTermNormalizer → Option C.CSGTerm → Option C.CSGTerm × C.CSGTermNormalizer
  /-- `chain->import(term)`. -/
  chainImport : CSGChain C → Option C.CSGTerm → CSGChain C
  /-- `Preferences::inst()->getValue("advanced/openCSGLimit").toUInt()`. -/
  openCSGLimit : Nat
  /-- `qglview->hasOpenCSGSupport()`. -/
  hasOpenCSGSupport : Bool
  commandline_commands : String
  /-- Effect of a world-only call. -/
  helper : Helper → C.World → C.World
  /-- `progresswidget->value()`. -/
  progressValue : C.World → Int
  /-- `progresswidget->wasCanceled()`. -/
  wasCanceled : C.World → Bool
  /-- `QMetaObject::invokeMethod(progresswidget, "setValue", Qt::QueuedConnection,
  Q_ARG(int, permille))`: the call is posted to the event queue of the window. -/
  postSetValue : Int → C.World → C.World
  /-- `progresswidget->elapsedTime()`, in milliseconds. -/
  elapsedTime : C.World → Nat
  /-- The dynamic type of a geometry and the numbers printed for it. -/
  geometryKind : C.Geometry → GeometryKind
  /-- `QFileInfo(filename).suffix()`. -/
  fileInfo_suffix : String → String
  /-- `QString::toLower()`. -/
  toLower : String → String
  /-- `cmd.arg(filename)`. -/
  arg : String → String → String
  /-- `QFileInfo(filename).exists()`. -/
  fileExists : String → C.World → Bool
  /-- `QFileInfo(filename).absoluteFilePath()`. -/
  absoluteFilePath : String → String
  /-- `QFileInfo(filename).fileName()`. -/
  fileInfo_fileName : String → String
  /-- `editor->insert(text)`: the editor text after `text` is inserted at the
  cursor. -/
  editorInsert : String → String → C.World → String
  /-- `QSettings().value("recentFileList").toStringList()`. -/
  recentFileList : C.World → List String
  /-- `QSettings().setValue("recentFileList", files)`. -/
  setRecentFileList : List String → C.World → C.World
  /-- `UIUtils::maxRecentFiles`, declared in `UIUtils.h`. -/
  maxRecentFiles : Nat

/-! ## The members of `MainWindow` -/

/-- The members of `MainWindow` (and the globals `GuiLocker::gui_locked`,
`parser_error_pos`) that the pipeline reads or writes. -/
structure Members (C : Carrier) where
  fileName : String
  autoReloadId : String
  editorText : String
  last_compiled_doc : String
  root_module : Option C.FileModule
  parser_error_pos : Int
  absolute_root_node : Option C.AbstractNode
  root_node : Option C.AbstractNode
  tree_root : Option C.AbstractNode
  root_raw_term : Option C.CSGTerm
  root_norm_term : Option C.CSGTerm
  highlight_terms : List (Option C.CSGTerm)
  background_terms : List (Option C.CSGTerm)
  root_chain : Option (CSGChain C)
  highlights_chain : Option (CSGChain C)
  background_chain : Option (CSGChain C)
  opencsgRenderer : Option (ChainRenderer C)
  thrownTogetherRenderer : Option (ChainRenderer C)
  cgalRenderer : Option C.Geometry
  root_geom : Option C.Geometry
  qglview_renderer : Option RendererRef
  progresswidget : Bool
  cgalworker_running : Bool
  afterCompileSlot : Slot
  procevents : Bool
  outputHandlerSet : Bool
  gui_locked : Nat
  autoReloadTimerActive : Bool
  waitAfterReloadTimerActive : Bool
  designActionAutoReload : Bool
  viewActionPreview : Bool
  viewActionSurfaces : Bool
  viewActionWireframe : Bool
  viewActionThrownTogether : Bool
  viewActionAnimate : Bool
  e_dump : Bool
  animate_panel_visible : Bool

/-- A state of the pipeline: the window's members, the external world, the
trace of steps taken so far, and what `instantiateRoot` hands to and leaves
with the node classes: `root_inst`, the node-index counter and the indices of
the nodes created. -/
structure MainWindow (C : Carrier) extends Members C where
  world : C.World
  trace : List Event
  /-- The member `root_inst`, by the name of the instantiation it holds: the
  constructor makes it `root_inst("group")`. -/
  root_inst : String := "group"
  /-- Modelled from the spec: the node-index counter of `AbstractNode`, from
  which every node created takes its index. -/
  idx_counter : Nat := 0
  /-- Modelled from the spec: the indices carried by the nodes that the last
  `instantiate` call created, in the order of their creation. -/
  node_indices : List Nat := []

variable {C : Carrier}

/-! ## Small steps -/

/-- Append one event to the trace. -/
def log (s : MainWindow C) (e : Event) : MainWindow C :=
  { s with trace := s.trace ++ [e] }

/-- A call that only touches the external world. -/
def callHelper (env : Env C) (h : Helper) (s : MainWindow C) : MainWindow C :=
  log { s with world := env.helper h s.world } (Event.helper h)

/-- The body of `if (procevents) QApplication::processEvents();`. -/
def processEventsIf (env : Env C) (b : Bool) (s : MainWindow C) : MainWindow C :=
  if b then callHelper env Helper.processEvents s else s

/-- `MainWindow::consoleOutput`, reached from `PRINT` when this window is the
current output: the text is appended to the console and, when `procevents` is
set, pending events are processed. -/
def consoleOutput (env : Env C) (s : MainWindow C) : MainWindow C :=
  if s.outputHandlerSet then processEventsIf env s.procevents s else s

/-- `PRINT(msg)`. -/
def PRINT (env : Env C) (msg : String) (s : MainWindow C) : MainWindow C :=
  consoleOutput env (log s (Event.print msg))

/-- `PRINTB(fmt, args)`. -/
def PRINTB (env : Env C) (fmt : String) (args : List String) (s : MainWindow C) :
    MainWindow C :=
  consoleOutput env (log s (Event.printB fmt args))

/-- `MainWindow::setCurrentOutput`. -/
def setCurrentOutput (env : Env C) (s : MainWindow C) : MainWindow C :=
  callHelper env Helper.setCurrentOutput { s with outputHandlerSet := true }

/-- `MainWindow::clearCurrentOutput`. -/
def clearCurrentOutput (env : Env C) (s : MainWindow C) : MainWindow C :=
  callHelper env Helper.clearCurrentOutput { s with outputHandlerSet := false }

/-- `qglview->setRenderer(r)`, `r` null when `none`. -/
def setRenderer (r : Option RendererRef) (s : MainWindow C) : MainWindow C :=
  log { s with qglview_renderer := r } (Event.setRenderer r)

/-- The `%x` conversion of `boost::format` for a non-negative value. -/
def hexString (n : Nat) : String :=
  String.mk (Nat.toDigits 16 n)

/-- `MainWindow::autoReloadSet`. -/
def autoReloadSet (env : Env C) (on_ : Bool) (s : MainWindow C) : MainWindow C :=
  let s := callHelper env Helper.settingsSetValue s
  if on_ then log { s with autoReloadTimerActive := true } Event.autoReloadTimerStart
  else log { s with autoReloadTimerActive := false } Event.autoReloadTimerStop

/-- `designActionAutoReload->setChecked(b)`: `toggled(bool)` is connected to
`autoReloadSet` and fires when the checked state changes. -/
def designActionAutoReload_setChecked (env : Env C) (b : Bool) (s : MainWindow C) :
    MainWindow C :=
  if s.designActionAutoReload = b then s
  else autoReloadSet env b { s with designActionAutoReload := b }

/-! ## `fileChangedOnDisk`, `checkEditorModified`, `refreshDocument` -/

/-- `MainWindow::fileChangedOnDisk`. -/
def fileChangedOnDisk (env : Env C) (s : MainWindow C) : Bool × MainWindow C :=
  if s.fileName ≠ "" then
    let st := env.stat s.fileName s.world
    let s := { s with world := st.2 }
    match st.1 with
    | none => (false, log s (Event.fileChangedOnDisk false))
    | some (st_mtime, st_size) =>
      let newid := hexString st_mtime ++ "." ++ hexString st_size
      if newid ≠ s.autoReloadId then
        (true, log { s with autoReloadId := newid } (Event.fileChangedOnDisk true))
      else (false, log s (Event.fileChangedOnDisk false))
  else (false, log s (Event.fileChangedOnDisk false))

/-- `MainWindow::checkEditorModified`. -/
def checkEditorModified (env : Env C) (s : MainWindow C) : Bool × MainWindow C :=
  if env.isContentModified s.world then
    let ret := env.askReload s.world
    let s := { s with world := ret.2 }
    if ret.1 ≠ true then
      let s := designActionAutoReload_setChecked env false s
      (false, log s (Event.checkEditorModified false))
    else (true, log s (Event.checkEditorModified true))
  else (true, log s (Event.checkEditorModified true))

/-- `MainWindow::refreshDocument`. -/
def refreshDocument (env : Env C) (s : MainWindow C) : MainWindow C :=
  let s := log s Event.refreshDocument
  let s := setCurrentOutput env s
  let s :=
    if s.fileName ≠ "" then
      let file := env.readFile s.fileName s.world
      let s := { s with world := file.2 }
      match file.1 with
      | Except.error errorString =>
        PRINTB env "Failed to open file %s: %s" [s.fileName, errorString] s
      | Except.ok text =>
        let s := PRINTB env "Loaded design \x27%s\x27." [s.fileName] s
        if s.editorText ≠ text then { s with editorText := text } else s
    else s
  setCurrentOutput env s

/-! ## `compileTopLevelDocument` -/

/-- `MainWindow::updateCamera`: returns at once without a module, otherwise
evaluates the special variables and moves the camera. -/
def updateCamera (env : Env C) (s : MainWindow C) : MainWindow C :=
  match s.root_module with
  | none => s
  | some _ => callHelper env Helper.updateCamera s

/-- `MainWindow::compileTopLevelDocument`. -/
def compileTopLevelDocument (env : Env C) (s : MainWindow C) : MainWindow C :=
  let s := log s Event.compileTopLevelDocument
  let s := callHelper env Helper.updateTemporalVariables s
  let s := callHelper env Helper.resetPrintedDeprecations s
  let s := { s with last_compiled_doc := s.editorText }
  let fulltext := s.last_compiled_doc ++ "\n" ++ env.commandline_commands
  -- delete this->root_module; this->root_module = NULL;
  let s := callHelper env Helper.deleteModule s
  let s := { s with root_module := none }
  let r := env.parse fulltext (if s.fileName = "" then "" else env.absolutePath s.fileName)
    s.world
  let s := log { s with world := r.2, root_module := r.1.1, parser_error_pos := r.1.2 }
    (Event.parse r.1.1.isSome)
  updateCamera env s

/-! ## `instantiateRoot` -/

/-- Lines 823-849 of `MainWindow::instantiateRoot`: the renderers are
invalidated and the previous tree, terms and chains are dropped. -/
def instantiateRoot_clear (env : Env C) (s : MainWindow C) : MainWindow C :=
  -- Invalidate renderers before we kill the CSG tree
  let s := setRenderer none s
  let s := { s with opencsgRenderer := none, thrownTogetherRenderer := none }
  -- Remove previous CSG tree
  let s := callHelper env Helper.deleteTree s
  { s with absolute_root_node := none, root_raw_term := none, root_norm_term := none,
           root_chain := none, highlight_terms := [], highlights_chain := none,
           background_terms := [], background_chain := none,
           root_node := none, tree_root := none }

/-- Lines 862-873 of `MainWindow::instantiateRoot`: the body of
`if (this->absolute_root_node)`. -/
def instantiateRoot_setRoot (env : Env C) (absolute_root_node : C.AbstractNode)
    (s : MainWindow C) : MainWindow C :=
  -- Do we have an explicit root node (! modifier)?
  let s :=
    match env.find_root_tag absolute_root_node with
    | some tagged => { s with root_node := some tagged }
    | none => { s with root_node := some absolute_root_node }
  let s := { s with tree_root := s.root_node }
  callHelper env Helper.treeGetString s

/-- Modelled from the spec: `AbstractNode::resetIndexCounter()` is defined with
the node classes, which are not among the sources. The spec describes it as
resetting the node-index counter to zero before indices are assigned. -/
def AbstractNode_resetIndexCounter (s : MainWindow C) : MainWindow C :=
  log { s with idx_counter := 0 } Event.resetIndexCounter

/-- Modelled from the spec: the indices of the nodes that a call creates. The
node classes are not among the sources; the spec describes every node as
carrying an index that is assigned once and increases monotonically: a node
that is created takes the value of the node-index counter as its index, and
the counter goes up by one. With the counter at `idx_counter`, the `created`
nodes of a call carry these indices, in the order of their creation. -/
def AbstractNode_indices (idx_counter created : Nat) : List Nat :=
  List.range' idx_counter created

/-- Modelled from the spec: the creation of `created` nodes, one after the
other: they take their indices from the node-index counter, which is left
behind the last index assigned. -/
def AbstractNode_create (created : Nat) (s : MainWindow C) : MainWindow C :=
  { s with node_indices := AbstractNode_indices s.idx_counter created,
           idx_counter := s.idx_counter + created }

/-- Lines 851-874 of `MainWindow::instantiateRoot`: the body of
`if (this->root_module)`. The nodes of the new tree are created inside
`instantiate`. -/
def instantiateRoot_instantiate (env : Env C) (root_module : C.FileModule)
    (s : MainWindow C) : MainWindow C :=
  -- Evaluate CSG tree
  let s := PRINT env "Compiling design (CSG Tree generation)..." s
  let s := processEventsIf env s.procevents s
  let s := AbstractNode_resetIndexCounter s
  -- split these two lines - gcc 4.7 bug
  let mi := "group"
  let s := { s with root_inst := mi }
  let r := env.instantiate root_module s.world
  let created := env.nodesCreated root_module s.world
  let s := AbstractNode_create created s
  let s := log { s with world := r.2, absolute_root_node := r.1 } (Event.instantiate r.1.isSome)
  match r.1 with
  | some absolute_root_node => instantiateRoot_setRoot env absolute_root_node s
  | none => s

/-- Lines 876-884 of `MainWindow::instantiateRoot`: the body of
`if (!this->root_node)`. -/
def instantiateRoot_failed (env : Env C) (s : MainWindow C) : MainWindow C :=
  let s :=
    if s.parser_error_pos < 0 then
      PRINT env "ERROR: Compilation failed! (no top level object found)" s
    else PRINT env "ERROR: Compilation failed!" s
  processEventsIf env s.procevents s

/-- `MainWindow::instantiateRoot`. -/
def instantiateRoot (env : Env C) (s : MainWindow C) : MainWindow C :=
  let s := log s Event.instantiateRoot
  let s := instantiateRoot_clear env s
  let s :=
    match s.root_module with
    | some root_module => instantiateRoot_instantiate env root_module s
    | none => s
  match s.root_node with
  | none => instantiateRoot_failed env s
  | some _ => s

/-! ## `compileCSG` -/

/-- The two loops of `compileCSG` over `highlight_terms` and
`background_terms`: each term is replaced by its normalization and imported
into the chain, in index order, by the one normalizer object. -/
def normalizeAndImport (env : Env C) :
    C.CSGTermNormalizer → CSGChain C → List (Option C.CSGTerm) →
      C.CSGTermNormalizer × CSGChain C × List (Option C.CSGTerm)
  | normalizer, chain, [] => (normalizer, chain, [])
  | normalizer, chain, t :: ts =>
    let r := env.normalize normalizer t
    let chain := env.chainImport chain r.1
    let rest := normalizeAndImport env r.2 chain ts
    (rest.1, rest.2.1, r.1 :: rest.2.2)

/-- Lines 937-946 of `MainWindow::compileCSG`: the primary term is normalized
and, unless the result is empty, imported into a new `root_chain`. -/
def compileCSG_root (env : Env C) (procevents : Bool) (normalizer : C.CSGTermNormalizer)
    (root_raw_term : C.CSGTerm) (s : MainWindow C) : C.CSGTermNormalizer × MainWindow C :=
  let r := env.normalize normalizer (some root_raw_term)
  let s := { s with root_norm_term := r.1 }
  match r.1 with
  | some root_norm_term =>
    (r.2, { s with root_chain := some (env.chainImport (CSGChain.mk []) (some root_norm_term)) })
  | none =>
    let s := { s with root_chain := none }
    let s := PRINT env "WARNING: CSG normalization resulted in an empty tree" s
    (r.2, processEventsIf env procevents s)

/-- Lines 948-958 of `MainWindow::compileCSG`: the highlights chain. -/
def compileCSG_highlights (env : Env C) (procevents : Bool) (normalizer : C.CSGTermNormalizer)
    (s : MainWindow C) : C.CSGTermNormalizer × MainWindow C :=
  if s.highlight_terms.length > 0 then
    let s := PRINTB env "Compiling highlights (%d CSG Trees)..."
      [toString s.highlight_terms.length] s
    let s := processEventsIf env procevents s
    let r := normalizeAndImport env normalizer (CSGChain.mk []) s.highlight_terms
    (r.1, { s with highlight_terms := r.2.2, highlights_chain := some r.2.1 })
  else (normalizer, s)

/-- Lines 960-970 of `MainWindow::compileCSG`: the background chain. -/
def compileCSG_background (env : Env C) (procevents : Bool) (normalizer : C.CSGTermNormalizer)
    (s : MainWindow C) : C.CSGTermNormalizer × MainWindow C :=
  if s.background_terms.length > 0 then
    let s := PRINTB env "Compiling background (%d CSG Trees)..."
      [toString s.background_terms.length] s
    let s := processEventsIf env procevents s
    let r := normalizeAndImport env normalizer (CSGChain.mk []) s.background_terms
    (r.1, { s with background_terms := r.2.2, background_chain := some r.2.1 })
  else (normalizer, s)

/-- The test `this->root_chain && this->root_chain->objects.size() > limit` of
line 972. -/
def openCSGDisabled (env : Env C) (s : MainWindow C) : Bool :=
  match s.root_chain with
  | some root_chain => decide (root_chain.objects.length > env.openCSGLimit)
  | none => false

/-- The value printed as the element count: `root_chain->objects.size()`, or 0
without a chain. -/
def rootChainSize (s : MainWindow C) : Nat :=
  match s.root_chain with
  | some root_chain => root_chain.objects.length
  | none => 0

/-- Lines 972-988 of `MainWindow::compileCSG`: the two renderers. -/
def compileCSG_renderers (env : Env C) (s : MainWindow C) : MainWindow C :=
  let s :=
    if openCSGDisabled env s then
      let s := PRINTB env "WARNING: Normalized tree has %d elements!"
        [toString (rootChainSize s)] s
      PRINT env "WARNING: OpenCSG rendering has been disabled." s
    else
      let s := PRINTB env "Normalized CSG tree has %d elements" [toString (rootChainSize s)] s
      let renderer := ChainRenderer.mk s.root_chain s.highlights_chain s.background_chain
      { s with opencsgRenderer := some renderer }
  let renderer := ChainRenderer.mk s.root_chain s.highlights_chain s.background_chain
  { s with thrownTogetherRenderer := some renderer }

/-- Lines 931-993 of `MainWindow::compileCSG`: the body of
`if (root_raw_term)`. -/
def compileCSG_products (env : Env C) (procevents : Bool) (root_raw_term : C.CSGTerm)
    (s : MainWindow C) : MainWindow C :=
  let s := PRINT env "Compiling design (CSG Products normalization)..." s
  let s := processEventsIf env procevents s
  let normalizelimit := (2 * env.openCSGLimit) % 2 ^ 32
  let s := log s (Event.newNormalizer normalizelimit)
  let r := compileCSG_root env procevents (env.newNormalizer normalizelimit) root_raw_term s
  let r := compileCSG_highlights env procevents r.1 r.2
  let r := compileCSG_background env procevents r.1 r.2
  let s := compileCSG_renderers env r.2
  let s := PRINT env "CSG generation finished." s
  let s := log s Event.printRenderingTime
  processEventsIf env procevents s

/-- Lines 913-925 of `MainWindow::compileCSG`: the `try` block and its
`catch (const ProgressCancelException &)`. -/
def compileCSG_evaluate (env : Env C) (procevents : Bool) (root_node : C.AbstractNode)
    (s : MainWindow C) : MainWindow C :=
  let s := processEventsIf env procevents s
  let r := env.evaluateCSGTerm root_node s.highlight_terms s.background_terms s.world
  let s := { s with world := r.2, highlight_terms := r.1.highlights,
                    background_terms := r.1.background }
  match r.1.result with
  | some term =>
    let s := log { s with root_raw_term := term } (Event.evaluateCSGTerm false)
    let s :=
      match term with
      | none => PRINT env "ERROR: CSG generation failed! (no top level object found)" s
      | some _ => s
    let s := callHelper env Helper.cachePrint s
    processEventsIf env procevents s
  | none =>
    let s := log s (Event.evaluateCSGTerm true)
    PRINT env "CSG generation cancelled." s

/-- `MainWindow::compileCSG` once `assert(this->root_node)` has passed, with
`root_node` the node the member points to. -/
def compileCSG_body (env : Env C) (procevents : Bool) (root_node : C.AbstractNode)
    (s : MainWindow C) : MainWindow C :=
  let s := log s Event.compileCSG
  let s := PRINT env "Compiling design (CSG Products generation)..." s
  let s := processEventsIf env procevents s
  -- Main CSG evaluation
  let s := { s with progresswidget := true }
  let s := log s Event.progressReportPrep
  let s := compileCSG_evaluate env procevents root_node s
  let s := log s Event.progressReportFin
  let s := { s with progresswidget := false }
  match s.root_raw_term with
  | some root_raw_term => compileCSG_products env procevents root_raw_term s
  | none => s

/-- `MainWindow::compileCSG`: `none` when `assert(this->root_node)` fails. -/
def compileCSG (env : Env C) (procevents : Bool) (s : MainWindow C) :
    Option (MainWindow C) :=
  match s.root_node with
  | none => none
  | some root_node => some (compileCSG_body env procevents root_node s)

/-! ## View modes and the render slots -/

/-- `MainWindow::viewModeActionsUncheck`. -/
def viewModeActionsUncheck (s : MainWindow C) : MainWindow C :=
  { s with viewActionPreview := false, viewActionSurfaces := false,
           viewActionWireframe := false, viewActionThrownTogether := false }

/-- `MainWindow::viewModeThrownTogether`. -/
def viewModeThrownTogether (env : Env C) (s : MainWindow C) : MainWindow C :=
  let s := viewModeActionsUncheck s
  let s := { s with viewActionThrownTogether := true }
  let s := setRenderer (s.thrownTogetherRenderer.map fun _ => RendererRef.thrownTogether) s
  let s := callHelper env Helper.updateColorScheme s
  callHelper env Helper.updateGL s

/-- `MainWindow::viewModePreview`. -/
def viewModePreview (env : Env C) (s : MainWindow C) : MainWindow C :=
  if env.hasOpenCSGSupport then
    let s := viewModeActionsUncheck s
    let s := { s with viewActionPreview := true }
    let s := setRenderer
      (if s.opencsgRenderer.isSome then some RendererRef.opencsg
       else s.thrownTogetherRenderer.map fun _ => RendererRef.thrownTogether) s
    let s := callHelper env Helper.updateColorScheme s
    callHelper env Helper.updateGL s
  else viewModeThrownTogether env s

/-- Modelled from the spec: `GuiLocker::unlock()` is declared in
`MainWindow.h`, which is not among the sources; only the counter
`unsigned int GuiLocker::gui_locked` is defined in `mainwin.cc`. The spec
describes a global UI-locked counter released by the coordinator: the
counter is decremented, modulo 2^32. -/
def GuiLocker_unlock (s : MainWindow C) : MainWindow C :=
  log { s with gui_locked := (s.gui_locked + (2 ^ 32 - 1)) % 2 ^ 32 } Event.guiUnlock

/-- Modelled from the spec: `GuiLocker::lock()`, declared in `MainWindow.h`,
which is not among the sources: the counter is incremented, modulo 2^32. -/
def GuiLocker_lock (s : MainWindow C) : MainWindow C :=
  log { s with gui_locked := (s.gui_locked + 1) % 2 ^ 32 } Event.guiLock

/-- Modelled from the spec: `GuiLocker::isLocked()`, declared in
`MainWindow.h`, which is not among the sources: the GUI is locked while the
counter is not zero. -/
def GuiLocker_isLocked (s : MainWindow C) : Bool :=
  decide (s.gui_locked > 0)

/-- `MainWindow::compileEnded`. -/
def compileEnded (env : Env C) (s : MainWindow C) : MainWindow C :=
  let s := log s Event.compileEnded
  let s := clearCurrentOutput env s
  let s := GuiLocker_unlock s
  if s.designActionAutoReload then
    log { s with autoReloadTimerActive := true } Event.autoReloadTimerStart
  else s

/-- The view-mode switch shared by `csgRender` and `csgReloadRender`. -/
def goToNonCGALViewMode (env : Env C) (s : MainWindow C) : MainWindow C :=
  if s.viewActionThrownTogether then viewModeThrownTogether env s
  else viewModePreview env s

/-- `MainWindow::csgReloadRender`. -/
def csgReloadRender (env : Env C) (s : MainWindow C) : Option (MainWindow C) :=
  (if s.root_node.isSome then compileCSG env true s else some s).map fun s =>
    let s := goToNonCGALViewMode env s
    compileEnded env s

/-- `MainWindow::csgRender`. -/
def csgRender (env : Env C) (s : MainWindow C) : Option (MainWindow C) :=
  (if s.root_node.isSome then compileCSG env (!s.viewActionAnimate) s else some s).map fun s =>
    let s := goToNonCGALViewMode env s
    let s :=
      if s.viewActionAnimate && s.e_dump then callHelper env Helper.dumpFrame s else s
    compileEnded env s

/-- `MainWindow::cgalRender`. -/
def cgalRender (env : Env C) (s : MainWindow C) : MainWindow C :=
  if s.root_module.isNone || s.root_node.isNone then compileEnded env s
  else
    let s := setRenderer none s
    let s := { s with cgalRenderer := none }
    let s := { s with root_geom := none }
    let s := PRINT env "Rendering Polygon Mesh using CGAL..." s
    let s := { s with progresswidget := true }
    let s := log s Event.progressReportPrep
    log { s with cgalworker_running := true } Event.cgalworkerStart

/-- `QMetaObject::invokeMethod(this, callslot)` on the window's own thread:
a direct call of the named slot. -/
def invokeMethod (env : Env C) (callslot : Slot) (s : MainWindow C) :
    Option (MainWindow C) :=
  let s := log s (Event.invokeMethod callslot)
  match callslot with
  | Slot.csgRender => csgRender env s
  | Slot.csgReloadRender => csgReloadRender env s
  | Slot.cgalRender => some (cgalRender env s)
  | Slot.compileEnded => some (compileEnded env s)

/-! ## `compileDone`, `compile`, `waitAfterReload` -/

/-- `MainWindow::compileDone`. -/
def compileDone (env : Env C) (didchange : Bool) (s : MainWindow C) :
    Option (MainWindow C) :=
  let s := log s (Event.compileDone didchange)
  let r :=
    if didchange then
      let s := instantiateRoot env s
      (s.afterCompileSlot, s)
    else (Slot.compileEnded, s)
  let callslot := r.1
  let s := r.2
  let s := { s with procevents := false }
  invokeMethod env callslot s

/-- Lines 727-748 of `MainWindow::compile`: the value of
`shouldcompiletoplevel` when `if (shouldcompiletoplevel)` is reached. -/
def compile_shouldcompiletoplevel (env : Env C) (reload : Bool) (s : MainWindow C) :
    Bool × MainWindow C :=
  let r :=
    -- Reload checks the timestamp of the toplevel file and refreshes if necessary,
    if reload then
      -- Refresh files if it has changed on disk
      let changed := fileChangedOnDisk env s
      let confirmed :=
        if changed.1 then checkEditorModified env changed.2 else (false, changed.2)
      if confirmed.1 then (true, refreshDocument env confirmed.2)
      -- If the file hasn't changed, we might still need to compile it
      -- if we haven't yet compiled the current text.
      else
        let s := confirmed.2
        let current_doc := s.editorText
        if current_doc ≠ s.last_compiled_doc ∧ s.last_compiled_doc.length = 0 then (true, s)
        else (false, s)
    else (true, s)
  let shouldcompiletoplevel := r.1
  let s := r.2
  if shouldcompiletoplevel then (true, s)
  else
    match s.root_module with
    | some root_module =>
      let inc := env.includesChanged root_module s.world
      let s := log { s with world := inc.2 } (Event.includesChanged inc.1)
      (inc.1, s)
    | none => (false, s)

/-- Lines 757-762 of `MainWindow::compile`: the dependency check, which sets
`didcompile` when `handleDependencies` reports a change. -/
def compile_handleDependencies (env : Env C) (didcompile : Bool) (s : MainWindow C) :
    Bool × MainWindow C :=
  match s.root_module with
  | some root_module =>
    let dep := env.handleDependencies root_module s.world
    let s := log { s with world := dep.2 } (Event.handleDependencies dep.1)
    if dep.1 then
      (true, PRINTB env "Module cache size: %d modules" [toString (env.moduleCacheSize s.world)] s)
    else (didcompile, s)
  | none => (didcompile, s)

/-- Lines 750-762 of `MainWindow::compile`: the value of `didcompile` after
the top-level compile and the dependency check. -/
def compile_didcompile (env : Env C) (shouldcompiletoplevel : Bool) (s : MainWindow C) :
    Bool × MainWindow C :=
  let r :=
    if shouldcompiletoplevel then
      let s := log s Event.consoleClear
      let s := if env.isContentModified s.world then callHelper env Helper.saveBackup s else s
      (true, compileTopLevelDocument env s)
    else (false, s)
  compile_handleDependencies env r.1 r.2

/-- The condition under which `compile` starts `waitAfterReloadTimer` and
returns (lines 766-772). -/
def compile_waits (env : Env C) (reload didcompile : Bool) (s : MainWindow C) : Bool :=
  match s.root_module with
  | some root_module =>
    reload && didcompile &&
      (env.hasIncludes root_module s.world || env.usesLibraries root_module s.world)
  | none => false

/-- Lines 774-781 of `MainWindow::compile`: the error-highlight signals of an
explicit compile. -/
def compile_highlightError (reload didcompile : Bool) (s : MainWindow C) : MainWindow C :=
  if !reload && didcompile then
    if !s.animate_panel_visible then
      let s := log s Event.unhighlightLastError
      if s.root_module.isNone then log s (Event.highlightError s.parser_error_pos) else s
    else s
  else s

/-- `MainWindow::compile`. -/
def compile (env : Env C) (reload forcedone : Bool) (s : MainWindow C) :
    Option (MainWindow C) :=
  let r := compile_shouldcompiletoplevel env reload s
  let r := compile_didcompile env r.1 r.2
  let didcompile := r.1
  let s := r.2
  -- If we are auto-reloading, listen for a cascade of changes by starting a timer
  -- if something changed _and_ there are any external dependencies
  if compile_waits env reload didcompile s then
    some (log { s with waitAfterReloadTimerActive := true } Event.waitAfterReloadTimerStart)
  else
    let s := compile_highlightError reload didcompile s
    compileDone env (didcompile || forcedone) s

/-- `MainWindow::waitAfterReload`: `none` when `root_module` is null, which
the slot dereferences without a check. -/
def waitAfterReload (env : Env C) (s : MainWindow C) : Option (MainWindow C) :=
  let s := { s with waitAfterReloadTimerActive := false }
  match s.root_module with
  | none => none
  | some root_module =>
    let dep := env.handleDependencies root_module s.world
    let s := log { s with world := dep.2 } (Event.handleDependencies dep.1)
    if dep.1 then
      some (log { s with waitAfterReloadTimerActive := true } Event.waitAfterReloadTimerStart)
    else
      -- In case file itself or top-level includes changed during dependency updates
      compile env true true s

/-- `MainWindow::actionReloadRenderPreview`. -/
def actionReloadRenderPreview (env : Env C) (s : MainWindow C) : Option (MainWindow C) :=
  if GuiLocker_isLocked s then some s
  else
    let s := GuiLocker_lock s
    let s := log { s with autoReloadTimerActive := false } Event.autoReloadTimerStop
    let s := setCurrentOutput env s
    let s := { s with afterCompileSlot := Slot.csgReloadRender }
    let s := { s with procevents := true }
    compile env true false s

/-- `MainWindow::actionRenderPreview`. -/
def actionRenderPreview (env : Env C) (s : MainWindow C) : Option (MainWindow C) :=
  if GuiLocker_isLocked s then some s
  else
    let s := GuiLocker_lock s
    let s := log { s with autoReloadTimerActive := false } Event.autoReloadTimerStop
    let s := setCurrentOutput env s
    let s := PRINT env "Parsing design (AST generation)..." s
    let s := callHelper env Helper.processEvents s
    let s := { s with afterCompileSlot := Slot.csgRender }
    let s := { s with procevents := !s.viewActionAnimate }
    compile env false false s

/-- `MainWindow::actionRender`. -/
def actionRender (env : Env C) (s : MainWindow C) : Option (MainWindow C) :=
  if GuiLocker_isLocked s then some s
  else
    let s := GuiLocker_lock s
    let s := log { s with autoReloadTimerActive := false } Event.autoReloadTimerStop
    let s := setCurrentOutput env s
    let s := PRINT env "Parsing design (AST generation)..." s
    let s := callHelper env Helper.processEvents s
    let s := { s with afterCompileSlot := Slot.cgalRender }
    let s := { s with procevents := true }
    compile env false false s

/-! ## `actionRenderDone` -/

/-- `MainWindow::viewModeSurface`. -/
def viewModeSurface (env : Env C) (s : MainWindow C) : MainWindow C :=
  let s := viewModeActionsUncheck s
  let s := { s with viewActionSurfaces := true }
  let s := callHelper env (Helper.setShowFaces true) s
  let s := setRenderer (s.cgalRenderer.map fun _ => RendererRef.cgal) s
  let s := callHelper env Helper.updateColorScheme s
  callHelper env Helper.updateGL s

/-- `MainWindow::viewModeWireframe`. -/
def viewModeWireframe (env : Env C) (s : MainWindow C) : MainWindow C :=
  let s := viewModeActionsUncheck s
  let s := { s with viewActionWireframe := true }
  let s := callHelper env (Helper.setShowFaces false) s
  let s := setRenderer (s.cgalRenderer.map fun _ => RendererRef.cgal) s
  let s := callHelper env Helper.updateColorScheme s
  callHelper env Helper.updateGL s

/-- Lines 1596-1617 of `MainWindow::actionRenderDone`: the report on the
geometry by its dynamic type; `none` when `assert(ps->getDimension() == 3)` or
`assert(false && "Unknown geometry type")` fails. -/
def actionRenderDone_report (env : Env C) (kind : GeometryKind) (s : MainWindow C) :
    Option (MainWindow C) :=
  match kind with
  | GeometryKind.nef isEmpty dimension is_simple vertices halfedges edges halffacets facets
      volumes =>
    if !isEmpty then
      if dimension = 3 then
        let s := PRINT env "   Top level object is a 3D object:" s
        let s := PRINTB env "   Simple:     %6s" [if is_simple then "yes" else "no"] s
        let s := PRINTB env "   Vertices:   %6d" [toString vertices] s
        let s := PRINTB env "   Halfedges:  %6d" [toString halfedges] s
        let s := PRINTB env "   Edges:      %6d" [toString edges] s
        let s := PRINTB env "   Halffacets: %6d" [toString halffacets] s
        let s := PRINTB env "   Facets:     %6d" [toString facets] s
        some (PRINTB env "   Volumes:    %6d" [toString volumes] s)
      else some s
    else some s
  | GeometryKind.polySet dimension numPolygons =>
    if dimension = 3 then
      let s := PRINT env "   Top level object is a 3D object:" s
      some (PRINTB env "   Facets:     %6d" [toString numPolygons] s)
    else none
  | GeometryKind.polygon2d outlines =>
    let s := PRINT env "   Top level object is a 2D object:" s
    some (PRINTB env "   Contours:     %6d" [toString outlines] s)
  | GeometryKind.unknown => none

/-- Lines 1587-1630 of `MainWindow::actionRenderDone`: the two branches of
`if (root_geom)`; `none` when an assertion fails or `progresswidget`, which
the first branch dereferences, is null. -/
def actionRenderDone_result (env : Env C) (root_geom : Option C.Geometry)
    (s : MainWindow C) : Option (MainWindow C) :=
  match root_geom with
  | some geom =>
    if s.progresswidget then
      let s := callHelper env Helper.cachePrint s
      let secs := env.elapsedTime s.world / 1000
      let s := PRINTB env "Total rendering time: %d hours, %d minutes, %d seconds"
        [toString (secs / (60 * 60)), toString ((secs / 60) % 60), toString (secs % 60)] s
      (actionRenderDone_report env (env.geometryKind geom) s).map fun s =>
        let s := PRINT env "Rendering finished." s
        let s := { s with root_geom := some geom }
        let s := { s with cgalRenderer := some geom }
        -- Go to CGAL view mode
        if s.viewActionWireframe then viewModeWireframe env s else viewModeSurface env s
    else none
  | none => some (PRINT env "WARNING: No top level geometry to render" s)

/-- `MainWindow::actionRenderDone`. -/
def actionRenderDone (env : Env C) (root_geom : Option C.Geometry) (s : MainWindow C) :
    Option (MainWindow C) :=
  let s := log s Event.progressReportFin
  (actionRenderDone_result env root_geom s).map fun s =>
    let s := { s with progresswidget := false }
    compileEnded env s

/-! ## `report_func` -/

/-- The value `v` of `(int)((mark*1000.0) / progress_report_count)` for two
`int`s: the product is exact in `double`, and the rounding of the quotient
never reaches the next integer, so the conversion yields the exact quotient
truncated toward zero. `none` where the conversion is undefined: with a zero
count (the quotient is infinite or not a number), and when the truncated
quotient is outside the range of `int`. -/
def report_func_v (progress_report_count mark : Int) : Option Int :=
  if progress_report_count = 0 then none
  else
    let v := Int.tdiv (mark * 1000) progress_report_count
    if -(2 ^ 31) ≤ v ∧ v < 2 ^ 31 then some v else none

/-- `MainWindow::report_func`, with `vp` the window `s` and the global
`progress_report_count` passed in. The result is `none` when `progresswidget`
is null or the conversion to `int` is undefined; otherwise the flag tells
whether `ProgressCancelException` was thrown, and the state is the one control
leaves the function with. -/
def report_func (env : Env C) (progress_report_count : Int) (_node : Option C.AbstractNode)
    (mark : Int) (s : MainWindow C) : Option (Bool × MainWindow C) :=
  if s.progresswidget then
    (report_func_v progress_report_count mark).map fun v =>
      let permille := if v < 1000 then v else 999
      let s :=
        if permille > env.progressValue s.world then
          let s := log { s with world := env.postSetValue permille s.world }
            (Event.progressSetValue permille)
          callHelper env Helper.processEvents s
        else s
      -- FIXME: Check if cancel was requested by e.g. Application quit
      (env.wasCanceled s.world, s)
  else none

/-- One evaluation pass as `report_func` sees it: before each report the
evaluator works on the external world (`work`), then calls `report_func` with
a node and a mark; the first report that throws ends the pass. The flag of the
result tells whether the pass ended by `ProgressCancelException`. -/
def reportCalls (env : Env C) (progress_report_count : Int) :
    List ((C.World → C.World) × Option C.AbstractNode × Int) → MainWindow C →
      Option (Bool × MainWindow C)
  | [], s => some (false, s)
  | (work, node, mark) :: rest, s =>
    match report_func env progress_report_count node mark { s with world := work s.world } with
    | none => none
    | some (true, s) => some (true, s)
    | some (false, s) => reportCalls env progress_report_count rest s

/-- The values handed to the progress widget's `setValue`, in order. -/
def writtenValues : List Event → List Int
  | [] => []
  | Event.progressSetValue permille :: evs => permille :: writtenValues evs
  | _ :: evs => writtenValues evs

/-! ## Requests -/

/-- What reaches the window from outside the pipeline: the three compile
requests, the timeout of `waitAfterReloadTimer`, the `done` signal of
`cgalworker` with the geometry it carries, and any other activity of the user
interface, which edits members and the external world. -/
inductive Request (C : Carrier) where
  | actionRenderPreview
  | actionReloadRenderPreview
  | actionRender
  | waitAfterReloadTimeout
  | workerDone (root_geom : Option C.Geometry)
  | other (edit : Members C → Members C) (act : C.World → C.World)

/-- The members through which requests exclude one another: the GUI lock
counter, whether the worker is computing, whether `waitAfterReloadTimer` is
pending, and the slot that continues the request in progress. -/
def Members.lockState (m : Members C) : Nat × Bool × Bool × Slot :=
  (m.gui_locked, m.cgalworker_running, m.waitAfterReloadTimerActive, m.afterCompileSlot)

/-- When a request can arrive: a timer fires only while it is pending, the
worker reports only while it is computing, and the other activity of the user
interface writes none of the members of `lockState`, which only the pipeline
of `mainwin.cc` writes. -/
def Request.enabled : Request C → MainWindow C → Bool
  | Request.waitAfterReloadTimeout, s => s.waitAfterReloadTimerActive
  | Request.workerDone _, s => s.cgalworker_running
  | Request.other edit _, s => decide ((edit s.toMembers).lockState = s.toMembers.lockState)
  | _, _ => true

/-- The slot or action a request runs. The worker has finished when its `done`
signal arrives. -/
def dispatch (env : Env C) : Request C → MainWindow C → Option (MainWindow C)
  | Request.actionRenderPreview, s => actionRenderPreview env s
  | Request.actionReloadRenderPreview, s => actionReloadRenderPreview env s
  | Request.actionRender, s => actionRender env s
  | Request.waitAfterReloadTimeout, s => waitAfterReload env s
  | Request.workerDone root_geom, s =>
    actionRenderDone env root_geom { s with cgalworker_running := false }
  | Request.other edit act, s => some { s with toMembers := edit s.toMembers, world := act s.world }

/-- The state after a sequence of requests, each arriving when it can; `none`
when one of them cannot arrive or does not return. -/
def run (env : Env C) : List (Request C) → MainWindow C → Option (MainWindow C)
  | [], s => some s
  | r :: rs, s => if r.enabled s then (dispatch env r s).bind (run env rs) else none

/-- Whether a request is one of the three compile requests. -/
def Request.isCompileRequest : Request C → Bool
  | Request.actionRenderPreview => true
  | Request.actionReloadRenderPreview => true
  | Request.actionRender => true
  | _ => false

/-- The events a call appended to the trace of `s`, given the state `t` the
call ended in. -/
def eventsSince (s t : MainWindow C) : List Event :=
  t.trace.drop s.trace.length

/-! ## Event classes -/

/-- Console output and world-only calls. -/
def Event.isOutput : Event → Bool
  | Event.print _ => true
  | Event.printB _ _ => true
  | Event.printRenderingTime => true
  | Event.helper _ => true
  | _ => false

/-- Events of the normalization and chain-building part of `compileCSG`. -/
def Event.isProducts : Event → Bool
  | Event.newNormalizer _ => true
  | e => e.isOutput

/-- Events of `compileDone` and everything it calls, with `evaluateCSGTerm`
allowed only the outcome `threw`. -/
def Event.isRenderWith (threw : Bool) : Event → Bool
  | Event.compileDone _ => true
  | Event.invokeMethod _ => true
  | Event.instantiateRoot => true
  | Event.setRenderer _ => true
  | Event.resetIndexCounter => true
  | Event.instantiate _ => true
  | Event.compileCSG => true
  | Event.progressReportPrep => true
  | Event.progressReportFin => true
  | Event.evaluateCSGTerm b => b == threw
  | Event.compileEnded => true
  | Event.guiUnlock => true
  | Event.autoReloadTimerStart => true
  | Event.cgalworkerStart => true
  | e => e.isProducts

/-- Events of `compileDone` and everything it calls. -/
def Event.isDownstream (e : Event) : Bool :=
  e.isRenderWith true || e.isRenderWith false

/-- Events of `compileDone(false)`: the only slot invoked is `compileEnded`. -/
def Event.isEnding : Event → Bool
  | Event.compileDone b => b == false
  | Event.invokeMethod slot => slot == Slot.compileEnded
  | Event.compileEnded => true
  | Event.guiUnlock => true
  | Event.autoReloadTimerStart => true
  | e => e.isOutput

/-- Events of the reload check at the head of `compile` (lines 727-748). -/
def Event.isChecking : Event → Bool
  | Event.fileChangedOnDisk _ => true
  | Event.checkEditorModified _ => true
  | Event.refreshDocument => true
  | Event.includesChanged _ => true
  | Event.autoReloadTimerStop => true
  | e => e.isOutput

/-- Events of the dependency check of `compile` (lines 757-762). -/
def Event.isDependency : Event → Bool
  | Event.handleDependencies _ => true
  | e => e.isOutput

/-- Events of lines 750-762 of `compile`, with `parse` allowed only the
outcome `ok`. -/
def Event.isRecompilingWith (ok : Bool) : Event → Bool
  | Event.consoleClear => true
  | Event.compileTopLevelDocument => true
  | Event.parse b => b == ok
  | e => e.isDependency

/-- Events of `compile` before it reaches `compileDone` or starts the timer. -/
def Event.isUpstream : Event → Bool
  | Event.unhighlightLastError => true
  | Event.highlightError _ => true
  | e => e.isChecking || e.isRecompilingWith true || e.isRecompilingWith false

/-- The state `t` extends the trace of `s` by events that all satisfy `P`. -/
def Emits (P : Event → Bool) (s t : MainWindow C) : Prop :=
  ∃ evs, t.trace = s.trace ++ evs ∧ ∀ e ∈ evs, P e = true

/-- Event classes that contain every output event. -/
class OutputClosed (P : Event → Bool) : Prop where
  output : ∀ e, e.isOutput = true → P e = true

instance : OutputClosed Event.isOutput := ⟨fun _ h => h⟩

instance : OutputClosed Event.isProducts :=
  ⟨fun e h => by cases e <;> simp_all [Event.isProducts, Event.isOutput]⟩

instance (threw : Bool) : OutputClosed (Event.isRenderWith threw) :=
  ⟨fun e h => by cases e <;> simp_all [Event.isRenderWith, Event.isProducts, Event.isOutput]⟩

instance : OutputClosed Event.isEnding :=
  ⟨fun e h => by cases e <;> simp_all [Event.isEnding, Event.isOutput]⟩

instance : OutputClosed Event.isChecking :=
  ⟨fun e h => by cases e <;> simp_all [Event.isChecking, Event.isOutput]⟩

instance : OutputClosed Event.isDependency :=
  ⟨fun e h => by cases e <;> simp_all [Event.isDependency, Event.isOutput]⟩

instance (ok : Bool) : OutputClosed (Event.isRecompilingWith ok) :=
  ⟨fun e h => by
    cases e <;> simp_all [Event.isRecompilingWith, Event.isDependency, Event.isOutput]⟩

/-- The members after lines 823-849 of `instantiateRoot`. -/
def clearedMembers (m : Members C) : Members C :=
  { m with
      qglview_renderer := none, opencsgRenderer := none, thrownTogetherRenderer := none,
      absolute_root_node := none, root_raw_term := none, root_norm_term := none,
      root_chain := none, highlight_terms := [], highlights_chain := none,
      background_terms := [], background_chain := none,
      root_node := none, tree_root := none }

/-- The members after the `if (this->root_module)` block of `instantiateRoot`,
given what `instantiate` returned. -/
def instantiatedMembers (env : Env C) (r : Option C.AbstractNode) (m : Members C) :
    Members C :=
  match r with
  | some a =>
    { m with absolute_root_node := some a,
             root_node := some ((env.find_root_tag a).getD a),
             tree_root := some ((env.find_root_tag a).getD a) }
  | none => { m with absolute_root_node := none }

/-! ## Initial state and sample collaborators -/

/-- The members as the `MainWindow` constructor leaves them (lines 203-216,
257-266): no module, no tree, no chains, no renderers, every view action
unchecked, the animate panel hidden, the GUI lock free. -/
def Members.init (C : Carrier) : Members C where
  fileName := ""
  autoReloadId := ""
  editorText := ""
  last_compiled_doc := ""
  root_module := none
  parser_error_pos := -1
  absolute_root_node := none
  root_node := none
  tree_root := none
  root_raw_term := none
  root_norm_term := none
  highlight_terms := []
  background_terms := []
  root_chain := none
  highlights_chain := none
  background_chain := none
  opencsgRenderer := none
  thrownTogetherRenderer := none
  cgalRenderer := none
  root_geom := none
  qglview_renderer := none
  progresswidget := false
  cgalworker_running := false
  afterCompileSlot := Slot.csgRender
  procevents := false
  outputHandlerSet := false
  gui_locked := 0
  autoReloadTimerActive := false
  waitAfterReloadTimerActive := false
  designActionAutoReload := false
  viewActionPreview := false
  viewActionSurfaces := false
  viewActionWireframe := false
  viewActionThrownTogether := false
  viewActionAnimate := false
  e_dump := false
  animate_panel_visible := false

/-- The window as its constructor leaves it, in the external world `world`. -/
def MainWindow.init (world : C.World) : MainWindow C :=
  { Members.init C with world := world, trace := [] }

/-- Sample carriers: a term is the number of its primitives, a module is the
number of files it includes, the external world is the value shown by the
progress widget, everything else is a numeral. -/
@[reducible] def sampleCarrier : Carrier where
  World := Nat
  FileModule := Nat
  AbstractNode := Nat
  CSGTerm := Nat
  CSGChainObject := Nat
  CSGTermNormalizer := Nat
  Geometry := Nat

/-- The characters after the last `.` of a file name, none without a `.`. -/
def sampleSuffix (f : String) : String :=
  if '.' ∈ f.data then String.mk (f.data.reverse.takeWhile (· ≠ '.')).reverse else ""

/-- The characters of `cmd` with the first `%1` replaced by `a`. -/
def sampleArg : List Char → List Char → List Char
  | [], _ => []
  | [c], _ => [c]
  | c :: d :: rest, a =>
    if c = '%' ∧ d = '1' then a ++ rest else c :: sampleArg (d :: rest) a

/-- Sample collaborators: the file on disk never changes, `parse` yields
`module`, a module has includes when it is not 0, instantiating module `m`
yields node `m` and creates `m + 1` nodes, a node numbered 10 or more holds
the root-tagged node numbered 10 less, evaluating a node yields `evaluated`,
normalization is the identity and importing a term of `n` primitives appends
`n` objects; the progress widget shows the value last posted to it, and its
cancel button counts as pressed once that value has reached 500; every file
exists under the name given, text is inserted at the end of the editor, and
the list of recent files is not stored. -/
def sampleEnv (module : Option Nat) (evaluated : Option (Option Nat)) (limit : Nat) :
    Env sampleCarrier where
  stat := fun _ w => (some (0, 0), w)
  readFile := fun _ w => (Except.ok "cube(1);", w)
  isContentModified := fun _ => false
  askReload := fun w => (true, w)
  absolutePath := fun f => f
  parse := fun _ _ w => ((module, if module.isSome then -1 else 0), w)
  includesChanged := fun _ w => (false, w)
  handleDependencies := fun _ w => (false, w)
  hasIncludes := fun m _ => decide (m ≠ 0)
  usesLibraries := fun _ _ => false
  moduleCacheSize := fun _ => 0
  instantiate := fun m w => (some m, w)
  nodesCreated := fun m _ => m + 1
  find_root_tag := fun n => if 10 ≤ n then some (n - 10) else none
  evaluateCSGTerm := fun _ hl bg w => (EvalOutcome.mk evaluated hl bg, w)
  newNormalizer := fun limit => limit
  normalize := fun nz t => (t, nz)
  chainImport := fun chain t => CSGChain.mk (chain.objects ++ List.range (t.getD 0))
  openCSGLimit := limit
  hasOpenCSGSupport := true
  commandline_commands := ""
  helper := fun _ w => w
  progressValue := fun w => w
  wasCanceled := fun w => decide (500 ≤ w)
  postSetValue := fun permille _ => permille.toNat
  elapsedTime := fun _ => 0
  geometryKind := fun _ => GeometryKind.polySet 3 12
  fileInfo_suffix := sampleSuffix
  toLower := fun f => String.mk (f.data.map Char.toLower)
  arg := fun cmd a => String.mk (sampleArg cmd.data a.data)
  fileExists := fun _ _ => true
  absoluteFilePath := fun f => f
  fileInfo_fileName := fun f => f
  editorInsert := fun text inserted _ => text ++ inserted
  recentFileList := fun _ => []
  setRecentFileList := fun _ w => w
  maxRecentFiles := 10

/-- A sample window in state `m`, with an empty trace. -/
def sampleWindow (m : Members sampleCarrier) : MainWindow sampleCarrier :=
  { m with world := 0, trace := [] }

/-- The members written only by `instantiateRoot` and `compileCSG`: the
effective root, the primary terms, the three chains and the two renderers. -/
def Members.renderState (m : Members C) :
    Option C.AbstractNode × Option C.CSGTerm × Option C.CSGTerm × Option (CSGChain C) ×
      Option (CSGChain C) × Option (CSGChain C) × Option (ChainRenderer C) ×
      Option (ChainRenderer C) :=
  (m.root_node, m.root_raw_term, m.root_norm_term, m.root_chain, m.highlights_chain,
    m.background_chain, m.opencsgRenderer, m.thrownTogetherRenderer)

/-- The members that `compileDone` and the stages it calls never write: the
document, its module and the settings of the request. -/
def Members.document (m : Members C) :
    String × String × String × String × Option C.FileModule × Int × Slot × Bool × Bool ×
      Bool × Bool × Bool :=
  (m.fileName, m.autoReloadId, m.editorText, m.last_compiled_doc, m.root_module,
    m.parser_error_pos, m.afterCompileSlot, m.waitAfterReloadTimerActive,
    m.designActionAutoReload, m.viewActionAnimate, m.e_dump, m.animate_panel_visible)

/-- Events of the view-mode switch and of `compileEnded`. -/
def Event.isViewing : Event → Bool
  | Event.setRenderer _ => true
  | Event.compileEnded => true
  | Event.guiUnlock => true
  | Event.autoReloadTimerStart => true
  | e => e.isOutput

instance : OutputClosed Event.isViewing :=
  ⟨fun e h => by cases e <;> simp_all [Event.isViewing, Event.isOutput]⟩

/-- The members that the reload check at the head of `compile` never
writes. -/
def Members.checkFrame (m : Members C) :=
  (m.renderState, m.fileName, m.last_compiled_doc, m.root_module, m.parser_error_pos,
    m.afterCompileSlot, m.animate_panel_visible)

/-- The members that the recompilation step of `compile` never writes. -/
def Members.recompileFrame (m : Members C) :=
  (m.renderState, m.fileName, m.autoReloadId, m.editorText, m.afterCompileSlot,
    m.animate_panel_visible, m.designActionAutoReload)

/-- The state of `compile` when line 766, the test for starting
`waitAfterReloadTimer`, is reached. -/
def compile_atDependencyTest (env : Env C) (reload : Bool) (s : MainWindow C) :
    MainWindow C :=
  (compile_didcompile env (compile_shouldcompiletoplevel env reload s).1
    (compile_shouldcompiletoplevel env reload s).2).2

/-- The value of `didcompile` when line 766 of `compile` is reached. -/
def compile_didcompileValue (env : Env C) (reload : Bool) (s : MainWindow C) : Bool :=
  (compile_didcompile env (compile_shouldcompiletoplevel env reload s).1
    (compile_shouldcompiletoplevel env reload s).2).1

/-- Events of `compile` when it starts `waitAfterReloadTimer` and returns. -/
def Event.isWaiting : Event → Bool
  | Event.waitAfterReloadTimerStart => true
  | e => e.isUpstream

/-- Events of `compile` after line 766: the timer start, the error-highlight
signals, and `compileDone` with everything it calls. -/
def Event.isTail : Event → Bool
  | Event.waitAfterReloadTimerStart => true
  | Event.unhighlightLastError => true
  | Event.highlightError _ => true
  | e => e.isDownstream

/-- Events of a `compile` call that finds nothing to recompile. -/
def Event.isIdle (e : Event) : Bool :=
  e.isChecking || e.isDependency || e.isEnding

/-- A sample window after a successful compile of `cube(1);`: module 0, root
node 0, and one-object primary, highlight and background chains held by both
renderers. -/
def sampleCompiled : MainWindow sampleCarrier :=
  sampleWindow { Members.init sampleCarrier with
    editorText := "cube(1);"
    last_compiled_doc := "cube(1);"
    root_module := some 0
    absolute_root_node := some 0
    root_node := some 0
    tree_root := some 0
    root_raw_term := some 1
    root_norm_term := some 1
    root_chain := some (CSGChain.mk [0])
    highlights_chain := some (CSGChain.mk [1])
    background_chain := some (CSGChain.mk [2])
    opencsgRenderer := some (ChainRenderer.mk (some (CSGChain.mk [0]))
      (some (CSGChain.mk [1])) (some (CSGChain.mk [2])))
    thrownTogetherRenderer := some (ChainRenderer.mk (some (CSGChain.mk [0]))
      (some (CSGChain.mk [1])) (some (CSGChain.mk [2])))
    afterCompileSlot := Slot.csgReloadRender }

/-- A sample window waiting on dependencies: the GUI lock is held, the timer
is pending, the file `a.scad` has the recorded fingerprint, module 1 is
current, and the editor holds a text that was never compiled. -/
def sampleWaiting : MainWindow sampleCarrier :=
  sampleWindow { Members.init sampleCarrier with
    fileName := "a.scad"
    autoReloadId := "0.0"
    editorText := "include <a.scad>"
    root_module := some 1
    afterCompileSlot := Slot.csgReloadRender
    waitAfterReloadTimerActive := true
    gui_locked := 1 }

/-- Sample collaborators with a file system: `stat` reports `st`. -/
def sampleStatEnv (st : Option (Nat × Nat)) : Env sampleCarrier :=
  { sampleEnv none none 0 with stat := fun _ w => (st, w) }

/-- The value of a hexadecimal digit. -/
def hexDigitValue (c : Char) : Nat :=
  if c.toNat < 58 then c.toNat - 48 else c.toNat - 87

/-- The number a list of hexadecimal digits denotes, most significant first. -/
def hexValue (ds : List Char) : Nat :=
  ds.foldl (fun a c => 16 * a + hexDigitValue c) 0

/-- Sample collaborators for a scene: the evaluator yields the primary term
`primary` and adds `highlights` and `background` to the two lists; a term of
more primitives than the limit of the normalizer normalizes to the empty
term. -/
def sampleSceneEnv (primary : Option Nat) (highlights background : List (Option Nat))
    (limit : Nat) : Env sampleCarrier :=
  { sampleEnv (some 0) (some primary) limit with
    evaluateCSGTerm := fun _ hl bg w =>
      (EvalOutcome.mk (some primary) (hl ++ highlights) (bg ++ background), w)
    normalize := fun nz t => (t.bind fun n => if n ≤ nz then some n else none, nz) }

/-- The steps that start or end a stage of a request: taking and releasing the
GUI lock, the entry to `compileCSG`, the start of the worker, `compileEnded`,
and the start of `waitAfterReloadTimer`. -/
def Event.isMilestone : Event → Bool
  | Event.guiLock => true
  | Event.guiUnlock => true
  | Event.compileCSG => true
  | Event.cgalworkerStart => true
  | Event.compileEnded => true
  | Event.waitAfterReloadTimerStart => true
  | _ => false

/-- Every step that is not a milestone. -/
def Event.isPlain (e : Event) : Bool :=
  !e.isMilestone

instance : OutputClosed Event.isPlain :=
  ⟨fun e h => by cases e <;> simp_all [Event.isPlain, Event.isMilestone, Event.isOutput]⟩

/-- The milestones among the events of a call, in order. -/
def milestones (s t : MainWindow C) : List Event :=
  (eventsSince s t).filter Event.isMilestone

instance : OutputClosed (fun _ => true) := ⟨fun _ _ => rfl⟩

/-- The state in which `compileDone(true)` enters the slot named by
`afterCompileSlot`: `instantiateRoot` has run and `procevents` is cleared. -/
def compileDone_atSlot (env : Env C) (s : MainWindow C) : MainWindow C :=
  log { instantiateRoot env (log s (Event.compileDone true)) with procevents := false }
    (Event.invokeMethod (instantiateRoot env (log s (Event.compileDone true))).afterCompileSlot)

/-- The lock discipline on the members of `lockState`: the GUI lock counter is
1 while the worker computes and while a request is parked on
`waitAfterReloadTimer`, which never happen together, and 0 otherwise; a parked
request continues in `csgReloadRender`. -/
def lockDiscipline (p : Nat × Bool × Bool × Slot) : Prop :=
  (p.2.1 = true → p.1 = 1 ∧ p.2.2.1 = false) ∧
  (p.2.2.1 = true → p.1 = 1 ∧ p.2.2.2 = Slot.csgReloadRender) ∧
  (p.2.1 = false → p.2.2.1 = false → p.1 = 0)

/-! ## `openFile`, `setFileName`, `updateRecentFiles`, `handleFileDrop` -/

/-- The member `knownFileExtensions` as the constructor fills it (lines
223-231): the statement each known suffix is opened with, empty for the two
document types. -/
def knownFileExtensions_init : List (String × String) :=
  [("stl", "import(\"%1\");\n"), ("off", "import(\"%1\");\n"), ("dxf", "import(\"%1\");\n"),
    ("dat", "surface(\"%1\");\n"), ("png", "surface(\"%1\");\n"), ("scad", ""), ("csg", "")]

/-- `knownFileExtensions.contains(key)`. -/
def knownFileExtensions_contains (table : List (String × String)) (key : String) : Bool :=
  (table.lookup key).isSome

/-- `knownFileExtensions[key]` in a member function that is not `const`: the
subscript of a map yields a reference to the value stored under `key`, and to
have one for a key that is absent it first stores an empty string under it,
which is what lets the constructor write `knownFileExtensions["stl"] = ...`.
The result is the value read and the table as the call leaves it. -/
def knownFileExtensions_subscript (table : List (String × String)) (key : String) :
    String × List (String × String) :=
  match table.lookup key with
  | some value => (value, table)
  | none => ("", table ++ [(key, "")])

/-- The loop `while (files.size() > UIUtils::maxRecentFiles) files.removeLast();`
of `updateRecentFiles`, run for at most `fuel` rounds. -/
def updateRecentFiles_removeLast (maxRecentFiles : Nat) : Nat → List String → List String
  | 0, files => files
  | fuel + 1, files =>
    if files.length > maxRecentFiles then
      updateRecentFiles_removeLast maxRecentFiles fuel files.dropLast
    else files

/-- Lines 654-657 of `MainWindow::updateRecentFiles`: the list written back
for the stored list `files` and the path `infoFileName`. The loop gets one
round for every element of the list it starts with. -/
def updateRecentFiles_files (maxRecentFiles : Nat) (infoFileName : String)
    (files : List String) : List String :=
  -- files.removeAll(infoFileName);
  let files := files.filter (fun f => f ≠ infoFileName)
  -- files.prepend(infoFileName);
  let files := infoFileName :: files
  updateRecentFiles_removeLast maxRecentFiles files.length files

/-- `MainWindow::updateRecentFiles`. -/
def updateRecentFiles (env : Env C) (s : MainWindow C) : MainWindow C :=
  let infoFileName := env.absoluteFilePath s.fileName
  let files := env.recentFileList s.world
  let files := updateRecentFiles_files env.maxRecentFiles infoFileName files
  let s := { s with world := env.setRecentFileList files s.world }
  callHelper env Helper.updateRecentFileActions s

/-- `MainWindow::setFileName`. -/
def setFileName (env : Env C) (filename : String) (s : MainWindow C) : MainWindow C :=
  let s :=
    if filename = "" then
      let s := { s with fileName := "" }
      let s := callHelper env (Helper.setWindowFilePath "untitled.scad") s
      callHelper env Helper.resetDocumentPath s
    else
      let s := { s with fileName :=
        if env.fileExists filename s.world then env.absoluteFilePath filename
        else env.fileInfo_fileName filename }
      let s := callHelper env (Helper.setWindowFilePath s.fileName) s
      let s := callHelper env (Helper.setCurrentDirOf filename) s
      callHelper env (Helper.setDocumentPathOf filename) s
  let s := callHelper env Helper.editorTopLevelChanged s
  callHelper env Helper.consoleTopLevelChanged s

/-- `MainWindow::openFile`, with the member `knownFileExtensions` passed beside
the other members and `MainWindow::mdiMode` as `mdiMode`. In MDI mode with a
text in the editor the file goes to a new window and this one is left as it
is. -/
def openFile (env : Env C) (mdiMode : Bool) (new_filename : String)
    (p : List (String × String) × MainWindow C) : List (String × String) × MainWindow C :=
  let knownFileExtensions := p.1
  let s := p.2
  if mdiMode && s.editorText ≠ "" then
    (knownFileExtensions, callHelper env (Helper.newMainWindow new_filename) s)
  else
    let s := setCurrentOutput env s
    let s := { s with editorText := "" }
    let s := { s with last_compiled_doc := "" }
    let suffix := env.toLower (env.fileInfo_suffix new_filename)
    let knownFileType := knownFileExtensions_contains knownFileExtensions suffix
    let r := knownFileExtensions_subscript knownFileExtensions suffix
    let cmd := r.1
    let knownFileExtensions := r.2
    let s :=
      if knownFileType && cmd = "" then
        let s := setFileName env new_filename s
        updateRecentFiles env s
      else
        let s := setFileName env "" s
        { s with editorText := env.arg cmd new_filename }
    -- force cached autoReloadId to update
    let s := (fileChangedOnDisk env s).2
    let s := refreshDocument env s
    (knownFileExtensions, clearCurrentOutput env s)

/-- `MainWindow::handleFileDrop`, with `knownFileExtensions` and `mdiMode` as in
`openFile`. `maybeSave`, which asks the user and may run `actionSave`, is a
parameter: it is only called outside MDI mode. -/
def handleFileDrop (env : Env C) (mdiMode : Bool)
    (maybeSave : MainWindow C → Bool × MainWindow C) (filename : String)
    (p : List (String × String) × MainWindow C) : List (String × String) × MainWindow C :=
  let suffix := env.toLower (env.fileInfo_suffix filename)
  let r := knownFileExtensions_subscript p.1 suffix
  let cmd := r.1
  let knownFileExtensions := r.2
  if cmd = "" then
    if mdiMode then openFile env mdiMode filename (knownFileExtensions, p.2)
    else
      let saved := maybeSave p.2
      if saved.1 then openFile env mdiMode filename (knownFileExtensions, saved.2)
      else (knownFileExtensions, saved.2)
  else
    let s := p.2
    (knownFileExtensions,
      { s with editorText := env.editorInsert s.editorText (env.arg cmd filename) s.world })

/-! ## Further stages and predicates -/

/-- Lines 823-827 of `MainWindow::instantiateRoot`: the view is told to drop its
renderer, then the OpenCSG and the thrown-together renderer are deleted. -/
def instantiateRoot_invalidate (s : MainWindow C) : MainWindow C :=
  let s := setRenderer none s
  { s with opencsgRenderer := none, thrownTogetherRenderer := none }

/-- Lines 829-849 of `MainWindow::instantiateRoot`: the previous tree, terms and
chains are deleted. -/
def instantiateRoot_drop (env : Env C) (s : MainWindow C) : MainWindow C :=
  let s := callHelper env Helper.deleteTree s
  { s with absolute_root_node := none, root_raw_term := none, root_norm_term := none,
           root_chain := none, highlight_terms := [], highlights_chain := none,
           background_terms := [], background_chain := none,
           root_node := none, tree_root := none }

/-- The tree, the terms and the chains of a window: what lines 829-849 of
`instantiateRoot` delete. -/
def Members.sceneData (m : Members C) :=
  (m.absolute_root_node, m.root_node, m.tree_root, m.root_raw_term, m.root_norm_term,
    m.highlight_terms, m.background_terms, m.root_chain, m.highlights_chain,
    m.background_chain)

/-- The renderer the view holds is a renderer of the window that was built over
the chains the window holds now; the view never holds a renderer that the
window has deleted. -/
def viewRendererCurrent (m : Members C) : Prop :=
  (m.qglview_renderer = some RendererRef.opencsg →
    m.opencsgRenderer =
      some (ChainRenderer.mk m.root_chain m.highlights_chain m.background_chain)) ∧
  (m.qglview_renderer = some RendererRef.thrownTogether →
    m.thrownTogetherRenderer =
      some (ChainRenderer.mk m.root_chain m.highlights_chain m.background_chain)) ∧
  (m.qglview_renderer = some RendererRef.cgal → m.cgalRenderer.isSome = true)

/-- The budgets of the normalizers created, in order. -/
def normalizerBudgets : List Event → List Nat
  | [] => []
  | Event.newNormalizer limit :: evs => limit :: normalizerBudgets evs
  | _ :: evs => normalizerBudgets evs

/-- The value of `permille` in `report_func`: `v < 1000 ? v : 999` for the
converted quotient `v`. -/
def report_func_permille (progress_report_count mark : Int) : Option Int :=
  (report_func_v progress_report_count mark).map fun v => if v < 1000 then v else 999

/-- A request that leaves `root_module` alone or is one of the pipeline: the
other activity of the user interface never writes `root_module`, which outside
the constructor and the destructor is assigned only in
`compileTopLevelDocument`. -/
def Request.keepsModule : Request C → Prop
  | Request.other edit _ => ∀ m, (edit m).root_module = m.root_module
  | _ => True

/-- The two error-highlight signals. -/
def Event.isHighlightSignal : Event → Bool
  | Event.unhighlightLastError => true
  | Event.highlightError _ => true
  | _ => false

/-- Events of `instantiateRoot` before it instantiates the module. -/
def Event.isClearing : Event → Bool
  | Event.instantiateRoot => true
  | Event.setRenderer _ => true
  | e => e.isOutput

instance : OutputClosed Event.isClearing :=
  ⟨fun e h => by cases e <;> simp_all [Event.isClearing, Event.isOutput]⟩

/-- A call of `root_module->instantiate`. -/
def Event.isInstantiate : Event → Bool
  | Event.instantiate _ => true
  | _ => false

/-- Events of a reload check that does not read the document again. -/
def Event.isDeclining : Event → Bool
  | Event.fileChangedOnDisk _ => true
  | Event.checkEditorModified _ => true
  | Event.includesChanged _ => true
  | Event.autoReloadTimerStop => true
  | e => e.isOutput

instance : OutputClosed Event.isDeclining :=
  ⟨fun e h => by cases e <;> simp_all [Event.isDeclining, Event.isOutput]⟩

/-- Events of `compileCSG` up to the test `if (root_raw_term)`. -/
def Event.isEvaluating : Event → Bool
  | Event.compileCSG => true
  | Event.progressReportPrep => true
  | Event.progressReportFin => true
  | Event.evaluateCSGTerm _ => true
  | e => e.isOutput

instance : OutputClosed Event.isEvaluating :=
  ⟨fun e h => by cases e <;> simp_all [Event.isEvaluating, Event.isOutput]⟩

/-- The renderer the view holds, the renderers of the window, and the tree,
terms and chains they were built over. -/
def Members.sceneView (m : Members C) :=
  (m.qglview_renderer, m.opencsgRenderer, m.thrownTogetherRenderer, m.cgalRenderer, m.sceneData)

/-- What `reader.readAll()` yields in a `refreshDocument` call entered in the
state `s` (lines 699-708): the text of the file `fileName`, or the error
string when the file cannot be opened. -/
def refreshDocument_readAll (env : Env C) (s : MainWindow C) : Except String String :=
  (env.readFile s.fileName (setCurrentOutput env (log s Event.refreshDocument)).world).1

/-- Sample collaborators of a pass that runs outside the thread of the window,
as the one `cgalRender` hands to `cgalworker` (lines 1578-1580): as `sampleEnv`,
but a `setValue` call queued for the progress widget is not delivered by the
`processEvents` call of the pass, so that the widget goes on showing the value
it showed. -/
def sampleWorkerEnv : Env sampleCarrier :=
  { sampleEnv none none 0 with postSetValue := fun _ w => w }

/-! # Theorems -/

/-! ## Trace bookkeeping -/

theorem Emits.of_trace_eq {P : Event → Bool} {s t : MainWindow C} (h : t.trace = s.trace) :
    Emits P s t :=
  ⟨[], by simp [h], by simp⟩

theorem Emits.refl (P : Event → Bool) (s : MainWindow C) : Emits P s s :=
  Emits.of_trace_eq rfl

theorem Emits.trans {P : Event → Bool} {s m t : MainWindow C}
    (h₁ : Emits P s m) (h₂ : Emits P m t) : Emits P s t := by
  obtain ⟨e₁, he₁, hp₁⟩ := h₁
  obtain ⟨e₂, he₂, hp₂⟩ := h₂
  refine ⟨e₁ ++ e₂, by rw [he₂, he₁, List.append_assoc], ?_⟩
  intro e he
  rcases List.mem_append.mp he with h | h
  · exact hp₁ e h
  · exact hp₂ e h

theorem Emits.mono {P Q : Event → Bool} {s t : MainWindow C}
    (hPQ : ∀ e, P e = true → Q e = true) (h : Emits P s t) : Emits Q s t := by
  obtain ⟨evs, he, hp⟩ := h
  exact ⟨evs, he, fun e h => hPQ e (hp e h)⟩

theorem Emits.log {P : Event → Bool} (s : MainWindow C) (e : Event) (h : P e = true) :
    Emits P s (log s e) :=
  ⟨[e], rfl, by simpa using h⟩

theorem eventsSince_eq {s t : MainWindow C} {evs : List Event}
    (h : t.trace = s.trace ++ evs) : eventsSince s t = evs := by
  simp [eventsSince, h]

theorem Emits.trace_eq {P : Event → Bool} {s t : MainWindow C} (h : Emits P s t) :
    t.trace = s.trace ++ eventsSince s t := by
  obtain ⟨evs, he, _⟩ := h
  rw [eventsSince_eq he, he]

theorem Emits.forall_mem {P : Event → Bool} {s t : MainWindow C} (h : Emits P s t) :
    ∀ e ∈ eventsSince s t, P e = true := by
  obtain ⟨evs, he, hp⟩ := h
  rw [eventsSince_eq he]
  exact hp

theorem eventsSince_append {P Q : Event → Bool} {s m t : MainWindow C}
    (h₁ : Emits P s m) (h₂ : Emits Q m t) :
    eventsSince s t = eventsSince s m ++ eventsSince m t := by
  apply eventsSince_eq
  rw [h₂.trace_eq, h₁.trace_eq, List.append_assoc]

theorem isProducts_isRenderWith (threw : Bool) (e : Event) (h : e.isProducts = true) :
    e.isRenderWith threw = true := by
  cases e <;> simp_all [Event.isRenderWith, Event.isProducts, Event.isOutput]

/-! ## Output steps: only the world and the trace move -/

@[simp] theorem log_toMembers (s : MainWindow C) (e : Event) :
    (log s e).toMembers = s.toMembers := rfl

@[simp] theorem log_world (s : MainWindow C) (e : Event) : (log s e).world = s.world := rfl

@[simp] theorem log_trace (s : MainWindow C) (e : Event) :
    (log s e).trace = s.trace ++ [e] := rfl

@[simp] theorem callHelper_toMembers (env : Env C) (h : Helper) (s : MainWindow C) :
    (callHelper env h s).toMembers = s.toMembers := rfl

theorem callHelper_emits (P : Event → Bool) [OutputClosed P] (env : Env C) (h : Helper)
    (s : MainWindow C) : Emits P s (callHelper env h s) :=
  ⟨[Event.helper h], rfl, by
    intro e he
    rw [List.mem_singleton.mp he]
    exact OutputClosed.output _ rfl⟩

@[simp] theorem processEventsIf_toMembers (env : Env C) (b : Bool) (s : MainWindow C) :
    (processEventsIf env b s).toMembers = s.toMembers := by
  unfold processEventsIf; split <;> rfl

theorem processEventsIf_emits (P : Event → Bool) [OutputClosed P] (env : Env C) (b : Bool)
    (s : MainWindow C) : Emits P s (processEventsIf env b s) := by
  unfold processEventsIf; split
  · exact callHelper_emits P env _ s
  · exact Emits.refl _ s

@[simp] theorem consoleOutput_toMembers (env : Env C) (s : MainWindow C) :
    (consoleOutput env s).toMembers = s.toMembers := by
  unfold consoleOutput; split <;> simp

theorem consoleOutput_emits (P : Event → Bool) [OutputClosed P] (env : Env C)
    (s : MainWindow C) : Emits P s (consoleOutput env s) := by
  unfold consoleOutput; split
  · exact processEventsIf_emits P env _ s
  · exact Emits.refl _ s

@[simp] theorem PRINT_toMembers (env : Env C) (msg : String) (s : MainWindow C) :
    (PRINT env msg s).toMembers = s.toMembers := by
  simp [PRINT]

theorem PRINT_emits (P : Event → Bool) [OutputClosed P] (env : Env C) (msg : String)
    (s : MainWindow C) : Emits P s (PRINT env msg s) :=
  (Emits.log s (Event.print msg) (OutputClosed.output _ rfl)).trans
    (consoleOutput_emits P env _)

@[simp] theorem PRINTB_toMembers (env : Env C) (fmt : String) (args : List String)
    (s : MainWindow C) : (PRINTB env fmt args s).toMembers = s.toMembers := by
  simp [PRINTB]

theorem PRINTB_emits (P : Event → Bool) [OutputClosed P] (env : Env C) (fmt : String)
    (args : List String) (s : MainWindow C) : Emits P s (PRINTB env fmt args s) :=
  (Emits.log s (Event.printB fmt args) (OutputClosed.output _ rfl)).trans
    (consoleOutput_emits P env _)

theorem Emits.of_left {P : Event → Bool} {s m t : MainWindow C} (h : Emits P m t)
    (htr : m.trace = s.trace) : Emits P s t :=
  (Emits.of_trace_eq htr).trans h

/-! ## `instantiateRoot`: members and trace -/

theorem setRenderer_emits (threw : Bool) (r : Option RendererRef) (s : MainWindow C) :
    Emits (Event.isRenderWith threw) s (setRenderer r s) :=
  ⟨[Event.setRenderer r], rfl, by simp [Event.isRenderWith]⟩

theorem instantiateRoot_clear_toMembers (env : Env C) (s : MainWindow C) :
    (instantiateRoot_clear env s).toMembers =
      { s.toMembers with
          qglview_renderer := none, opencsgRenderer := none, thrownTogetherRenderer := none,
          absolute_root_node := none, root_raw_term := none, root_norm_term := none,
          root_chain := none, highlight_terms := [], highlights_chain := none,
          background_terms := [], background_chain := none,
          root_node := none, tree_root := none } := rfl

theorem instantiateRoot_clear_emits (threw : Bool) (env : Env C) (s : MainWindow C) :
    Emits (Event.isRenderWith threw) s (instantiateRoot_clear env s) :=
  (setRenderer_emits threw none s).trans (callHelper_emits _ env Helper.deleteTree _)

theorem instantiateRoot_setRoot_toMembers (env : Env C) (a : C.AbstractNode)
    (s : MainWindow C) :
    (instantiateRoot_setRoot env a s).toMembers =
      { s.toMembers with
          root_node := some ((env.find_root_tag a).getD a),
          tree_root := some ((env.find_root_tag a).getD a) } := by
  unfold instantiateRoot_setRoot
  cases env.find_root_tag a <;> rfl

theorem instantiateRoot_setRoot_emits (threw : Bool) (env : Env C) (a : C.AbstractNode) (s : MainWindow C) :
    Emits (Event.isRenderWith threw) s (instantiateRoot_setRoot env a s) := by
  unfold instantiateRoot_setRoot
  cases env.find_root_tag a <;> exact callHelper_emits _ env Helper.treeGetString _

theorem instantiateRoot_instantiate_toMembers (env : Env C) (m : C.FileModule)
    (s : MainWindow C) :
    ∃ r, (instantiateRoot_instantiate env m s).toMembers =
        instantiatedMembers env r s.toMembers := by
  unfold instantiateRoot_instantiate
  lift_lets
  intro s1 s2 s3 mi s3' r created s3'' s4
  refine ⟨r.1, ?_⟩
  have h4 : s4.toMembers = { s.toMembers with absolute_root_node := r.1 } := by
    simp [s4, s3'', s3', s3, s2, s1, AbstractNode_resetIndexCounter, AbstractNode_create]
  split
  · next a heq => rw [instantiateRoot_setRoot_toMembers, h4]; simp [instantiatedMembers, heq]
  · next heq => rw [h4]; simp [instantiatedMembers, heq]

theorem instantiateRoot_instantiate_emits (threw : Bool) (env : Env C) (m : C.FileModule)
    (s : MainWindow C) :
    Emits (Event.isRenderWith threw) s (instantiateRoot_instantiate env m s) := by
  unfold instantiateRoot_instantiate
  lift_lets
  intro s1 s2 s3 mi s3' r created s3'' s4
  have h4 : Emits (Event.isRenderWith threw) s s4 :=
    (PRINT_emits _ env _ s).trans ((processEventsIf_emits _ env _ _).trans
      ((Emits.of_left (Emits.log _ Event.resetIndexCounter rfl) rfl).trans
        (Emits.of_left (Emits.log _ (Event.instantiate _) rfl) rfl)))
  split
  · exact h4.trans (instantiateRoot_setRoot_emits threw env _ _)
  · exact h4

@[simp] theorem instantiateRoot_failed_toMembers (env : Env C) (s : MainWindow C) :
    (instantiateRoot_failed env s).toMembers = s.toMembers := by
  unfold instantiateRoot_failed
  split <;> simp

theorem instantiateRoot_failed_emits (P : Event → Bool) [OutputClosed P] (env : Env C)
    (s : MainWindow C) : Emits P s (instantiateRoot_failed env s) := by
  unfold instantiateRoot_failed
  split
  · exact (PRINT_emits P env _ s).trans (processEventsIf_emits P env _ _)
  · exact (PRINT_emits P env _ s).trans (processEventsIf_emits P env _ _)

theorem instantiateRoot_toMembers (env : Env C) (s : MainWindow C) :
    ∃ r, (instantiateRoot env s).toMembers =
        instantiatedMembers env r (clearedMembers s.toMembers) ∧
      (s.root_module = none → r = none) := by
  unfold instantiateRoot
  lift_lets
  intro s1 s2 s3
  have h2 : s2.toMembers = clearedMembers s.toMembers := by
    simp [s2, s1, instantiateRoot_clear_toMembers, clearedMembers]
  have hm : s2.root_module = s.root_module := by
    rw [show s2.root_module = s2.toMembers.root_module from rfl, h2]; rfl
  have h3 : ∃ r, s3.toMembers = instantiatedMembers env r (clearedMembers s.toMembers) ∧
      (s.root_module = none → r = none) := by
    rcases hr : s.root_module with _ | m
    · refine ⟨none, ?_, fun _ => rfl⟩
      have : s3 = s2 := by simp only [s3, hm, hr]
      rw [this, h2]
      rfl
    · obtain ⟨r, hr'⟩ := instantiateRoot_instantiate_toMembers env m s2
      refine ⟨r, ?_, fun h => by simp at h⟩
      have : s3 = instantiateRoot_instantiate env m s2 := by simp only [s3, hm, hr]
      rw [this, hr', h2]
  obtain ⟨r, hr, hnone⟩ := h3
  refine ⟨r, ?_, hnone⟩
  split
  · rw [instantiateRoot_failed_toMembers, hr]
  · exact hr

theorem instantiateRoot_emits (threw : Bool) (env : Env C) (s : MainWindow C) :
    Emits (Event.isRenderWith threw) s (instantiateRoot env s) := by
  unfold instantiateRoot
  lift_lets
  intro s1 s2 s3
  have h2 : Emits (Event.isRenderWith threw) s s2 :=
    (Emits.log s Event.instantiateRoot rfl).trans (instantiateRoot_clear_emits threw env _)
  have h3 : Emits (Event.isRenderWith threw) s s3 := by
    refine h2.trans ?_
    simp only [s3]
    split
    · exact instantiateRoot_instantiate_emits threw env _ _
    · exact Emits.refl _ _
  split
  · exact h3.trans (instantiateRoot_failed_emits _ env _)
  · exact h3

/-! ## `compileCSG`: members and trace -/

theorem compileCSG_root_toMembers (env : Env C) (procevents : Bool)
    (normalizer : C.CSGTermNormalizer) (term : C.CSGTerm) (s : MainWindow C) :
    (compileCSG_root env procevents normalizer term s).2.toMembers =
      { s.toMembers with
          root_norm_term := (env.normalize normalizer (some term)).1,
          root_chain := (env.normalize normalizer (some term)).1.map fun t =>
            env.chainImport (CSGChain.mk []) (some t) } := by
  unfold compileCSG_root
  lift_lets
  intro r s1
  split
  · next t heq =>
    have heq' : (env.normalize normalizer (some term)).1 = some t := heq
    simp [s1, heq', heq]
  · next heq =>
    have heq' : (env.normalize normalizer (some term)).1 = none := heq
    simp [s1, heq', heq]

theorem compileCSG_root_emits (env : Env C) (procevents : Bool)
    (normalizer : C.CSGTermNormalizer) (term : C.CSGTerm) (s : MainWindow C) :
    Emits Event.isProducts s (compileCSG_root env procevents normalizer term s).2 := by
  unfold compileCSG_root
  lift_lets
  intro r s1
  split
  · exact Emits.of_trace_eq rfl
  · exact Emits.of_left ((PRINT_emits _ env _ _).trans (processEventsIf_emits _ env _ _)) rfl

theorem compileCSG_highlights_toMembers (env : Env C) (procevents : Bool)
    (normalizer : C.CSGTermNormalizer) (s : MainWindow C) :
    (compileCSG_highlights env procevents normalizer s).2.toMembers =
      if s.highlight_terms.length > 0 then
        { s.toMembers with
            highlight_terms :=
              (normalizeAndImport env normalizer (CSGChain.mk []) s.highlight_terms).2.2,
            highlights_chain :=
              some (normalizeAndImport env normalizer (CSGChain.mk []) s.highlight_terms).2.1 }
      else s.toMembers := by
  unfold compileCSG_highlights
  split
  · have h : ∀ t : MainWindow C, t.highlight_terms = t.toMembers.highlight_terms :=
      fun _ => rfl
    simp [h]
  · rfl

theorem compileCSG_highlights_emits (env : Env C) (procevents : Bool)
    (normalizer : C.CSGTermNormalizer) (s : MainWindow C) :
    Emits Event.isProducts s (compileCSG_highlights env procevents normalizer s).2 := by
  unfold compileCSG_highlights
  split
  · exact Emits.of_left ((PRINTB_emits _ env _ _ s).trans (processEventsIf_emits _ env _ _)) rfl
  · exact Emits.refl _ _

theorem compileCSG_background_toMembers (env : Env C) (procevents : Bool)
    (normalizer : C.CSGTermNormalizer) (s : MainWindow C) :
    (compileCSG_background env procevents normalizer s).2.toMembers =
      if s.background_terms.length > 0 then
        { s.toMembers with
            background_terms :=
              (normalizeAndImport env normalizer (CSGChain.mk []) s.background_terms).2.2,
            background_chain :=
              some (normalizeAndImport env normalizer (CSGChain.mk []) s.background_terms).2.1 }
      else s.toMembers := by
  unfold compileCSG_background
  split
  · have h : ∀ t : MainWindow C, t.background_terms = t.toMembers.background_terms :=
      fun _ => rfl
    simp [h]
  · rfl

theorem compileCSG_background_emits (env : Env C) (procevents : Bool)
    (normalizer : C.CSGTermNormalizer) (s : MainWindow C) :
    Emits Event.isProducts s (compileCSG_background env procevents normalizer s).2 := by
  unfold compileCSG_background
  split
  · exact Emits.of_left ((PRINTB_emits _ env _ _ s).trans (processEventsIf_emits _ env _ _)) rfl
  · exact Emits.refl _ _

theorem compileCSG_renderers_toMembers (env : Env C) (s : MainWindow C) :
    (compileCSG_renderers env s).toMembers =
      { s.toMembers with
          opencsgRenderer :=
            if openCSGDisabled env s then s.opencsgRenderer
            else some (ChainRenderer.mk s.root_chain s.highlights_chain s.background_chain),
          thrownTogetherRenderer :=
            some (ChainRenderer.mk s.root_chain s.highlights_chain s.background_chain) } := by
  unfold compileCSG_renderers
  split
  · next h => simp [h]
  · next h => simp [h]

theorem compileCSG_renderers_emits (env : Env C) (s : MainWindow C) :
    Emits Event.isProducts s (compileCSG_renderers env s) := by
  unfold compileCSG_renderers
  split
  · exact Emits.of_left ((PRINTB_emits _ env _ _ s).trans (PRINT_emits _ env _ _)) rfl
  · exact Emits.of_left (PRINTB_emits _ env _ _ s) rfl

theorem compileCSG_highlights_frame (env : Env C) (procevents : Bool)
    (normalizer : C.CSGTermNormalizer) (s : MainWindow C) :
    ∃ terms chain, (compileCSG_highlights env procevents normalizer s).2.toMembers =
      { s.toMembers with highlight_terms := terms, highlights_chain := chain } := by
  rw [compileCSG_highlights_toMembers]
  split
  · exact ⟨_, _, rfl⟩
  · exact ⟨s.highlight_terms, s.highlights_chain, rfl⟩

theorem compileCSG_background_frame (env : Env C) (procevents : Bool)
    (normalizer : C.CSGTermNormalizer) (s : MainWindow C) :
    ∃ terms chain, (compileCSG_background env procevents normalizer s).2.toMembers =
      { s.toMembers with background_terms := terms, background_chain := chain } := by
  rw [compileCSG_background_toMembers]
  split
  · exact ⟨_, _, rfl⟩
  · exact ⟨s.background_terms, s.background_chain, rfl⟩

theorem openCSGDisabled_congr (env : Env C) {s t : MainWindow C}
    (h : t.root_chain = s.root_chain) : openCSGDisabled env t = openCSGDisabled env s := by
  simp [openCSGDisabled, h]

theorem openCSGDisabled_iff (env : Env C) (s : MainWindow C) :
    openCSGDisabled env s = true ↔
      ∃ chain, s.root_chain = some chain ∧ chain.objects.length > env.openCSGLimit := by
  unfold openCSGDisabled
  cases s.root_chain <;> simp

theorem compileCSG_products_emits (env : Env C) (procevents : Bool) (term : C.CSGTerm)
    (s : MainWindow C) : Emits Event.isProducts s (compileCSG_products env procevents term s) := by
  unfold compileCSG_products
  lift_lets
  intro s1 s2 lim s3 r1 r2 r3 s4 s5 s6
  exact (PRINT_emits _ env _ s).trans <| (processEventsIf_emits _ env _ _).trans <|
    (Emits.log _ (Event.newNormalizer lim) rfl).trans <|
    (compileCSG_root_emits env _ _ _ _).trans <|
    (compileCSG_highlights_emits env _ _ _).trans <|
    (compileCSG_background_emits env _ _ _).trans <|
    (compileCSG_renderers_emits env _).trans <|
    (PRINT_emits _ env _ _).trans <|
    (Emits.log _ Event.printRenderingTime rfl).trans (processEventsIf_emits _ env _ _)

theorem compileCSG_products_renderers (env : Env C) (procevents : Bool) (term : C.CSGTerm)
    (s : MainWindow C) :
    (compileCSG_products env procevents term s).root_raw_term = s.root_raw_term ∧
    (compileCSG_products env procevents term s).thrownTogetherRenderer =
      some (ChainRenderer.mk (compileCSG_products env procevents term s).root_chain
        (compileCSG_products env procevents term s).highlights_chain
        (compileCSG_products env procevents term s).background_chain) ∧
    (compileCSG_products env procevents term s).opencsgRenderer =
      if openCSGDisabled env (compileCSG_products env procevents term s) then s.opencsgRenderer
      else some (ChainRenderer.mk (compileCSG_products env procevents term s).root_chain
        (compileCSG_products env procevents term s).highlights_chain
        (compileCSG_products env procevents term s).background_chain) := by
  unfold compileCSG_products
  lift_lets
  intro s1 s2 lim s3 r1 r2 r3 s4 s5 s6
  have e3 : s3.toMembers = s.toMembers := by simp [s3, s2, s1]
  have e1 := compileCSG_root_toMembers env procevents (env.newNormalizer lim) term s3
  have e4 := compileCSG_renderers_toMembers env r3.2
  have e6 : (processEventsIf env procevents s6).toMembers = s4.toMembers := by simp [s6, s5]
  obtain ⟨ht, hc, e2⟩ := compileCSG_highlights_frame env procevents r1.1 r1.2
  obtain ⟨bt, bc, e3'⟩ := compileCSG_background_frame env procevents r2.1 r2.2
  have hraw : r3.2.root_raw_term = s.root_raw_term ∧ r3.2.opencsgRenderer = s.opencsgRenderer := by
    constructor
    · show r3.2.toMembers.root_raw_term = s.toMembers.root_raw_term
      rw [e3', show r2.2 = (compileCSG_highlights env procevents r1.1 r1.2).2 from rfl, e2,
        show r1.2 = (compileCSG_root env procevents (env.newNormalizer lim) term s3).2 from rfl,
        e1, e3]
    · show r3.2.toMembers.opencsgRenderer = s.toMembers.opencsgRenderer
      rw [e3', show r2.2 = (compileCSG_highlights env procevents r1.1 r1.2).2 from rfl, e2,
        show r1.2 = (compileCSG_root env procevents (env.newNormalizer lim) term s3).2 from rfl,
        e1, e3]
  have hfinal : ∀ t : MainWindow C, t.toMembers = s4.toMembers →
      t.root_raw_term = s.root_raw_term ∧
      t.thrownTogetherRenderer =
        some (ChainRenderer.mk t.root_chain t.highlights_chain t.background_chain) ∧
      t.opencsgRenderer =
        if openCSGDisabled env t then s.opencsgRenderer
        else some (ChainRenderer.mk t.root_chain t.highlights_chain t.background_chain) := by
    intro t ht
    have hd : openCSGDisabled env t = openCSGDisabled env r3.2 := by
      apply openCSGDisabled_congr
      show t.toMembers.root_chain = _
      rw [ht, e4]
    rw [hd]
    refine ⟨?_, ?_, ?_⟩
    · show t.toMembers.root_raw_term = _
      rw [ht, e4]; exact hraw.1
    · show t.toMembers.thrownTogetherRenderer =
        some (ChainRenderer.mk t.toMembers.root_chain t.toMembers.highlights_chain
          t.toMembers.background_chain)
      rw [ht, e4]
    · show t.toMembers.opencsgRenderer =
        if openCSGDisabled env r3.2 then s.opencsgRenderer
        else some (ChainRenderer.mk t.toMembers.root_chain t.toMembers.highlights_chain
          t.toMembers.background_chain)
      rw [ht, e4]
      simp only [hraw.2]
  exact hfinal _ e6

theorem Emits.mem_left {P Q : Event → Bool} {s m t : MainWindow C} {e : Event}
    (h₁ : Emits P s m) (h₂ : Emits Q m t) (he : e ∈ eventsSince s m) :
    e ∈ eventsSince s t := by
  rw [eventsSince_append h₁ h₂]
  exact List.mem_append_left _ he

theorem Emits.mem_right {P Q : Event → Bool} {s m t : MainWindow C} {e : Event}
    (h₁ : Emits P s m) (h₂ : Emits Q m t) (he : e ∈ eventsSince m t) :
    e ∈ eventsSince s t := by
  rw [eventsSince_append h₁ h₂]
  exact List.mem_append_right _ he

theorem mem_eventsSince_log (s : MainWindow C) (e : Event) : e ∈ eventsSince s (log s e) := by
  rw [eventsSince_eq (log_trace s e)]
  exact List.mem_singleton_self e

theorem Emits.of_right {P : Event → Bool} {s m t : MainWindow C} (h : Emits P s m)
    (htr : t.trace = m.trace) : Emits P s t :=
  h.trans (Emits.of_trace_eq htr)

/-- An event logged between two trace extensions is among the events of the
whole run. -/
theorem mem_eventsSince_of_log {P Q : Event → Bool} {s a t : MainWindow C} {e : Event}
    (h₁ : Emits P s a) (h₂ : Emits Q (log a e) t) : e ∈ eventsSince s t := by
  obtain ⟨e₁, he₁, _⟩ := h₁
  obtain ⟨e₂, he₂, _⟩ := h₂
  have : t.trace = s.trace ++ (e₁ ++ [e] ++ e₂) := by
    rw [he₂, log_trace, he₁]; simp
  rw [eventsSince_eq this]
  simp

/-- What `compileCSG_evaluate` leaves: either the evaluator threw and only the
two term vectors moved, or it returned and `root_raw_term` holds the result. -/
theorem compileCSG_evaluate_cases (env : Env C) (procevents : Bool) (n : C.AbstractNode)
    (s : MainWindow C) :
    ∃ threw : Bool,
      Emits (Event.isRenderWith threw) s (compileCSG_evaluate env procevents n s) ∧
      Event.evaluateCSGTerm threw ∈ eventsSince s (compileCSG_evaluate env procevents n s) ∧
      ∃ highlights background,
        (threw = true →
          (compileCSG_evaluate env procevents n s).toMembers =
            { s.toMembers with highlight_terms := highlights, background_terms := background }) ∧
        (threw = false → ∃ term,
          (compileCSG_evaluate env procevents n s).toMembers =
            { s.toMembers with root_raw_term := term, highlight_terms := highlights,
                               background_terms := background }) := by
  unfold compileCSG_evaluate
  lift_lets
  intro s1 r s2
  intros
  have h1 : Emits (Event.isRenderWith true) s s1 := processEventsIf_emits _ env _ _
  have h1' : Emits (Event.isRenderWith false) s s1 := processEventsIf_emits _ env _ _
  have e2 : s2.toMembers =
      { s.toMembers with highlight_terms := r.1.highlights, background_terms := r.1.background } := by
    simp [s2, s1]
  split
  · next term heq =>
    refine ⟨false, ?_, ?_, r.1.highlights, r.1.background, by simp, fun _ => ⟨term, ?_⟩⟩
    · refine (h1'.of_right (t := { s2 with root_raw_term := term }) rfl).trans ?_
      refine (Emits.log _ (Event.evaluateCSGTerm false) rfl).trans ?_
      refine Emits.trans ?_ ((callHelper_emits _ env Helper.cachePrint _).trans
        (processEventsIf_emits _ env _ _))
      split
      · exact PRINT_emits _ env _ _
      · exact Emits.refl _ _
    · refine mem_eventsSince_of_log (h1'.of_right (t := { s2 with root_raw_term := term }) rfl)
        (Q := Event.isRenderWith false) ?_
      refine Emits.trans ?_ ((callHelper_emits _ env Helper.cachePrint _).trans
        (processEventsIf_emits _ env _ _))
      split
      · exact PRINT_emits _ env _ _
      · exact Emits.refl _ _
    · rw [processEventsIf_toMembers, callHelper_toMembers]
      split
      · rw [PRINT_toMembers, log_toMembers]
        simp [s2, s1]
      · rw [log_toMembers]
        simp [s2, s1]
  · next heq =>
    refine ⟨true, ?_, ?_, r.1.highlights, r.1.background, fun _ => ?_, by simp⟩
    · exact h1.trans (Emits.of_left ((Emits.log _ (Event.evaluateCSGTerm true) rfl).trans
        (PRINT_emits _ env _ _)) rfl)
    · exact mem_eventsSince_of_log (h1.of_right (t := s2) rfl)
        (PRINT_emits (Event.isRenderWith true) env _ _)
    · rw [PRINT_toMembers, log_toMembers, e2]

/-- The run of `compileCSG` up to the test `if (root_raw_term)`: the state
`mid` reached there, how the evaluation ended, and the rest of the run. -/
theorem compileCSG_body_cases (env : Env C) (procevents : Bool) (n : C.AbstractNode)
    (s : MainWindow C) :
    ∃ (threw : Bool) (mid : MainWindow C),
      Emits (Event.isRenderWith threw) s mid ∧
      Event.evaluateCSGTerm threw ∈ eventsSince s mid ∧
      Event.compileCSG ∈ eventsSince s mid ∧
      (∃ highlights background,
        (threw = true →
          mid.toMembers =
            { s.toMembers with progresswidget := false, highlight_terms := highlights,
                               background_terms := background }) ∧
        (threw = false → ∃ term,
          mid.toMembers =
            { s.toMembers with progresswidget := false, root_raw_term := term,
                               highlight_terms := highlights,
                               background_terms := background })) ∧
      compileCSG_body env procevents n s =
        (match mid.root_raw_term with
         | some term => compileCSG_products env procevents term mid
         | none => mid) := by
  unfold compileCSG_body
  lift_lets
  intro m0 s1 s2 s3 s4 s5 s6 s7 s8
  have h5 : ∀ threw, Emits (Event.isRenderWith threw) s s5 := fun threw =>
    (Emits.log s Event.compileCSG rfl).trans <| (PRINT_emits _ env _ _).trans <|
      (processEventsIf_emits _ env _ _).trans <|
      Emits.of_left (Emits.log s4 Event.progressReportPrep rfl) rfl
  have e5 : s5.toMembers = { s.toMembers with progresswidget := true } := by
    simp [s5, s4, s3, s2, s1]
  have hc5 : Event.compileCSG ∈ eventsSince s s5 :=
    mem_eventsSince_of_log (Emits.refl Event.isOutput s)
      ((PRINT_emits (Event.isRenderWith true) env _ _).trans <|
        (processEventsIf_emits _ env _ _).trans <|
        Emits.of_left (Emits.log s4 Event.progressReportPrep rfl) rfl)
  obtain ⟨threw, hem, hmem, hl, bg, htrue, hfalse⟩ :=
    compileCSG_evaluate_cases env procevents n s5
  have h6 : Emits (Event.isRenderWith threw) s5 s8 :=
    (hem.trans (Emits.log s6 Event.progressReportFin rfl)).of_right rfl
  have e8 : s8.toMembers = { s6.toMembers with progresswidget := false } := rfl
  refine ⟨threw, s8, (h5 threw).trans h6, ?_, ?_, ⟨hl, bg, ?_, ?_⟩, rfl⟩
  · exact Emits.mem_right (h5 threw) h6
      (Emits.mem_left hem ((Emits.log s6 Event.progressReportFin rfl).of_right
        (P := Event.isRenderWith threw) (t := s8) rfl) hmem)
  · exact Emits.mem_left (h5 threw) h6 hc5
  · intro h
    rw [e8, htrue h, e5]
  · intro h
    obtain ⟨term, ht⟩ := hfalse h
    exact ⟨term, by rw [e8, ht, e5]⟩

/-! ## View modes and `compileEnded` -/

theorem isViewing_isRenderWith (threw : Bool) (e : Event) (h : e.isViewing = true) :
    e.isRenderWith threw = true := by
  cases e <;> simp_all [Event.isRenderWith, Event.isViewing, Event.isProducts, Event.isOutput]

theorem isEnding_isRenderWith (threw : Bool) (e : Event) (h : e.isEnding = true) :
    e.isRenderWith threw = true := by
  cases e <;> simp_all [Event.isRenderWith, Event.isEnding, Event.isProducts, Event.isOutput]

theorem viewModeThrownTogether_toMembers (env : Env C) (s : MainWindow C) :
    (viewModeThrownTogether env s).toMembers =
      { s.toMembers with
          viewActionPreview := false, viewActionSurfaces := false,
          viewActionWireframe := false, viewActionThrownTogether := true,
          qglview_renderer :=
            s.thrownTogetherRenderer.map fun _ => RendererRef.thrownTogether } := rfl

theorem viewModeThrownTogether_emits (env : Env C) (s : MainWindow C) :
    Emits Event.isViewing s (viewModeThrownTogether env s) := by
  unfold viewModeThrownTogether
  lift_lets
  intro s1 s2 s3 s4
  exact Emits.of_left ((Emits.of_left (Emits.log _ (Event.setRenderer _) rfl) rfl).trans <|
    (callHelper_emits _ env Helper.updateColorScheme s3).trans
      (callHelper_emits _ env Helper.updateGL s4)) (show s2.trace = s.trace from rfl)

theorem viewModePreview_frame (env : Env C) (s : MainWindow C) :
    ∃ a d r, (viewModePreview env s).toMembers =
      { s.toMembers with
          viewActionPreview := a, viewActionSurfaces := false,
          viewActionWireframe := false, viewActionThrownTogether := d,
          qglview_renderer := r } := by
  unfold viewModePreview
  split
  · exact ⟨_, _, _, rfl⟩
  · exact ⟨_, _, _, viewModeThrownTogether_toMembers env s⟩

theorem viewModePreview_emits (env : Env C) (s : MainWindow C) :
    Emits Event.isViewing s (viewModePreview env s) := by
  unfold viewModePreview
  split
  · lift_lets
    intro s1 s2 s3 s4
    exact Emits.of_left ((Emits.of_left (Emits.log _ (Event.setRenderer _) rfl) rfl).trans <|
      (callHelper_emits _ env Helper.updateColorScheme s3).trans
        (callHelper_emits _ env Helper.updateGL s4)) (show s2.trace = s.trace from rfl)
  · exact viewModeThrownTogether_emits env s

theorem goToNonCGALViewMode_frame (env : Env C) (s : MainWindow C) :
    ∃ a d r, (goToNonCGALViewMode env s).toMembers =
      { s.toMembers with
          viewActionPreview := a, viewActionSurfaces := false,
          viewActionWireframe := false, viewActionThrownTogether := d,
          qglview_renderer := r } := by
  unfold goToNonCGALViewMode
  split
  · exact ⟨_, _, _, viewModeThrownTogether_toMembers env s⟩
  · exact viewModePreview_frame env s

theorem goToNonCGALViewMode_emits (env : Env C) (s : MainWindow C) :
    Emits Event.isViewing s (goToNonCGALViewMode env s) := by
  unfold goToNonCGALViewMode
  split
  · exact viewModeThrownTogether_emits env s
  · exact viewModePreview_emits env s

theorem compileEnded_frame (env : Env C) (s : MainWindow C) :
    ∃ a, (compileEnded env s).toMembers =
      { s.toMembers with
          outputHandlerSet := false,
          gui_locked := (s.gui_locked + (2 ^ 32 - 1)) % 2 ^ 32,
          autoReloadTimerActive := a } := by
  unfold compileEnded
  lift_lets
  intro m0 s1 s2 s3
  split
  · exact ⟨true, rfl⟩
  · exact ⟨s.autoReloadTimerActive, rfl⟩

theorem compileEnded_emits (P : Event → Bool) [OutputClosed P]
    (h₁ : P Event.compileEnded = true) (h₂ : P Event.guiUnlock = true)
    (h₃ : P Event.autoReloadTimerStart = true) (env : Env C) (s : MainWindow C) :
    Emits P s (compileEnded env s) := by
  unfold compileEnded
  lift_lets
  intro s1 s2 s3
  have h : Emits P s s3 :=
    (Emits.log s Event.compileEnded h₁).trans <|
      (Emits.of_left (callHelper_emits P env Helper.clearCurrentOutput _) rfl).trans <|
      Emits.of_left (Emits.log _ Event.guiUnlock h₂) rfl
  split
  · exact h.trans (Emits.of_left (Emits.log _ Event.autoReloadTimerStart h₃) rfl)
  · exact h

theorem mem_eventsSince_compileEnded (env : Env C) (s : MainWindow C) :
    Event.compileEnded ∈ eventsSince s (compileEnded env s) := by
  unfold compileEnded
  lift_lets
  intro s1 s2 s3
  refine mem_eventsSince_of_log (Emits.refl Event.isViewing s) (Q := Event.isViewing) ?_
  have h : Emits Event.isViewing s1 s3 :=
    (Emits.of_left (callHelper_emits _ env Helper.clearCurrentOutput _) rfl).trans <|
      Emits.of_left (Emits.log _ Event.guiUnlock rfl) rfl
  split
  · exact h.trans (Emits.of_left (Emits.log _ Event.autoReloadTimerStart rfl) rfl)
  · exact h

/-! ## What the downstream stages leave alone -/

theorem compileCSG_products_frame (env : Env C) (procevents : Bool) (term : C.CSGTerm)
    (s : MainWindow C) :
    (compileCSG_products env procevents term s).toMembers =
      { s.toMembers with
          root_norm_term := (compileCSG_products env procevents term s).root_norm_term,
          root_chain := (compileCSG_products env procevents term s).root_chain,
          highlight_terms := (compileCSG_products env procevents term s).highlight_terms,
          highlights_chain := (compileCSG_products env procevents term s).highlights_chain,
          background_terms := (compileCSG_products env procevents term s).background_terms,
          background_chain := (compileCSG_products env procevents term s).background_chain,
          opencsgRenderer := (compileCSG_products env procevents term s).opencsgRenderer,
          thrownTogetherRenderer :=
            (compileCSG_products env procevents term s).thrownTogetherRenderer } := by
  have main : ∃ nt rc ht hc bt bc oc tt,
      (compileCSG_products env procevents term s).toMembers =
        { s.toMembers with
            root_norm_term := nt, root_chain := rc, highlight_terms := ht,
            highlights_chain := hc, background_terms := bt, background_chain := bc,
            opencsgRenderer := oc, thrownTogetherRenderer := tt } := by
    unfold compileCSG_products
    lift_lets
    intro s1 s2 lim s3 r1 r2 r3 s4 s5 s6
    intros
    have e3 : s3.toMembers = s.toMembers := by simp [s3, s2, s1]
    have e1 := compileCSG_root_toMembers env procevents (env.newNormalizer lim) term s3
    obtain ⟨ht, hc, e2⟩ := compileCSG_highlights_frame env procevents r1.1 r1.2
    obtain ⟨bt, bc, e3'⟩ := compileCSG_background_frame env procevents r2.1 r2.2
    have e4 := compileCSG_renderers_toMembers env r3.2
    have e6 : (processEventsIf env procevents s6).toMembers = s4.toMembers := by simp [s6, s5]
    rw [e6, e4, e3', show r2.2 = (compileCSG_highlights env procevents r1.1 r1.2).2 from rfl, e2,
      show r1.2 = (compileCSG_root env procevents (env.newNormalizer lim) term s3).2 from rfl,
      e1, e3]
    exact ⟨_, _, _, _, _, _, _, _, rfl⟩
  obtain ⟨nt, rc, ht, hc, bt, bc, oc, tt, h⟩ := main
  have proj : ∀ {α : Type} (f : Members C → α),
      f (compileCSG_products env procevents term s).toMembers = f _ := fun f => congrArg f h
  rw [show (compileCSG_products env procevents term s).root_norm_term = nt from
      proj (fun m => m.root_norm_term),
    show (compileCSG_products env procevents term s).root_chain = rc from
      proj (fun m => m.root_chain),
    show (compileCSG_products env procevents term s).highlight_terms = ht from
      proj (fun m => m.highlight_terms),
    show (compileCSG_products env procevents term s).highlights_chain = hc from
      proj (fun m => m.highlights_chain),
    show (compileCSG_products env procevents term s).background_terms = bt from
      proj (fun m => m.background_terms),
    show (compileCSG_products env procevents term s).background_chain = bc from
      proj (fun m => m.background_chain),
    show (compileCSG_products env procevents term s).opencsgRenderer = oc from
      proj (fun m => m.opencsgRenderer),
    show (compileCSG_products env procevents term s).thrownTogetherRenderer = tt from
      proj (fun m => m.thrownTogetherRenderer)]
  exact h

theorem compileCSG_products_document (env : Env C) (procevents : Bool) (term : C.CSGTerm)
    (s : MainWindow C) :
    (compileCSG_products env procevents term s).toMembers.document = s.toMembers.document := by
  rw [compileCSG_products_frame]; rfl

theorem compileCSG_products_root_node (env : Env C) (procevents : Bool) (term : C.CSGTerm)
    (s : MainWindow C) :
    (compileCSG_products env procevents term s).toMembers.root_node = s.toMembers.root_node := by
  rw [compileCSG_products_frame]

theorem compileCSG_body_document (env : Env C) (procevents : Bool) (n : C.AbstractNode)
    (s : MainWindow C) :
    (compileCSG_body env procevents n s).toMembers.document = s.toMembers.document := by
  obtain ⟨threw, mid, -, -, -, ⟨hl, bg, htrue, hfalse⟩, hbody⟩ :=
    compileCSG_body_cases env procevents n s
  have hmid : mid.toMembers.document = s.toMembers.document := by
    cases threw
    · obtain ⟨term, h⟩ := hfalse rfl
      rw [h]; rfl
    · rw [htrue rfl]; rfl
  rw [hbody]
  split
  · rw [compileCSG_products_document, hmid]
  · exact hmid

theorem instantiateRoot_document (env : Env C) (s : MainWindow C) :
    (instantiateRoot env s).toMembers.document = s.toMembers.document := by
  obtain ⟨r, hr, -⟩ := instantiateRoot_toMembers env s
  rw [hr]
  cases r <;> rfl

theorem goToNonCGALViewMode_document (env : Env C) (s : MainWindow C) :
    (goToNonCGALViewMode env s).toMembers.document = s.toMembers.document := by
  obtain ⟨a, d, r, h⟩ := goToNonCGALViewMode_frame env s
  rw [h]; rfl

theorem goToNonCGALViewMode_renderState (env : Env C) (s : MainWindow C) :
    (goToNonCGALViewMode env s).toMembers.renderState = s.toMembers.renderState := by
  obtain ⟨a, d, r, h⟩ := goToNonCGALViewMode_frame env s
  rw [h]; rfl

theorem compileEnded_document (env : Env C) (s : MainWindow C) :
    (compileEnded env s).toMembers.document = s.toMembers.document := by
  obtain ⟨a, h⟩ := compileEnded_frame env s
  rw [h]; rfl

theorem compileEnded_renderState (env : Env C) (s : MainWindow C) :
    (compileEnded env s).toMembers.renderState = s.toMembers.renderState := by
  obtain ⟨a, h⟩ := compileEnded_frame env s
  rw [h]; rfl

/-! ## The render slots -/

theorem csgReloadRender_eq (env : Env C) (s : MainWindow C) :
    csgReloadRender env s =
      some (compileEnded env (goToNonCGALViewMode env
        (match s.root_node with
         | some n => compileCSG_body env true n s
         | none => s))) := by
  unfold csgReloadRender compileCSG
  cases s.root_node <;> rfl

/-- The tail of `csgRender` after the view-mode switch. -/
theorem csgRender_eq (env : Env C) (s : MainWindow C) :
    ∃ tail : MainWindow C → MainWindow C,
      (∀ u, Emits Event.isViewing u (tail u) ∧ (tail u).toMembers = u.toMembers) ∧
      csgRender env s =
        some (compileEnded env (tail (goToNonCGALViewMode env
          (match s.root_node with
           | some n => compileCSG_body env (!s.viewActionAnimate) n s
           | none => s)))) := by
  refine ⟨fun u => if u.viewActionAnimate && u.e_dump then callHelper env Helper.dumpFrame u
    else u, fun u => ?_, ?_⟩
  · simp only []
    split
    · exact ⟨callHelper_emits _ env _ u, rfl⟩
    · exact ⟨Emits.refl _ u, rfl⟩
  · unfold csgRender compileCSG
    cases s.root_node <;> rfl

/-- The states in which the terms, chains and renderers of an earlier
generation are gone: what `instantiateRoot` leaves. -/
theorem instantiateRoot_renderState (env : Env C) (s : MainWindow C) :
    (instantiateRoot env s).toMembers.renderState =
      ((instantiateRoot env s).root_node, none, none, none, none, none, none, none) ∧
    ((instantiateRoot env s).root_node = none →
      (instantiateRoot env s).absolute_root_node = none ∧
      (instantiateRoot env s).tree_root = none ∧
      (instantiateRoot env s).highlight_terms = [] ∧
      (instantiateRoot env s).background_terms = []) ∧
    (instantiateRoot env s).toMembers.highlight_terms = [] ∧
    (instantiateRoot env s).toMembers.background_terms = [] ∧
    (s.root_module = none → (instantiateRoot env s).root_node = none) := by
  obtain ⟨r, hr, hnone⟩ := instantiateRoot_toMembers env s
  have key : ∀ {α : Type} (f : Members C → α), f (instantiateRoot env s).toMembers =
      f (instantiatedMembers env r (clearedMembers s.toMembers)) := fun f => by rw [hr]
  refine ⟨?_, ?_, ?_, ?_, ?_⟩
  · rw [show (instantiateRoot env s).root_node = (instantiateRoot env s).toMembers.root_node
      from rfl, hr]
    cases r <;> rfl
  · intro h
    have h' := key (fun m => m.root_node)
    simp only [] at h'
    rw [show (instantiateRoot env s).toMembers.root_node = (instantiateRoot env s).root_node
      from rfl, h] at h'
    cases r with
    | some a => simp [instantiatedMembers] at h'
    | none =>
      exact ⟨key (fun m => m.absolute_root_node), key (fun m => m.tree_root),
        key (fun m => m.highlight_terms), key (fun m => m.background_terms)⟩
  · rw [hr]; cases r <;> rfl
  · rw [hr]; cases r <;> rfl
  · intro h
    rw [show (instantiateRoot env s).root_node = (instantiateRoot env s).toMembers.root_node
      from rfl, hr, hnone h]
    rfl

/-- A run of `compileCSG` entered with no terms, chains or renderers left
over: a cancelled evaluation leaves them all absent. -/
theorem compileCSG_body_fresh (env : Env C) (procevents : Bool) (n : C.AbstractNode)
    (s : MainWindow C)
    (hfresh : s.toMembers.renderState =
      (s.root_node, none, none, none, none, none, none, none)) :
    ∃ threw : Bool,
      Emits (Event.isRenderWith threw) s (compileCSG_body env procevents n s) ∧
      Event.evaluateCSGTerm threw ∈ eventsSince s (compileCSG_body env procevents n s) ∧
      Event.compileCSG ∈ eventsSince s (compileCSG_body env procevents n s) ∧
      (compileCSG_body env procevents n s).toMembers.root_node = s.toMembers.root_node ∧
      (threw = true →
        (compileCSG_body env procevents n s).toMembers.renderState =
          s.toMembers.renderState) := by
  obtain ⟨threw, mid, hem, hmem, hcsg, ⟨hl, bg, htrue, hfalse⟩, hbody⟩ :=
    compileCSG_body_cases env procevents n s
  have hraw : s.toMembers.root_raw_term = none := by
    have := congrArg (fun p => p.2.1) hfresh
    exact this
  have hrest : Emits (Event.isRenderWith threw) mid (compileCSG_body env procevents n s) := by
    rw [hbody]
    split
    · exact (compileCSG_products_emits env procevents _ mid).mono (isProducts_isRenderWith threw)
    · exact Emits.refl _ _
  have hnode : mid.toMembers.root_node = s.toMembers.root_node := by
    cases threw
    · obtain ⟨term, h⟩ := hfalse rfl
      rw [h]
    · rw [htrue rfl]
  refine ⟨threw, hem.trans hrest, Emits.mem_left hem hrest hmem, Emits.mem_left hem hrest hcsg,
    ?_, ?_⟩
  · rw [hbody]
    split
    · rw [compileCSG_products_root_node, hnode]
    · exact hnode
  · intro h
    have hm := htrue h
    have hmraw : mid.root_raw_term = none := by
      show mid.toMembers.root_raw_term = none
      rw [hm]; exact hraw
    rw [hbody, hmraw]
    simp only []
    rw [hm]; rfl

theorem cgalRender_frame (env : Env C) (s : MainWindow C) :
    (cgalRender env s).toMembers.document = s.toMembers.document ∧
    (cgalRender env s).toMembers.renderState = s.toMembers.renderState := by
  unfold cgalRender
  split
  · exact ⟨compileEnded_document env s, compileEnded_renderState env s⟩
  · lift_lets
    intro s1 s2 s3 s4 s5 s6
    have e4 : s4.toMembers.document = s.toMembers.document ∧
        s4.toMembers.renderState = s.toMembers.renderState := by
      simp [s4, s3, s2, s1, setRenderer, Members.document, Members.renderState]
    exact e4

theorem cgalRender_emits (threw : Bool) (env : Env C) (s : MainWindow C) :
    Emits (Event.isRenderWith threw) s (cgalRender env s) := by
  unfold cgalRender
  split
  · exact compileEnded_emits _ rfl rfl rfl env s
  · lift_lets
    intro s1 s2 s3 s4 s5 s6
    exact (Emits.log s (Event.setRenderer none) rfl).of_right (t := s3) rfl |>.trans <|
      (PRINT_emits _ env _ s3).trans <|
      (Emits.of_left (Emits.log s5 Event.progressReportPrep rfl) rfl).trans <|
      Emits.of_left (Emits.log _ Event.cgalworkerStart rfl) rfl

theorem renderState_root_node {m m' : Members C} (h : m.renderState = m'.renderState) :
    m.root_node = m'.root_node :=
  congrArg Prod.fst h

/-- The common shape of `csgRender` and `csgReloadRender`. -/
theorem csgSlot_fresh (env : Env C) (procevents : Bool) (tail : MainWindow C → MainWindow C)
    (htail : ∀ u, Emits Event.isViewing u (tail u) ∧ (tail u).toMembers = u.toMembers)
    (s : MainWindow C)
    (hfresh : s.toMembers.renderState =
      (s.root_node, none, none, none, none, none, none, none)) :
    ∃ threw : Bool,
      Emits (Event.isRenderWith threw) s
        (compileEnded env (tail (goToNonCGALViewMode env
          (match s.root_node with
           | some n => compileCSG_body env procevents n s
           | none => s)))) ∧
      (compileEnded env (tail (goToNonCGALViewMode env
          (match s.root_node with
           | some n => compileCSG_body env procevents n s
           | none => s)))).toMembers.document = s.toMembers.document ∧
      (compileEnded env (tail (goToNonCGALViewMode env
          (match s.root_node with
           | some n => compileCSG_body env procevents n s
           | none => s)))).toMembers.root_node = s.toMembers.root_node ∧
      ((threw = true ∨ s.root_node = none) →
        (compileEnded env (tail (goToNonCGALViewMode env
          (match s.root_node with
           | some n => compileCSG_body env procevents n s
           | none => s)))).toMembers.renderState = s.toMembers.renderState) := by
  have after : ∀ (threw : Bool) (u : MainWindow C),
      Emits (Event.isRenderWith threw) u (compileEnded env (tail (goToNonCGALViewMode env u))) ∧
      (compileEnded env (tail (goToNonCGALViewMode env u))).toMembers.document =
        u.toMembers.document ∧
      (compileEnded env (tail (goToNonCGALViewMode env u))).toMembers.renderState =
        u.toMembers.renderState := by
    intro threw u
    refine ⟨?_, ?_, ?_⟩
    · exact ((goToNonCGALViewMode_emits env u).trans (htail _).1).mono
        (isViewing_isRenderWith threw) |>.trans (compileEnded_emits _ rfl rfl rfl env _)
    · rw [compileEnded_document, (htail _).2, goToNonCGALViewMode_document]
    · rw [compileEnded_renderState, (htail _).2, goToNonCGALViewMode_renderState]
  cases hn : s.root_node with
  | none =>
    simp only []
    obtain ⟨h1, h2, h3⟩ := after false s
    exact ⟨false, h1, h2, (renderState_root_node h3).trans hn, fun _ => h3⟩
  | some n =>
    simp only []
    obtain ⟨threw, hem, -, -, hnode, hcancel⟩ := compileCSG_body_fresh env procevents n s hfresh
    obtain ⟨h1, h2, h3⟩ := after threw (compileCSG_body env procevents n s)
    refine ⟨threw, hem.trans h1, ?_, ?_, ?_⟩
    · rw [h2, compileCSG_body_document]
    · rw [renderState_root_node h3, hnode]; exact hn
    · intro h
      rcases h with h | h
      · rw [h3, hcancel h]
      · simp [hn] at h

/-- Every slot returns; entered with no terms, chains or renderers left over, it
ends with them still absent unless a CSG evaluation ran to completion. -/
theorem invokeMethod_fresh (env : Env C) (callslot : Slot) (s : MainWindow C)
    (hfresh : s.toMembers.renderState =
      (s.root_node, none, none, none, none, none, none, none)) :
    ∃ (t : MainWindow C) (threw : Bool),
      invokeMethod env callslot s = some t ∧
      Emits (Event.isRenderWith threw) s t ∧
      Event.invokeMethod callslot ∈ eventsSince s t ∧
      t.toMembers.document = s.toMembers.document ∧
      t.toMembers.root_node = s.toMembers.root_node ∧
      ((threw = true ∨ s.root_node = none) →
        t.toMembers.renderState = s.toMembers.renderState) := by
  have hlog : ∀ threw, Emits (Event.isRenderWith threw) s (log s (Event.invokeMethod callslot)) :=
    fun threw => Emits.log s _ rfl
  have hfresh' : (log s (Event.invokeMethod callslot)).toMembers.renderState =
      ((log s (Event.invokeMethod callslot)).root_node, none, none, none, none, none, none,
        none) := hfresh
  have wrap : ∀ (t : MainWindow C) (threw : Bool),
      Emits (Event.isRenderWith threw) (log s (Event.invokeMethod callslot)) t →
      t.toMembers.document = s.toMembers.document →
      t.toMembers.root_node = s.toMembers.root_node →
      ((threw = true ∨ s.root_node = none) →
        t.toMembers.renderState = s.toMembers.renderState) →
      Emits (Event.isRenderWith threw) s t ∧
      Event.invokeMethod callslot ∈ eventsSince s t ∧
      t.toMembers.document = s.toMembers.document ∧
      t.toMembers.root_node = s.toMembers.root_node ∧
      ((threw = true ∨ s.root_node = none) →
        t.toMembers.renderState = s.toMembers.renderState) :=
    fun t threw h1 h2 h3 h4 =>
      ⟨(hlog threw).trans h1, mem_eventsSince_of_log (Emits.refl Event.isOutput s) h1, h2, h3, h4⟩
  cases callslot with
  | csgRender =>
    obtain ⟨tail, htail, heq⟩ := csgRender_eq env (log s (Event.invokeMethod Slot.csgRender))
    obtain ⟨threw, h1, h2, h3, h4⟩ := csgSlot_fresh env _ tail htail _ hfresh'
    exact ⟨_, threw, heq, wrap _ threw h1 h2 h3 h4⟩
  | csgReloadRender =>
    obtain ⟨threw, h1, h2, h3, h4⟩ := csgSlot_fresh env true id
      (fun u => ⟨Emits.refl _ u, rfl⟩) _ hfresh'
    exact ⟨_, threw, csgReloadRender_eq env _, wrap _ threw h1 h2 h3 h4⟩
  | cgalRender =>
    obtain ⟨h2, h3⟩ := cgalRender_frame env (log s (Event.invokeMethod Slot.cgalRender))
    exact ⟨_, false, rfl, wrap _ false (cgalRender_emits false env _) h2
      (renderState_root_node h3) (fun _ => h3)⟩
  | compileEnded =>
    exact ⟨_, false, rfl, wrap _ false (compileEnded_emits _ rfl rfl rfl env _)
      (compileEnded_document env _) (renderState_root_node (compileEnded_renderState env _))
      (fun _ => compileEnded_renderState env _)⟩

/-! ## `compileDone` -/

theorem mem_eventsSince_instantiateRoot (env : Env C) (s : MainWindow C) :
    Event.instantiateRoot ∈ eventsSince s (instantiateRoot env s) := by
  unfold instantiateRoot
  lift_lets
  intro s1 s2 s3
  have h3 : Emits (Event.isRenderWith false) s1 s3 := by
    refine (instantiateRoot_clear_emits false env _).trans ?_
    simp only [s3]
    split
    · exact instantiateRoot_instantiate_emits false env _ _
    · exact Emits.refl _ _
  refine mem_eventsSince_of_log (Emits.refl Event.isOutput s) (Q := Event.isRenderWith false) ?_
  split
  · exact h3.trans (instantiateRoot_failed_emits _ env _)
  · exact h3

/-- `compileDone(false)`: only `compileEnded` runs. -/
theorem compileDone_false (env : Env C) (s : MainWindow C) :
    ∃ t, compileDone env false s = some t ∧
      Emits Event.isEnding s t ∧
      Event.compileDone false ∈ eventsSince s t ∧
      Event.invokeMethod Slot.compileEnded ∈ eventsSince s t ∧
      Event.compileEnded ∈ eventsSince s t ∧
      t.toMembers.document = s.toMembers.document ∧
      t.toMembers.renderState = s.toMembers.renderState := by
  have hu : Emits Event.isEnding s
      (log { log s (Event.compileDone false) with procevents := false }
        (Event.invokeMethod Slot.compileEnded)) :=
    (Emits.log s (Event.compileDone false) rfl).trans
      (Emits.of_left (Emits.log _ (Event.invokeMethod Slot.compileEnded) rfl) rfl)
  have hend := compileEnded_emits Event.isEnding rfl rfl rfl env
    (log { log s (Event.compileDone false) with procevents := false }
      (Event.invokeMethod Slot.compileEnded))
  refine ⟨compileEnded env (log { log s (Event.compileDone false) with procevents := false }
    (Event.invokeMethod Slot.compileEnded)), rfl, hu.trans hend, ?_, ?_, ?_, ?_, ?_⟩
  · exact mem_eventsSince_of_log (Emits.refl Event.isEnding s)
      (Emits.of_left ((Emits.log _ (Event.invokeMethod Slot.compileEnded) rfl).trans hend) rfl)
  · exact mem_eventsSince_of_log
      ((Emits.log s (Event.compileDone false) rfl).of_right
        (P := Event.isEnding) (t := { log s (Event.compileDone false) with procevents := false })
        rfl) hend
  · exact Emits.mem_right hu hend (mem_eventsSince_compileEnded env _)
  · exact compileEnded_document env _
  · exact compileEnded_renderState env _

/-- `compileDone(true)`: `instantiateRoot` runs, then the slot named by
`afterCompileSlot`; the call returns, and the terms, chains and renderers are
absent at the end whenever the evaluation was cancelled or no root node came
out of the instantiation. -/
theorem compileDone_true (env : Env C) (s : MainWindow C) :
    ∃ (t : MainWindow C) (threw : Bool),
      compileDone env true s = some t ∧
      Emits (Event.isRenderWith threw) s t ∧
      Event.compileDone true ∈ eventsSince s t ∧
      Event.instantiateRoot ∈ eventsSince s t ∧
      Event.invokeMethod s.afterCompileSlot ∈ eventsSince s t ∧
      t.toMembers.document = s.toMembers.document ∧
      ((threw = true ∨ t.root_node = none) →
        t.toMembers.renderState = (t.root_node, none, none, none, none, none, none, none)) ∧
      (s.root_module = none → t.root_node = none) := by
  have h0 : ∀ threw, Emits (Event.isRenderWith threw) s (log s (Event.compileDone true)) :=
    fun threw => Emits.log s _ rfl
  obtain ⟨hrs, -, -, -, hmod⟩ := instantiateRoot_renderState env (log s (Event.compileDone true))
  have hdoc := instantiateRoot_document env (log s (Event.compileDone true))
  have hslot : (instantiateRoot env (log s (Event.compileDone true))).afterCompileSlot =
      s.afterCompileSlot := congrArg (fun p => p.2.2.2.2.2.2.1) hdoc
  have h1 : ∀ threw, Emits (Event.isRenderWith threw) s
      { instantiateRoot env (log s (Event.compileDone true)) with procevents := false } :=
    fun threw => ((h0 threw).trans (instantiateRoot_emits threw env _)).of_right rfl
  obtain ⟨t, threw, hrun, hem, hinv, hd, hnode, hkeep⟩ := invokeMethod_fresh env
    (instantiateRoot env (log s (Event.compileDone true))).afterCompileSlot
    { instantiateRoot env (log s (Event.compileDone true)) with procevents := false } hrs
  have hnode' : t.root_node = (instantiateRoot env (log s (Event.compileDone true))).root_node :=
    hnode
  refine ⟨t, threw, hrun, (h1 threw).trans hem, ?_, ?_, ?_, ?_, ?_, ?_⟩
  · exact mem_eventsSince_of_log (Emits.refl Event.isOutput s)
      (((instantiateRoot_emits threw env _).of_right
        (t := { instantiateRoot env (log s (Event.compileDone true)) with procevents := false })
        rfl).trans hem)
  · exact Emits.mem_left (h1 threw) hem
      (Emits.mem_right (h0 threw)
        ((instantiateRoot_emits threw env _).of_right
          (t := { instantiateRoot env (log s (Event.compileDone true)) with
                  procevents := false }) rfl)
        (mem_eventsSince_instantiateRoot env _))
  · rw [← hslot]
    exact Emits.mem_right (h1 threw) hem hinv
  · rw [hd]; exact hdoc
  · intro h
    have h' : threw = true ∨
        (instantiateRoot env (log s (Event.compileDone true))).root_node = none := by
      rcases h with h | h
      · exact Or.inl h
      · exact Or.inr (hnode'.symm.trans h)
    rw [hkeep h', hnode']
    exact hrs
  · intro h
    rw [hnode']
    exact hmod h

/-! ## The reload check -/

theorem fileChangedOnDisk_frame (env : Env C) (s : MainWindow C) :
    ∃ id, (fileChangedOnDisk env s).2.toMembers = { s.toMembers with autoReloadId := id } := by
  unfold fileChangedOnDisk
  split
  · lift_lets
    intro st s1
    intros
    split
    · exact ⟨s.autoReloadId, rfl⟩
    · simp only []
      split
      · exact ⟨_, rfl⟩
      · exact ⟨s.autoReloadId, rfl⟩
  · exact ⟨s.autoReloadId, rfl⟩

theorem fileChangedOnDisk_emits (env : Env C) (s : MainWindow C) :
    Emits Event.isChecking s (fileChangedOnDisk env s).2 ∧
    Event.fileChangedOnDisk (fileChangedOnDisk env s).1 ∈
      eventsSince s (fileChangedOnDisk env s).2 := by
  have one : ∀ (u : MainWindow C) (b : Bool), u.trace = s.trace →
      Emits Event.isChecking s (log u (Event.fileChangedOnDisk b)) ∧
      Event.fileChangedOnDisk b ∈ eventsSince s (log u (Event.fileChangedOnDisk b)) :=
    fun u b hu =>
      ⟨Emits.of_left (Emits.log u _ rfl) hu,
        mem_eventsSince_of_log (Emits.of_trace_eq (P := Event.isChecking) hu)
          (Emits.refl Event.isChecking _)⟩
  unfold fileChangedOnDisk
  split
  · lift_lets
    intro st s1
    split
    · exact one _ _ rfl
    · simp only []
      split
      · exact one _ _ rfl
      · exact one _ _ rfl
  · exact one _ _ rfl

theorem designActionAutoReload_setChecked_frame (env : Env C) (b : Bool) (s : MainWindow C) :
    ∃ a, (designActionAutoReload_setChecked env b s).toMembers =
      { s.toMembers with designActionAutoReload := b, autoReloadTimerActive := a } := by
  unfold designActionAutoReload_setChecked
  split
  · next h => exact ⟨s.autoReloadTimerActive, by rw [← h]⟩
  · unfold autoReloadSet
    lift_lets
    intro s1
    intros
    split
    · exact ⟨_, rfl⟩
    · exact ⟨_, rfl⟩

theorem designActionAutoReload_setChecked_emits (env : Env C) (s : MainWindow C) :
    Emits Event.isChecking s (designActionAutoReload_setChecked env false s) := by
  unfold designActionAutoReload_setChecked
  split
  · exact Emits.refl _ _
  · unfold autoReloadSet
    lift_lets
    intro s1
    have h1 : Emits Event.isChecking s s1 :=
      Emits.of_left (callHelper_emits _ env Helper.settingsSetValue _) rfl
    simp only [Bool.false_eq_true, if_false]
    exact h1.trans (Emits.of_left (Emits.log _ Event.autoReloadTimerStop rfl) rfl)

theorem checkEditorModified_frame (env : Env C) (s : MainWindow C) :
    ∃ a b, (checkEditorModified env s).2.toMembers =
      { s.toMembers with designActionAutoReload := a, autoReloadTimerActive := b } := by
  unfold checkEditorModified
  split
  · lift_lets
    intro ret s1
    intros
    split
    · obtain ⟨a, h⟩ := designActionAutoReload_setChecked_frame env false s1
      exact ⟨false, a, h⟩
    · exact ⟨s.designActionAutoReload, s.autoReloadTimerActive, rfl⟩
  · exact ⟨s.designActionAutoReload, s.autoReloadTimerActive, rfl⟩

theorem checkEditorModified_emits (env : Env C) (s : MainWindow C) :
    Emits Event.isChecking s (checkEditorModified env s).2 := by
  unfold checkEditorModified
  split
  · lift_lets
    intro ret s1
    split
    · exact Emits.of_left ((designActionAutoReload_setChecked_emits env s1).trans
        (Emits.log _ _ rfl)) rfl
    · exact Emits.of_left (Emits.log s1 _ rfl) rfl
  · exact Emits.log s _ rfl

theorem refreshDocument_frame (env : Env C) (s : MainWindow C) :
    ∃ text, (refreshDocument env s).toMembers =
      { s.toMembers with editorText := text, outputHandlerSet := true } := by
  unfold refreshDocument
  lift_lets
  intro s1 s2 file s4 s5 s6
  intros
  have e2 : s2.toMembers = { s.toMembers with outputHandlerSet := true } := rfl
  have e5 : s5.toMembers = { s.toMembers with outputHandlerSet := true } := by
    simp only [s5, PRINTB_toMembers]; exact e2
  have e5' : ∀ text, ({ s5 with editorText := text } : MainWindow C).toMembers =
      { s.toMembers with editorText := text, outputHandlerSet := true } := fun text => by
    show { s5.toMembers with editorText := text } = _
    rw [e5]
  have e6 : ∃ text, s6.toMembers =
      { s.toMembers with editorText := text, outputHandlerSet := true } := by
    simp only [s6]
    split
    · split
      · exact ⟨s.editorText, by rw [PRINTB_toMembers]; exact e2⟩
      · split
        · exact ⟨_, e5' _⟩
        · exact ⟨s.editorText, e5⟩
    · exact ⟨s.editorText, e2⟩
  obtain ⟨text, h⟩ := e6
  exact ⟨text, by
    show { s6.toMembers with outputHandlerSet := true } = _
    rw [h]⟩

theorem refreshDocument_emits (env : Env C) (s : MainWindow C) :
    Emits Event.isChecking s (refreshDocument env s) ∧
    Event.refreshDocument ∈ eventsSince s (refreshDocument env s) := by
  unfold refreshDocument
  lift_lets
  intro s1 s2 file s4 s5 s6
  have h2 : Emits Event.isChecking s1 s2 := Emits.of_left (callHelper_emits _ env _ _) rfl
  have h6 : Emits Event.isChecking s2 s6 := by
    simp only [s6]
    split
    · split
      · exact Emits.of_left (PRINTB_emits _ env _ _ s4) rfl
      · split
        · exact Emits.of_left ((PRINTB_emits _ env _ _ s4).of_right rfl) rfl
        · exact Emits.of_left (PRINTB_emits _ env _ _ s4) rfl
    · exact Emits.refl _ _
  have h7 : Emits Event.isChecking s6 (setCurrentOutput env s6) :=
    Emits.of_left (callHelper_emits _ env _ _) rfl
  exact ⟨(Emits.log s Event.refreshDocument rfl).trans (h2.trans (h6.trans h7)),
    mem_eventsSince_of_log (Emits.refl Event.isChecking s) (h2.trans (h6.trans h7))⟩

theorem compile_shouldcompiletoplevel_false (env : Env C) (s : MainWindow C) :
    compile_shouldcompiletoplevel env false s = (true, s) := rfl

/-- The reload check of `compile(reload = true)`. -/
theorem compile_shouldcompiletoplevel_true (env : Env C) (s : MainWindow C) :
    Emits Event.isChecking s (compile_shouldcompiletoplevel env true s).2 ∧
    (compile_shouldcompiletoplevel env true s).2.toMembers.checkFrame =
      s.toMembers.checkFrame ∧
    Event.fileChangedOnDisk (fileChangedOnDisk env s).1 ∈
      eventsSince s (compile_shouldcompiletoplevel env true s).2 ∧
    ((fileChangedOnDisk env s).1 = true →
      (checkEditorModified env (fileChangedOnDisk env s).2).1 = true →
      (compile_shouldcompiletoplevel env true s).1 = true ∧
      Event.refreshDocument ∈ eventsSince s (compile_shouldcompiletoplevel env true s).2) ∧
    (¬((fileChangedOnDisk env s).1 = true ∧
        (checkEditorModified env (fileChangedOnDisk env s).2).1 = true) →
      (compile_shouldcompiletoplevel env true s).2.editorText = s.editorText ∧
      ((s.editorText ≠ s.last_compiled_doc ∧ s.last_compiled_doc.length = 0) →
        (compile_shouldcompiletoplevel env true s).1 = true) ∧
      (¬(s.editorText ≠ s.last_compiled_doc ∧ s.last_compiled_doc.length = 0) →
        (compile_shouldcompiletoplevel env true s).1 = true →
        Event.includesChanged true ∈
          eventsSince s (compile_shouldcompiletoplevel env true s).2)) := by
  unfold compile_shouldcompiletoplevel
  lift_lets
  intro changed confirmed s1 current_doc r should s2
  -- the two calls at the head
  obtain ⟨id, hid⟩ := fileChangedOnDisk_frame env s
  obtain ⟨hchE, hchM⟩ := fileChangedOnDisk_emits env s
  have hconfE : Emits Event.isChecking changed.2 confirmed.2 := by
    simp only [confirmed]
    split
    · exact checkEditorModified_emits env _
    · exact Emits.refl _ _
  have hconfM : ∃ a b, confirmed.2.toMembers =
      { s.toMembers with autoReloadId := id, designActionAutoReload := a,
                         autoReloadTimerActive := b } := by
    simp only [confirmed]
    split
    · obtain ⟨a, b, h⟩ := checkEditorModified_frame env changed.2
      exact ⟨a, b, by rw [h, show changed.2.toMembers = _ from hid]⟩
    · exact ⟨s.designActionAutoReload, s.autoReloadTimerActive, hid⟩
  obtain ⟨a, b, hconfM⟩ := hconfM
  have hs1 : Emits Event.isChecking s s1 := hchE.trans hconfE
  have hfc : Event.fileChangedOnDisk (fileChangedOnDisk env s).1 ∈ eventsSince s s1 :=
    Emits.mem_left hchE hconfE hchM
  have hs1M : s1.toMembers.checkFrame = s.toMembers.checkFrame ∧
      s1.editorText = s.editorText ∧ s1.last_compiled_doc = s.last_compiled_doc := by
    simp only [s1]
    rw [show confirmed.2.editorText = confirmed.2.toMembers.editorText from rfl,
      show confirmed.2.last_compiled_doc = confirmed.2.toMembers.last_compiled_doc from rfl,
      hconfM]
    exact ⟨rfl, rfl, rfl⟩
  have hconf1 : confirmed.1 = true ↔ ((fileChangedOnDisk env s).1 = true ∧
      (checkEditorModified env (fileChangedOnDisk env s).2).1 = true) := by
    simp only [confirmed, changed]
    split
    · next h => simp [h]
    · next h => simp [h]
  cases hc : confirmed.1 with
  | true =>
    have hr : r = (true, refreshDocument env confirmed.2) := by
      simp only [r, hc, if_true]
    simp only [should, s2, hr, if_true]
    obtain ⟨text, hrf⟩ := refreshDocument_frame env confirmed.2
    obtain ⟨hrE, hrM⟩ := refreshDocument_emits env confirmed.2
    refine ⟨hs1.trans hrE, ?_, Emits.mem_left hs1 hrE hfc, fun _ _ => ⟨trivial, ?_⟩, ?_⟩
    · rw [hrf, hconfM]; rfl
    · exact Emits.mem_right hs1 hrE hrM
    · intro hna
      exact absurd (hconf1.mp hc) hna
  | false =>
    have hna : ¬((fileChangedOnDisk env s).1 = true ∧
        (checkEditorModified env (fileChangedOnDisk env s).2).1 = true) := by
      rw [← hconf1, hc]; simp
    by_cases hp : s.editorText ≠ s.last_compiled_doc ∧ s.last_compiled_doc.length = 0
    · have hr : r = (true, s1) := by
        have hp' : current_doc ≠ s1.last_compiled_doc ∧ s1.last_compiled_doc.length = 0 := by
          simp only [current_doc]
          rw [hs1M.2.1, hs1M.2.2]; exact hp
        simp only [r, hc, if_true, if_pos hp']
        simp
      simp only [should, s2, hr, if_true]
      exact ⟨hs1, hs1M.1, hfc, fun h1 h2 => absurd ⟨h1, h2⟩ hna,
        fun _ => ⟨hs1M.2.1, fun _ => trivial, fun h => absurd hp h⟩⟩
    · have hr : r = (false, s1) := by
        have hp' : ¬(current_doc ≠ s1.last_compiled_doc ∧ s1.last_compiled_doc.length = 0) := by
          simp only [current_doc]
          rw [hs1M.2.1, hs1M.2.2]; exact hp
        simp only [r, hc, if_true, if_neg hp']
        simp
      simp only [should, s2, hr]
      cases hm : s1.root_module with
      | none =>
        simp only [Bool.false_eq_true, if_false]
        exact ⟨hs1, hs1M.1, hfc, fun h1 h2 => absurd ⟨h1, h2⟩ hna,
          fun _ => ⟨hs1M.2.1, fun h => absurd h hp, fun _ h => by simp at h⟩⟩
      | some m =>
        simp only [Bool.false_eq_true, if_false]
        have hlog : Emits Event.isChecking s1
            (log { s1 with world := (env.includesChanged m s1.world).2 }
              (Event.includesChanged (env.includesChanged m s1.world).1)) :=
          Emits.of_left (Emits.log _ _ rfl) rfl
        refine ⟨hs1.trans hlog, hs1M.1, Emits.mem_left hs1 hlog hfc,
          fun h1 h2 => absurd ⟨h1, h2⟩ hna,
          fun _ => ⟨hs1M.2.1, fun h => absurd h hp, fun _ h => ?_⟩⟩
        have h' : (env.includesChanged m s1.world).1 = true := h
        rw [← h']
        exact mem_eventsSince_of_log
          (hs1.of_right (t := { s1 with world := (env.includesChanged m s1.world).2 }) rfl)
          (Emits.refl Event.isChecking _)

/-! ## The recompilation step -/

@[simp] theorem updateCamera_toMembers (env : Env C) (s : MainWindow C) :
    (updateCamera env s).toMembers = s.toMembers := by
  unfold updateCamera; split <;> rfl

theorem updateCamera_emits (P : Event → Bool) [OutputClosed P] (env : Env C)
    (s : MainWindow C) : Emits P s (updateCamera env s) := by
  unfold updateCamera; split
  · exact Emits.refl _ _
  · exact callHelper_emits P env _ s

/-- What `compileTopLevelDocument` does: the editor text becomes
`last_compiled_doc`, the old module is dropped and `root_module` is whatever
`parse` returned. -/
theorem compileTopLevelDocument_spec (env : Env C) (s : MainWindow C) :
    ∃ (m : Option C.FileModule) (pos : Int),
      (compileTopLevelDocument env s).toMembers =
        { s.toMembers with last_compiled_doc := s.editorText, root_module := m,
                           parser_error_pos := pos } ∧
      Emits (Event.isRecompilingWith m.isSome) s (compileTopLevelDocument env s) ∧
      Event.compileTopLevelDocument ∈ eventsSince s (compileTopLevelDocument env s) ∧
      Event.parse m.isSome ∈ eventsSince s (compileTopLevelDocument env s) := by
  unfold compileTopLevelDocument
  lift_lets
  intro s1 s2 s3 s4 fulltext s5 s6 r s7
  intros
  have h6 : ∀ ok, Emits (Event.isRecompilingWith ok) s s6 := fun ok =>
    (Emits.log s Event.compileTopLevelDocument rfl).trans <|
      (callHelper_emits _ env Helper.updateTemporalVariables _).trans <|
      (callHelper_emits _ env Helper.resetPrintedDeprecations _).trans <|
      (Emits.of_left (callHelper_emits _ env Helper.deleteModule s4) rfl).of_right rfl
  have h7 : Emits (Event.isRecompilingWith r.1.1.isSome) s6 s7 :=
    Emits.of_left (Emits.log _ (Event.parse r.1.1.isSome)
      (by simp [Event.isRecompilingWith])) rfl
  have h8 : Emits (Event.isRecompilingWith r.1.1.isSome) s7 (updateCamera env s7) :=
    updateCamera_emits _ env s7
  refine ⟨r.1.1, r.1.2, ?_, (h6 _).trans (h7.trans h8), ?_, ?_⟩
  · rw [updateCamera_toMembers]
    simp [s7, s6, s5, s4, s3, s2, s1]
  · exact mem_eventsSince_of_log (Emits.refl Event.isOutput s)
      (((callHelper_emits (Event.isRecompilingWith r.1.1.isSome) env
          Helper.updateTemporalVariables _).trans <|
        (callHelper_emits _ env Helper.resetPrintedDeprecations _).trans <|
        (Emits.of_left (callHelper_emits _ env Helper.deleteModule s4) rfl).of_right
          (t := s6) rfl).trans (h7.trans h8))
  · exact mem_eventsSince_of_log
      ((h6 r.1.1.isSome).of_right
        (t := { s6 with world := r.2, root_module := r.1.1, parser_error_pos := r.1.2 }) rfl)
      h8

theorem isDependency_isRecompilingWith (ok : Bool) (e : Event) (h : e.isDependency = true) :
    e.isRecompilingWith ok = true := by
  cases e <;> simp_all [Event.isRecompilingWith, Event.isDependency, Event.isOutput]

/-- The dependency check: the members stay as they are, and `didcompile` is set
exactly when `handleDependencies` reported a change. -/
theorem compile_handleDependencies_spec (env : Env C) (didcompile : Bool) (s : MainWindow C) :
    (compile_handleDependencies env didcompile s).2.toMembers = s.toMembers ∧
    Emits Event.isDependency s (compile_handleDependencies env didcompile s).2 ∧
    (didcompile = true → (compile_handleDependencies env didcompile s).1 = true) ∧
    ((compile_handleDependencies env didcompile s).1 = true → didcompile = false →
      Event.handleDependencies true ∈
        eventsSince s (compile_handleDependencies env didcompile s).2) ∧
    (Event.handleDependencies true ∈
        eventsSince s (compile_handleDependencies env didcompile s).2 →
      (compile_handleDependencies env didcompile s).1 = true) := by
  unfold compile_handleDependencies
  split
  · next m hm =>
    lift_lets
    intro dep s1
    have h1 : Emits Event.isDependency s s1 := Emits.of_left (Emits.log _ _ rfl) rfl
    have hmem : Event.handleDependencies dep.1 ∈ eventsSince s s1 :=
      mem_eventsSince_of_log (Emits.of_trace_eq (P := Event.isDependency)
        (show ({ s with world := dep.2 } : MainWindow C).trace = s.trace from rfl))
        (Emits.refl Event.isDependency _)
    cases hd : dep.1 with
    | true =>
      simp only [if_true]
      have h2 := PRINTB_emits Event.isDependency env "Module cache size: %d modules"
        [toString (env.moduleCacheSize s1.world)] s1
      refine ⟨by rw [PRINTB_toMembers]; rfl, h1.trans h2, fun _ => trivial, fun _ _ => ?_,
        fun _ => trivial⟩
      rw [← hd]
      exact Emits.mem_left h1 h2 hmem
    | false =>
      simp only [Bool.false_eq_true, if_false]
      refine ⟨rfl, h1, fun h => h, fun h h' => by simp [h'] at h, fun h => ?_⟩
      have hev : eventsSince s s1 = [Event.handleDependencies dep.1] :=
        eventsSince_eq (show s1.trace = s.trace ++ [_] from rfl)
      rw [hev, hd] at h
      simp at h
  · exact ⟨rfl, Emits.refl _ _, fun h => h, fun h h' => by simp [h'] at h, fun h => by
      simp [eventsSince] at h⟩

/-- The recompilation step when the top-level document is compiled. -/
theorem compile_didcompile_true (env : Env C) (s : MainWindow C) :
    ∃ (m : Option C.FileModule) (pos : Int),
      (compile_didcompile env true s).1 = true ∧
      (compile_didcompile env true s).2.toMembers =
        { s.toMembers with last_compiled_doc := s.editorText, root_module := m,
                           parser_error_pos := pos } ∧
      Emits (Event.isRecompilingWith m.isSome) s (compile_didcompile env true s).2 ∧
      Event.compileTopLevelDocument ∈ eventsSince s (compile_didcompile env true s).2 ∧
      Event.parse m.isSome ∈ eventsSince s (compile_didcompile env true s).2 := by
  unfold compile_didcompile
  lift_lets
  intro s1 s2 r
  intros
  have h2 : ∀ ok, Emits (Event.isRecompilingWith ok) s s2 := fun ok => by
    refine (Emits.log s Event.consoleClear rfl).trans ?_
    simp only [s2]
    split
    · exact callHelper_emits _ env _ _
    · exact Emits.refl _ _
  have e2 : s2.toMembers = s.toMembers := by
    simp only [s2]
    split <;> rfl
  obtain ⟨m, pos, hM, hE, hc, hp⟩ := compileTopLevelDocument_spec env s2
  obtain ⟨dM, dE, dd, -, -⟩ := compile_handleDependencies_spec env true
    (compileTopLevelDocument env s2)
  have hr : r = (true, compileTopLevelDocument env s2) := by simp [r]
  rw [hr]
  refine ⟨m, pos, dd rfl, ?_, ?_, ?_, ?_⟩
  · rw [dM, hM, e2]
  · exact (h2 _).trans (hE.trans (dE.mono (isDependency_isRecompilingWith _)))
  · exact Emits.mem_left ((h2 m.isSome).trans hE) dE (Emits.mem_right (h2 m.isSome) hE hc)
  · exact Emits.mem_left ((h2 m.isSome).trans hE) dE (Emits.mem_right (h2 m.isSome) hE hp)

/-- The recompilation step when the top-level document is not compiled: only
the dependency check runs. -/
theorem compile_didcompile_false (env : Env C) (s : MainWindow C) :
    (compile_didcompile env false s).2.toMembers = s.toMembers ∧
    Emits Event.isDependency s (compile_didcompile env false s).2 ∧
    ((compile_didcompile env false s).1 = true →
      Event.handleDependencies true ∈ eventsSince s (compile_didcompile env false s).2) := by
  obtain ⟨dM, dE, -, dd, -⟩ := compile_handleDependencies_spec env false s
  exact ⟨dM, dE, fun h => dd h rfl⟩

/-! ## `compile` as a whole -/

theorem isChecking_isUpstream (e : Event) (h : e.isChecking = true) : e.isUpstream = true := by
  cases e <;> simp_all [Event.isUpstream, Event.isChecking, Event.isOutput]

theorem isRecompilingWith_isUpstream (ok : Bool) (e : Event)
    (h : e.isRecompilingWith ok = true) : e.isUpstream = true := by
  cases ok <;> cases e <;>
    simp_all [Event.isUpstream, Event.isRecompilingWith, Event.isDependency, Event.isChecking,
      Event.isOutput]

theorem isDependency_isUpstream (e : Event) (h : e.isDependency = true) :
    e.isUpstream = true :=
  isRecompilingWith_isUpstream true e (isDependency_isRecompilingWith true e h)

theorem isRenderWith_isTail (threw : Bool) (e : Event) (h : e.isRenderWith threw = true) :
    e.isTail = true := by
  cases threw <;> cases e <;>
    simp_all [Event.isTail, Event.isDownstream, Event.isRenderWith, Event.isProducts,
      Event.isOutput]

theorem isEnding_isTail (e : Event) (h : e.isEnding = true) : e.isTail = true :=
  isRenderWith_isTail false e (isEnding_isRenderWith false e h)

/-- An event outside the class of the second part of a run happened in the
first part. -/
theorem mem_eventsSince_left_iff {P Q : Event → Bool} {s m t : MainWindow C} {e : Event}
    (h₁ : Emits P s m) (h₂ : Emits Q m t) (hQ : Q e = false) :
    e ∈ eventsSince s t ↔ e ∈ eventsSince s m := by
  rw [eventsSince_append h₁ h₂, List.mem_append]
  constructor
  · rintro (h | h)
    · exact h
    · have := h₂.forall_mem e h
      rw [hQ] at this
      cases this
  · exact Or.inl

/-- An event outside the class of the first part of a run happened in the
second part. -/
theorem mem_eventsSince_right_iff {P Q : Event → Bool} {s m t : MainWindow C} {e : Event}
    (h₁ : Emits P s m) (h₂ : Emits Q m t) (hP : P e = false) :
    e ∈ eventsSince s t ↔ e ∈ eventsSince m t := by
  rw [eventsSince_append h₁ h₂, List.mem_append]
  constructor
  · rintro (h | h)
    · have := h₁.forall_mem e h
      rw [hP] at this
      cases this
    · exact h
  · exact Or.inr

theorem Emits.not_mem {P : Event → Bool} {s t : MainWindow C} {e : Event}
    (h : Emits P s t) (hP : P e = false) : e ∉ eventsSince s t := by
  intro he
  have := h.forall_mem e he
  rw [hP] at this
  cases this

theorem compile_eq (env : Env C) (reload forcedone : Bool) (s : MainWindow C) :
    compile env reload forcedone s =
      if compile_waits env reload (compile_didcompileValue env reload s)
          (compile_atDependencyTest env reload s) then
        some (log { compile_atDependencyTest env reload s with
                    waitAfterReloadTimerActive := true } Event.waitAfterReloadTimerStart)
      else
        compileDone env (compile_didcompileValue env reload s || forcedone)
          (compile_highlightError reload (compile_didcompileValue env reload s)
            (compile_atDependencyTest env reload s)) := rfl

theorem compile_highlightError_spec (reload didcompile : Bool) (s : MainWindow C) :
    (compile_highlightError reload didcompile s).toMembers = s.toMembers ∧
    (compile_highlightError reload didcompile s).world = s.world ∧
    Emits Event.isTail s (compile_highlightError reload didcompile s) ∧
    (reload = true → compile_highlightError reload didcompile s = s) := by
  unfold compile_highlightError
  split
  · next h =>
    split
    · lift_lets
      intro s1
      split
      · exact ⟨rfl, rfl, (Emits.log s Event.unhighlightLastError rfl).trans
          (Emits.log _ _ rfl), fun hr => by simp [hr] at h⟩
      · exact ⟨rfl, rfl, Emits.log s Event.unhighlightLastError rfl,
          fun hr => by simp [hr] at h⟩
    · exact ⟨rfl, rfl, Emits.refl _ _, fun _ => rfl⟩
  · exact ⟨rfl, rfl, Emits.refl _ _, fun _ => rfl⟩

/-- Every call of `compile` returns, and what it does after the dependency
test is a timer start or a run of `compileDone`. -/
theorem compile_tail (env : Env C) (reload forcedone : Bool) (s : MainWindow C) :
    ∃ t, compile env reload forcedone s = some t ∧
      Emits Event.isTail (compile_atDependencyTest env reload s) t := by
  rw [compile_eq]
  split
  · exact ⟨_, rfl, Emits.of_left (Emits.log _ Event.waitAfterReloadTimerStart rfl) rfl⟩
  · obtain ⟨-, -, hh, -⟩ := compile_highlightError_spec reload
      (compile_didcompileValue env reload s) (compile_atDependencyTest env reload s)
    cases hd : (compile_didcompileValue env reload s || forcedone) with
    | true =>
      obtain ⟨t, threw, hrun, hem, -⟩ := compileDone_true env
        (compile_highlightError reload (compile_didcompileValue env reload s)
          (compile_atDependencyTest env reload s))
      exact ⟨t, hrun, hh.trans (hem.mono (isRenderWith_isTail threw))⟩
    | false =>
      obtain ⟨t, hrun, hem, -⟩ := compileDone_false env
        (compile_highlightError reload (compile_didcompileValue env reload s)
          (compile_atDependencyTest env reload s))
      exact ⟨t, hrun, hh.trans (hem.mono isEnding_isTail)⟩

/-- The part of `compile` before the dependency test emits upstream events
only. -/
theorem compile_upstream (env : Env C) (reload : Bool) (s : MainWindow C) :
    Emits Event.isUpstream s (compile_atDependencyTest env reload s) := by
  unfold compile_atDependencyTest
  have h1 : Emits Event.isUpstream s (compile_shouldcompiletoplevel env reload s).2 := by
    cases reload
    · rw [compile_shouldcompiletoplevel_false]; exact Emits.refl _ _
    · exact (compile_shouldcompiletoplevel_true env s).1.mono isChecking_isUpstream
  refine h1.trans ?_
  cases (compile_shouldcompiletoplevel env reload s).1
  · exact (compile_didcompile_false env _).2.1.mono isDependency_isUpstream
  · obtain ⟨m, pos, -, -, hE, -⟩ := compile_didcompile_true env
      (compile_shouldcompiletoplevel env reload s).2
    exact hE.mono (isRecompilingWith_isUpstream _)

theorem compile_shouldcompiletoplevel_emits (env : Env C) (reload : Bool) (s : MainWindow C) :
    Emits Event.isChecking s (compile_shouldcompiletoplevel env reload s).2 ∧
    (compile_shouldcompiletoplevel env reload s).2.toMembers.checkFrame =
      s.toMembers.checkFrame := by
  cases reload
  · rw [compile_shouldcompiletoplevel_false]; exact ⟨Emits.refl _ _, rfl⟩
  · exact ⟨(compile_shouldcompiletoplevel_true env s).1,
      (compile_shouldcompiletoplevel_true env s).2.1⟩

/-- The run of `compile` up to the dependency test when the top-level document
is compiled: `didcompile` is set, `last_compiled_doc` is the text that was in
the editor, and `root_module` is what `parse` returned. -/
theorem compile_recompiled (env : Env C) (reload : Bool) (s : MainWindow C)
    (h : (compile_shouldcompiletoplevel env reload s).1 = true) :
    compile_didcompileValue env reload s = true ∧
    ∃ (m : Option C.FileModule) (pos : Int),
      (compile_atDependencyTest env reload s).toMembers =
        { (compile_shouldcompiletoplevel env reload s).2.toMembers with
            last_compiled_doc := (compile_shouldcompiletoplevel env reload s).2.editorText,
            root_module := m, parser_error_pos := pos } ∧
      Emits (fun e => e.isChecking || e.isRecompilingWith m.isSome) s
        (compile_atDependencyTest env reload s) ∧
      Event.compileTopLevelDocument ∈ eventsSince s (compile_atDependencyTest env reload s) ∧
      Event.parse m.isSome ∈ eventsSince s (compile_atDependencyTest env reload s) := by
  obtain ⟨h1E, -⟩ := compile_shouldcompiletoplevel_emits env reload s
  obtain ⟨m, pos, hd, hM, hE, hc, hp⟩ := compile_didcompile_true env
    (compile_shouldcompiletoplevel env reload s).2
  unfold compile_didcompileValue compile_atDependencyTest
  rw [h]
  exact ⟨hd, m, pos, hM,
    (h1E.mono (fun e h => by simp [h])).trans (hE.mono (fun e h => by simp [h])),
    Emits.mem_right h1E hE hc, Emits.mem_right h1E hE hp⟩

/-- The run of `compile` up to the dependency test when the top-level document
is not compiled: only the dependency check can set `didcompile`. -/
theorem compile_not_recompiled (env : Env C) (reload : Bool) (s : MainWindow C)
    (h : (compile_shouldcompiletoplevel env reload s).1 = false) :
    (compile_atDependencyTest env reload s).toMembers =
      (compile_shouldcompiletoplevel env reload s).2.toMembers ∧
    Emits (fun e => e.isChecking || e.isDependency) s (compile_atDependencyTest env reload s) ∧
    (compile_didcompileValue env reload s = true →
      Event.handleDependencies true ∈ eventsSince s (compile_atDependencyTest env reload s)) := by
  obtain ⟨h1E, -⟩ := compile_shouldcompiletoplevel_emits env reload s
  obtain ⟨hM, hE, hd⟩ := compile_didcompile_false env
    (compile_shouldcompiletoplevel env reload s).2
  unfold compile_didcompileValue compile_atDependencyTest
  rw [h]
  exact ⟨hM, (h1E.mono (fun e h => by simp [h])).trans (hE.mono (fun e h => by simp [h])),
    fun h' => Emits.mem_right h1E hE (hd h')⟩

/-- The top-level document was compiled exactly when `shouldcompiletoplevel`
was set. -/
theorem compile_recompiled_iff (env : Env C) (reload : Bool) (s : MainWindow C) :
    Event.compileTopLevelDocument ∈ eventsSince s (compile_atDependencyTest env reload s) ↔
      (compile_shouldcompiletoplevel env reload s).1 = true := by
  constructor
  · intro hmem
    cases h : (compile_shouldcompiletoplevel env reload s).1 with
    | true => rfl
    | false => exact absurd hmem ((compile_not_recompiled env reload s h).2.1.not_mem rfl)
  · intro h
    obtain ⟨-, m, pos, -, -, hc, -⟩ := compile_recompiled env reload s h
    exact hc

theorem compile_waits_eq (env : Env C) (reload didcompile : Bool) (s : MainWindow C)
    (m : C.FileModule) (hm : s.root_module = some m) :
    compile_waits env reload didcompile s =
      (reload && didcompile && (env.hasIncludes m s.world || env.usesLibraries m s.world)) := by
  unfold compile_waits
  rw [hm]

theorem compile_waits_false (env : Env C) (didcompile : Bool) (s : MainWindow C) :
    compile_waits env false didcompile s = false := by
  unfold compile_waits
  split <;> simp

theorem isUpstream_isWaiting (e : Event) (h : e.isUpstream = true) : e.isWaiting = true := by
  cases e <;> simp_all [Event.isWaiting]

theorem compile_highlightError_upstream (reload didcompile : Bool) (s : MainWindow C) :
    Emits Event.isUpstream s (compile_highlightError reload didcompile s) := by
  unfold compile_highlightError
  split
  · split
    · lift_lets
      intro s1
      split
      · exact (Emits.log s Event.unhighlightLastError rfl).trans (Emits.log _ _ rfl)
      · exact Emits.log s Event.unhighlightLastError rfl
    · exact Emits.refl _ _
  · exact Emits.refl _ _

/-! ## C1: budget enforcement -/

/-- C1 (budget enforcement in `compileCSG`). Entered with a root node and no
OpenCSG renderer, `compileCSG` returns, and whenever the primary term it
holds afterwards is non-null: the OpenCSG renderer is absent exactly when
`root_chain` exists and has more than `openCSGLimit` objects; the
thrown-together renderer exists and holds the very chains `root_chain`,
`highlights_chain` and `background_chain`; and an OpenCSG renderer, when
created, holds the same three chains. -/
theorem compileCSG_budget_enforcement (env : Env C) (procevents : Bool) (s : MainWindow C)
    (root_node : C.AbstractNode) (hroot : s.root_node = some root_node)
    (hentry : s.opencsgRenderer = none) :
    ∃ t, compileCSG env procevents s = some t ∧
      (t.root_raw_term.isSome →
        (t.opencsgRenderer = none ↔
          ∃ chain, t.root_chain = some chain ∧ chain.objects.length > env.openCSGLimit) ∧
        t.thrownTogetherRenderer =
          some (ChainRenderer.mk t.root_chain t.highlights_chain t.background_chain) ∧
        ∀ r, t.opencsgRenderer = some r →
          r = ChainRenderer.mk t.root_chain t.highlights_chain t.background_chain) := by
  refine ⟨compileCSG_body env procevents root_node s, by simp [compileCSG, hroot], ?_⟩
  obtain ⟨threw, mid, -, -, -, ⟨hl, bg, htrue, hfalse⟩, hbody⟩ :=
    compileCSG_body_cases env procevents root_node s
  have hmid : mid.opencsgRenderer = none := by
    show mid.toMembers.opencsgRenderer = none
    cases threw
    · obtain ⟨term, h⟩ := hfalse rfl
      rw [h]; exact hentry
    · rw [htrue rfl]; exact hentry
  rw [hbody]
  cases hraw : mid.root_raw_term with
  | none => simp [hraw]
  | some term =>
    intro _
    simp only []
    obtain ⟨-, h2, h3⟩ := compileCSG_products_renderers env procevents term mid
    refine ⟨?_, h2, ?_⟩
    · rw [h3, hmid, ← openCSGDisabled_iff]
      cases openCSGDisabled env (compileCSG_products env procevents term mid) <;> simp
    · intro r hr
      rw [h3, hmid] at hr
      split at hr
      · cases hr
      · exact (Option.some.inj hr).symm

set_option maxRecDepth 100000 in
/-- C1 witness: limit 100 and a primary term of 150 primitives. -/
theorem compileCSG_budget_enforcement_witness :
    (compileCSG (sampleEnv none (some (some 150)) 100) true
        (sampleWindow { Members.init sampleCarrier with root_node := some 0 })).map
      (fun t => (t.root_raw_term, t.opencsgRenderer.isNone,
        t.thrownTogetherRenderer.map fun r => r.root_chain.map fun c => c.objects.length)) =
      some (some 150, true, some (some 150)) ∧
    ∃ t, compileCSG (sampleEnv none (some (some 150)) 100) true
        (sampleWindow { Members.init sampleCarrier with root_node := some 0 }) = some t ∧
      (t.root_raw_term.isSome →
        (t.opencsgRenderer = none ↔
          ∃ chain, t.root_chain = some chain ∧
            chain.objects.length > (sampleEnv none (some (some 150)) 100).openCSGLimit) ∧
        t.thrownTogetherRenderer =
          some (ChainRenderer.mk t.root_chain t.highlights_chain t.background_chain) ∧
        ∀ r, t.opencsgRenderer = some r →
          r = ChainRenderer.mk t.root_chain t.highlights_chain t.background_chain) :=
  ⟨by decide, compileCSG_budget_enforcement _ true _ 0 rfl rfl⟩

/-! ## C2: root resolution -/

/-- C2 (root resolution in `instantiateRoot`). Whenever instantiation returned a
scene tree, so that `absolute_root_node` holds it afterwards, `root_node` is
the node `find_root_tag` returns on that tree if it returns one and the tree
itself otherwise, and the `Tree` is rooted at that same `root_node`. -/
theorem instantiateRoot_root_resolution (env : Env C) (s : MainWindow C)
    (tree : C.AbstractNode)
    (hinst : (instantiateRoot env s).absolute_root_node = some tree) :
    (∀ tagged, env.find_root_tag tree = some tagged →
      (instantiateRoot env s).root_node = some tagged) ∧
    (env.find_root_tag tree = none → (instantiateRoot env s).root_node = some tree) ∧
    (instantiateRoot env s).tree_root = (instantiateRoot env s).root_node := by
  obtain ⟨r, hr, -⟩ := instantiateRoot_toMembers env s
  have key : ∀ f : Members C → Option C.AbstractNode,
      f (instantiateRoot env s).toMembers = f (instantiatedMembers env r (clearedMembers s.toMembers)) :=
    fun f => by rw [hr]
  have habs := key (fun m => m.absolute_root_node)
  have hroot := key (fun m => m.root_node)
  have htree := key (fun m => m.tree_root)
  simp only [] at habs hroot htree
  change (instantiateRoot env s).absolute_root_node = _ at habs
  change (instantiateRoot env s).root_node = _ at hroot
  change (instantiateRoot env s).tree_root = _ at htree
  rw [hinst] at habs
  cases r with
  | none => simp [instantiatedMembers] at habs
  | some a =>
    simp only [instantiatedMembers] at habs hroot htree
    have ha : tree = a := Option.some.inj habs
    subst ha
    rw [hroot, htree]
    refine ⟨fun tagged h => by simp [h], fun h => by simp [h], rfl⟩

/-- C2 witness: module 13 instantiates to node 13, which holds the tagged
node 3. -/
theorem instantiateRoot_root_resolution_witness :
    (instantiateRoot (sampleEnv none none 0)
        (sampleWindow { Members.init sampleCarrier with root_module := some 13 })).root_node
      = some 3 ∧
    ((∀ tagged, (sampleEnv none none 0).find_root_tag 13 = some tagged →
      (instantiateRoot (sampleEnv none none 0)
        (sampleWindow { Members.init sampleCarrier with root_module := some 13 })).root_node
        = some tagged) ∧
    ((sampleEnv none none 0).find_root_tag 13 = none →
      (instantiateRoot (sampleEnv none none 0)
        (sampleWindow { Members.init sampleCarrier with root_module := some 13 })).root_node
        = some 13) ∧
    (instantiateRoot (sampleEnv none none 0)
        (sampleWindow { Members.init sampleCarrier with root_module := some 13 })).tree_root =
      (instantiateRoot (sampleEnv none none 0)
        (sampleWindow { Members.init sampleCarrier with root_module := some 13 })).root_node) :=
  ⟨by decide, instantiateRoot_root_resolution _ _ 13 (by decide)⟩

/-! ## C4: nothing to recompile -/

/-- C4 (Done(unchanged) skips downstream work). When `compile(true, false)`
compiles no top-level document and no `handleDependencies()` call reports a
change, it ends in `compileDone(false)`: the only slot invoked is
`compileEnded`, neither `instantiateRoot` nor `compileCSG` runs, and
`root_node`, the raw and normalized terms, the three chains and the two
renderers are what they were before the call. -/
theorem compile_nothing_to_recompile (env : Env C) (s : MainWindow C) :
    ∃ t, compile env true false s = some t ∧
      (Event.compileTopLevelDocument ∉ eventsSince s t →
        Event.handleDependencies true ∉ eventsSince s t →
        Event.compileDone false ∈ eventsSince s t ∧
        Event.compileEnded ∈ eventsSince s t ∧
        (∀ slot, Event.invokeMethod slot ∈ eventsSince s t → slot = Slot.compileEnded) ∧
        Event.compileDone true ∉ eventsSince s t ∧
        Event.instantiateRoot ∉ eventsSince s t ∧
        Event.compileCSG ∉ eventsSince s t ∧
        t.root_node = s.root_node ∧
        t.root_raw_term = s.root_raw_term ∧
        t.root_norm_term = s.root_norm_term ∧
        t.root_chain = s.root_chain ∧
        t.highlights_chain = s.highlights_chain ∧
        t.background_chain = s.background_chain ∧
        t.opencsgRenderer = s.opencsgRenderer ∧
        t.thrownTogetherRenderer = s.thrownTogetherRenderer) := by
  obtain ⟨t, hrun, htail⟩ := compile_tail env true false s
  obtain ⟨h1E, h1M, -, -, -⟩ := compile_shouldcompiletoplevel_true env s
  have hup := compile_upstream env true s
  refine ⟨t, hrun, fun hnc hnd => ?_⟩
  -- no top-level compile: `shouldcompiletoplevel` was false
  have hs : (compile_shouldcompiletoplevel env true s).1 = false := by
    cases h : (compile_shouldcompiletoplevel env true s).1 with
    | false => rfl
    | true =>
      exfalso
      apply hnc
      obtain ⟨m, pos, -, -, hE, hc, -⟩ := compile_didcompile_true env
        (compile_shouldcompiletoplevel env true s).2
      refine Emits.mem_left hup htail ?_
      unfold compile_atDependencyTest
      rw [h]
      exact Emits.mem_right h1E hE hc
  obtain ⟨h2M, h2E, h2d⟩ := compile_didcompile_false env
    (compile_shouldcompiletoplevel env true s).2
  have hu : compile_atDependencyTest env true s =
      (compile_didcompile env false (compile_shouldcompiletoplevel env true s).2).2 := by
    unfold compile_atDependencyTest; rw [hs]
  have hdv : compile_didcompileValue env true s =
      (compile_didcompile env false (compile_shouldcompiletoplevel env true s).2).1 := by
    unfold compile_didcompileValue; rw [hs]
  -- no dependency change: `didcompile` stayed false
  have hd : compile_didcompileValue env true s = false := by
    cases h : compile_didcompileValue env true s with
    | false => rfl
    | true =>
      exfalso
      apply hnd
      refine Emits.mem_left hup htail ?_
      rw [hu]
      exact Emits.mem_right h1E h2E (h2d (hdv ▸ h))
  have hw : compile_waits env true false (compile_atDependencyTest env true s) = false := by
    unfold compile_waits
    split <;> simp
  have hrun' : compile env true false s =
      compileDone env false (compile_atDependencyTest env true s) := by
    rw [compile_eq, hd, hw]
    simp [(compile_highlightError_spec true false _).2.2.2 rfl]
  obtain ⟨t', hrun'', hE, hcd, hinv, hce, -, hrs⟩ := compileDone_false env
    (compile_atDependencyTest env true s)
  have ht : t = t' := by
    rw [hrun', hrun''] at hrun
    exact (Option.some.inj hrun).symm
  subst ht
  have h2E' : Emits Event.isDependency (compile_shouldcompiletoplevel env true s).2
      (compile_atDependencyTest env true s) := hu ▸ h2E
  have hall : Emits Event.isIdle s t :=
    ((h1E.mono (fun e h => by simp [Event.isIdle, h])).trans
      (h2E'.mono (fun e h => by simp [Event.isIdle, h]))).trans
      (hE.mono (fun e h => by simp [Event.isIdle, h]))
  have hrs' : t.toMembers.renderState = s.toMembers.renderState := by
    rw [hrs, hu, h2M]
    exact congrArg (fun p => p.1) h1M
  have hfield : ∀ {α : Type} (f : _ → α), f t.toMembers.renderState = f s.toMembers.renderState :=
    fun f => congrArg f hrs'
  refine ⟨Emits.mem_right hup hE hcd, Emits.mem_right hup hE hce, ?_, hall.not_mem rfl,
    hall.not_mem rfl, hall.not_mem rfl, hfield (fun p => p.1), hfield (fun p => p.2.1),
    hfield (fun p => p.2.2.1), hfield (fun p => p.2.2.2.1), hfield (fun p => p.2.2.2.2.1),
    hfield (fun p => p.2.2.2.2.2.1), hfield (fun p => p.2.2.2.2.2.2.1),
    hfield (fun p => p.2.2.2.2.2.2.2)⟩
  intro slot hslot
  have := hall.forall_mem _ hslot
  cases slot <;> first | rfl | (exfalso; revert this; decide)

/-- C4 witness: a window holding the chains of an earlier compile of the text
still in the editor, with no file and no module. -/
theorem compile_nothing_to_recompile_witness :
    ∃ t, compile (sampleEnv none none 0) true false
        (sampleWindow { Members.init sampleCarrier with
          editorText := "cube(1);", last_compiled_doc := "cube(1);", root_node := some 0,
          root_chain := some (CSGChain.mk [0]) }) = some t ∧
      Event.compileDone false ∈ eventsSince (sampleWindow { Members.init sampleCarrier with
          editorText := "cube(1);", last_compiled_doc := "cube(1);", root_node := some 0,
          root_chain := some (CSGChain.mk [0]) }) t ∧
      Event.instantiateRoot ∉ eventsSince (sampleWindow { Members.init sampleCarrier with
          editorText := "cube(1);", last_compiled_doc := "cube(1);", root_node := some 0,
          root_chain := some (CSGChain.mk [0]) }) t ∧
      t.root_chain = some (CSGChain.mk [0]) := by
  obtain ⟨t, ht, h⟩ := compile_nothing_to_recompile (sampleEnv none none 0)
    (sampleWindow { Members.init sampleCarrier with
      editorText := "cube(1);", last_compiled_doc := "cube(1);", root_node := some 0,
      root_chain := some (CSGChain.mk [0]) })
  have hyp : ∀ u ∈ compile (sampleEnv none none 0) true false
      (sampleWindow { Members.init sampleCarrier with
        editorText := "cube(1);", last_compiled_doc := "cube(1);", root_node := some 0,
        root_chain := some (CSGChain.mk [0]) }),
      Event.compileTopLevelDocument ∉ eventsSince (sampleWindow { Members.init sampleCarrier with
        editorText := "cube(1);", last_compiled_doc := "cube(1);", root_node := some 0,
        root_chain := some (CSGChain.mk [0]) }) u ∧
      Event.handleDependencies true ∉ eventsSince (sampleWindow { Members.init sampleCarrier with
        editorText := "cube(1);", last_compiled_doc := "cube(1);", root_node := some 0,
        root_chain := some (CSGChain.mk [0]) }) u := by
    decide
  obtain ⟨h1, h2⟩ := hyp t ht
  obtain ⟨hd, -, -, -, hi, -, -, -, -, hc, -⟩ := h h1 h2
  exact ⟨t, ht, hd, hi, hc⟩

/-! ## C5: entry into the dependency wait -/

set_option maxRecDepth 100000 in
/-- C5 fails as stated: an explicit compile (`reload = false`) that parses the
document into a module with includes does not start `waitAfterReloadTimer`;
it goes on to `compileDone(true)`. -/
theorem compile_explicit_skips_dependency_wait :
    (compile (sampleEnv (some 1) (some (some 1)) 0) false false
      (sampleWindow (Members.init sampleCarrier))).isSome = true ∧
    ∀ t ∈ compile (sampleEnv (some 1) (some (some 1)) 0) false false
        (sampleWindow (Members.init sampleCarrier)),
      Event.compileTopLevelDocument ∈ eventsSince (sampleWindow (Members.init sampleCarrier)) t ∧
      t.root_module = some 1 ∧
      (sampleEnv (some 1) (some (some 1)) 0).hasIncludes 1 t.world = true ∧
      Event.waitAfterReloadTimerStart ∉ eventsSince (sampleWindow (Members.init sampleCarrier)) t ∧
      t.waitAfterReloadTimerActive = false ∧
      Event.compileDone true ∈ eventsSince (sampleWindow (Members.init sampleCarrier)) t := by
  decide

/-- C5 as amended. After a `compile(true, forcedone)` call that compiled the
top-level document into a module `m`: the call started `waitAfterReloadTimer`
exactly when `m` has includes or uses libraries at the dependency test; if it
did, the timer is pending and `compileDone` was not called; if it did not,
`compileDone(true)` was called. A `compile(false, forcedone)` call always
compiles the document and calls `compileDone(true)` without starting the
timer. -/
theorem compile_dependency_wait (env : Env C) (forcedone : Bool) (s : MainWindow C) :
    (∃ t, compile env true forcedone s = some t ∧
      (Event.compileTopLevelDocument ∈ eventsSince s t →
        ∀ m, t.root_module = some m →
          (Event.waitAfterReloadTimerStart ∈ eventsSince s t ↔
            (env.hasIncludes m (compile_atDependencyTest env true s).world ||
              env.usesLibraries m (compile_atDependencyTest env true s).world) = true) ∧
          (Event.waitAfterReloadTimerStart ∈ eventsSince s t →
            t.waitAfterReloadTimerActive = true ∧
            ∀ b, Event.compileDone b ∉ eventsSince s t) ∧
          (Event.waitAfterReloadTimerStart ∉ eventsSince s t →
            Event.compileDone true ∈ eventsSince s t))) ∧
    (∃ t, compile env false forcedone s = some t ∧
      Event.compileTopLevelDocument ∈ eventsSince s t ∧
      Event.compileDone true ∈ eventsSince s t ∧
      Event.waitAfterReloadTimerStart ∉ eventsSince s t) := by
  constructor
  · have hup := compile_upstream env true s
    by_cases hs : (compile_shouldcompiletoplevel env true s).1 = true
    · obtain ⟨hd, -⟩ := compile_recompiled env true s hs
      rw [compile_eq, hd]
      split
      · next hw =>
        -- the timer is started
        refine ⟨_, rfl, fun _ m hm => ?_⟩
        have hm' : (compile_atDependencyTest env true s).root_module = some m := hm
        have hw' := hw
        rw [compile_waits_eq env true true _ m hm'] at hw'
        have hlog : Emits Event.isWaiting (compile_atDependencyTest env true s)
            (log { compile_atDependencyTest env true s with
              waitAfterReloadTimerActive := true } Event.waitAfterReloadTimerStart) :=
          Emits.of_left (Emits.log _ _ rfl) rfl
        have hmem : Event.waitAfterReloadTimerStart ∈ eventsSince s
            (log { compile_atDependencyTest env true s with
              waitAfterReloadTimerActive := true } Event.waitAfterReloadTimerStart) :=
          mem_eventsSince_of_log (hup.of_right
            (t := { compile_atDependencyTest env true s with
              waitAfterReloadTimerActive := true }) rfl) (Emits.refl Event.isWaiting _)
        refine ⟨⟨fun _ => by simpa using hw', fun _ => hmem⟩, fun _ => ⟨rfl, fun b => ?_⟩,
          fun h => absurd hmem h⟩
        exact ((hup.mono isUpstream_isWaiting).trans hlog).not_mem rfl
      · next hw =>
        -- `compileDone(true)` is called
        rw [(compile_highlightError_spec true true _).2.2.2 rfl]
        simp only [Bool.true_or]
        obtain ⟨t, threw, hrun, hem, hcd, -, -, hdoc, -⟩ := compileDone_true env
          (compile_atDependencyTest env true s)
        refine ⟨t, hrun, fun _ m hm => ?_⟩
        have hmod : t.root_module = (compile_atDependencyTest env true s).root_module :=
          congrArg (fun p => p.2.2.2.2.1) hdoc
        have hm' : (compile_atDependencyTest env true s).root_module = some m := by
          rw [← hmod]; exact hm
        have hw' : compile_waits env true true (compile_atDependencyTest env true s) = false := by
          simpa using hw
        rw [compile_waits_eq env true true _ m hm'] at hw'
        have hnot : Event.waitAfterReloadTimerStart ∉ eventsSince s t :=
          ((hup.mono (fun e h => by simp [h]) :
              Emits (fun e => e.isUpstream || e.isRenderWith threw) s _).trans
            (hem.mono (fun e h => by simp [h]))).not_mem (by cases threw <;> rfl)
        refine ⟨⟨fun h => absurd h hnot, fun h => ?_⟩, fun h => absurd h hnot,
          fun _ => Emits.mem_right hup hem hcd⟩
        simp at hw'
        simp [hw'] at h
    · -- nothing was compiled: the hypothesis fails
      obtain ⟨t, hrun, htail⟩ := compile_tail env true forcedone s
      refine ⟨t, hrun, fun hc => ?_⟩
      have hc' := (mem_eventsSince_left_iff hup htail
        (e := Event.compileTopLevelDocument) rfl).mp hc
      exact absurd ((compile_recompiled_iff env true s).mp hc') hs
  · have hup := compile_upstream env false s
    obtain ⟨hd, m, pos, -, -, hc, -⟩ := compile_recompiled env false s rfl
    rw [compile_eq, compile_waits_false, hd]
    simp only [Bool.false_eq_true, if_false, Bool.true_or]
    have hpre : Emits Event.isUpstream s
        (compile_highlightError false true (compile_atDependencyTest env false s)) :=
      hup.trans (compile_highlightError_upstream false true _)
    obtain ⟨t, threw, hrun, hem, hcd, -⟩ := compileDone_true env
      (compile_highlightError false true (compile_atDependencyTest env false s))
    refine ⟨t, hrun, ?_, Emits.mem_right hpre hem hcd, ?_⟩
    · exact Emits.mem_left hpre hem
        (Emits.mem_left hup (compile_highlightError_upstream false true _) hc)
    · exact ((hpre.mono (fun e h => by simp [h]) :
          Emits (fun e => e.isUpstream || e.isRenderWith threw) s _).trans
        (hem.mono (fun e h => by simp [h]))).not_mem (by cases threw <;> rfl)

set_option maxRecDepth 100000 in
/-- C5 witness: an auto-reload compile of a never-compiled text that parses
into module 1, which has includes. -/
theorem compile_dependency_wait_witness :
    ∃ t, compile (sampleEnv (some 1) (some (some 1)) 0) true false
        (sampleWindow { Members.init sampleCarrier with editorText := "include <a.scad>" })
        = some t ∧
      Event.waitAfterReloadTimerStart ∈ eventsSince
        (sampleWindow { Members.init sampleCarrier with editorText := "include <a.scad>" }) t ∧
      t.waitAfterReloadTimerActive = true ∧
      ∀ b, Event.compileDone b ∉ eventsSince
        (sampleWindow { Members.init sampleCarrier with editorText := "include <a.scad>" }) t := by
  obtain ⟨⟨t, ht, h⟩, -⟩ := compile_dependency_wait (sampleEnv (some 1) (some (some 1)) 0) false
    (sampleWindow { Members.init sampleCarrier with editorText := "include <a.scad>" })
  have hyp : ∀ u ∈ compile (sampleEnv (some 1) (some (some 1)) 0) true false
      (sampleWindow { Members.init sampleCarrier with editorText := "include <a.scad>" }),
      Event.compileTopLevelDocument ∈ eventsSince
        (sampleWindow { Members.init sampleCarrier with editorText := "include <a.scad>" }) u ∧
      u.root_module = some 1 := by
    decide
  obtain ⟨h1, h2⟩ := hyp t ht
  obtain ⟨hiff, hw, -⟩ := h h1 1 h2
  have hinc : ((sampleEnv (some 1) (some (some 1)) 0).hasIncludes 1
      (compile_atDependencyTest (sampleEnv (some 1) (some (some 1)) 0) true
        (sampleWindow { Members.init sampleCarrier with
          editorText := "include <a.scad>" })).world ||
      (sampleEnv (some 1) (some (some 1)) 0).usesLibraries 1
      (compile_atDependencyTest (sampleEnv (some 1) (some (some 1)) 0) true
        (sampleWindow { Members.init sampleCarrier with
          editorText := "include <a.scad>" })).world) = true := by
    decide
  exact ⟨t, ht, hiff.mpr hinc, hw (hiff.mpr hinc)⟩

/-! ## C6: the dependency cascade in `waitAfterReload` -/

set_option maxRecDepth 100000 in
/-- C6 fails as stated: with the file on disk, the includes and the
dependencies all unchanged, `waitAfterReload` still does not reach
`compileDone` when the editor holds a text that was never compiled; the text
is compiled into a module with includes and the timer is started again. -/
theorem waitAfterReload_uncompiled_text_rearms :
    (waitAfterReload (sampleEnv (some 1) (some (some 1)) 0) sampleWaiting).isSome = true ∧
    ∀ t ∈ waitAfterReload (sampleEnv (some 1) (some (some 1)) 0) sampleWaiting,
      Event.fileChangedOnDisk false ∈ eventsSince sampleWaiting t ∧
      Event.fileChangedOnDisk true ∉ eventsSince sampleWaiting t ∧
      Event.includesChanged true ∉ eventsSince sampleWaiting t ∧
      Event.handleDependencies true ∉ eventsSince sampleWaiting t ∧
      (∀ b, Event.compileDone b ∉ eventsSince sampleWaiting t) ∧
      Event.waitAfterReloadTimerStart ∈ eventsSince sampleWaiting t := by
  decide

/-- C6 as amended. In `waitAfterReload`, when `handleDependencies()` reports a
change the timer is started again and nothing else happens: no other member
changes. When it reports none, `compile(true, true)` runs; if in that call
the file on disk is unchanged, the editor text is not awaiting its first
compile, no include changed and no dependency changed, the call ends in
`compileDone(true)`, which runs `instantiateRoot` and the continuation
slot. -/
theorem waitAfterReload_cascade (env : Env C) (s : MainWindow C) (m : C.FileModule)
    (hm : s.root_module = some m) :
    ((env.handleDependencies m s.world).1 = true →
      ∃ t, waitAfterReload env s = some t ∧
        eventsSince s t = [Event.handleDependencies true, Event.waitAfterReloadTimerStart] ∧
        t.toMembers = { s.toMembers with waitAfterReloadTimerActive := true } ∧
        t.world = (env.handleDependencies m s.world).2) ∧
    ((env.handleDependencies m s.world).1 = false →
      ∃ t, waitAfterReload env s = some t ∧
        Event.handleDependencies false ∈ eventsSince s t ∧
        (¬(s.editorText ≠ s.last_compiled_doc ∧ s.last_compiled_doc.length = 0) →
          Event.fileChangedOnDisk true ∉ eventsSince s t →
          Event.includesChanged true ∉ eventsSince s t →
          Event.handleDependencies true ∉ eventsSince s t →
          Event.compileDone true ∈ eventsSince s t ∧
          Event.instantiateRoot ∈ eventsSince s t ∧
          Event.invokeMethod s.afterCompileSlot ∈ eventsSince s t)) := by
  constructor
  · intro hdep
    refine ⟨log { log { s with world := (env.handleDependencies m s.world).2,
                                waitAfterReloadTimerActive := false }
                        (Event.handleDependencies true) with
                  waitAfterReloadTimerActive := true } Event.waitAfterReloadTimerStart,
      ?_, ?_, rfl, rfl⟩
    · unfold waitAfterReload
      simp only [hm, hdep, if_true]
    · simp [eventsSince, log]
  · intro hdep
    -- the state in which `compile(true, true)` is entered
    have hrun : waitAfterReload env s =
        compile env true true
          (log { s with world := (env.handleDependencies m s.world).2,
                        waitAfterReloadTimerActive := false }
            (Event.handleDependencies false)) := by
      unfold waitAfterReload
      simp only [hm, hdep, Bool.false_eq_true, if_false]
    generalize hs' : (log { s with
        world := (env.handleDependencies m s.world).2,
        waitAfterReloadTimerActive := false } (Event.handleDependencies false)) = s' at hrun
    have h0 : Emits Event.isDependency s s' := by
      rw [← hs']; exact Emits.of_left (Emits.log _ _ rfl) rfl
    have h0mem : Event.handleDependencies false ∈ eventsSince s s' := by
      rw [← hs']
      exact mem_eventsSince_of_log (Emits.of_trace_eq (P := Event.isDependency)
        (show ({ s with
            world := (env.handleDependencies m s.world).2,
            waitAfterReloadTimerActive := false } : MainWindow C).trace = s.trace
          from rfl)) (Emits.refl Event.isDependency _)
    have hdoc' : s'.editorText = s.editorText ∧ s'.last_compiled_doc = s.last_compiled_doc ∧
        s'.afterCompileSlot = s.afterCompileSlot := by
      rw [← hs']; exact ⟨rfl, rfl, rfl⟩
    obtain ⟨t, hrun2, htail⟩ := compile_tail env true true s'
    have hup := compile_upstream env true s'
    obtain ⟨h1E, h1M, hfc, -, hb⟩ := compile_shouldcompiletoplevel_true env s'
    have hall : Emits (fun _ => true) s' t :=
      (hup.mono (fun _ _ => rfl)).trans (htail.mono (fun _ _ => rfl))
    refine ⟨t, hrun.trans hrun2, Emits.mem_left h0 hall h0mem, fun hnp hnf hni hnd => ?_⟩
    have sub : ∀ e, e ∈ eventsSince s' t → e ∈ eventsSince s t :=
      fun e he => Emits.mem_right h0 hall he
    have sub' : ∀ e, e ∈ eventsSince s' (compile_atDependencyTest env true s') →
        e ∈ eventsSince s t := fun e he => sub e (Emits.mem_left hup htail he)
    have h2E : Emits Event.isUpstream (compile_shouldcompiletoplevel env true s').2
        (compile_atDependencyTest env true s') := by
      unfold compile_atDependencyTest
      cases (compile_shouldcompiletoplevel env true s').1
      · exact (compile_didcompile_false env _).2.1.mono isDependency_isUpstream
      · obtain ⟨m, pos, -, -, hE, -⟩ := compile_didcompile_true env
          (compile_shouldcompiletoplevel env true s').2
        exact hE.mono (isRecompilingWith_isUpstream _)
    -- the file on disk is unchanged
    have hfile : (fileChangedOnDisk env s').1 = false := by
      cases h : (fileChangedOnDisk env s').1 with
      | false => rfl
      | true =>
        rw [h] at hfc
        exact absurd (sub' _ (Emits.mem_left h1E h2E hfc)) hnf
    have hna : ¬((fileChangedOnDisk env s').1 = true ∧
        (checkEditorModified env (fileChangedOnDisk env s').2).1 = true) := by
      rw [hfile]; simp
    have hnp' : ¬(s'.editorText ≠ s'.last_compiled_doc ∧ s'.last_compiled_doc.length = 0) := by
      rw [hdoc'.1, hdoc'.2.1]; exact hnp
    -- so the top-level document is not compiled
    have hs : (compile_shouldcompiletoplevel env true s').1 = false := by
      cases h : (compile_shouldcompiletoplevel env true s').1 with
      | false => rfl
      | true => exact absurd (sub' _ (Emits.mem_left h1E h2E ((hb hna).2.2 hnp' h))) hni
    obtain ⟨h2M, -, h2d⟩ := compile_not_recompiled env true s' hs
    have hd : compile_didcompileValue env true s' = false := by
      cases h : compile_didcompileValue env true s' with
      | false => rfl
      | true => exact absurd (sub' _ (h2d h)) hnd
    have hw : compile_waits env true false (compile_atDependencyTest env true s') = false := by
      unfold compile_waits
      split <;> simp
    have hrun3 : compile env true true s' =
        compileDone env true (compile_atDependencyTest env true s') := by
      rw [compile_eq, hd, hw]
      simp [(compile_highlightError_spec true false _).2.2.2 rfl]
    obtain ⟨t', threw, hrun4, hem, hcd, hir, hinv, -⟩ := compileDone_true env
      (compile_atDependencyTest env true s')
    have ht : t = t' := by
      rw [hrun3, hrun4] at hrun2
      exact (Option.some.inj hrun2).symm
    subst ht
    have hslot : (compile_atDependencyTest env true s').afterCompileSlot =
        s.afterCompileSlot := by
      show (compile_atDependencyTest env true s').toMembers.afterCompileSlot = _
      rw [h2M, ← hdoc'.2.2]
      exact congrArg (fun p => p.2.2.2.2.2.1) h1M
    rw [hslot] at hinv
    exact ⟨sub _ (Emits.mem_right hup hem hcd), sub _ (Emits.mem_right hup hem hir),
      sub _ (Emits.mem_right hup hem hinv)⟩

set_option maxRecDepth 100000 in
/-- C6 witness: the waiting window once its text has been compiled. -/
theorem waitAfterReload_cascade_witness :
    ∃ t, waitAfterReload (sampleEnv (some 1) (some (some 1)) 0)
        { sampleWaiting with last_compiled_doc := "include <a.scad>" } = some t ∧
      Event.compileDone true ∈
        eventsSince { sampleWaiting with last_compiled_doc := "include <a.scad>" } t ∧
      Event.instantiateRoot ∈
        eventsSince { sampleWaiting with last_compiled_doc := "include <a.scad>" } t := by
  obtain ⟨-, h⟩ := waitAfterReload_cascade (sampleEnv (some 1) (some (some 1)) 0)
    { sampleWaiting with last_compiled_doc := "include <a.scad>" } 1 rfl
  obtain ⟨t, ht, -, h'⟩ := h (by decide)
  have hyp : ∀ u ∈ waitAfterReload (sampleEnv (some 1) (some (some 1)) 0)
      { sampleWaiting with last_compiled_doc := "include <a.scad>" },
      Event.fileChangedOnDisk true ∉
        eventsSince { sampleWaiting with last_compiled_doc := "include <a.scad>" } u ∧
      Event.includesChanged true ∉
        eventsSince { sampleWaiting with last_compiled_doc := "include <a.scad>" } u ∧
      Event.handleDependencies true ∉
        eventsSince { sampleWaiting with last_compiled_doc := "include <a.scad>" } u := by
    decide
  obtain ⟨h1, h2, h3⟩ := hyp t ht
  obtain ⟨hd, hi, -⟩ := h' (by decide) h1 h2 h3
  exact ⟨t, ht, hd, hi⟩

/-! ## C7: a cancelled evaluation produces no chain -/

/-- C7 (cancellation produces no chain). When `compileCSG` is entered with the
terms, chains and renderers as `instantiateRoot` left them and
`evaluateCSGTerm` throws `ProgressCancelException`, `compileCSG` returns
normally with the raw and normalized primary terms empty, the three chains
absent and neither renderer created. -/
theorem compileCSG_cancelled_no_chain (env : Env C) (procevents : Bool)
    (s₀ s : MainWindow C) (root_node : C.AbstractNode)
    (hentry : s.toMembers.renderState = (instantiateRoot env s₀).toMembers.renderState)
    (hroot : s.root_node = some root_node) :
    ∃ t, compileCSG env procevents s = some t ∧
      (Event.evaluateCSGTerm true ∈ eventsSince s t →
        t.root_raw_term = none ∧ t.root_norm_term = none ∧
        t.root_chain = none ∧ t.highlights_chain = none ∧ t.background_chain = none ∧
        t.opencsgRenderer = none ∧ t.thrownTogetherRenderer = none) := by
  refine ⟨compileCSG_body env procevents root_node s, by simp [compileCSG, hroot], fun hc => ?_⟩
  have hfresh : s.toMembers.renderState =
      (s.root_node, none, none, none, none, none, none, none) := by
    have h := (instantiateRoot_renderState env s₀).1
    rw [← hentry] at h
    rw [h, ← renderState_root_node hentry]
  obtain ⟨threw, hem, -, -, -, hcancel⟩ := compileCSG_body_fresh env procevents root_node s hfresh
  have hthrew : threw = true := by
    have := hem.forall_mem _ hc
    cases threw
    · exact absurd this (by decide)
    · rfl
  have hrs := (hcancel hthrew).trans hfresh
  exact ⟨congrArg (fun p => p.2.1) hrs, congrArg (fun p => p.2.2.1) hrs,
    congrArg (fun p => p.2.2.2.1) hrs, congrArg (fun p => p.2.2.2.2.1) hrs,
    congrArg (fun p => p.2.2.2.2.2.1) hrs, congrArg (fun p => p.2.2.2.2.2.2.1) hrs,
    congrArg (fun p => p.2.2.2.2.2.2.2) hrs⟩

set_option maxRecDepth 100000 in
/-- C7 witness: the window of an earlier compile, re-instantiated, with an
evaluator that is cancelled. -/
theorem compileCSG_cancelled_no_chain_witness :
    ∃ t, compileCSG (sampleEnv (some 0) none 0) true
        (instantiateRoot (sampleEnv (some 0) none 0) sampleCompiled) = some t ∧
      t.root_chain = none ∧ t.thrownTogetherRenderer = none := by
  obtain ⟨t, ht, h⟩ := compileCSG_cancelled_no_chain (sampleEnv (some 0) none 0) true
    sampleCompiled (instantiateRoot (sampleEnv (some 0) none 0) sampleCompiled) 0 rfl
    (by decide)
  have hyp : ∀ u ∈ compileCSG (sampleEnv (some 0) none 0) true
      (instantiateRoot (sampleEnv (some 0) none 0) sampleCompiled),
      Event.evaluateCSGTerm true ∈
        eventsSince (instantiateRoot (sampleEnv (some 0) none 0) sampleCompiled) u := by
    decide
  obtain ⟨-, -, hc, -, -, -, ht'⟩ := h (hyp t ht)
  exact ⟨t, ht, hc, ht'⟩

/-! ## C8: what a cancelled compile leaves of the previous chains -/

set_option maxRecDepth 100000 in
/-- C8 fails as stated: an explicit compile of a window that holds the three
chains of an earlier compile, cancelled during evaluation, ends with all
three chains absent. -/
theorem compile_cancelled_drops_prior_chains :
    (sampleCompiled.root_chain.isSome = true ∧ sampleCompiled.highlights_chain.isSome = true ∧
      sampleCompiled.background_chain.isSome = true) ∧
    (compile (sampleEnv (some 0) none 0) false false sampleCompiled).isSome = true ∧
    ∀ t ∈ compile (sampleEnv (some 0) none 0) false false sampleCompiled,
      Event.evaluateCSGTerm true ∈ eventsSince sampleCompiled t ∧
      Event.compileEnded ∈ eventsSince sampleCompiled t ∧
      t.root_chain.isNone = true ∧ t.highlights_chain.isNone = true ∧
      t.background_chain.isNone = true := by
  decide

/-- C8 as amended. Every compile returns, and when its evaluation was
cancelled the three render chains, the primary terms and both renderers are
absent afterwards: `instantiateRoot` dropped those of the previous compile
before the evaluation started. -/
theorem compile_cancelled_clears_chains (env : Env C) (reload forcedone : Bool)
    (s : MainWindow C) :
    ∃ t, compile env reload forcedone s = some t ∧
      (Event.evaluateCSGTerm true ∈ eventsSince s t →
        Event.instantiateRoot ∈ eventsSince s t ∧
        t.root_chain = none ∧ t.highlights_chain = none ∧ t.background_chain = none ∧
        t.root_raw_term = none ∧ t.root_norm_term = none ∧
        t.opencsgRenderer = none ∧ t.thrownTogetherRenderer = none) := by
  have hup := compile_upstream env reload s
  rw [compile_eq]
  split
  · refine ⟨_, rfl, fun hc => ?_⟩
    have hlog : Emits Event.isWaiting (compile_atDependencyTest env reload s)
        (log { compile_atDependencyTest env reload s with
          waitAfterReloadTimerActive := true } Event.waitAfterReloadTimerStart) :=
      Emits.of_left (Emits.log _ _ rfl) rfl
    exact absurd hc (((hup.mono isUpstream_isWaiting).trans hlog).not_mem rfl)
  · have hpre : Emits Event.isUpstream s
        (compile_highlightError reload (compile_didcompileValue env reload s)
          (compile_atDependencyTest env reload s)) :=
      hup.trans (compile_highlightError_upstream _ _ _)
    cases hd : (compile_didcompileValue env reload s || forcedone) with
    | false =>
      obtain ⟨t, hrun, hem, -⟩ := compileDone_false env
        (compile_highlightError reload (compile_didcompileValue env reload s)
          (compile_atDependencyTest env reload s))
      refine ⟨t, hrun, fun hc => ?_⟩
      exact absurd hc (((hpre.mono (fun e h => by simp [h]) :
          Emits (fun e => e.isUpstream || e.isEnding) s _).trans
        (hem.mono (fun e h => by simp [h]))).not_mem rfl)
    | true =>
      obtain ⟨t, threw, hrun, hem, -, hir, -, -, hclear, -⟩ := compileDone_true env
        (compile_highlightError reload (compile_didcompileValue env reload s)
          (compile_atDependencyTest env reload s))
      refine ⟨t, hrun, fun hc => ?_⟩
      have hc' := (mem_eventsSince_right_iff hpre hem
        (e := Event.evaluateCSGTerm true) rfl).mp hc
      have hthrew : threw = true := by
        have := hem.forall_mem _ hc'
        cases threw
        · exact absurd this (by decide)
        · rfl
      have hrs := hclear (Or.inl hthrew)
      exact ⟨Emits.mem_right hpre hem hir,
        congrArg (fun p => p.2.2.2.1) hrs, congrArg (fun p => p.2.2.2.2.1) hrs,
        congrArg (fun p => p.2.2.2.2.2.1) hrs, congrArg (fun p => p.2.1) hrs,
        congrArg (fun p => p.2.2.1) hrs, congrArg (fun p => p.2.2.2.2.2.2.1) hrs,
        congrArg (fun p => p.2.2.2.2.2.2.2) hrs⟩

set_option maxRecDepth 100000 in
/-- C8 witness: the cancelled explicit compile of the counterexample. -/
theorem compile_cancelled_clears_chains_witness :
    ∃ t, compile (sampleEnv (some 0) none 0) false false sampleCompiled = some t ∧
      t.root_chain = none ∧ t.highlights_chain = none ∧ t.background_chain = none := by
  obtain ⟨t, ht, h⟩ := compile_cancelled_clears_chains (sampleEnv (some 0) none 0) false false
    sampleCompiled
  have hyp : ∀ u ∈ compile (sampleEnv (some 0) none 0) false false sampleCompiled,
      Event.evaluateCSGTerm true ∈ eventsSince sampleCompiled u := by
    decide
  obtain ⟨-, h1, h2, h3, -⟩ := h (hyp t ht)
  exact ⟨t, ht, h1, h2, h3⟩

/-! ## C9: what a failed parse leaves of the previous chains -/

set_option maxRecDepth 100000 in
/-- C9 fails as stated: an explicit compile whose parse fails leaves the editor
text alone, but the three chains of the earlier compile are absent when it
ends. -/
theorem compile_parse_failure_drops_prior_chains :
    (sampleCompiled.root_chain.isSome = true ∧ sampleCompiled.highlights_chain.isSome = true ∧
      sampleCompiled.background_chain.isSome = true) ∧
    (compile (sampleEnv none none 0) false false sampleCompiled).isSome = true ∧
    ∀ t ∈ compile (sampleEnv none none 0) false false sampleCompiled,
      Event.parse false ∈ eventsSince sampleCompiled t ∧
      Event.compileEnded ∈ eventsSince sampleCompiled t ∧
      t.editorText = sampleCompiled.editorText ∧
      t.root_chain.isNone = true ∧ t.highlights_chain.isNone = true ∧
      t.background_chain.isNone = true := by
  decide

/-- C9 as amended. Every explicit compile returns, and when its parse failed
the editor text is unchanged, there is no module and no root node, and the
three render chains, the primary terms and both renderers are absent:
`compileDone(true)` still runs `instantiateRoot`, which drops those of the
previous compile. -/
theorem compile_parse_failure_clears_chains (env : Env C) (forcedone : Bool)
    (s : MainWindow C) :
    ∃ t, compile env false forcedone s = some t ∧
      (Event.parse false ∈ eventsSince s t →
        t.editorText = s.editorText ∧
        Event.instantiateRoot ∈ eventsSince s t ∧
        t.root_module = none ∧ t.root_node = none ∧
        t.root_chain = none ∧ t.highlights_chain = none ∧ t.background_chain = none ∧
        t.root_raw_term = none ∧ t.root_norm_term = none ∧
        t.opencsgRenderer = none ∧ t.thrownTogetherRenderer = none) := by
  have hup := compile_upstream env false s
  obtain ⟨hd, m, pos, hM, hE, -, -⟩ := compile_recompiled env false s rfl
  rw [compile_shouldcompiletoplevel_false] at hM
  rw [compile_eq, compile_waits_false, hd]
  simp only [Bool.false_eq_true, if_false, Bool.true_or]
  obtain ⟨hhM, -, hhT, -⟩ := compile_highlightError_spec false true
    (compile_atDependencyTest env false s)
  obtain ⟨t, threw, hrun, hem, -, hir, -, hdoc, hclear, hmod⟩ := compileDone_true env
    (compile_highlightError false true (compile_atDependencyTest env false s))
  refine ⟨t, hrun, fun hp => ?_⟩
  have hrest : Emits Event.isTail (compile_atDependencyTest env false s) t :=
    hhT.trans (hem.mono (isRenderWith_isTail threw))
  -- the failed parse is the one of this call: `parse` returned no module
  have hp' := (mem_eventsSince_left_iff hE hrest (e := Event.parse false) rfl).mp hp
  have hm : m = none := by
    have := hE.forall_mem _ hp'
    cases m with
    | none => rfl
    | some _ => simp [Event.isChecking, Event.isOutput, Event.isRecompilingWith] at this
  subst hm
  have hmod' : (compile_highlightError false true
      (compile_atDependencyTest env false s)).root_module = none := by
    show (compile_highlightError false true
      (compile_atDependencyTest env false s)).toMembers.root_module = none
    rw [hhM, hM]
  have hnode := hmod hmod'
  have hrs := hclear (Or.inr hnode)
  rw [hnode] at hrs
  have hdoc' : t.toMembers.document = (compile_atDependencyTest env false s).toMembers.document := by
    rw [hdoc, hhM]
  refine ⟨?_, Emits.mem_right (hup.trans (compile_highlightError_upstream false true _)) hem hir,
    ?_, hnode,
    congrArg (fun p => p.2.2.2.1) hrs, congrArg (fun p => p.2.2.2.2.1) hrs,
    congrArg (fun p => p.2.2.2.2.2.1) hrs, congrArg (fun p => p.2.1) hrs,
    congrArg (fun p => p.2.2.1) hrs, congrArg (fun p => p.2.2.2.2.2.2.1) hrs,
    congrArg (fun p => p.2.2.2.2.2.2.2) hrs⟩
  · have := congrArg (fun p => p.2.2.1) hdoc'
    simp only [] at this
    rw [hM] at this
    exact this
  · have := congrArg (fun p => p.2.2.2.2.1) hdoc'
    simp only [] at this
    rw [hM] at this
    exact this

set_option maxRecDepth 100000 in
/-- C9 witness: the explicit compile of the counterexample. -/
theorem compile_parse_failure_clears_chains_witness :
    ∃ t, compile (sampleEnv none none 0) false false sampleCompiled = some t ∧
      t.editorText = sampleCompiled.editorText ∧
      t.root_chain = none ∧ t.highlights_chain = none ∧ t.background_chain = none := by
  obtain ⟨t, ht, h⟩ := compile_parse_failure_clears_chains (sampleEnv none none 0) false
    sampleCompiled
  have hyp : ∀ u ∈ compile (sampleEnv none none 0) false false sampleCompiled,
      Event.parse false ∈ eventsSince sampleCompiled u := by
    decide
  obtain ⟨h0, -, -, -, h1, h2, h3, -⟩ := h (hyp t ht)
  exact ⟨t, ht, h0, h1, h2, h3⟩

/-! ## C10: no top-level object -/

/-- C10 (no top-level object clears the previous generation). When
`instantiateRoot` ends without a root node, `absolute_root_node`, `root_node`
and the tree root are null, the primary terms are empty, the highlight and
background term lists are empty, the three chains and both renderers are
absent; and a render slot entered in that state (whatever `procevents` is)
returns without running `compileCSG`, after `compileEnded`. -/
theorem instantiateRoot_no_root_node (env : Env C) (s : MainWindow C)
    (hnone : (instantiateRoot env s).root_node = none) :
    ((instantiateRoot env s).absolute_root_node = none ∧
      (instantiateRoot env s).root_node = none ∧
      (instantiateRoot env s).tree_root = none ∧
      (instantiateRoot env s).root_raw_term = none ∧
      (instantiateRoot env s).root_norm_term = none ∧
      (instantiateRoot env s).highlight_terms = [] ∧
      (instantiateRoot env s).background_terms = [] ∧
      (instantiateRoot env s).root_chain = none ∧
      (instantiateRoot env s).highlights_chain = none ∧
      (instantiateRoot env s).background_chain = none ∧
      (instantiateRoot env s).opencsgRenderer = none ∧
      (instantiateRoot env s).thrownTogetherRenderer = none) ∧
    ∀ (u : MainWindow C) (procevents : Bool),
      u.toMembers = { (instantiateRoot env s).toMembers with procevents := procevents } →
      (∃ t, csgReloadRender env u = some t ∧
        Event.compileCSG ∉ eventsSince u t ∧ Event.compileEnded ∈ eventsSince u t ∧
        t.toMembers.renderState = (instantiateRoot env s).toMembers.renderState) ∧
      (∃ t, csgRender env u = some t ∧
        Event.compileCSG ∉ eventsSince u t ∧ Event.compileEnded ∈ eventsSince u t ∧
        t.toMembers.renderState = (instantiateRoot env s).toMembers.renderState) := by
  obtain ⟨hrs, hrest, -, -, -⟩ := instantiateRoot_renderState env s
  obtain ⟨ha, ht, hh, hb⟩ := hrest hnone
  refine ⟨⟨ha, hnone, ht, congrArg (fun p => p.2.1) hrs, congrArg (fun p => p.2.2.1) hrs, hh,
    hb, congrArg (fun p => p.2.2.2.1) hrs, congrArg (fun p => p.2.2.2.2.1) hrs,
    congrArg (fun p => p.2.2.2.2.2.1) hrs, congrArg (fun p => p.2.2.2.2.2.2.1) hrs,
    congrArg (fun p => p.2.2.2.2.2.2.2) hrs⟩, fun u procevents hu => ?_⟩
  have hun : u.root_node = none := by
    show u.toMembers.root_node = none
    rw [hu]; exact hnone
  have hurs : u.toMembers.renderState = (instantiateRoot env s).toMembers.renderState := by
    rw [hu]; rfl
  have after : ∀ tail : MainWindow C → MainWindow C,
      (∀ v, Emits Event.isViewing v (tail v) ∧ (tail v).toMembers = v.toMembers) →
      Event.compileCSG ∉ eventsSince u (compileEnded env (tail (goToNonCGALViewMode env u))) ∧
      Event.compileEnded ∈ eventsSince u (compileEnded env (tail (goToNonCGALViewMode env u))) ∧
      (compileEnded env (tail (goToNonCGALViewMode env u))).toMembers.renderState =
        (instantiateRoot env s).toMembers.renderState := by
    intro tail htail
    have h1 : Emits Event.isViewing u (tail (goToNonCGALViewMode env u)) :=
      (goToNonCGALViewMode_emits env u).trans (htail _).1
    have h2 := compileEnded_emits Event.isViewing rfl rfl rfl env
      (tail (goToNonCGALViewMode env u))
    refine ⟨(h1.trans h2).not_mem rfl, Emits.mem_right h1 h2 (mem_eventsSince_compileEnded env _),
      ?_⟩
    rw [compileEnded_renderState, (htail _).2, goToNonCGALViewMode_renderState, hurs]
  constructor
  · have heq := csgReloadRender_eq env u
    rw [hun] at heq
    exact ⟨_, heq, after id (fun v => ⟨Emits.refl _ v, rfl⟩)⟩
  · obtain ⟨tail, htail, heq⟩ := csgRender_eq env u
    rw [hun] at heq
    exact ⟨_, heq, after tail htail⟩

set_option maxRecDepth 100000 in
/-- C10 witness: the window of an earlier compile whose module is gone. -/
theorem instantiateRoot_no_root_node_witness :
    (instantiateRoot (sampleEnv none none 0) { sampleCompiled with root_module := none }).root_chain
      = none ∧
    (instantiateRoot (sampleEnv none none 0)
      { sampleCompiled with root_module := none }).absolute_root_node = none :=
  ⟨(instantiateRoot_no_root_node (sampleEnv none none 0)
      { sampleCompiled with root_module := none } (by decide)).1.2.2.2.2.2.2.2.1,
    (instantiateRoot_no_root_node (sampleEnv none none 0)
      { sampleCompiled with root_module := none } (by decide)).1.1⟩

/-! ## The fingerprint of the top-level file -/

theorem hexDigitValue_digitChar (k : Nat) (hk : k < 16) :
    hexDigitValue (Nat.digitChar k) = k := by
  interval_cases k <;> rfl

theorem digitChar_ne_dot (k : Nat) (hk : k < 16) : Nat.digitChar k ≠ '.' := by
  interval_cases k <;> decide

theorem foldl_toDigitsCore (fuel : Nat) : ∀ (n : Nat) (ds : List Char), n < fuel →
    (Nat.toDigitsCore 16 fuel n ds).foldl (fun a c => 16 * a + hexDigitValue c) 0 =
      ds.foldl (fun a c => 16 * a + hexDigitValue c) n := by
  induction fuel with
  | zero => intro n ds h; omega
  | succ fuel ih =>
    intro n ds h
    unfold Nat.toDigitsCore
    simp only []
    split
    · next h0 =>
      have hn : n % 16 = n := by omega
      have hv := hexDigitValue_digitChar (n % 16) (Nat.mod_lt _ (by decide))
      rw [hn] at hv
      simp [List.foldl, hn, hv]
    · next h0 =>
      rw [ih (n / 16) _ (by omega)]
      simp only [List.foldl, hexDigitValue_digitChar (n % 16) (Nat.mod_lt _ (by decide))]
      congr 1
      omega

theorem hexValue_toDigits (n : Nat) : hexValue (Nat.toDigits 16 n) = n := by
  unfold hexValue Nat.toDigits
  rw [foldl_toDigitsCore _ _ _ (Nat.lt_succ_self n)]
  rfl

theorem dot_not_mem_toDigitsCore (fuel : Nat) : ∀ (n : Nat) (ds : List Char),
    '.' ∉ ds → '.' ∉ Nat.toDigitsCore 16 fuel n ds := by
  induction fuel with
  | zero => intro n ds h; simpa [Nat.toDigitsCore] using h
  | succ fuel ih =>
    intro n ds h
    have hd : '.' ∉ Nat.digitChar (n % 16) :: ds := by
      intro hm
      rcases List.mem_cons.mp hm with h1 | h1
      · exact digitChar_ne_dot (n % 16) (Nat.mod_lt _ (by decide)) h1.symm
      · exact h h1
    unfold Nat.toDigitsCore
    simp only []
    split
    · exact hd
    · exact ih _ _ hd

theorem dot_not_mem_toDigits (n : Nat) : '.' ∉ Nat.toDigits 16 n :=
  dot_not_mem_toDigitsCore _ _ _ (by simp)

theorem hexString_injective {m n : Nat} (h : hexString m = hexString n) : m = n := by
  have := congrArg (fun x => hexValue x.data) h
  simpa [hexString, hexValue_toDigits] using this

/-- Two lists cut at their first full stop agree part by part. -/
theorem append_dot_inj : ∀ (a b c d : List Char), '.' ∉ a → '.' ∉ c →
    a ++ '.' :: b = c ++ '.' :: d → a = c ∧ b = d := by
  intro a
  induction a with
  | nil =>
    intro b c d _ hc h
    cases c with
    | nil => simpa using h
    | cons x c =>
      simp at h
      exact absurd (h.1 ▸ List.mem_cons_self _ _) hc
  | cons x a ih =>
    intro b c d ha hc h
    cases c with
    | nil =>
      simp at h
      exact absurd (h.1 ▸ List.mem_cons_self _ _) ha
    | cons y c =>
      simp at h
      obtain ⟨h1, h2⟩ := ih b c d (fun hm => ha (List.mem_cons_of_mem _ hm))
        (fun hm => hc (List.mem_cons_of_mem _ hm)) h.2
      exact ⟨by rw [h.1, h1], h2⟩

/-- The `"%x.%x"` fingerprint determines both of its numbers. -/
theorem autoReloadId_injective {m₁ s₁ m₂ s₂ : Nat}
    (h : hexString m₁ ++ "." ++ hexString s₁ = hexString m₂ ++ "." ++ hexString s₂) :
    m₁ = m₂ ∧ s₁ = s₂ := by
  have hd := congrArg String.data h
  simp only [hexString, String.data_append] at hd
  simp only [List.append_assoc, List.singleton_append] at hd
  obtain ⟨h1, h2⟩ := append_dot_inj _ _ _ _ (dot_not_mem_toDigits m₁) (dot_not_mem_toDigits m₂) hd
  exact ⟨hexString_injective (by simp [hexString, h1]), hexString_injective (by simp [hexString, h2])⟩


/-- What `fileChangedOnDisk` returns and records, by the outcome of `stat`. -/
theorem fileChangedOnDisk_cases (env : Env C) (s : MainWindow C) :
    (fileChangedOnDisk env s).2.world =
      (if s.fileName ≠ "" then (env.stat s.fileName s.world).2 else s.world) ∧
    (fileChangedOnDisk env s).2.fileName = s.fileName ∧
    ((s.fileName = "" ∨ (env.stat s.fileName s.world).1 = none) →
      (fileChangedOnDisk env s).1 = false ∧
      (fileChangedOnDisk env s).2.autoReloadId = s.autoReloadId) ∧
    (∀ mtime size, s.fileName ≠ "" → (env.stat s.fileName s.world).1 = some (mtime, size) →
      (fileChangedOnDisk env s).1 = decide (hexString mtime ++ "." ++ hexString size ≠
        s.autoReloadId) ∧
      (fileChangedOnDisk env s).2.autoReloadId = hexString mtime ++ "." ++ hexString size) := by
  unfold fileChangedOnDisk
  by_cases hf : s.fileName = ""
  · simp [hf]
  · simp only [ne_eq, hf, not_false_eq_true, if_true]
    cases hst : (env.stat s.fileName s.world).1 with
    | none => simp [hst]
    | some p =>
      obtain ⟨mtime, size⟩ := p
      by_cases hid : hexString mtime ++ "." ++ hexString size = s.autoReloadId
      · simp [hst, hid]
      · simp [hst, hid]

/-! ## The chains `compileCSG` builds -/

/-- The loop of `normalizeAndImport` keeps the number of terms, and the chain
it returns is the given chain with the normalized terms imported in list
order. -/
theorem normalizeAndImport_spec (env : Env C) (ts : List (Option C.CSGTerm)) :
    ∀ (nz : C.CSGTermNormalizer) (chain : CSGChain C),
      (normalizeAndImport env nz chain ts).2.2.length = ts.length ∧
      (normalizeAndImport env nz chain ts).2.1 =
        (normalizeAndImport env nz chain ts).2.2.foldl env.chainImport chain := by
  induction ts with
  | nil => intro nz chain; exact ⟨rfl, rfl⟩
  | cons t ts ih =>
    intro nz chain
    obtain ⟨h1, h2⟩ := ih (env.normalize nz t).2 (env.chainImport chain (env.normalize nz t).1)
    refine ⟨?_, ?_⟩
    · simp only [normalizeAndImport, List.length_cons, h1]
    · simp only [normalizeAndImport, List.foldl_cons]
      exact h2

theorem compileCSG_root_warning (env : Env C) (procevents : Bool)
    (normalizer : C.CSGTermNormalizer) (term : C.CSGTerm) (s : MainWindow C)
    (h : (env.normalize normalizer (some term)).1 = none) :
    Event.print "WARNING: CSG normalization resulted in an empty tree" ∈
      eventsSince s (compileCSG_root env procevents normalizer term s).2 := by
  unfold compileCSG_root
  lift_lets
  intro r s1
  have hr : r.1 = none := h
  split
  · next t heq => rw [hr] at heq; cases heq
  · refine mem_eventsSince_of_log
      (Emits.of_trace_eq (P := Event.isOutput) (t := { s1 with root_chain := none }) rfl)
      (Q := Event.isOutput) ?_
    exact (consoleOutput_emits _ env _).trans (processEventsIf_emits _ env _ _)

/-- The terms and chains `compileCSG` holds once the body of
`if (root_raw_term)` has run. -/
theorem compileCSG_products_chains (env : Env C) (procevents : Bool) (term : C.CSGTerm)
    (s : MainWindow C) :
    (compileCSG_products env procevents term s).root_norm_term =
      (env.normalize (env.newNormalizer ((2 * env.openCSGLimit) % 2 ^ 32)) (some term)).1 ∧
    (compileCSG_products env procevents term s).root_chain =
      (compileCSG_products env procevents term s).root_norm_term.map
        (fun t => env.chainImport (CSGChain.mk []) (some t)) ∧
    (compileCSG_products env procevents term s).highlight_terms.length =
      s.highlight_terms.length ∧
    (compileCSG_products env procevents term s).highlights_chain =
      (if s.highlight_terms.length > 0 then
        some ((compileCSG_products env procevents term s).highlight_terms.foldl
          env.chainImport (CSGChain.mk []))
      else s.highlights_chain) ∧
    (compileCSG_products env procevents term s).background_terms.length =
      s.background_terms.length ∧
    (compileCSG_products env procevents term s).background_chain =
      (if s.background_terms.length > 0 then
        some ((compileCSG_products env procevents term s).background_terms.foldl
          env.chainImport (CSGChain.mk []))
      else s.background_chain) ∧
    ((compileCSG_products env procevents term s).root_norm_term = none →
      Event.print "WARNING: CSG normalization resulted in an empty tree" ∈
        eventsSince s (compileCSG_products env procevents term s)) ∧
    (∃ nz, (compileCSG_products env procevents term s).highlight_terms =
      (normalizeAndImport env nz (CSGChain.mk []) s.highlight_terms).2.2) ∧
    (∃ nz, (compileCSG_products env procevents term s).background_terms =
      (normalizeAndImport env nz (CSGChain.mk []) s.background_terms).2.2) := by
  unfold compileCSG_products
  lift_lets
  intro s1 s2 lim s3 r1 r2 r3 s4 s5 s6
  have e3 : s3.toMembers = s.toMembers := by simp [s3, s2, s1]
  have e1 : r1.2.toMembers = _ :=
    compileCSG_root_toMembers env procevents (env.newNormalizer lim) term s3
  have e2 : r2.2.toMembers = _ := compileCSG_highlights_toMembers env procevents r1.1 r1.2
  have e3' : r3.2.toMembers = _ := compileCSG_background_toMembers env procevents r2.1 r2.2
  have e4 := compileCSG_renderers_toMembers env r3.2
  have e6 : (processEventsIf env procevents s6).toMembers = s4.toMembers := by simp [s6, s5]
  have hl1 : r1.2.highlight_terms = s.highlight_terms := by
    show r1.2.toMembers.highlight_terms = s.toMembers.highlight_terms
    rw [e1, e3]
  have hc1 : r1.2.highlights_chain = s.highlights_chain := by
    show r1.2.toMembers.highlights_chain = s.toMembers.highlights_chain
    rw [e1, e3]
  have bg1 : r1.2.background_terms = s.background_terms := by
    show r1.2.toMembers.background_terms = s.toMembers.background_terms
    rw [e1, e3]
  have bc1 : r1.2.background_chain = s.background_chain := by
    show r1.2.toMembers.background_chain = s.toMembers.background_chain
    rw [e1, e3]
  have hn1 : r1.2.root_norm_term = (env.normalize (env.newNormalizer lim) (some term)).1 := by
    show r1.2.toMembers.root_norm_term = _
    rw [e1]
  have hr1 : r1.2.root_chain = r1.2.root_norm_term.map
      (fun t => env.chainImport (CSGChain.mk []) (some t)) := by
    rw [hn1]
    show r1.2.toMembers.root_chain = _
    rw [e1]
  -- the highlights step
  obtain ⟨hlen, hfold⟩ := normalizeAndImport_spec env r1.2.highlight_terms r1.1 (CSGChain.mk [])
  have h2 : r2.2.root_norm_term = r1.2.root_norm_term ∧ r2.2.root_chain = r1.2.root_chain ∧
      r2.2.background_terms = s.background_terms ∧
      r2.2.background_chain = s.background_chain ∧
      r2.2.highlight_terms.length = s.highlight_terms.length ∧
      r2.2.highlights_chain =
        (if s.highlight_terms.length > 0 then
          some (r2.2.highlight_terms.foldl env.chainImport (CSGChain.mk []))
        else s.highlights_chain) ∧
      r2.2.highlight_terms =
        (normalizeAndImport env r1.1 (CSGChain.mk []) s.highlight_terms).2.2 := by
    have p : ∀ {α : Type} (f : Members C → α), f r2.2.toMembers = f _ := fun f => congrArg f e2
    by_cases hc : r1.2.highlight_terms.length > 0
    · have hc' : s.highlight_terms.length > 0 := hl1 ▸ hc
      simp only [hc, hc', if_true] at p ⊢
      refine ⟨p (fun m => m.root_norm_term), p (fun m => m.root_chain), ?_, ?_, ?_, ?_, ?_⟩
      · exact (p (fun m => m.background_terms)).trans bg1
      · exact (p (fun m => m.background_chain)).trans bc1
      · rw [show r2.2.highlight_terms = _ from p (fun m => m.highlight_terms), hlen, hl1]
      · rw [show r2.2.highlights_chain = _ from p (fun m => m.highlights_chain),
          show r2.2.highlight_terms = _ from p (fun m => m.highlight_terms), hfold]
      · rw [show r2.2.highlight_terms = _ from p (fun m => m.highlight_terms), hl1]
    · have hc' : ¬ s.highlight_terms.length > 0 := hl1 ▸ hc
      simp only [hc, hc', if_false] at p ⊢
      refine ⟨p (fun m => m.root_norm_term), p (fun m => m.root_chain), ?_, ?_, ?_, ?_, ?_⟩
      · exact (p (fun m => m.background_terms)).trans bg1
      · exact (p (fun m => m.background_chain)).trans bc1
      · rw [show r2.2.highlight_terms = _ from p (fun m => m.highlight_terms), hl1]
      · exact (p (fun m => m.highlights_chain)).trans hc1
      · have hnil : s.highlight_terms = [] := List.length_eq_zero.mp (by omega)
        rw [show r2.2.highlight_terms = _ from p (fun m => m.highlight_terms), hl1, hnil]
        rfl
  obtain ⟨hn2, hr2, bg2, bc2, hl2, hc2, ht2⟩ := h2
  obtain ⟨blen, bfold⟩ := normalizeAndImport_spec env r2.2.background_terms r2.1 (CSGChain.mk [])
  have h3 : r3.2.root_norm_term = r2.2.root_norm_term ∧ r3.2.root_chain = r2.2.root_chain ∧
      r3.2.highlight_terms = r2.2.highlight_terms ∧
      r3.2.highlights_chain = r2.2.highlights_chain ∧
      r3.2.background_terms.length = s.background_terms.length ∧
      r3.2.background_chain =
        (if s.background_terms.length > 0 then
          some (r3.2.background_terms.foldl env.chainImport (CSGChain.mk []))
        else s.background_chain) ∧
      r3.2.background_terms =
        (normalizeAndImport env r2.1 (CSGChain.mk []) s.background_terms).2.2 := by
    have p : ∀ {α : Type} (f : Members C → α), f r3.2.toMembers = f _ := fun f => congrArg f e3'
    by_cases hc : r2.2.background_terms.length > 0
    · have hc' : s.background_terms.length > 0 := bg2 ▸ hc
      simp only [hc, hc', if_true] at p ⊢
      refine ⟨p (fun m => m.root_norm_term), p (fun m => m.root_chain),
        p (fun m => m.highlight_terms), p (fun m => m.highlights_chain), ?_, ?_, ?_⟩
      · rw [show r3.2.background_terms = _ from p (fun m => m.background_terms), blen, bg2]
      · rw [show r3.2.background_chain = _ from p (fun m => m.background_chain),
          show r3.2.background_terms = _ from p (fun m => m.background_terms), bfold]
      · rw [show r3.2.background_terms = _ from p (fun m => m.background_terms), bg2]
    · have hc' : ¬ s.background_terms.length > 0 := bg2 ▸ hc
      simp only [hc, hc', if_false] at p ⊢
      refine ⟨p (fun m => m.root_norm_term), p (fun m => m.root_chain),
        p (fun m => m.highlight_terms), p (fun m => m.highlights_chain), ?_, ?_, ?_⟩
      · rw [show r3.2.background_terms = _ from p (fun m => m.background_terms), bg2]
      · exact (p (fun m => m.background_chain)).trans bc2
      · have hnil : s.background_terms = [] := List.length_eq_zero.mp (by omega)
        rw [show r3.2.background_terms = _ from p (fun m => m.background_terms), bg2, hnil]
        rfl
  obtain ⟨hn3, hr3, hl3, hc3, bg3, bc3, bt3⟩ := h3
  have e7 : (processEventsIf env procevents s6).toMembers =
      { r3.2.toMembers with
          opencsgRenderer :=
            if openCSGDisabled env r3.2 then r3.2.opencsgRenderer
            else some (ChainRenderer.mk r3.2.root_chain r3.2.highlights_chain
              r3.2.background_chain),
          thrownTogetherRenderer :=
            some (ChainRenderer.mk r3.2.root_chain r3.2.highlights_chain
              r3.2.background_chain) } := e6.trans e4
  have q : ∀ {α : Type} (f : Members C → α),
      f (processEventsIf env procevents s6).toMembers = f _ := fun f => congrArg f e7
  have fn : (processEventsIf env procevents s6).root_norm_term = r3.2.root_norm_term :=
    q (fun m => m.root_norm_term)
  have fr : (processEventsIf env procevents s6).root_chain = r3.2.root_chain :=
    q (fun m => m.root_chain)
  have fh : (processEventsIf env procevents s6).highlight_terms = r3.2.highlight_terms :=
    q (fun m => m.highlight_terms)
  have fhc : (processEventsIf env procevents s6).highlights_chain = r3.2.highlights_chain :=
    q (fun m => m.highlights_chain)
  have fb : (processEventsIf env procevents s6).background_terms = r3.2.background_terms :=
    q (fun m => m.background_terms)
  have fbc : (processEventsIf env procevents s6).background_chain = r3.2.background_chain :=
    q (fun m => m.background_chain)
  rw [fn, fr, fh, fhc, fb, fbc]
  refine ⟨hn3.trans (hn2.trans hn1), ?_, ?_, ?_, bg3, bc3, ?_, ⟨r1.1, hl3.trans ht2⟩,
    ⟨r2.1, bt3⟩⟩
  · rw [hr3, hr2, hr1, hn3, hn2]
  · rw [hl3, hl2]
  · rw [hc3, hl3, hc2]
  · intro hnone
    have hnorm : (env.normalize (env.newNormalizer lim) (some term)).1 = none := by
      rw [← hn1, ← hn2, ← hn3]; exact hnone
    have hw := compileCSG_root_warning env procevents (env.newNormalizer lim) term s3 hnorm
    have hA : Emits Event.isProducts s s3 :=
      (PRINT_emits _ env _ s).trans <| (processEventsIf_emits _ env _ _).trans
        (Emits.log _ (Event.newNormalizer lim) rfl)
    have hB : Emits Event.isProducts s3 r1.2 := compileCSG_root_emits env _ _ _ _
    have hC : Emits Event.isProducts r1.2 (processEventsIf env procevents s6) :=
      (compileCSG_highlights_emits env _ _ _).trans <|
      (compileCSG_background_emits env _ _ _).trans <|
      (compileCSG_renderers_emits env _).trans <|
      (PRINT_emits _ env _ _).trans <|
      (Emits.log _ Event.printRenderingTime rfl).trans (processEventsIf_emits _ env _ _)
    exact Emits.mem_right hA (hB.trans hC) (Emits.mem_left hB hC hw)

/-- The run of `compileCSG` by the primary term it holds at the test
`if (root_raw_term)`: with one, the body of the test ran on the state `mid`
the evaluation left; without one, nothing followed the evaluation. -/
theorem compileCSG_body_chains (env : Env C) (procevents : Bool) (n : C.AbstractNode)
    (s : MainWindow C) :
    ∃ (threw : Bool) (mid : MainWindow C),
      Emits (Event.isRenderWith threw) s mid ∧
      mid.root_chain = s.root_chain ∧ mid.highlights_chain = s.highlights_chain ∧
      mid.background_chain = s.background_chain ∧
      mid.root_norm_term = s.root_norm_term ∧
      mid.opencsgRenderer = s.opencsgRenderer ∧
      mid.thrownTogetherRenderer = s.thrownTogetherRenderer ∧
      (mid.root_raw_term = none → compileCSG_body env procevents n s = mid) ∧
      (∀ term, mid.root_raw_term = some term →
        compileCSG_body env procevents n s = compileCSG_products env procevents term mid) := by
  obtain ⟨threw, mid, hem, -, -, ⟨hl, bg, htrue, hfalse⟩, hbody⟩ :=
    compileCSG_body_cases env procevents n s
  have hmid : ∀ {α : Type} (f : Members C → α),
      (∀ (m : Members C) p t h b, f { m with
          progresswidget := p, root_raw_term := t, highlight_terms := h,
          background_terms := b } = f m) →
      f mid.toMembers = f s.toMembers := by
    intro α f hf
    cases threw
    · obtain ⟨term, h⟩ := hfalse rfl
      rw [h]
      exact hf s.toMembers false term hl bg
    · rw [htrue rfl]
      exact hf s.toMembers false s.root_raw_term hl bg
  refine ⟨threw, mid, hem, hmid (fun m => m.root_chain) (fun _ _ _ _ _ => rfl),
    hmid (fun m => m.highlights_chain) (fun _ _ _ _ _ => rfl),
    hmid (fun m => m.background_chain) (fun _ _ _ _ _ => rfl),
    hmid (fun m => m.root_norm_term) (fun _ _ _ _ _ => rfl),
    hmid (fun m => m.opencsgRenderer) (fun _ _ _ _ _ => rfl),
    hmid (fun m => m.thrownTogetherRenderer) (fun _ _ _ _ _ => rfl), ?_, ?_⟩
  · intro h; rw [hbody, h]
  · intro term h; rw [hbody, h]

/-- The members `compileCSG_evaluate` leaves, by what the evaluator did when
it was handed the two term vectors of the window. -/
theorem compileCSG_evaluate_toMembers (env : Env C) (procevents : Bool) (n : C.AbstractNode)
    (s : MainWindow C) :
    ∃ w, (compileCSG_evaluate env procevents n s).toMembers =
      { s.toMembers with
          highlight_terms :=
            (env.evaluateCSGTerm n s.highlight_terms s.background_terms w).1.highlights,
          background_terms :=
            (env.evaluateCSGTerm n s.highlight_terms s.background_terms w).1.background,
          root_raw_term :=
            match (env.evaluateCSGTerm n s.highlight_terms s.background_terms w).1.result with
            | some term => term
            | none => s.root_raw_term } := by
  refine ⟨(processEventsIf env procevents s).world, ?_⟩
  unfold compileCSG_evaluate
  lift_lets
  intro s1 r s2
  have hh : s1.highlight_terms = s.highlight_terms :=
    congrArg (fun m => m.highlight_terms) (processEventsIf_toMembers env procevents s)
  have hb : s1.background_terms = s.background_terms :=
    congrArg (fun m => m.background_terms) (processEventsIf_toMembers env procevents s)
  have hr : r = env.evaluateCSGTerm n s.highlight_terms s.background_terms
      (processEventsIf env procevents s).world := by
    show env.evaluateCSGTerm n s1.highlight_terms s1.background_terms s1.world = _
    rw [hh, hb]
  rw [← hr]
  have e2 : s2.toMembers =
      { s.toMembers with highlight_terms := r.1.highlights, background_terms := r.1.background } := by
    simp [s2, s1]
  rcases hres : r.1.result with _ | term
  · simp only [hres]
    rw [PRINT_toMembers, log_toMembers, e2]
  · simp only [hres]
    rw [processEventsIf_toMembers, callHelper_toMembers]
    split
    · rw [PRINT_toMembers, log_toMembers]
      simp [s2, s1]
    · rw [log_toMembers]
      simp [s2, s1]

/-! ## Milestones -/

theorem milestones_of_plain {s t : MainWindow C} (h : Emits Event.isPlain s t) :
    milestones s t = [] := by
  unfold milestones
  rw [List.filter_eq_nil_iff]
  intro e he
  have := h.forall_mem e he
  simpa [Event.isPlain] using this

theorem milestones_append {P Q : Event → Bool} {s m t : MainWindow C}
    (h₁ : Emits P s m) (h₂ : Emits Q m t) :
    milestones s t = milestones s m ++ milestones m t := by
  unfold milestones
  rw [eventsSince_append h₁ h₂, List.filter_append]

theorem milestones_log (s : MainWindow C) (e : Event) :
    milestones s (log s e) = if e.isMilestone then [e] else [] := by
  unfold milestones
  rw [eventsSince_eq (log_trace s e)]
  cases h : e.isMilestone <;> simp [List.filter, h]

theorem milestones_of_trace_eq {s t : MainWindow C} (h : t.trace = s.trace) :
    milestones s t = [] := by
  unfold milestones eventsSince
  rw [h]; simp

/-- Any extension of the trace. -/
theorem Emits.any {P : Event → Bool} {s t : MainWindow C} (h : Emits P s t) :
    Emits (fun _ => true) s t :=
  h.mono (fun _ _ => rfl)

theorem mem_milestones {s t : MainWindow C} {e : Event} :
    e ∈ milestones s t ↔ e ∈ eventsSince s t ∧ e.isMilestone = true := by
  unfold milestones
  rw [List.mem_filter]

theorem isUpstream_isPlain (e : Event) (h : e.isUpstream = true) : e.isPlain = true := by
  cases e <;>
    simp_all [Event.isPlain, Event.isMilestone, Event.isUpstream, Event.isChecking,
      Event.isRecompilingWith, Event.isDependency, Event.isOutput]

theorem isProducts_isPlain (e : Event) (h : e.isProducts = true) : e.isPlain = true := by
  cases e <;> simp_all [Event.isPlain, Event.isMilestone, Event.isProducts, Event.isOutput]

/-! ### `instantiateRoot` -/

theorem instantiateRoot_plain (env : Env C) (s : MainWindow C) :
    Emits Event.isPlain s (instantiateRoot env s) := by
  unfold instantiateRoot
  lift_lets
  intro s1 s2 s3
  have h2 : Emits Event.isPlain s s2 :=
    (Emits.log s Event.instantiateRoot rfl).trans <|
      (Emits.log _ (Event.setRenderer none) rfl).trans
        (Emits.of_left (callHelper_emits _ env Helper.deleteTree _) rfl) |>.of_right rfl
  have h3 : Emits Event.isPlain s s3 := by
    refine h2.trans ?_
    simp only [s3]
    split
    · unfold instantiateRoot_instantiate
      lift_lets
      intro u1 u2 u3 mi u3' r created u3'' u4
      have h4 : Emits Event.isPlain s2 u4 :=
        (PRINT_emits _ env _ s2).trans ((processEventsIf_emits _ env _ _).trans
          ((Emits.of_left (Emits.log _ Event.resetIndexCounter rfl) rfl).trans
            (Emits.of_left (Emits.log _ (Event.instantiate _) rfl) rfl)))
      split
      · refine h4.trans ?_
        unfold instantiateRoot_setRoot
        cases env.find_root_tag _ <;>
          exact Emits.of_left (callHelper_emits _ env Helper.treeGetString _) rfl
      · exact h4
    · exact Emits.refl _ _
  split
  · exact h3.trans (instantiateRoot_failed_emits _ env _)
  · exact h3

/-! ### The view modes -/

theorem goToNonCGALViewMode_plain (env : Env C) (s : MainWindow C) :
    Emits Event.isPlain s (goToNonCGALViewMode env s) := by
  have tt : Emits Event.isPlain s (viewModeThrownTogether env s) := by
    unfold viewModeThrownTogether
    lift_lets
    intro s1 s2 s3 s4
    exact Emits.of_left ((Emits.of_left (Emits.log _ (Event.setRenderer _) rfl) rfl).trans <|
      (callHelper_emits _ env Helper.updateColorScheme s3).trans
        (callHelper_emits _ env Helper.updateGL s4)) (show s2.trace = s.trace from rfl)
  unfold goToNonCGALViewMode
  split
  · exact tt
  · unfold viewModePreview
    split
    · lift_lets
      intro s1 s2 s3 s4
      exact Emits.of_left ((Emits.of_left (Emits.log _ (Event.setRenderer _) rfl) rfl).trans <|
        (callHelper_emits _ env Helper.updateColorScheme s3).trans
          (callHelper_emits _ env Helper.updateGL s4)) (show s2.trace = s.trace from rfl)
    · exact tt

/-! ### `compileEnded` -/

theorem compileEnded_milestones (env : Env C) (s : MainWindow C) :
    milestones s (compileEnded env s) = [Event.compileEnded, Event.guiUnlock] := by
  unfold compileEnded
  lift_lets
  intro s1 s2 s3
  have h1 : Emits (fun _ => true) s s1 := Emits.log s _ rfl
  have h2 : Emits Event.isPlain s1 s2 :=
    Emits.of_left (callHelper_emits _ env Helper.clearCurrentOutput _) rfl
  have h3 : Emits (fun _ => true) s2 s3 := Emits.of_left (Emits.log _ Event.guiUnlock rfl) rfl
  have m3 : milestones s s3 = [Event.compileEnded, Event.guiUnlock] := by
    rw [milestones_append h1 (h2.any.trans h3), milestones_append h2 h3, milestones_of_plain h2]
    have e1 : milestones s s1 = [Event.compileEnded] := milestones_log s _
    have e3 : milestones s2 s3 = [Event.guiUnlock] := by
      unfold milestones
      rw [eventsSince_eq (show s3.trace = s2.trace ++ [Event.guiUnlock] from rfl)]
      rfl
    rw [e1, e3]; rfl
  split
  · have h4 : Emits Event.isPlain s3
        (log { s3 with autoReloadTimerActive := true } Event.autoReloadTimerStart) :=
      Emits.of_left (Emits.log _ Event.autoReloadTimerStart rfl) rfl
    rw [milestones_append (h1.trans (h2.any.trans h3)) h4, m3, milestones_of_plain h4]
    rfl
  · exact m3

/-! ### `compileCSG` -/

theorem compileCSG_evaluate_plain (env : Env C) (procevents : Bool) (n : C.AbstractNode)
    (s : MainWindow C) : Emits Event.isPlain s (compileCSG_evaluate env procevents n s) := by
  unfold compileCSG_evaluate
  lift_lets
  intro s1 r s2
  have h1 : Emits Event.isPlain s s2 := (processEventsIf_emits _ env _ _).of_right rfl
  split
  · next term heq =>
    refine (h1.of_right (t := { s2 with root_raw_term := term }) rfl).trans ?_
    refine (Emits.log _ (Event.evaluateCSGTerm false) rfl).trans ?_
    refine Emits.trans ?_ ((callHelper_emits _ env Helper.cachePrint _).trans
      (processEventsIf_emits _ env _ _))
    split
    · exact PRINT_emits _ env _ _
    · exact Emits.refl _ _
  · exact h1.trans ((Emits.log _ (Event.evaluateCSGTerm true) rfl).trans (PRINT_emits _ env _ _))

/-- The only milestone of a run of `compileCSG` is its entry. -/
theorem compileCSG_body_milestones (env : Env C) (procevents : Bool) (n : C.AbstractNode)
    (s : MainWindow C) :
    milestones s (compileCSG_body env procevents n s) = [Event.compileCSG] := by
  unfold compileCSG_body
  lift_lets
  intro s1 s2 s3 s4 s5 s6 s7 s8
  have h1 : Emits (fun _ => true) s s1 := Emits.log s _ rfl
  have h8 : Emits Event.isPlain s1 s8 :=
    (PRINT_emits _ env _ _).trans <| (processEventsIf_emits _ env _ _).trans <|
      (Emits.of_left (Emits.log s4 Event.progressReportPrep rfl) rfl).trans <|
      (compileCSG_evaluate_plain env procevents n s5).trans <|
      (Emits.log s6 Event.progressReportFin rfl).of_right rfl
  have key : ∀ u, Emits Event.isPlain s1 u → milestones s u = [Event.compileCSG] := by
    intro u hu
    rw [milestones_append h1 hu, milestones_of_plain hu, milestones_log]
    rfl
  apply key
  refine h8.trans ?_
  split
  · exact (compileCSG_products_emits env procevents _ s8).mono isProducts_isPlain
  · exact Emits.refl _ _

/-- The members a run of `compileCSG` can write. -/
theorem compileCSG_body_frame (env : Env C) (procevents : Bool) (n : C.AbstractNode)
    (s : MainWindow C) :
    ∃ raw nt rc ht hc bt bc oc tt,
      (compileCSG_body env procevents n s).toMembers =
        { s.toMembers with
            progresswidget := false, root_raw_term := raw,
            root_norm_term := nt, root_chain := rc, highlight_terms := ht,
            highlights_chain := hc, background_terms := bt, background_chain := bc,
            opencsgRenderer := oc, thrownTogetherRenderer := tt } := by
  obtain ⟨threw, mid, -, -, -, ⟨hl, bg, htrue, hfalse⟩, hbody⟩ :=
    compileCSG_body_cases env procevents n s
  have hmid : ∃ raw, mid.toMembers =
      { s.toMembers with
          progresswidget := false, root_raw_term := raw, highlight_terms := hl,
          background_terms := bg } := by
    cases threw
    · obtain ⟨term, h⟩ := hfalse rfl
      exact ⟨term, h⟩
    · exact ⟨s.root_raw_term, htrue rfl⟩
  obtain ⟨raw, hmid⟩ := hmid
  rw [hbody]
  split
  · rw [compileCSG_products_frame, hmid]
    exact ⟨_, _, _, _, _, _, _, _, _, rfl⟩
  · rw [hmid]
    exact ⟨_, _, _, _, _, _, _, _, _, rfl⟩

/-! ### The render slots -/

/-- `cgalRender` without a module or without a root node is `compileEnded`;
otherwise it starts the worker and nothing else of note. -/
theorem cgalRender_cases (env : Env C) (s : MainWindow C) :
    ((s.root_module = none ∨ s.root_node = none) → cgalRender env s = compileEnded env s) ∧
    (s.root_module.isSome = true → s.root_node.isSome = true →
      milestones s (cgalRender env s) = [Event.cgalworkerStart] ∧
      (cgalRender env s).toMembers =
        { s.toMembers with
            qglview_renderer := none, cgalRenderer := none, root_geom := none,
            progresswidget := true, cgalworker_running := true }) := by
  unfold cgalRender
  constructor
  · intro h
    have : (s.root_module.isNone || s.root_node.isNone) = true := by
      rcases h with h | h <;> simp [h]
    simp [this]
  · intro hm hn
    have : (s.root_module.isNone || s.root_node.isNone) = false := by
      cases hm' : s.root_module <;> cases hn' : s.root_node <;> simp_all
    rw [if_neg (by simp [this])]
    lift_lets
    intro s1 s2 s3 s4 s5 s6
    have h6 : Emits Event.isPlain s s6 :=
      (Emits.log s (Event.setRenderer none) rfl).of_right (t := s3) rfl |>.trans <|
        (PRINT_emits _ env _ s3).trans <|
        Emits.of_left (Emits.log s5 Event.progressReportPrep rfl) rfl
    have h7 : Emits (fun _ => true) s6
        (log { s6 with cgalworker_running := true } Event.cgalworkerStart) :=
      Emits.of_left (Emits.log _ Event.cgalworkerStart rfl) rfl
    refine ⟨?_, ?_⟩
    · rw [milestones_append h6 h7, milestones_of_plain h6]
      unfold milestones
      rw [eventsSince_eq (show (log { s6 with cgalworker_running := true }
        Event.cgalworkerStart).trace = s6.trace ++ [Event.cgalworkerStart] from rfl)]
      rfl
    · simp [s6, s5, s4, s3, s2, s1, setRenderer]

/-- The common shape of `csgRender` and `csgReloadRender`, by milestones. -/
theorem csgSlot_cases (env : Env C) (procevents : Bool) (tail : MainWindow C → MainWindow C)
    (htail : ∀ u, Emits Event.isViewing u (tail u) ∧ (tail u).toMembers = u.toMembers)
    (htail' : ∀ u, Emits Event.isPlain u (tail u))
    (s : MainWindow C) :
    (s.root_node = none →
      milestones s (compileEnded env (tail (goToNonCGALViewMode env s))) =
        [Event.compileEnded, Event.guiUnlock]) ∧
    (∀ n, s.root_node = some n →
      milestones s (compileEnded env (tail (goToNonCGALViewMode env
        (compileCSG_body env procevents n s)))) =
        [Event.compileCSG, Event.compileEnded, Event.guiUnlock]) ∧
    (∀ u : MainWindow C,
      (compileEnded env (tail (goToNonCGALViewMode env u))).toMembers.lockState =
        ((u.gui_locked + (2 ^ 32 - 1)) % 2 ^ 32, u.cgalworker_running,
          u.waitAfterReloadTimerActive, u.afterCompileSlot) ∧
      (compileEnded env (tail (goToNonCGALViewMode env u))).root_node = u.root_node) := by
  have hview : ∀ u, Emits Event.isPlain u (tail (goToNonCGALViewMode env u)) := fun u =>
    (goToNonCGALViewMode_plain env u).trans (htail' _)
  have hend : ∀ u, milestones u (compileEnded env (tail (goToNonCGALViewMode env u))) =
      [Event.compileEnded, Event.guiUnlock] := fun u => by
    rw [milestones_append (hview u) (compileEnded_emits (fun _ => true) rfl rfl rfl env _),
      milestones_of_plain (hview u), compileEnded_milestones]
    rfl
  refine ⟨fun _ => hend s, fun n _ => ?_, fun u => ?_⟩
  · have hb : Emits (fun _ => true) s (compileCSG_body env procevents n s) := by
      obtain ⟨threw, mid, hem, -, -, -, hbody⟩ := compileCSG_body_cases env procevents n s
      refine hem.any.trans ?_
      rw [hbody]
      split
      · exact (compileCSG_products_emits env procevents _ mid).any
      · exact Emits.refl _ _
    rw [milestones_append hb ((hview _).any.trans
      (compileEnded_emits (fun _ => true) rfl rfl rfl env _)), compileCSG_body_milestones,
      hend]
    rfl
  · obtain ⟨a, he⟩ := compileEnded_frame env (tail (goToNonCGALViewMode env u))
    obtain ⟨a', d, r, hg⟩ := goToNonCGALViewMode_frame env u
    have ht := (htail (goToNonCGALViewMode env u)).2
    have hu := ht.trans hg
    have x1 : (tail (goToNonCGALViewMode env u)).gui_locked = u.gui_locked := by
      show (tail (goToNonCGALViewMode env u)).toMembers.gui_locked = _
      rw [hu]
    have x2 : (tail (goToNonCGALViewMode env u)).cgalworker_running = u.cgalworker_running := by
      show (tail (goToNonCGALViewMode env u)).toMembers.cgalworker_running = _
      rw [hu]
    have x3 : (tail (goToNonCGALViewMode env u)).waitAfterReloadTimerActive =
        u.waitAfterReloadTimerActive := by
      show (tail (goToNonCGALViewMode env u)).toMembers.waitAfterReloadTimerActive = _
      rw [hu]
    have x4 : (tail (goToNonCGALViewMode env u)).afterCompileSlot = u.afterCompileSlot := by
      show (tail (goToNonCGALViewMode env u)).toMembers.afterCompileSlot = _
      rw [hu]
    have x5 : (tail (goToNonCGALViewMode env u)).root_node = u.root_node := by
      show (tail (goToNonCGALViewMode env u)).toMembers.root_node = _
      rw [hu]
    have g1 : (compileEnded env (tail (goToNonCGALViewMode env u))).toMembers.gui_locked =
        (u.gui_locked + (2 ^ 32 - 1)) % 2 ^ 32 := by
      rw [he, ← x1]
    have g2 : (compileEnded env (tail (goToNonCGALViewMode env u))).toMembers.cgalworker_running =
        u.cgalworker_running := by
      rw [he, ← x2]
    have g3 : (compileEnded env
        (tail (goToNonCGALViewMode env u))).toMembers.waitAfterReloadTimerActive =
        u.waitAfterReloadTimerActive := by
      rw [he, ← x3]
    have g4 : (compileEnded env (tail (goToNonCGALViewMode env u))).toMembers.afterCompileSlot =
        u.afterCompileSlot := by
      rw [he, ← x4]
    have g5 : (compileEnded env (tail (goToNonCGALViewMode env u))).toMembers.root_node =
        u.root_node := by
      rw [he, ← x5]
    refine ⟨?_, g5⟩
    unfold Members.lockState
    rw [g1, g2, g3, g4]

/-! ### `compileDone` -/

/-- What `compileDone(true)` has done when it enters the slot: only
`instantiateRoot`, so that no term, chain or renderer is left and the two term
vectors are empty. -/
theorem compileDone_atSlot_spec (env : Env C) (s : MainWindow C) :
    Emits Event.isPlain s (compileDone_atSlot env s) ∧
    Event.compileDone true ∈ eventsSince s (compileDone_atSlot env s) ∧
    Event.instantiateRoot ∈ eventsSince s (compileDone_atSlot env s) ∧
    (compileDone_atSlot env s).toMembers.lockState = s.toMembers.lockState ∧
    (compileDone_atSlot env s).root_module = s.root_module ∧
    (compileDone_atSlot env s).toMembers.renderState =
      ((compileDone_atSlot env s).root_node, none, none, none, none, none, none, none) ∧
    (compileDone_atSlot env s).highlight_terms = [] ∧
    (compileDone_atSlot env s).background_terms = [] ∧
    (s.root_module = none → (compileDone_atSlot env s).root_node = none) := by
  have h0 : Emits Event.isPlain s (log s (Event.compileDone true)) := Emits.log s _ rfl
  have h1 : Emits Event.isPlain (log s (Event.compileDone true))
      (instantiateRoot env (log s (Event.compileDone true))) := instantiateRoot_plain env _
  have h2 : Emits Event.isPlain (instantiateRoot env (log s (Event.compileDone true)))
      (compileDone_atSlot env s) := Emits.of_left (Emits.log _ _ rfl) rfl
  obtain ⟨hrs, -, hh, hb, hmod⟩ := instantiateRoot_renderState env (log s (Event.compileDone true))
  obtain ⟨r, hr, -⟩ := instantiateRoot_toMembers env (log s (Event.compileDone true))
  refine ⟨h0.trans (h1.trans h2), ?_, ?_, ?_, ?_, hrs, hh, hb, hmod⟩
  · exact mem_eventsSince_of_log (Emits.refl Event.isPlain s) (h1.trans h2)
  · exact Emits.mem_right h0 (h1.trans h2)
      (Emits.mem_left h1 h2 (mem_eventsSince_instantiateRoot env _))
  · show (instantiateRoot env (log s (Event.compileDone true))).toMembers.lockState = _
    rw [hr]
    cases r <;> rfl
  · show (instantiateRoot env (log s (Event.compileDone true))).toMembers.root_module = _
    rw [hr]
    cases r <;> rfl

/-- The tail of `csgRender` after the view-mode switch. -/
theorem csgRender_eq_plain (env : Env C) (s : MainWindow C) :
    ∃ tail : MainWindow C → MainWindow C,
      (∀ u, Emits Event.isViewing u (tail u) ∧ (tail u).toMembers = u.toMembers) ∧
      (∀ u, Emits Event.isPlain u (tail u)) ∧
      csgRender env s =
        some (compileEnded env (tail (goToNonCGALViewMode env
          (match s.root_node with
           | some n => compileCSG_body env (!s.viewActionAnimate) n s
           | none => s)))) := by
  refine ⟨fun u => if u.viewActionAnimate && u.e_dump then callHelper env Helper.dumpFrame u
    else u, fun u => ?_, fun u => ?_, ?_⟩
  · simp only []
    split
    · exact ⟨callHelper_emits _ env _ u, rfl⟩
    · exact ⟨Emits.refl _ u, rfl⟩
  · simp only []
    split
    · exact callHelper_emits _ env _ u
    · exact Emits.refl _ u
  · unfold csgRender compileCSG
    cases s.root_node <;> rfl

/-- The run of `compileDone(true)` after `instantiateRoot`, slot by slot. -/
theorem compileDone_true_run (env : Env C) (s : MainWindow C) :
    ∃ (procevents : Bool) (tail : MainWindow C → MainWindow C),
      (∀ v, Emits Event.isViewing v (tail v) ∧ (tail v).toMembers = v.toMembers) ∧
      (∀ v, Emits Event.isPlain v (tail v)) ∧
      ((s.afterCompileSlot = Slot.csgRender ∨ s.afterCompileSlot = Slot.csgReloadRender) →
        (∀ n, (compileDone_atSlot env s).root_node = some n →
          compileCSG env procevents (compileDone_atSlot env s) =
            some (compileCSG_body env procevents n (compileDone_atSlot env s)) ∧
          compileDone env true s =
            some (compileEnded env (tail (goToNonCGALViewMode env
              (compileCSG_body env procevents n (compileDone_atSlot env s)))))) ∧
        ((compileDone_atSlot env s).root_node = none →
          compileDone env true s =
            some (compileEnded env (tail (goToNonCGALViewMode env
              (compileDone_atSlot env s)))))) ∧
      (s.afterCompileSlot = Slot.cgalRender →
        compileDone env true s = some (cgalRender env (compileDone_atSlot env s))) ∧
      (s.afterCompileSlot = Slot.compileEnded →
        compileDone env true s = some (compileEnded env (compileDone_atSlot env s))) := by
  have hslot : (instantiateRoot env (log s (Event.compileDone true))).afterCompileSlot =
      s.afterCompileSlot :=
    congrArg (fun p => p.2.2.2.2.2.2.1) (instantiateRoot_document env (log s (Event.compileDone true)))
  have hrun : compileDone env true s =
      match (instantiateRoot env (log s (Event.compileDone true))).afterCompileSlot with
      | Slot.csgRender => csgRender env (compileDone_atSlot env s)
      | Slot.csgReloadRender => csgReloadRender env (compileDone_atSlot env s)
      | Slot.cgalRender => some (cgalRender env (compileDone_atSlot env s))
      | Slot.compileEnded => some (compileEnded env (compileDone_atSlot env s)) := by
    unfold compileDone invokeMethod compileDone_atSlot
    simp only [if_true]
  rw [hslot] at hrun
  cases hs : s.afterCompileSlot with
  | csgRender =>
    rw [hs] at hrun
    simp only [] at hrun
    obtain ⟨tail, htail, htail', heq⟩ := csgRender_eq_plain env (compileDone_atSlot env s)
    refine ⟨!(compileDone_atSlot env s).viewActionAnimate, tail, htail, ?_, fun _ => ⟨?_, ?_⟩,
      fun h => (by cases h), fun h => (by cases h)⟩
    · intro v
      exact (htail' v)
    · intro n hn
      refine ⟨by simp [compileCSG, hn], ?_⟩
      rw [hrun, heq, hn]
    · intro hn
      rw [hrun, heq, hn]
  | csgReloadRender =>
    rw [hs] at hrun
    simp only [] at hrun
    refine ⟨true, id, fun v => ⟨Emits.refl _ v, rfl⟩, fun v => Emits.refl _ v, fun _ => ⟨?_, ?_⟩,
      fun h => (by cases h), fun h => (by cases h)⟩
    · intro n hn
      refine ⟨by simp [compileCSG, hn], ?_⟩
      rw [hrun, csgReloadRender_eq, hn]
      rfl
    · intro hn
      rw [hrun, csgReloadRender_eq, hn]
      rfl
  | cgalRender =>
    rw [hs] at hrun
    exact ⟨true, id, fun v => ⟨Emits.refl _ v, rfl⟩, fun v => Emits.refl _ v,
      fun h => (by rcases h with h | h <;> cases h), fun _ => hrun, fun h => (by cases h)⟩
  | compileEnded =>
    rw [hs] at hrun
    exact ⟨true, id, fun v => ⟨Emits.refl _ v, rfl⟩, fun v => Emits.refl _ v,
      fun h => (by rcases h with h | h <;> cases h), fun h => (by cases h), fun _ => hrun⟩

/-! ### The lock state along `compile` -/

theorem compileEnded_lockState (env : Env C) (u : MainWindow C) :
    (compileEnded env u).toMembers.lockState =
      ((u.gui_locked + (2 ^ 32 - 1)) % 2 ^ 32, u.cgalworker_running,
        u.waitAfterReloadTimerActive, u.afterCompileSlot) ∧
    (compileEnded env u).root_node = u.root_node := by
  obtain ⟨a, he⟩ := compileEnded_frame env u
  constructor
  · rw [he]; rfl
  · show (compileEnded env u).toMembers.root_node = _
    rw [he]

theorem compile_shouldcompiletoplevel_lockState (env : Env C) (reload : Bool)
    (s : MainWindow C) :
    (compile_shouldcompiletoplevel env reload s).2.toMembers.lockState =
      s.toMembers.lockState := by
  unfold compile_shouldcompiletoplevel
  lift_lets
  intro changed confirmed s1 current_doc r should s2
  have hch : changed.2.toMembers.lockState = s.toMembers.lockState := by
    obtain ⟨id, hid⟩ := fileChangedOnDisk_frame env s
    rw [show changed.2.toMembers = _ from hid]; rfl
  have hconf : confirmed.2.toMembers.lockState = s.toMembers.lockState := by
    simp only [confirmed]
    split
    · obtain ⟨a, b, h⟩ := checkEditorModified_frame env changed.2
      rw [h]; exact hch
    · exact hch
  have hr : r.2.toMembers.lockState = s.toMembers.lockState := by
    simp only [r]
    split
    · split
      · obtain ⟨text, h⟩ := refreshDocument_frame env confirmed.2
        rw [h]; exact hconf
      · split
        · exact hconf
        · exact hconf
    · rfl
  split
  · exact hr
  · split
    · exact hr
    · exact hr

theorem compile_atDependencyTest_lockState (env : Env C) (reload : Bool) (s : MainWindow C) :
    (compile_atDependencyTest env reload s).toMembers.lockState = s.toMembers.lockState := by
  have h1 := compile_shouldcompiletoplevel_lockState env reload s
  cases h : (compile_shouldcompiletoplevel env reload s).1 with
  | true =>
    obtain ⟨-, m, pos, hM, -⟩ := compile_recompiled env reload s h
    rw [hM]; exact h1
  | false =>
    obtain ⟨hM, -⟩ := compile_not_recompiled env reload s h
    rw [hM]; exact h1

/-! ### How a request can end -/

/-- The two ways `compileDone` can end: with `compileEnded`, after a run of
`compileCSG` if there is a root node, or with the worker started by
`cgalRender`. -/
theorem compileDone_outcome (env : Env C) (didchange : Bool) (s : MainWindow C) :
    ∃ t, compileDone env didchange s = some t ∧
      t.afterCompileSlot = s.afterCompileSlot ∧
      t.waitAfterReloadTimerActive = s.waitAfterReloadTimerActive ∧
      ((t.gui_locked = (s.gui_locked + (2 ^ 32 - 1)) % 2 ^ 32 ∧
          t.cgalworker_running = s.cgalworker_running ∧
          (milestones s t = [Event.compileEnded, Event.guiUnlock] ∨
            (t.root_node.isSome = true ∧
              milestones s t = [Event.compileCSG, Event.compileEnded, Event.guiUnlock]))) ∨
        (didchange = true ∧ s.afterCompileSlot = Slot.cgalRender ∧
          t.root_node.isSome = true ∧ milestones s t = [Event.cgalworkerStart] ∧
          t.gui_locked = s.gui_locked ∧ t.cgalworker_running = true)) := by
  -- what `compileEnded` makes of a state that kept the lock state of `s`
  have ended : ∀ (u t : MainWindow C), Emits Event.isPlain s u →
      u.toMembers.lockState = s.toMembers.lockState →
      t.toMembers.lockState = ((u.gui_locked + (2 ^ 32 - 1)) % 2 ^ 32, u.cgalworker_running,
        u.waitAfterReloadTimerActive, u.afterCompileSlot) →
      t.afterCompileSlot = s.afterCompileSlot ∧
      t.waitAfterReloadTimerActive = s.waitAfterReloadTimerActive ∧
      t.gui_locked = (s.gui_locked + (2 ^ 32 - 1)) % 2 ^ 32 ∧
      t.cgalworker_running = s.cgalworker_running := by
    intro u t _ hu ht
    have h1 : u.gui_locked = s.gui_locked := congrArg (fun p => p.1) hu
    have h2 : u.cgalworker_running = s.cgalworker_running := congrArg (fun p => p.2.1) hu
    have h3 : u.waitAfterReloadTimerActive = s.waitAfterReloadTimerActive :=
      congrArg (fun p => p.2.2.1) hu
    have h4 : u.afterCompileSlot = s.afterCompileSlot := congrArg (fun p => p.2.2.2) hu
    rw [h1, h2, h3, h4] at ht
    exact ⟨congrArg (fun p => p.2.2.2) ht, congrArg (fun p => p.2.2.1) ht,
      congrArg (fun p => p.1) ht, congrArg (fun p => p.2.1) ht⟩
  cases didchange with
  | false =>
    have hu : Emits Event.isPlain s
        (log { log s (Event.compileDone false) with procevents := false }
          (Event.invokeMethod Slot.compileEnded)) :=
      (Emits.log s (Event.compileDone false) rfl).trans
        (Emits.of_left (Emits.log _ (Event.invokeMethod Slot.compileEnded) rfl) rfl)
    refine ⟨compileEnded env (log { log s (Event.compileDone false) with procevents := false }
      (Event.invokeMethod Slot.compileEnded)), rfl, ?_⟩
    obtain ⟨e1, e2, e3, e4⟩ := ended _ _ hu rfl (compileEnded_lockState env _).1
    refine ⟨e1, e2, Or.inl ⟨e3, e4, Or.inl ?_⟩⟩
    rw [milestones_append hu (compileEnded_emits (fun _ => true) rfl rfl rfl env _),
      milestones_of_plain hu, compileEnded_milestones]
    rfl
  | true =>
    obtain ⟨hplain, -, -, hlock, hmod, -, -, -, hnomod⟩ := compileDone_atSlot_spec env s
    obtain ⟨procevents, tail, htail, htail', hcsg, hcgal, hend⟩ := compileDone_true_run env s
    obtain ⟨cnone, csome, cframe⟩ := csgSlot_cases env procevents tail htail htail'
      (compileDone_atSlot env s)
    by_cases hs : s.afterCompileSlot = Slot.csgRender ∨
        s.afterCompileSlot = Slot.csgReloadRender
    · obtain ⟨hn1, hn0⟩ := hcsg hs
      cases hn : (compileDone_atSlot env s).root_node with
      | none =>
        refine ⟨_, hn0 hn, ?_⟩
        obtain ⟨e1, e2, e3, e4⟩ := ended _ _ hplain hlock (cframe _).1
        refine ⟨e1, e2, Or.inl ⟨e3, e4, Or.inl ?_⟩⟩
        rw [milestones_append hplain
          (((goToNonCGALViewMode_plain env _).trans (htail' _)).any.trans
            (compileEnded_emits (fun _ => true) rfl rfl rfl env _)),
          milestones_of_plain hplain, cnone hn]
        rfl
      | some n =>
        refine ⟨_, (hn1 n hn).2, ?_⟩
        obtain ⟨raw, nt, rc, ht, hc, bt, bc, oc, tt, hb⟩ :=
          compileCSG_body_frame env procevents n (compileDone_atSlot env s)
        have hbl : (compileCSG_body env procevents n (compileDone_atSlot env s)).toMembers.lockState =
            s.toMembers.lockState := by
          rw [hb]; exact hlock
        have hbn : (compileCSG_body env procevents n (compileDone_atSlot env s)).root_node =
            some n := by
          show (compileCSG_body env procevents n (compileDone_atSlot env s)).toMembers.root_node = _
          rw [hb]; exact hn
        have hbe : Emits (fun _ => true) (compileDone_atSlot env s)
            (compileCSG_body env procevents n (compileDone_atSlot env s)) := by
          obtain ⟨threw, mid, hem, -, -, -, hbody⟩ :=
            compileCSG_body_cases env procevents n (compileDone_atSlot env s)
          refine hem.any.trans ?_
          rw [hbody]
          split
          · exact (compileCSG_products_emits env procevents _ mid).any
          · exact Emits.refl _ _
        have hrest : Emits (fun _ => true) (compileDone_atSlot env s)
            (compileEnded env (tail (goToNonCGALViewMode env
              (compileCSG_body env procevents n (compileDone_atSlot env s))))) :=
          hbe.trans (((goToNonCGALViewMode_plain env _).trans (htail' _)).any.trans
            (compileEnded_emits (fun _ => true) rfl rfl rfl env _))
        have hfin : ∀ t : MainWindow C,
            t.toMembers.lockState =
              (((compileCSG_body env procevents n (compileDone_atSlot env s)).gui_locked +
                  (2 ^ 32 - 1)) % 2 ^ 32,
                (compileCSG_body env procevents n (compileDone_atSlot env s)).cgalworker_running,
                (compileCSG_body env procevents n
                  (compileDone_atSlot env s)).waitAfterReloadTimerActive,
                (compileCSG_body env procevents n (compileDone_atSlot env s)).afterCompileSlot) →
            t.afterCompileSlot = s.afterCompileSlot ∧
            t.waitAfterReloadTimerActive = s.waitAfterReloadTimerActive ∧
            t.gui_locked = (s.gui_locked + (2 ^ 32 - 1)) % 2 ^ 32 ∧
            t.cgalworker_running = s.cgalworker_running := by
          intro t ht
          have h1 : (compileCSG_body env procevents n (compileDone_atSlot env s)).gui_locked =
              s.gui_locked := congrArg (fun p => p.1) hbl
          have h2 : (compileCSG_body env procevents n
              (compileDone_atSlot env s)).cgalworker_running = s.cgalworker_running :=
            congrArg (fun p => p.2.1) hbl
          have h3 : (compileCSG_body env procevents n
              (compileDone_atSlot env s)).waitAfterReloadTimerActive =
              s.waitAfterReloadTimerActive := congrArg (fun p => p.2.2.1) hbl
          have h4 : (compileCSG_body env procevents n
              (compileDone_atSlot env s)).afterCompileSlot = s.afterCompileSlot :=
            congrArg (fun p => p.2.2.2) hbl
          rw [h1, h2, h3, h4] at ht
          exact ⟨congrArg (fun p => p.2.2.2) ht, congrArg (fun p => p.2.2.1) ht,
            congrArg (fun p => p.1) ht, congrArg (fun p => p.2.1) ht⟩
        obtain ⟨e1, e2, e3, e4⟩ := hfin _ (cframe _).1
        refine ⟨e1, e2, Or.inl ⟨e3, e4, Or.inr ⟨?_, ?_⟩⟩⟩
        · rw [(cframe _).2, hbn]; rfl
        · rw [milestones_append hplain hrest, milestones_of_plain hplain, csome n hn]
          rfl
    cases hs' : s.afterCompileSlot with
    | csgRender => exact absurd (Or.inl hs') hs
    | csgReloadRender => exact absurd (Or.inr hs') hs
    | compileEnded =>
      refine ⟨_, hend hs', ?_⟩
      obtain ⟨e1, e2, e3, e4⟩ := ended _ _ hplain hlock (compileEnded_lockState env _).1
      rw [hs'] at e1
      refine ⟨e1, e2, Or.inl ⟨e3, e4, Or.inl ?_⟩⟩
      rw [milestones_append hplain (compileEnded_emits (fun _ => true) rfl rfl rfl env _),
        milestones_of_plain hplain, compileEnded_milestones]
      rfl
    | cgalRender =>
      refine ⟨_, hcgal hs', ?_⟩
      obtain ⟨cend, cstart⟩ := cgalRender_cases env (compileDone_atSlot env s)
      by_cases hboth : (compileDone_atSlot env s).root_module.isSome = true ∧
          (compileDone_atSlot env s).root_node.isSome = true
      · obtain ⟨hm, hM⟩ := cstart hboth.1 hboth.2
        have hl : (cgalRender env (compileDone_atSlot env s)).toMembers.lockState =
            (s.gui_locked, true, s.waitAfterReloadTimerActive, s.afterCompileSlot) := by
          rw [hM]
          have h1 : (compileDone_atSlot env s).gui_locked = s.gui_locked :=
            congrArg (fun p => p.1) hlock
          have h3 : (compileDone_atSlot env s).waitAfterReloadTimerActive =
              s.waitAfterReloadTimerActive := congrArg (fun p => p.2.2.1) hlock
          have h4 : (compileDone_atSlot env s).afterCompileSlot = s.afterCompileSlot :=
            congrArg (fun p => p.2.2.2) hlock
          show ((compileDone_atSlot env s).gui_locked, true,
            (compileDone_atSlot env s).waitAfterReloadTimerActive,
            (compileDone_atSlot env s).afterCompileSlot) = _
          rw [h1, h3, h4]
        have hn : (cgalRender env (compileDone_atSlot env s)).root_node =
            (compileDone_atSlot env s).root_node := by
          show (cgalRender env (compileDone_atSlot env s)).toMembers.root_node = _
          rw [hM]
        have hsl := congrArg (fun p => p.2.2.2) hl
        simp only [] at hsl
        rw [hs'] at hsl
        refine ⟨hsl, congrArg (fun p => p.2.2.1) hl, Or.inr ⟨rfl, rfl, ?_, ?_,
          congrArg (fun p => p.1) hl, congrArg (fun p => p.2.1) hl⟩⟩
        · rw [hn]; exact hboth.2
        · rw [milestones_append hplain (Emits.any (cgalRender_emits false env _)),
            milestones_of_plain hplain, hm]
          rfl
      · have hnone : (compileDone_atSlot env s).root_module = none ∨
            (compileDone_atSlot env s).root_node = none := by
          cases h1 : (compileDone_atSlot env s).root_module with
          | none => exact Or.inl rfl
          | some m =>
            cases h2 : (compileDone_atSlot env s).root_node with
            | none => exact Or.inr rfl
            | some n => exact absurd ⟨by rw [h1]; rfl, by rw [h2]; rfl⟩ hboth
        rw [cend hnone]
        obtain ⟨e1, e2, e3, e4⟩ := ended _ _ hplain hlock (compileEnded_lockState env _).1
        rw [hs'] at e1
        refine ⟨e1, e2, Or.inl ⟨e3, e4, Or.inl ?_⟩⟩
        rw [milestones_append hplain (compileEnded_emits (fun _ => true) rfl rfl rfl env _),
          milestones_of_plain hplain, compileEnded_milestones]
        rfl

theorem compileDone_emits_any (env : Env C) (didchange : Bool) (s t : MainWindow C)
    (h : compileDone env didchange s = some t) : Emits (fun _ => true) s t := by
  cases didchange with
  | false =>
    obtain ⟨t', ht', hem, -⟩ := compileDone_false env s
    rw [ht'] at h
    cases h
    exact hem.any
  | true =>
    obtain ⟨t', threw, ht', hem, -⟩ := compileDone_true env s
    rw [ht'] at h
    cases h
    exact hem.any

/-- The three ways `compile` can end: parked on `waitAfterReloadTimer`, with
`compileEnded`, or with the worker started. -/
theorem compile_outcome (env : Env C) (reload forcedone : Bool) (s : MainWindow C) :
    ∃ t, compile env reload forcedone s = some t ∧
      Emits (fun _ => true) s t ∧
      t.afterCompileSlot = s.afterCompileSlot ∧
      ((reload = true ∧ milestones s t = [Event.waitAfterReloadTimerStart] ∧
          t.waitAfterReloadTimerActive = true ∧ t.gui_locked = s.gui_locked ∧
          t.cgalworker_running = s.cgalworker_running) ∨
        (t.waitAfterReloadTimerActive = s.waitAfterReloadTimerActive ∧
          t.gui_locked = (s.gui_locked + (2 ^ 32 - 1)) % 2 ^ 32 ∧
          t.cgalworker_running = s.cgalworker_running ∧
          (milestones s t = [Event.compileEnded, Event.guiUnlock] ∨
            (t.root_node.isSome = true ∧
              milestones s t = [Event.compileCSG, Event.compileEnded, Event.guiUnlock]))) ∨
        (t.waitAfterReloadTimerActive = s.waitAfterReloadTimerActive ∧
          s.afterCompileSlot = Slot.cgalRender ∧
          t.root_node.isSome = true ∧ milestones s t = [Event.cgalworkerStart] ∧
          t.gui_locked = s.gui_locked ∧ t.cgalworker_running = true)) := by
  have hup := (compile_upstream env reload s).mono isUpstream_isPlain
  have hlock := compile_atDependencyTest_lockState env reload s
  have g1 : (compile_atDependencyTest env reload s).gui_locked = s.gui_locked :=
    congrArg (fun p => p.1) hlock
  have g2 : (compile_atDependencyTest env reload s).cgalworker_running = s.cgalworker_running :=
    congrArg (fun p => p.2.1) hlock
  have g3 : (compile_atDependencyTest env reload s).waitAfterReloadTimerActive =
      s.waitAfterReloadTimerActive := congrArg (fun p => p.2.2.1) hlock
  have g4 : (compile_atDependencyTest env reload s).afterCompileSlot = s.afterCompileSlot :=
    congrArg (fun p => p.2.2.2) hlock
  rw [compile_eq]
  split
  · next hw =>
    have hlog : Emits (fun _ => true) (compile_atDependencyTest env reload s)
        (log { compile_atDependencyTest env reload s with
          waitAfterReloadTimerActive := true } Event.waitAfterReloadTimerStart) :=
      Emits.of_left (Emits.log _ _ rfl) rfl
    have hr : reload = true := by
      cases reload
      · rw [compile_waits_false] at hw; cases hw
      · rfl
    refine ⟨_, rfl, hup.any.trans hlog, g4, Or.inl ⟨hr, ?_, rfl, g1, g2⟩⟩
    rw [milestones_append hup hlog, milestones_of_plain hup]
    unfold milestones
    rw [eventsSince_eq (show (log { compile_atDependencyTest env reload s with
      waitAfterReloadTimerActive := true } Event.waitAfterReloadTimerStart).trace =
        (compile_atDependencyTest env reload s).trace ++ [Event.waitAfterReloadTimerStart]
      from rfl)]
    rfl
  · obtain ⟨hM, -, -, -⟩ := compile_highlightError_spec reload
      (compile_didcompileValue env reload s) (compile_atDependencyTest env reload s)
    have hpre : Emits Event.isPlain s
        (compile_highlightError reload (compile_didcompileValue env reload s)
          (compile_atDependencyTest env reload s)) :=
      hup.trans ((compile_highlightError_upstream _ _ _).mono isUpstream_isPlain)
    obtain ⟨t, hrun, hslot, hwait, hcase⟩ := compileDone_outcome env
      (compile_didcompileValue env reload s || forcedone)
      (compile_highlightError reload (compile_didcompileValue env reload s)
        (compile_atDependencyTest env reload s))
    have hany := compileDone_emits_any env _ _ t hrun
    have hms : milestones s t = milestones
        (compile_highlightError reload (compile_didcompileValue env reload s)
          (compile_atDependencyTest env reload s)) t := by
      rw [milestones_append hpre hany, milestones_of_plain hpre]
      rfl
    have k1 : (compile_highlightError reload (compile_didcompileValue env reload s)
        (compile_atDependencyTest env reload s)).gui_locked = s.gui_locked :=
      (congrArg (fun m : Members C => m.gui_locked) hM).trans g1
    have k2 : (compile_highlightError reload (compile_didcompileValue env reload s)
        (compile_atDependencyTest env reload s)).cgalworker_running = s.cgalworker_running :=
      (congrArg (fun m : Members C => m.cgalworker_running) hM).trans g2
    have k3 : (compile_highlightError reload (compile_didcompileValue env reload s)
        (compile_atDependencyTest env reload s)).waitAfterReloadTimerActive =
        s.waitAfterReloadTimerActive :=
      (congrArg (fun m : Members C => m.waitAfterReloadTimerActive) hM).trans g3
    have k4 : (compile_highlightError reload (compile_didcompileValue env reload s)
        (compile_atDependencyTest env reload s)).afterCompileSlot = s.afterCompileSlot :=
      (congrArg (fun m : Members C => m.afterCompileSlot) hM).trans g4
    rw [k1, k2, k4, ← hms] at hcase
    rw [k3] at hwait
    rw [k4] at hslot
    refine ⟨t, hrun, hpre.any.trans hany, hslot, Or.inr ?_⟩
    rcases hcase with ⟨c1, c2, c3⟩ | ⟨-, c2, c3, c4, c5, c6⟩
    · exact Or.inl ⟨hwait, c1, c2, c3⟩
    · exact Or.inr ⟨hwait, c2, c3, c4, c5, c6⟩

/-! ### The three compile requests -/

/-- The head common to the three compile requests when the GUI lock is free:
the lock is taken, `autoReloadTimer` stopped and the output redirected. -/
theorem request_head (env : Env C) (s : MainWindow C) (hfree : GuiLocker_isLocked s = false) :
    Emits (fun _ => true) s
      (setCurrentOutput env (log { GuiLocker_lock s with autoReloadTimerActive := false }
        Event.autoReloadTimerStop)) ∧
    milestones s
      (setCurrentOutput env (log { GuiLocker_lock s with autoReloadTimerActive := false }
        Event.autoReloadTimerStop)) = [Event.guiLock] ∧
    (setCurrentOutput env (log { GuiLocker_lock s with autoReloadTimerActive := false }
        Event.autoReloadTimerStop)).toMembers =
      { s.toMembers with
          gui_locked := 1, autoReloadTimerActive := false, outputHandlerSet := true } := by
  have h0 : s.gui_locked = 0 := by
    unfold GuiLocker_isLocked at hfree
    simpa using hfree
  have h1 : Emits (fun _ => true) s (GuiLocker_lock s) := Emits.of_left (Emits.log _ _ rfl) rfl
  have h2 : Emits Event.isPlain (GuiLocker_lock s)
      (setCurrentOutput env (log { GuiLocker_lock s with autoReloadTimerActive := false }
        Event.autoReloadTimerStop)) :=
    (Emits.of_left (Emits.log _ Event.autoReloadTimerStop rfl) rfl).trans
      (Emits.of_left (callHelper_emits _ env Helper.setCurrentOutput _) rfl)
  refine ⟨h1.trans h2.any, ?_, ?_⟩
  · rw [milestones_append h1 h2, milestones_of_plain h2]
    unfold milestones
    rw [eventsSince_eq (show (GuiLocker_lock s).trace = s.trace ++ [Event.guiLock] from rfl)]
    rfl
  · simp [setCurrentOutput, GuiLocker_lock, h0]

/-- How a compile request that found the GUI lock free ends, given the state
`s'` in which it calls `compile`. -/
theorem request_outcome (env : Env C) (reload : Bool) (s s' : MainWindow C)
    (hpre : Emits (fun _ => true) s s') (hm : milestones s s' = [Event.guiLock])
    (hlock : s'.gui_locked = 1) (hrun : s'.cgalworker_running = s.cgalworker_running)
    (hwait : s'.waitAfterReloadTimerActive = s.waitAfterReloadTimerActive) :
    ∃ t, compile env reload false s' = some t ∧
      Emits (fun _ => true) s t ∧
      t.afterCompileSlot = s'.afterCompileSlot ∧
      ((reload = true ∧ milestones s t = [Event.guiLock, Event.waitAfterReloadTimerStart] ∧
          t.waitAfterReloadTimerActive = true ∧ t.gui_locked = 1 ∧
          t.cgalworker_running = s.cgalworker_running) ∨
        (t.waitAfterReloadTimerActive = s.waitAfterReloadTimerActive ∧
          t.gui_locked = 0 ∧
          t.cgalworker_running = s.cgalworker_running ∧
          (milestones s t = [Event.guiLock, Event.compileEnded, Event.guiUnlock] ∨
            (t.root_node.isSome = true ∧
              milestones s t =
                [Event.guiLock, Event.compileCSG, Event.compileEnded, Event.guiUnlock]))) ∨
        (t.waitAfterReloadTimerActive = s.waitAfterReloadTimerActive ∧
          s'.afterCompileSlot = Slot.cgalRender ∧
          t.root_node.isSome = true ∧
          milestones s t = [Event.guiLock, Event.cgalworkerStart] ∧
          t.gui_locked = 1 ∧ t.cgalworker_running = true)) := by
  obtain ⟨t, ht, hany, hslot, hcase⟩ := compile_outcome env reload false s'
  have hms : milestones s t = Event.guiLock :: milestones s' t := by
    rw [milestones_append hpre hany, hm]; rfl
  refine ⟨t, ht, hpre.trans hany, hslot, ?_⟩
  rw [hms]
  rw [hlock, hrun, hwait] at hcase
  rcases hcase with ⟨c1, c2, c3, c4, c5⟩ | ⟨c1, c2, c3, c4⟩ | ⟨c1, c2, c3, c4, c5, c6⟩
  · exact Or.inl ⟨c1, by rw [c2], c3, c4, c5⟩
  · refine Or.inr (Or.inl ⟨c1, c2, c3, ?_⟩)
    rcases c4 with c4 | ⟨c4, c4'⟩
    · exact Or.inl (by rw [c4])
    · exact Or.inr ⟨c4, by rw [c4']⟩
  · exact Or.inr (Or.inr ⟨c1, c2, c3, by rw [c4], c5, c6⟩)

/-- Each compile request that finds the GUI lock free is a call of `compile`
in a state that differs from the one before the request by the lock taken,
the slot chosen and output settings. -/
theorem request_calls_compile (env : Env C) (s : MainWindow C)
    (hfree : GuiLocker_isLocked s = false) :
    (∃ s', actionRenderPreview env s = compile env false false s' ∧
      Emits (fun _ => true) s s' ∧ milestones s s' = [Event.guiLock] ∧ s'.gui_locked = 1 ∧
      s'.cgalworker_running = s.cgalworker_running ∧
      s'.waitAfterReloadTimerActive = s.waitAfterReloadTimerActive ∧
      s'.afterCompileSlot = Slot.csgRender) ∧
    (∃ s', actionReloadRenderPreview env s = compile env true false s' ∧
      Emits (fun _ => true) s s' ∧ milestones s s' = [Event.guiLock] ∧ s'.gui_locked = 1 ∧
      s'.cgalworker_running = s.cgalworker_running ∧
      s'.waitAfterReloadTimerActive = s.waitAfterReloadTimerActive ∧
      s'.afterCompileSlot = Slot.csgReloadRender) ∧
    (∃ s', actionRender env s = compile env false false s' ∧
      Emits (fun _ => true) s s' ∧ milestones s s' = [Event.guiLock] ∧ s'.gui_locked = 1 ∧
      s'.cgalworker_running = s.cgalworker_running ∧
      s'.waitAfterReloadTimerActive = s.waitAfterReloadTimerActive ∧
      s'.afterCompileSlot = Slot.cgalRender) := by
  obtain ⟨hE, hm, hM⟩ := request_head env s hfree
  have hparse : Emits Event.isPlain
      (setCurrentOutput env (log { GuiLocker_lock s with autoReloadTimerActive := false }
        Event.autoReloadTimerStop))
      (callHelper env Helper.processEvents (PRINT env "Parsing design (AST generation)..."
        (setCurrentOutput env (log { GuiLocker_lock s with autoReloadTimerActive := false }
          Event.autoReloadTimerStop)))) :=
    (PRINT_emits _ env _ _).trans (callHelper_emits _ env _ _)
  have hmp : milestones s
      (callHelper env Helper.processEvents (PRINT env "Parsing design (AST generation)..."
        (setCurrentOutput env (log { GuiLocker_lock s with autoReloadTimerActive := false }
          Event.autoReloadTimerStop)))) = [Event.guiLock] := by
    rw [milestones_append hE hparse, hm, milestones_of_plain hparse]; rfl
  have hMp : (callHelper env Helper.processEvents (PRINT env "Parsing design (AST generation)..."
        (setCurrentOutput env (log { GuiLocker_lock s with autoReloadTimerActive := false }
          Event.autoReloadTimerStop)))).toMembers =
      { s.toMembers with
          gui_locked := 1, autoReloadTimerActive := false, outputHandlerSet := true } := by
    rw [callHelper_toMembers, PRINT_toMembers, hM]
  have p1 : ∀ {α : Type} (f : Members C → α), f (setCurrentOutput env
      (log { GuiLocker_lock s with autoReloadTimerActive := false }
        Event.autoReloadTimerStop)).toMembers = f _ := fun f => congrArg f hM
  have p2 : ∀ {α : Type} (f : Members C → α), f (callHelper env Helper.processEvents
      (PRINT env "Parsing design (AST generation)..."
        (setCurrentOutput env (log { GuiLocker_lock s with autoReloadTimerActive := false }
          Event.autoReloadTimerStop)))).toMembers = f _ := fun f => congrArg f hMp
  generalize hH : setCurrentOutput env (log { GuiLocker_lock s with autoReloadTimerActive := false }
      Event.autoReloadTimerStop) = H at hE hm hM hparse hmp hMp p1 p2
  generalize hP : callHelper env Helper.processEvents
      (PRINT env "Parsing design (AST generation)..." H) = P at hparse hmp hMp p2
  refine ⟨⟨{ { P with afterCompileSlot := Slot.csgRender } with
              procevents := !P.viewActionAnimate }, ?_,
      (hE.trans hparse.any).of_right rfl, hmp, p2 (fun m => m.gui_locked),
      p2 (fun m => m.cgalworker_running), p2 (fun m => m.waitAfterReloadTimerActive), rfl⟩,
    ⟨{ { H with afterCompileSlot := Slot.csgReloadRender } with procevents := true }, ?_,
      hE.of_right rfl, hm, p1 (fun m => m.gui_locked),
      p1 (fun m => m.cgalworker_running), p1 (fun m => m.waitAfterReloadTimerActive), rfl⟩,
    ⟨{ { P with afterCompileSlot := Slot.cgalRender } with procevents := true }, ?_,
      (hE.trans hparse.any).of_right rfl, hmp, p2 (fun m => m.gui_locked),
      p2 (fun m => m.cgalworker_running), p2 (fun m => m.waitAfterReloadTimerActive), rfl⟩⟩
  · unfold actionRenderPreview
    rw [if_neg (by simp [hfree]), ← hP, ← hH]
  · unfold actionReloadRenderPreview
    rw [if_neg (by simp [hfree]), ← hH]
  · unfold actionRender
    rw [if_neg (by simp [hfree]), ← hP, ← hH]

/-- The three ways `waitAfterReload` can go. -/
theorem waitAfterReload_cases (env : Env C) (s : MainWindow C) :
    (s.root_module = none → waitAfterReload env s = none) ∧
    ∀ m, s.root_module = some m →
      ((env.handleDependencies m s.world).1 = true →
        waitAfterReload env s =
          some (log { log { s with world := (env.handleDependencies m s.world).2,
                                   waitAfterReloadTimerActive := false }
                        (Event.handleDependencies true) with
                      waitAfterReloadTimerActive := true } Event.waitAfterReloadTimerStart)) ∧
      ((env.handleDependencies m s.world).1 = false →
        waitAfterReload env s =
          compile env true true
            (log { s with world := (env.handleDependencies m s.world).2,
                          waitAfterReloadTimerActive := false }
              (Event.handleDependencies false))) := by
  refine ⟨fun hm => ?_, fun m hm => ⟨fun hdep => ?_, fun hdep => ?_⟩⟩
  · unfold waitAfterReload
    simp only [hm]
  · unfold waitAfterReload
    simp only [hm, hdep, if_true]
  · unfold waitAfterReload
    simp only [hm, hdep, Bool.false_eq_true, if_false]

/-! ### `actionRenderDone` -/

theorem viewModeSurface_spec (env : Env C) (s : MainWindow C) :
    Emits Event.isPlain s (viewModeSurface env s) ∧
    (viewModeSurface env s).toMembers.lockState = s.toMembers.lockState := by
  refine ⟨?_, rfl⟩
  unfold viewModeSurface
  lift_lets
  intro s1 s2 s3 s4 s5
  exact Emits.of_left ((callHelper_emits _ env (Helper.setShowFaces true) s2).trans <|
    (Emits.of_left (Emits.log _ (Event.setRenderer _) rfl) rfl).trans <|
    (callHelper_emits _ env Helper.updateColorScheme s4).trans
      (callHelper_emits _ env Helper.updateGL s5)) (show s2.trace = s.trace from rfl)

theorem viewModeWireframe_spec (env : Env C) (s : MainWindow C) :
    Emits Event.isPlain s (viewModeWireframe env s) ∧
    (viewModeWireframe env s).toMembers.lockState = s.toMembers.lockState := by
  refine ⟨?_, rfl⟩
  unfold viewModeWireframe
  lift_lets
  intro s1 s2 s3 s4 s5
  exact Emits.of_left ((callHelper_emits _ env (Helper.setShowFaces false) s2).trans <|
    (Emits.of_left (Emits.log _ (Event.setRenderer _) rfl) rfl).trans <|
    (callHelper_emits _ env Helper.updateColorScheme s4).trans
      (callHelper_emits _ env Helper.updateGL s5)) (show s2.trace = s.trace from rfl)

theorem actionRenderDone_report_spec (env : Env C) (kind : GeometryKind) (s u : MainWindow C)
    (h : actionRenderDone_report env kind s = some u) :
    Emits Event.isPlain s u ∧ u.toMembers = s.toMembers := by
  unfold actionRenderDone_report at h
  split at h
  · split at h
    · split at h
      · obtain rfl := Option.some.inj h
        refine ⟨?_, by simp⟩
        exact (PRINT_emits _ env _ _).trans <| (PRINTB_emits _ env _ _ _).trans <|
          (PRINTB_emits _ env _ _ _).trans <| (PRINTB_emits _ env _ _ _).trans <|
          (PRINTB_emits _ env _ _ _).trans <| (PRINTB_emits _ env _ _ _).trans <|
          (PRINTB_emits _ env _ _ _).trans (PRINTB_emits _ env _ _ _)
      · obtain rfl := Option.some.inj h
        exact ⟨Emits.refl _ _, rfl⟩
    · obtain rfl := Option.some.inj h
      exact ⟨Emits.refl _ _, rfl⟩
  · split at h
    · obtain rfl := Option.some.inj h
      exact ⟨(PRINT_emits _ env _ _).trans (PRINTB_emits _ env _ _ _), by simp⟩
    · cases h
  · obtain rfl := Option.some.inj h
    exact ⟨(PRINT_emits _ env _ _).trans (PRINTB_emits _ env _ _ _), by simp⟩
  · cases h

theorem actionRenderDone_result_spec (env : Env C) (root_geom : Option C.Geometry)
    (s u : MainWindow C) (h : actionRenderDone_result env root_geom s = some u) :
    Emits Event.isPlain s u ∧ u.toMembers.lockState = s.toMembers.lockState := by
  unfold actionRenderDone_result at h
  split at h
  · next geom =>
    split at h
    · rw [Option.map_eq_some'] at h
      obtain ⟨v, hv, rfl⟩ := h
      obtain ⟨hE, hM⟩ := actionRenderDone_report_spec env _ _ v hv
      have hpre : Emits Event.isPlain s v :=
        (callHelper_emits _ env Helper.cachePrint s).trans ((PRINTB_emits _ env _ _ _).trans hE)
      have hvM : v.toMembers = s.toMembers := by
        rw [hM]; simp
      have hfin : ∀ w : MainWindow C, Emits Event.isPlain v w →
          w.toMembers.lockState = v.toMembers.lockState →
          (Emits Event.isPlain s w ∧ w.toMembers.lockState = s.toMembers.lockState) :=
        fun w h1 h2 => ⟨hpre.trans h1, h2.trans (by rw [hvM])⟩
      simp only []
      split
      · obtain ⟨e1, e2⟩ := viewModeWireframe_spec env
          { { PRINT env "Rendering finished." v with root_geom := some geom } with
            cgalRenderer := some geom }
        exact hfin _ (((PRINT_emits _ env _ v).of_right rfl).trans e1)
          (e2.trans (by simp [Members.lockState]))
      · obtain ⟨e1, e2⟩ := viewModeSurface_spec env
          { { PRINT env "Rendering finished." v with root_geom := some geom } with
            cgalRenderer := some geom }
        exact hfin _ (((PRINT_emits _ env _ v).of_right rfl).trans e1)
          (e2.trans (by simp [Members.lockState]))
    · cases h
  · obtain rfl := Option.some.inj h
    exact ⟨PRINT_emits _ env _ _, by simp⟩

/-- `actionRenderDone`, when it returns, has reached `compileEnded` once and
released the GUI lock once. -/
theorem actionRenderDone_outcome (env : Env C) (root_geom : Option C.Geometry)
    (s t : MainWindow C) (h : actionRenderDone env root_geom s = some t) :
    Emits (fun _ => true) s t ∧
    milestones s t = [Event.compileEnded, Event.guiUnlock] ∧
    t.toMembers.lockState =
      ((s.gui_locked + (2 ^ 32 - 1)) % 2 ^ 32, s.cgalworker_running,
        s.waitAfterReloadTimerActive, s.afterCompileSlot) := by
  unfold actionRenderDone at h
  simp only [] at h
  rw [Option.map_eq_some'] at h
  obtain ⟨u, hu, rfl⟩ := h
  obtain ⟨hE, hM⟩ := actionRenderDone_result_spec env root_geom _ u hu
  have hpre : Emits Event.isPlain s ({ u with progresswidget := false } : MainWindow C) :=
    ((Emits.log s Event.progressReportFin rfl).trans hE).of_right rfl
  have hend := compileEnded_emits (fun _ => true) rfl rfl rfl env
    ({ u with progresswidget := false } : MainWindow C)
  refine ⟨hpre.any.trans hend, ?_, ?_⟩
  · rw [milestones_append hpre hend, milestones_of_plain hpre, compileEnded_milestones]
    rfl
  · rw [(compileEnded_lockState env _).1]
    have h1 : u.gui_locked = s.gui_locked := congrArg (fun p => p.1) hM
    have h2 : u.cgalworker_running = s.cgalworker_running := congrArg (fun p => p.2.1) hM
    have h3 : u.waitAfterReloadTimerActive = s.waitAfterReloadTimerActive :=
      congrArg (fun p => p.2.2.1) hM
    have h4 : u.afterCompileSlot = s.afterCompileSlot := congrArg (fun p => p.2.2.2) hM
    show ((u.gui_locked + (2 ^ 32 - 1)) % 2 ^ 32, u.cgalworker_running,
      u.waitAfterReloadTimerActive, u.afterCompileSlot) = _
    rw [h1, h2, h3, h4]

/-! ### The lock discipline -/

theorem lockState_eq {m : Members C} {g : Nat} {r w : Bool} {sl : Slot}
    (h1 : m.gui_locked = g) (h2 : m.cgalworker_running = r)
    (h3 : m.waitAfterReloadTimerActive = w) (h4 : m.afterCompileSlot = sl) :
    m.lockState = (g, r, w, sl) := by
  unfold Members.lockState
  rw [h1, h2, h3, h4]

theorem not_mem_eventsSince_of_milestones {s t : MainWindow C} {e : Event}
    (he : e.isMilestone = true) (h : e ∉ milestones s t) : e ∉ eventsSince s t :=
  fun hm => h (mem_milestones.mpr ⟨hm, he⟩)

/-- What one request does to a window that obeys the lock discipline: it
leaves the window obeying it, and it does nothing, or parks on
`waitAfterReloadTimer`, or ends in `compileEnded`, or, only for `actionRender`
on a free lock, starts the worker. -/
theorem dispatch_summary (env : Env C) (r : Request C) (s t : MainWindow C)
    (hinv : lockDiscipline s.toMembers.lockState) (hen : r.enabled s = true)
    (hstep : dispatch env r s = some t) :
    lockDiscipline t.toMembers.lockState ∧
    ((eventsSince s t = [] ∧ t.toMembers.lockState = s.toMembers.lockState ∧
        (r.isCompileRequest = true → t = s)) ∨
      (s.cgalworker_running = false ∧ Event.cgalworkerStart ∉ eventsSince s t ∧
        Event.guiUnlock ∉ eventsSince s t ∧ t.waitAfterReloadTimerActive = true ∧
        t.cgalworker_running = false) ∨
      (Event.cgalworkerStart ∉ eventsSince s t ∧ Event.compileEnded ∈ eventsSince s t ∧
        t.gui_locked = 0 ∧ t.cgalworker_running = false ∧
        (s.cgalworker_running = true →
          (∃ g, r = Request.workerDone g) ∧
          milestones s t = [Event.compileEnded, Event.guiUnlock])) ∨
      (r = Request.actionRender ∧ s.gui_locked = 0 ∧ s.cgalworker_running = false ∧
        milestones s t = [Event.guiLock, Event.cgalworkerStart] ∧
        t.gui_locked = 1 ∧ t.cgalworker_running = true)) := by
  obtain ⟨irun, iwait, iidle⟩ := hinv
  have irun' : s.cgalworker_running = true →
      s.gui_locked = 1 ∧ s.waitAfterReloadTimerActive = false := irun
  have iwait' : s.waitAfterReloadTimerActive = true →
      s.gui_locked = 1 ∧ s.afterCompileSlot = Slot.csgReloadRender := iwait
  have iidle' : s.cgalworker_running = false → s.waitAfterReloadTimerActive = false →
      s.gui_locked = 0 := iidle
  -- a compile request
  have request : ∀ (reload : Bool) (slot : Slot) (act : Option (MainWindow C)),
      (GuiLocker_isLocked s = true → act = some s) →
      (GuiLocker_isLocked s = false → ∃ s', act = compile env reload false s' ∧
        Emits (fun _ => true) s s' ∧ milestones s s' = [Event.guiLock] ∧ s'.gui_locked = 1 ∧
        s'.cgalworker_running = s.cgalworker_running ∧
        s'.waitAfterReloadTimerActive = s.waitAfterReloadTimerActive ∧
        s'.afterCompileSlot = slot) →
      (reload = true → slot = Slot.csgReloadRender) →
      (slot = Slot.cgalRender → r = Request.actionRender) →
      act = some t →
      lockDiscipline t.toMembers.lockState ∧
      ((eventsSince s t = [] ∧ t.toMembers.lockState = s.toMembers.lockState ∧
          (r.isCompileRequest = true → t = s)) ∨
        (s.cgalworker_running = false ∧ Event.cgalworkerStart ∉ eventsSince s t ∧
          Event.guiUnlock ∉ eventsSince s t ∧ t.waitAfterReloadTimerActive = true ∧
          t.cgalworker_running = false) ∨
        (Event.cgalworkerStart ∉ eventsSince s t ∧ Event.compileEnded ∈ eventsSince s t ∧
          t.gui_locked = 0 ∧ t.cgalworker_running = false ∧
          (s.cgalworker_running = true →
            (∃ g, r = Request.workerDone g) ∧
            milestones s t = [Event.compileEnded, Event.guiUnlock])) ∨
        (r = Request.actionRender ∧ s.gui_locked = 0 ∧ s.cgalworker_running = false ∧
          milestones s t = [Event.guiLock, Event.cgalworkerStart] ∧
          t.gui_locked = 1 ∧ t.cgalworker_running = true)) := by
    intro reload slot act hlocked hfree hslot hcgal hact
    cases hl : GuiLocker_isLocked s with
    | true =>
      obtain rfl : s = t := Option.some.inj ((hlocked hl).symm.trans hact)
      exact ⟨⟨irun, iwait, iidle⟩, Or.inl ⟨by simp [eventsSince], rfl, fun _ => rfl⟩⟩
    | false =>
      have h0 : s.gui_locked = 0 := by
        unfold GuiLocker_isLocked at hl
        simpa using hl
      have hr : s.cgalworker_running = false := by
        cases h : s.cgalworker_running with
        | false => rfl
        | true => have := (irun' h).1; omega
      have hw : s.waitAfterReloadTimerActive = false := by
        cases h : s.waitAfterReloadTimerActive with
        | false => rfl
        | true => have := (iwait' h).1; omega
      obtain ⟨s', hact', hpre, hm, hl', hr', hw', hs'⟩ := hfree hl
      obtain ⟨t', ht', -, hsl, hcase⟩ := request_outcome env reload s s' hpre hm hl' hr' hw'
      obtain rfl : t' = t := Option.some.inj (ht'.symm.trans (hact'.symm.trans hact))
      rw [hs'] at hsl
      rcases hcase with ⟨c1, c2, c3, c4, c5⟩ | ⟨c1, c2, c3, c4⟩ | ⟨c1, c2, c3, c4, c5, c6⟩
      · have hls : t'.toMembers.lockState = (1, false, true, Slot.csgReloadRender) :=
          lockState_eq c4 (c5.trans hr) c3 (hsl.trans (hslot c1))
        refine ⟨by rw [hls]; simp [lockDiscipline], Or.inr (Or.inl ⟨hr, ?_, ?_, c3, c5.trans hr⟩)⟩
        · exact not_mem_eventsSince_of_milestones rfl (by rw [c2]; simp)
        · exact not_mem_eventsSince_of_milestones rfl (by rw [c2]; simp)
      · have hls : t'.toMembers.lockState = (0, false, false, slot) :=
          lockState_eq c2 (c3.trans hr) (c1.trans hw) hsl
        refine ⟨by rw [hls]; simp [lockDiscipline],
          Or.inr (Or.inr (Or.inl ⟨?_, ?_, c2, c3.trans hr, fun h => ?_⟩))⟩
        · rcases c4 with c4 | ⟨-, c4⟩ <;>
            exact not_mem_eventsSince_of_milestones rfl (by rw [c4]; simp)
        · rcases c4 with c4 | ⟨-, c4⟩ <;>
            exact (mem_milestones.mp (by rw [c4]; simp)).1
        · rw [hr] at h; cases h
      · rw [hs'] at c2
        have hls : t'.toMembers.lockState = (1, true, false, slot) :=
          lockState_eq c5 c6 (c1.trans hw) hsl
        exact ⟨by rw [hls]; simp [lockDiscipline],
          Or.inr (Or.inr (Or.inr ⟨hcgal c2, h0, hr, c4, c5, c6⟩))⟩
  cases r with
  | actionRenderPreview =>
    refine request false Slot.csgRender _ (fun hl => ?_) (fun hl => ?_) (fun h => by cases h)
      (fun h => by cases h) hstep
    · simp [dispatch, actionRenderPreview, hl]
    · exact (request_calls_compile env s hl).1
  | actionReloadRenderPreview =>
    refine request true Slot.csgReloadRender _ (fun hl => ?_) (fun hl => ?_) (fun _ => rfl)
      (fun h => by cases h) hstep
    · simp [dispatch, actionReloadRenderPreview, hl]
    · exact (request_calls_compile env s hl).2.1
  | actionRender =>
    refine request false Slot.cgalRender _ (fun hl => ?_) (fun hl => ?_) (fun h => by cases h)
      (fun _ => rfl) hstep
    · simp [dispatch, actionRender, hl]
    · exact (request_calls_compile env s hl).2.2
  | waitAfterReloadTimeout =>
    have hw : s.waitAfterReloadTimerActive = true := hen
    obtain ⟨hg, hsl⟩ := iwait' hw
    have hr : s.cgalworker_running = false := by
      cases h : s.cgalworker_running with
      | false => rfl
      | true => have := (irun' h).2; rw [hw] at this; cases this
    have hstep' : waitAfterReload env s = some t := hstep
    obtain ⟨wnone, wsome⟩ := waitAfterReload_cases env s
    cases hm : s.root_module with
    | none => rw [wnone hm] at hstep'; cases hstep'
    | some m =>
      obtain ⟨wtrue, wfalse⟩ := wsome m hm
      cases hdep : (env.handleDependencies m s.world).1 with
      | true =>
        rw [wtrue hdep] at hstep'
        obtain rfl := Option.some.inj hstep'
        have key : ∀ u : MainWindow C, u.gui_locked = 1 → u.cgalworker_running = false →
            u.waitAfterReloadTimerActive = true → u.afterCompileSlot = Slot.csgReloadRender →
            lockDiscipline u.toMembers.lockState := fun u a b c d => by
          rw [lockState_eq a b c d]; simp [lockDiscipline]
        refine ⟨key _ hg hr rfl hsl, Or.inr (Or.inl ⟨hr, ?_, ?_, rfl, hr⟩)⟩
        · exact Emits.not_mem (P := fun e => e != Event.cgalworkerStart)
            ((Emits.of_left (Emits.log _ _ rfl) rfl).trans
              (Emits.of_left (Emits.log _ _ rfl) rfl)) rfl
        · exact Emits.not_mem (P := fun e => e != Event.guiUnlock)
            ((Emits.of_left (Emits.log _ _ rfl) rfl).trans
              (Emits.of_left (Emits.log _ _ rfl) rfl)) rfl
      | false =>
        rw [wfalse hdep] at hstep'
        have hpre : Emits Event.isPlain s
            (log { s with world := (env.handleDependencies m s.world).2,
                          waitAfterReloadTimerActive := false }
              (Event.handleDependencies false)) :=
          Emits.of_left (Emits.log _ _ rfl) rfl
        obtain ⟨t', ht', hany, hslot, hcase⟩ := compile_outcome env true true
          (log { s with world := (env.handleDependencies m s.world).2,
                        waitAfterReloadTimerActive := false }
            (Event.handleDependencies false))
        obtain rfl : t' = t := Option.some.inj (ht'.symm.trans hstep')
        have hms := milestones_append hpre hany
        rw [milestones_of_plain hpre, List.nil_append] at hms
        have hslot' : t'.afterCompileSlot = Slot.csgReloadRender := hslot.trans hsl
        rcases hcase with ⟨-, c2, c3, c4, c5⟩ | ⟨c1, c2, c3, c4⟩ | ⟨-, c2, -⟩
        · have hls : t'.toMembers.lockState = (1, false, true, Slot.csgReloadRender) :=
            lockState_eq (c4.trans hg) (c5.trans hr) c3 hslot'
          refine ⟨by rw [hls]; simp [lockDiscipline],
            Or.inr (Or.inl ⟨hr, ?_, ?_, c3, c5.trans hr⟩)⟩
          · exact not_mem_eventsSince_of_milestones rfl (by rw [hms, c2]; simp)
          · exact not_mem_eventsSince_of_milestones rfl (by rw [hms, c2]; simp)
        · have hg' : t'.gui_locked = 0 := by
            rw [c2]
            show (s.gui_locked + (2 ^ 32 - 1)) % 2 ^ 32 = 0
            rw [hg]
            norm_num
          have hls : t'.toMembers.lockState = (0, false, false, Slot.csgReloadRender) :=
            lockState_eq hg' (c3.trans hr) c1 hslot'
          refine ⟨by rw [hls]; simp [lockDiscipline],
            Or.inr (Or.inr (Or.inl ⟨?_, ?_, hg', c3.trans hr, fun h => ?_⟩))⟩
          · rcases c4 with c4 | ⟨-, c4⟩ <;>
              exact not_mem_eventsSince_of_milestones rfl (by rw [hms, c4]; simp)
          · rcases c4 with c4 | ⟨-, c4⟩ <;>
              exact (mem_milestones.mp (by rw [hms, c4]; simp)).1
          · rw [hr] at h; cases h
        · have : Slot.csgReloadRender = Slot.cgalRender := hsl.symm.trans c2
          cases this
  | workerDone g =>
    have hr : s.cgalworker_running = true := hen
    obtain ⟨hg, hw⟩ := irun' hr
    have hstep' : actionRenderDone env g { s with cgalworker_running := false } = some t := hstep
    obtain ⟨hany, hms, hls⟩ := actionRenderDone_outcome env g _ t hstep'
    have hls' : t.toMembers.lockState = (0, false, false, s.afterCompileSlot) := by
      rw [hls]
      show ((s.gui_locked + (2 ^ 32 - 1)) % 2 ^ 32, false, s.waitAfterReloadTimerActive,
        s.afterCompileSlot) = _
      rw [hg, hw]
      norm_num
    have hms' : milestones s t = [Event.compileEnded, Event.guiUnlock] := hms
    refine ⟨by rw [hls']; simp [lockDiscipline],
      Or.inr (Or.inr (Or.inl ⟨?_, ?_, congrArg (fun p => p.1) hls',
        congrArg (fun p => p.2.1) hls', fun _ => ⟨⟨g, rfl⟩, hms'⟩⟩))⟩
    · exact not_mem_eventsSince_of_milestones rfl (by rw [hms']; simp)
    · exact (mem_milestones.mp (by rw [hms']; simp)).1
  | other edit act =>
    have hl : (edit s.toMembers).lockState = s.toMembers.lockState := of_decide_eq_true hen
    obtain rfl := Option.some.inj hstep
    refine ⟨?_, Or.inl ⟨by simp [eventsSince], hl, fun h => by cases h⟩⟩
    show lockDiscipline (edit s.toMembers).lockState
    rw [hl]
    exact ⟨irun, iwait, iidle⟩

/-- Every state reached from a window that obeys the lock discipline obeys
it. -/
theorem run_lockDiscipline (env : Env C) (reqs : List (Request C)) :
    ∀ (s₀ s : MainWindow C), lockDiscipline s₀.toMembers.lockState →
      run env reqs s₀ = some s → lockDiscipline s.toMembers.lockState := by
  induction reqs with
  | nil =>
    intro s₀ s h hrun
    obtain rfl := Option.some.inj hrun
    exact h
  | cons r rs ih =>
    intro s₀ s h hrun
    unfold run at hrun
    split at hrun
    · next hen =>
      cases hd : dispatch env r s₀ with
      | none => rw [hd] at hrun; cases hrun
      | some u =>
        rw [hd] at hrun
        exact ih u s (dispatch_summary env r s₀ u h hen hd).1 hrun
    · cases hrun

/-! ### One generation of chains -/

/-- The state `mid` a run of `compileCSG` reaches at the test
`if (root_raw_term)`, by what the evaluator did with the two term vectors the
window held at entry. -/
theorem compileCSG_body_mid (env : Env C) (procevents : Bool) (n : C.AbstractNode)
    (s : MainWindow C) :
    ∃ (w : C.World) (mid : MainWindow C),
      mid.toMembers =
        { s.toMembers with
            progresswidget := false,
            highlight_terms :=
              (env.evaluateCSGTerm n s.highlight_terms s.background_terms w).1.highlights,
            background_terms :=
              (env.evaluateCSGTerm n s.highlight_terms s.background_terms w).1.background,
            root_raw_term :=
              match (env.evaluateCSGTerm n s.highlight_terms s.background_terms w).1.result with
              | some term => term
              | none => s.root_raw_term } ∧
      (mid.root_raw_term = none → compileCSG_body env procevents n s = mid) ∧
      (∀ term, mid.root_raw_term = some term →
        compileCSG_body env procevents n s = compileCSG_products env procevents term mid) := by
  unfold compileCSG_body
  lift_lets
  intro m0 s1 s2 s3 s4 s5 s6 s7 s8
  have e5 : s5.toMembers = { s.toMembers with progresswidget := true } := by
    simp [s5, s4, s3, s2, s1]
  have h5h : s5.highlight_terms = s.highlight_terms := by
    show s5.toMembers.highlight_terms = _
    rw [e5]
  have h5b : s5.background_terms = s.background_terms := by
    show s5.toMembers.background_terms = _
    rw [e5]
  have h5r : s5.root_raw_term = s.root_raw_term := by
    show s5.toMembers.root_raw_term = _
    rw [e5]
  obtain ⟨w, hw⟩ := compileCSG_evaluate_toMembers env procevents n s5
  rw [h5h, h5b, h5r, e5] at hw
  refine ⟨w, s8, ?_, fun h => ?_, fun term h => ?_⟩
  · show { s6.toMembers with progresswidget := false } = _
    rw [hw]
  · have h' : s7.root_raw_term = none := h
    rw [h']
  · have h' : s7.root_raw_term = some term := h
    rw [h']


/-- A run of `compileCSG` entered with no term, chain or renderer left over and
with empty term vectors: every chain it holds at the end is a new chain into
which the normalized terms of this evaluation were imported in list order. -/
theorem compileCSG_body_generation (env : Env C) (procevents : Bool) (n : C.AbstractNode)
    (s : MainWindow C)
    (hfresh : s.toMembers.renderState =
      (s.root_node, none, none, none, none, none, none, none))
    (hh : s.highlight_terms = []) (hb : s.background_terms = []) :
    ∃ w : C.World,
      (compileCSG_body env procevents n s).root_chain =
        (compileCSG_body env procevents n s).root_norm_term.map
          (fun term => env.chainImport (CSGChain.mk []) (some term)) ∧
      (compileCSG_body env procevents n s).highlights_chain =
        (if (compileCSG_body env procevents n s).root_raw_term.isSome = true ∧
            0 < (compileCSG_body env procevents n s).highlight_terms.length then
          some ((compileCSG_body env procevents n s).highlight_terms.foldl
            env.chainImport (CSGChain.mk []))
        else none) ∧
      (compileCSG_body env procevents n s).background_chain =
        (if (compileCSG_body env procevents n s).root_raw_term.isSome = true ∧
            0 < (compileCSG_body env procevents n s).background_terms.length then
          some ((compileCSG_body env procevents n s).background_terms.foldl
            env.chainImport (CSGChain.mk []))
        else none) ∧
      ((compileCSG_body env procevents n s).root_raw_term = none →
        (compileCSG_body env procevents n s).highlight_terms =
          (env.evaluateCSGTerm n [] [] w).1.highlights ∧
        (compileCSG_body env procevents n s).background_terms =
          (env.evaluateCSGTerm n [] [] w).1.background) ∧
      ((compileCSG_body env procevents n s).root_raw_term.isSome = true →
        ∃ nz nz',
          (compileCSG_body env procevents n s).highlight_terms =
            (normalizeAndImport env nz (CSGChain.mk [])
              (env.evaluateCSGTerm n [] [] w).1.highlights).2.2 ∧
          (compileCSG_body env procevents n s).background_terms =
            (normalizeAndImport env nz' (CSGChain.mk [])
              (env.evaluateCSGTerm n [] [] w).1.background).2.2) := by
  obtain ⟨w, mid, hmid, hnone, hsome⟩ := compileCSG_body_mid env procevents n s
  rw [hh, hb] at hmid
  refine ⟨w, ?_⟩
  have p : ∀ {α : Type} (f : Members C → α), f mid.toMembers = f _ := fun f => congrArg f hmid
  have m1 : mid.root_chain = none :=
    (p (fun m => m.root_chain)).trans (congrArg (fun q => q.2.2.2.1) hfresh)
  have m2 : mid.highlights_chain = none :=
    (p (fun m => m.highlights_chain)).trans (congrArg (fun q => q.2.2.2.2.1) hfresh)
  have m3 : mid.background_chain = none :=
    (p (fun m => m.background_chain)).trans (congrArg (fun q => q.2.2.2.2.2.1) hfresh)
  have m4 : mid.root_norm_term = none :=
    (p (fun m => m.root_norm_term)).trans (congrArg (fun q => q.2.2.1) hfresh)
  have m5 : mid.highlight_terms = (env.evaluateCSGTerm n [] [] w).1.highlights :=
    p (fun m => m.highlight_terms)
  have m6 : mid.background_terms = (env.evaluateCSGTerm n [] [] w).1.background :=
    p (fun m => m.background_terms)
  cases hraw : mid.root_raw_term with
  | none =>
    rw [hnone hraw, m1, m2, m3, m4, hraw]
    refine ⟨rfl, by simp, by simp, fun _ => ⟨m5, m6⟩, fun h => by cases h⟩
  | some term =>
    rw [hsome term hraw]
    obtain ⟨-, hrc, hlen, hhc, blen, hbc, -, ⟨nz, hnz⟩, ⟨nz', hnz'⟩⟩ :=
      compileCSG_products_chains env procevents term mid
    obtain ⟨hkeep, -, -⟩ := compileCSG_products_renderers env procevents term mid
    have hsomeraw : (compileCSG_products env procevents term mid).root_raw_term.isSome = true := by
      rw [hkeep, hraw]; rfl
    refine ⟨hrc, ?_, ?_, fun h => ?_, fun _ => ⟨nz, nz', ?_, ?_⟩⟩
    · rw [hhc, m2, hlen]
      simp [hsomeraw]
    · rw [hbc, m3, blen]
      simp [hsomeraw]
    · rw [h] at hsomeraw; cases hsomeraw
    · rw [hnz, m5]
    · rw [hnz', m6]

/-- `compileCSG` is entered only in a run of `compileDone(true)`, from one of
the two CSG slots, in the state `instantiateRoot` left. -/
theorem compileDone_compileCSG (env : Env C) (didchange : Bool) (s t : MainWindow C)
    (h : compileDone env didchange s = some t) (hc : Event.compileCSG ∈ eventsSince s t) :
    didchange = true ∧
    ∃ (procevents : Bool) (n : C.AbstractNode) (tail : MainWindow C → MainWindow C),
      (∀ v, Emits Event.isViewing v (tail v) ∧ (tail v).toMembers = v.toMembers) ∧
      (compileDone_atSlot env s).root_node = some n ∧
      compileCSG env procevents (compileDone_atSlot env s) =
        some (compileCSG_body env procevents n (compileDone_atSlot env s)) ∧
      t = compileEnded env (tail (goToNonCGALViewMode env
        (compileCSG_body env procevents n (compileDone_atSlot env s)))) := by
  cases didchange with
  | false =>
    obtain ⟨t', ht', hem, -⟩ := compileDone_false env s
    obtain rfl : t' = t := Option.some.inj (ht'.symm.trans h)
    exact absurd hc (hem.not_mem rfl)
  | true =>
    refine ⟨rfl, ?_⟩
    obtain ⟨hplain, -⟩ := compileDone_atSlot_spec env s
    obtain ⟨procevents, tail, htail, htail', hcsg, hcgal, hend⟩ := compileDone_true_run env s
    have noCSG : ∀ u : MainWindow C, Emits (fun _ => true) (compileDone_atSlot env s) u →
        Event.compileCSG ∉ milestones (compileDone_atSlot env s) u →
        compileDone env true s = some u → False := by
      intro u hu hnot hrun
      obtain rfl : u = t := Option.some.inj (hrun.symm.trans h)
      have hmem : Event.compileCSG ∈ milestones s u := mem_milestones.mpr ⟨hc, rfl⟩
      rw [milestones_append hplain hu, milestones_of_plain hplain] at hmem
      exact hnot hmem
    have endedNo : Event.compileCSG ∉ milestones (compileDone_atSlot env s)
        (compileEnded env (compileDone_atSlot env s)) := by
      rw [compileEnded_milestones]; simp
    have endedE := compileEnded_emits (fun _ => true) rfl rfl rfl env (compileDone_atSlot env s)
    cases hs : s.afterCompileSlot with
    | compileEnded => exact absurd (hend hs) (fun hrun => noCSG _ endedE endedNo hrun)
    | cgalRender =>
      exfalso
      obtain ⟨cend, cstart⟩ := cgalRender_cases env (compileDone_atSlot env s)
      by_cases hboth : (compileDone_atSlot env s).root_module.isSome = true ∧
          (compileDone_atSlot env s).root_node.isSome = true
      · refine noCSG _ (Emits.any (cgalRender_emits false env _)) ?_ (hcgal hs)
        rw [(cstart hboth.1 hboth.2).1]; simp
      · have hnone : (compileDone_atSlot env s).root_module = none ∨
            (compileDone_atSlot env s).root_node = none := by
          cases h1 : (compileDone_atSlot env s).root_module with
          | none => exact Or.inl rfl
          | some m =>
            cases h2 : (compileDone_atSlot env s).root_node with
            | none => exact Or.inr rfl
            | some n => exact absurd ⟨by rw [h1]; rfl, by rw [h2]; rfl⟩ hboth
        have hrun := hcgal hs
        rw [cend hnone] at hrun
        exact noCSG _ endedE endedNo hrun
    | csgRender =>
      obtain ⟨hn1, hn0⟩ := hcsg (Or.inl hs)
      cases hn : (compileDone_atSlot env s).root_node with
      | none =>
        exfalso
        obtain ⟨cnone, -, -⟩ := csgSlot_cases env procevents tail htail htail'
          (compileDone_atSlot env s)
        refine noCSG _ (((goToNonCGALViewMode_plain env _).trans (htail' _)).any.trans
          (compileEnded_emits (fun _ => true) rfl rfl rfl env _)) ?_ (hn0 hn)
        rw [cnone hn]; simp
      | some n =>
        exact ⟨procevents, n, tail, htail, rfl, (hn1 n hn).1,
          Option.some.inj (h.symm.trans (hn1 n hn).2)⟩
    | csgReloadRender =>
      obtain ⟨hn1, hn0⟩ := hcsg (Or.inr hs)
      cases hn : (compileDone_atSlot env s).root_node with
      | none =>
        exfalso
        obtain ⟨cnone, -, -⟩ := csgSlot_cases env procevents tail htail htail'
          (compileDone_atSlot env s)
        refine noCSG _ (((goToNonCGALViewMode_plain env _).trans (htail' _)).any.trans
          (compileEnded_emits (fun _ => true) rfl rfl rfl env _)) ?_ (hn0 hn)
        rw [cnone hn]; simp
      | some n =>
        exact ⟨procevents, n, tail, htail, rfl, (hn1 n hn).1,
          Option.some.inj (h.symm.trans (hn1 n hn).2)⟩

/-! ## `report_func` -/

/-- What one call of `report_func` does when it returns or throws: it leaves
the window as it is, or it posts a value above the one the widget shows and
processes events; the exception is thrown exactly when the widget then
reports a cancel. -/
theorem report_func_spec (env : Env C) (progress_report_count : Int)
    (node : Option C.AbstractNode) (mark : Int) (s : MainWindow C) (r : Bool × MainWindow C)
    (h : report_func env progress_report_count node mark s = some r) :
    r.1 = env.wasCanceled r.2.world ∧
    (r.2 = s ∨
      ∃ permille, env.progressValue s.world < permille ∧
        r.2 = callHelper env Helper.processEvents
          (log { s with world := env.postSetValue permille s.world }
            (Event.progressSetValue permille))) := by
  unfold report_func at h
  split at h
  · rw [Option.map_eq_some'] at h
    obtain ⟨v, -, rfl⟩ := h
    dsimp only
    generalize (if v < 1000 then v else 999) = permille
    by_cases hgt : permille > env.progressValue s.world
    · rw [if_pos hgt]
      exact ⟨rfl, Or.inr ⟨permille, hgt, rfl⟩⟩
    · rw [if_neg hgt]
      exact ⟨rfl, Or.inl rfl⟩
  · cases h

theorem writtenValues_append (xs ys : List Event) :
    writtenValues (xs ++ ys) = writtenValues xs ++ writtenValues ys := by
  induction xs with
  | nil => rfl
  | cons x xs ih =>
    cases x <;> simp [writtenValues, ih]

/-- The invariant of an evaluation pass. -/
theorem reportCalls_spec (env : Env C) (progress_report_count : Int)
    (hlaw : ∀ (permille : Int) (w : C.World), env.progressValue w < permille →
      env.progressValue (env.helper Helper.processEvents (env.postSetValue permille w)) =
        permille)
    (calls : List ((C.World → C.World) × Option C.AbstractNode × Int)) :
    (∀ c ∈ calls, ∀ w, env.progressValue (c.1 w) = env.progressValue w) →
    ∀ (s : MainWindow C) (r : Bool × MainWindow C),
      reportCalls env progress_report_count calls s = some r →
      ∃ evs, r.2.trace = s.trace ++ evs ∧
        List.Chain (· < ·) (env.progressValue s.world) (writtenValues evs) ∧
        env.progressValue s.world ≤ env.progressValue r.2.world ∧
        ∀ permille ∈ writtenValues evs, permille ≤ env.progressValue r.2.world := by
  induction calls with
  | nil =>
    intro _ s r h
    obtain rfl := Option.some.inj h
    exact ⟨[], by simp, List.Chain.nil, le_refl _, by simp [writtenValues]⟩
  | cons c calls ih =>
    intro hwork s r h
    obtain ⟨work, node, mark⟩ := c
    have hw : ∀ w, env.progressValue (work w) = env.progressValue w :=
      hwork (work, node, mark) (List.mem_cons_self _ _)
    have hrest : ∀ c ∈ calls, ∀ w, env.progressValue (c.1 w) = env.progressValue w :=
      fun c hc => hwork c (List.mem_cons_of_mem _ hc)
    unfold reportCalls at h
    cases hcall : report_func env progress_report_count node mark
        { s with world := work s.world } with
    | none => rw [hcall] at h; cases h
    | some u =>
      obtain ⟨threw, u⟩ := u
      rw [hcall] at h
      obtain ⟨-, hshape⟩ := report_func_spec env progress_report_count node mark _ _ hcall
      -- what this call added, and the value the widget shows after it
      have hone : ∃ evs, u.trace = s.trace ++ evs ∧
          List.Chain (· < ·) (env.progressValue s.world) (writtenValues evs) ∧
          env.progressValue s.world ≤ env.progressValue u.world ∧
          (∀ permille ∈ writtenValues evs, permille ≤ env.progressValue u.world) ∧
          ∀ ps, List.Chain (· < ·) (env.progressValue u.world) ps →
            List.Chain (· < ·) (env.progressValue s.world) (writtenValues evs ++ ps) := by
        rcases hshape with hsame | ⟨permille, hlt, hpost⟩
        · have hu : u = { s with world := work s.world } := hsame
          refine ⟨[], by rw [hu]; simp, List.Chain.nil, ?_, by simp [writtenValues], ?_⟩
          · rw [hu]; exact le_of_eq (hw _).symm
          · intro ps hps
            rw [hu] at hps
            simpa [writtenValues, hw] using hps
        · have hu : u = callHelper env Helper.processEvents
              (log { { s with world := work s.world } with
                  world := env.postSetValue permille (work s.world) }
                (Event.progressSetValue permille)) := hpost
          have hlt' : env.progressValue s.world < permille := by
            have := hlt
            simp only [] at this
            rw [hw] at this
            exact this
          have hval : env.progressValue u.world = permille := by
            rw [hu]
            exact hlaw permille (work s.world) (by rw [hw]; exact hlt')
          refine ⟨[Event.progressSetValue permille, Event.helper Helper.processEvents],
            by rw [hu]; simp [callHelper, log], ?_, ?_, ?_, ?_⟩
          · exact List.Chain.cons hlt' List.Chain.nil
          · rw [hval]; exact le_of_lt hlt'
          · intro p hp
            simp [writtenValues] at hp
            rw [hval, hp]
          · intro ps hps
            rw [hval] at hps
            exact List.Chain.cons hlt' hps
      obtain ⟨evs, htr, hchain, hle, hmax, hext⟩ := hone
      cases threw with
      | true =>
        obtain rfl := Option.some.inj h
        exact ⟨evs, htr, hchain, hle, hmax⟩
      | false =>
        obtain ⟨evs', htr', hchain', hle', hmax'⟩ := ih hrest u r h
        refine ⟨evs ++ evs', by rw [htr', htr, List.append_assoc], ?_, le_trans hle hle', ?_⟩
        · rw [writtenValues_append]
          exact hext _ hchain'
        · intro p hp
          rw [writtenValues_append] at hp
          rcases List.mem_append.mp hp with hp | hp
          · exact le_trans (hmax p hp) hle'
          · exact hmax' p hp

/-! ## C11: a failed compile still reports done -/

/-- C11 (`Failed` still reports `Done`). Each of the three compile requests
returns, so that the assertion of `compileCSG` never fails. When a request
found the GUI lock free and has ended with no root node (for
`actionReloadRenderPreview`: it was not parked on `waitAfterReloadTimer`, in
which case it ends in `waitAfterReload`), its milestones are exactly the lock
taken, `compileEnded` and the lock released: `compileCSG` was not entered, the
worker was not started, `compileEnded` was reached once, and the lock counter
is back at its value from before the request. A parked request that
`waitAfterReload` brings to its end with no root node likewise reaches
`compileEnded` once and gives back the lock it holds. -/
theorem failed_compile_reports_done (env : Env C) (s : MainWindow C) :
    (∃ t, actionRenderPreview env s = some t ∧
      (GuiLocker_isLocked s = false → t.root_node = none →
        milestones s t = [Event.guiLock, Event.compileEnded, Event.guiUnlock] ∧
        t.gui_locked = s.gui_locked)) ∧
    (∃ t, actionReloadRenderPreview env s = some t ∧
      (GuiLocker_isLocked s = false → t.root_node = none →
        Event.waitAfterReloadTimerStart ∉ eventsSince s t →
        milestones s t = [Event.guiLock, Event.compileEnded, Event.guiUnlock] ∧
        t.gui_locked = s.gui_locked)) ∧
    (∃ t, actionRender env s = some t ∧
      (GuiLocker_isLocked s = false → t.root_node = none →
        milestones s t = [Event.guiLock, Event.compileEnded, Event.guiUnlock] ∧
        t.gui_locked = s.gui_locked)) ∧
    (∀ t, waitAfterReload env s = some t → t.root_node = none →
      Event.waitAfterReloadTimerStart ∉ eventsSince s t →
      milestones s t = [Event.compileEnded, Event.guiUnlock] ∧
      t.gui_locked = (s.gui_locked + (2 ^ 32 - 1)) % 2 ^ 32) := by
  -- a request that found the lock free, from the state in which it calls `compile`
  have free : ∀ (reload : Bool) (s' : MainWindow C), GuiLocker_isLocked s = false →
      Emits (fun _ => true) s s' → milestones s s' = [Event.guiLock] → s'.gui_locked = 1 →
      s'.cgalworker_running = s.cgalworker_running →
      s'.waitAfterReloadTimerActive = s.waitAfterReloadTimerActive →
      ∃ t, compile env reload false s' = some t ∧
        (t.root_node = none →
          (reload = true → Event.waitAfterReloadTimerStart ∉ eventsSince s t) →
          milestones s t = [Event.guiLock, Event.compileEnded, Event.guiUnlock] ∧
          t.gui_locked = s.gui_locked) := by
    intro reload s' hfree hpre hm hl hr hw
    have h0 : s.gui_locked = 0 := by
      unfold GuiLocker_isLocked at hfree
      simpa using hfree
    obtain ⟨t, ht, -, -, hcase⟩ := request_outcome env reload s s' hpre hm hl hr hw
    refine ⟨t, ht, fun hnone hnp => ?_⟩
    rcases hcase with ⟨c1, c2, -⟩ | ⟨-, c2, -, c4⟩ | ⟨-, -, c3, -⟩
    · have hmem : Event.waitAfterReloadTimerStart ∈ milestones s t := by rw [c2]; simp
      exact absurd (mem_milestones.mp hmem).1 (hnp c1)
    · rcases c4 with c4 | ⟨c4, -⟩
      · exact ⟨c4, c2.trans h0.symm⟩
      · rw [hnone] at c4; cases c4
    · rw [hnone] at c3; cases c3
  have locked : ∀ (f : Env C → MainWindow C → Option (MainWindow C)),
      (GuiLocker_isLocked s = true → f env s = some s) →
      (GuiLocker_isLocked s = false → ∃ t, f env s = some t ∧
        (t.root_node = none → milestones s t =
            [Event.guiLock, Event.compileEnded, Event.guiUnlock] ∧
          t.gui_locked = s.gui_locked)) →
      ∃ t, f env s = some t ∧
        (GuiLocker_isLocked s = false → t.root_node = none →
          milestones s t = [Event.guiLock, Event.compileEnded, Event.guiUnlock] ∧
          t.gui_locked = s.gui_locked) := by
    intro f h1 h2
    cases hl : GuiLocker_isLocked s with
    | true => exact ⟨s, h1 hl, fun h => by cases h⟩
    | false =>
      obtain ⟨t, ht, h⟩ := h2 hl
      exact ⟨t, ht, fun _ => h⟩
  refine ⟨?_, ?_, ?_, ?_⟩
  · apply locked (fun env s => actionRenderPreview env s)
    · intro hl
      simp [actionRenderPreview, hl]
    · intro hfree
      obtain ⟨⟨s', he, hpre, hm, hl, hr, hw, -⟩, -, -⟩ := request_calls_compile env s hfree
      obtain ⟨t, ht, h⟩ := free false s' hfree hpre hm hl hr hw
      exact ⟨t, he.trans ht, fun hn => h hn (fun h => by cases h)⟩
  · cases hl : GuiLocker_isLocked s with
    | true => exact ⟨s, by simp [actionReloadRenderPreview, hl], fun h => by cases h⟩
    | false =>
      obtain ⟨-, ⟨s', he, hpre, hm, hl', hr, hw, -⟩, -⟩ := request_calls_compile env s hl
      obtain ⟨t, ht, h⟩ := free true s' hl hpre hm hl' hr hw
      exact ⟨t, he.trans ht, fun _ hn hnp => h hn (fun _ => hnp)⟩
  · apply locked (fun env s => actionRender env s)
    · intro hl
      simp [actionRender, hl]
    · intro hfree
      obtain ⟨-, -, ⟨s', he, hpre, hm, hl, hr, hw, -⟩⟩ := request_calls_compile env s hfree
      obtain ⟨t, ht, h⟩ := free false s' hfree hpre hm hl hr hw
      exact ⟨t, he.trans ht, fun hn => h hn (fun h => by cases h)⟩
  · intro t ht hnone hnp
    obtain ⟨wnone, wsome⟩ := waitAfterReload_cases env s
    cases hm : s.root_module with
    | none => rw [wnone hm] at ht; cases ht
    | some m =>
      obtain ⟨wtrue, wfalse⟩ := wsome m hm
      cases hdep : (env.handleDependencies m s.world).1 with
      | true =>
        rw [wtrue hdep] at ht
        obtain rfl := Option.some.inj ht
        refine absurd ?_ hnp
        exact mem_eventsSince_of_log (P := fun _ => true) (Q := fun _ => true)
          (Emits.of_left (Emits.log _ _ rfl) rfl |>.of_right rfl) (Emits.refl _ _)
      | false =>
        rw [wfalse hdep] at ht
        have hpre : Emits Event.isPlain s
            (log { s with world := (env.handleDependencies m s.world).2,
                          waitAfterReloadTimerActive := false }
              (Event.handleDependencies false)) :=
          Emits.of_left (Emits.log _ _ rfl) rfl
        obtain ⟨t', ht', hany, -, hcase⟩ := compile_outcome env true true
          (log { s with world := (env.handleDependencies m s.world).2,
                        waitAfterReloadTimerActive := false }
            (Event.handleDependencies false))
        obtain rfl : t' = t := Option.some.inj (ht'.symm.trans ht)
        have hms := milestones_append hpre hany
        rw [milestones_of_plain hpre, List.nil_append] at hms
        rcases hcase with ⟨-, c2, -⟩ | ⟨-, c2, -, c4⟩ | ⟨-, -, c3, -⟩
        · have hmem : Event.waitAfterReloadTimerStart ∈ milestones s t' := by
            rw [hms, c2]; simp
          exact absurd (mem_milestones.mp hmem).1 hnp
        · rcases c4 with c4 | ⟨c4, -⟩
          · exact ⟨hms.trans c4, c2⟩
          · rw [hnone] at c4; cases c4
        · rw [hnone] at c3; cases c3

set_option maxRecDepth 100000 in
/-- C11 witness: `actionRender` on a new window whose text does not parse. -/
theorem failed_compile_reports_done_witness :
    ∃ t, actionRender (sampleEnv none none 0) (sampleWindow (Members.init sampleCarrier)) =
        some t ∧
      t.root_node = none ∧
      milestones (sampleWindow (Members.init sampleCarrier)) t =
        [Event.guiLock, Event.compileEnded, Event.guiUnlock] ∧
      t.gui_locked = 0 := by
  obtain ⟨-, -, ⟨t, ht, h⟩, -⟩ := failed_compile_reports_done (sampleEnv none none 0)
    (sampleWindow (Members.init sampleCarrier))
  have hyp : ∀ u ∈ actionRender (sampleEnv none none 0)
      (sampleWindow (Members.init sampleCarrier)), u.root_node = none := by
    decide
  obtain ⟨h1, h2⟩ := h (by decide) (hyp t ht)
  exact ⟨t, ht, hyp t ht, h1, h2⟩

/-! ## C12: the order of module replacement -/

set_option maxRecDepth 100000 in
/-- C12 fails as stated: recompiling a window that holds the module of an
earlier compile deletes that module before `parse` is called, and when `parse`
then fails the window is left with no module at all. -/
theorem compileTopLevelDocument_deletes_before_parse :
    sampleCompiled.root_module.isSome = true ∧
    eventsSince sampleCompiled
        (compileTopLevelDocument (sampleEnv (some 1) none 0) sampleCompiled) =
      [Event.compileTopLevelDocument, Event.helper Helper.updateTemporalVariables,
        Event.helper Helper.resetPrintedDeprecations, Event.helper Helper.deleteModule,
        Event.parse true, Event.helper Helper.updateCamera] ∧
    eventsSince sampleCompiled
        (compileTopLevelDocument (sampleEnv none none 0) sampleCompiled) =
      [Event.compileTopLevelDocument, Event.helper Helper.updateTemporalVariables,
        Event.helper Helper.resetPrintedDeprecations, Event.helper Helper.deleteModule,
        Event.parse false] ∧
    (compileTopLevelDocument (sampleEnv none none 0) sampleCompiled).root_module.isNone = true := by
  decide

/-- C12 as amended (module replacement order in `compileTopLevelDocument`).
On every top-level recompilation the previous module is deleted before
`parse` is called: the call does exactly `updateTemporalVariables`,
`resetPrintedDeprecations`, the deletion of the old module, `parse`, and
`updateCamera` when `parse` yielded a module; `parse` runs in the world in
which the old module is already deleted, and the module the window holds
afterwards is what `parse` returned, none when parsing failed. -/
theorem compileTopLevelDocument_replacement_order (env : Env C) (s : MainWindow C) :
    eventsSince s (compileTopLevelDocument env s) =
      [Event.compileTopLevelDocument, Event.helper Helper.updateTemporalVariables,
        Event.helper Helper.resetPrintedDeprecations, Event.helper Helper.deleteModule,
        Event.parse (compileTopLevelDocument env s).root_module.isSome] ++
      (if (compileTopLevelDocument env s).root_module.isSome then
        [Event.helper Helper.updateCamera] else []) ∧
    (compileTopLevelDocument env s).root_module =
      (env.parse (s.editorText ++ "\n" ++ env.commandline_commands)
        (if s.fileName = "" then "" else env.absolutePath s.fileName)
        (env.helper Helper.deleteModule (env.helper Helper.resetPrintedDeprecations
          (env.helper Helper.updateTemporalVariables s.world)))).1.1 := by
  unfold compileTopLevelDocument
  lift_lets
  intro s1 s2 s3 s4 fulltext s5 s6 r s7
  have hr : s7.root_module = r.1.1 := rfl
  have htr : s7.trace = s.trace ++ [Event.compileTopLevelDocument,
      Event.helper Helper.updateTemporalVariables,
      Event.helper Helper.resetPrintedDeprecations, Event.helper Helper.deleteModule,
      Event.parse r.1.1.isSome] := by
    simp [s7, s6, s5, s4, s3, s2, s1, log, callHelper]
  unfold updateCamera
  cases h : r.1.1 with
  | none =>
    have h7 : s7.root_module = none := hr.trans h
    simp only [h7]
    refine ⟨?_, h.symm⟩
    rw [eventsSince_eq htr, h]; rfl
  | some m =>
    have h7 : s7.root_module = some m := hr.trans h
    simp only [h7]
    have h8 : (callHelper env Helper.updateCamera s7).root_module = some m := h7
    refine ⟨?_, h8.trans h.symm⟩
    apply eventsSince_eq
    rw [h8]
    simp [callHelper, log, htr, h]

set_option maxRecDepth 100000 in
/-- C12 witness: recompiling the compiled sample window when `parse` yields
module 2: the old module is deleted, then `parse` runs, and its module is the
one the window holds. -/
theorem compileTopLevelDocument_replacement_order_witness :
    eventsSince sampleCompiled
        (compileTopLevelDocument (sampleEnv (some 2) none 0) sampleCompiled) =
      [Event.compileTopLevelDocument, Event.helper Helper.updateTemporalVariables,
        Event.helper Helper.resetPrintedDeprecations, Event.helper Helper.deleteModule,
        Event.parse true, Event.helper Helper.updateCamera] ∧
    (compileTopLevelDocument (sampleEnv (some 2) none 0) sampleCompiled).root_module =
      some 2 := by
  have h := compileTopLevelDocument_replacement_order (sampleEnv (some 2) none 0) sampleCompiled
  have hm : (compileTopLevelDocument (sampleEnv (some 2) none 0) sampleCompiled).root_module =
      some 2 := by decide
  refine ⟨?_, hm⟩
  rw [h.1, hm]
  rfl

/-! ## C13: progress is monotone -/

set_option maxRecDepth 100000 in
/-- C13 fails as stated: in a pass whose queued `setValue` calls are not
delivered while it runs, the marks 5 and 3 of 100 against a widget showing 0
write 50 and then 30: each value is above the 0 the widget shows, and the
sequence written is not increasing. -/
theorem report_func_worker_pass_not_monotone :
    (reportCalls sampleWorkerEnv 100 [(id, none, 5), (id, none, 3)]
        (sampleWindow { Members.init sampleCarrier with progresswidget := true })).map
      (fun r => (r.1, writtenValues (eventsSince
        (sampleWindow { Members.init sampleCarrier with progresswidget := true }) r.2))) =
      some (false, [50, 30]) ∧
    ¬ List.Pairwise (· < ·) ([50, 30] : List Int) ∧
    ∀ r ∈ reportCalls sampleWorkerEnv 100 [(id, none, 5), (id, none, 3)]
        (sampleWindow { Members.init sampleCarrier with progresswidget := true }),
      ¬ List.Pairwise (· < ·) (writtenValues (eventsSince
        (sampleWindow { Members.init sampleCarrier with progresswidget := true }) r.2)) := by
  decide

/-- C13 as amended (progress is monotone). Every `report_func` call writes at
most one value to the progress widget, and only a value strictly above the one
the widget shows at the call. Let the widget show a value posted above the one
it shows once events are processed, as in a pass run in the thread of the
window, and let the evaluator leave the shown value alone between reports.
Then in every evaluation pass, whatever the marks and their order, the value
shown at the start followed by the values `report_func` writes to the widget
is a strictly increasing sequence; the value shown at the end is not below the
one at the start, nor below any value written. -/
theorem report_func_progress_above_shown (env : Env C) (progress_report_count : Int)
    (calls : List ((C.World → C.World) × Option C.AbstractNode × Int))
    (s t : MainWindow C) (threw : Bool)
    (hpass : reportCalls env progress_report_count calls s = some (threw, t)) :
    (∀ (node : Option C.AbstractNode) (mark : Int) (u : MainWindow C) (r : Bool × MainWindow C),
      report_func env progress_report_count node mark u = some r →
      writtenValues (eventsSince u r.2) = [] ∨
        ∃ permille, writtenValues (eventsSince u r.2) = [permille] ∧
          env.progressValue u.world < permille) ∧
    ((∀ (permille : Int) (w : C.World), env.progressValue w < permille →
        env.progressValue (env.helper Helper.processEvents (env.postSetValue permille w)) =
          permille) →
      (∀ c ∈ calls, ∀ w, env.progressValue (c.1 w) = env.progressValue w) →
      List.Pairwise (· < ·) (env.progressValue s.world :: writtenValues (eventsSince s t)) ∧
      env.progressValue s.world ≤ env.progressValue t.world ∧
      ∀ permille ∈ writtenValues (eventsSince s t), permille ≤ env.progressValue t.world) := by
  refine ⟨?_, fun hlaw hwork => ?_⟩
  · intro node mark u r h
    obtain ⟨-, h2⟩ := report_func_spec env progress_report_count node mark u r h
    rcases h2 with h2 | ⟨permille, hlt, h2⟩
    · left
      rw [h2]
      simp [eventsSince, writtenValues]
    · right
      refine ⟨permille, ?_, hlt⟩
      rw [h2]
      simp [eventsSince, callHelper, log, writtenValues]
  · obtain ⟨evs, htr, hchain, hle, hmax⟩ :=
      reportCalls_spec env progress_report_count hlaw calls hwork s (threw, t) hpass
    rw [eventsSince_eq htr]
    exact ⟨List.chain_iff_pairwise.mp hchain, hle, hmax⟩

set_option maxRecDepth 100000 in
/-- C13 witness: marks 5, 2 and 8 of 100 against a widget showing 0 that
shows every value posted: the values 50 and 80 are written, the mark 2 writes
nothing. -/
theorem report_func_progress_above_shown_witness :
    (reportCalls (sampleEnv none none 0) 100 [(id, none, 5), (id, none, 2), (id, none, 8)]
        (sampleWindow { Members.init sampleCarrier with progresswidget := true })).map
      (fun r => (r.1, writtenValues (eventsSince
        (sampleWindow { Members.init sampleCarrier with progresswidget := true }) r.2))) =
      some (false, [50, 80]) ∧
    ∀ r ∈ reportCalls (sampleEnv none none 0) 100 [(id, none, 5), (id, none, 2), (id, none, 8)]
        (sampleWindow { Members.init sampleCarrier with progresswidget := true }),
      List.Pairwise (· < ·)
        ((sampleEnv none none 0).progressValue
            (sampleWindow { Members.init sampleCarrier with progresswidget := true }).world ::
          writtenValues (eventsSince
            (sampleWindow { Members.init sampleCarrier with progresswidget := true }) r.2)) :=
  ⟨by decide, fun r hr =>
    ((report_func_progress_above_shown (sampleEnv none none 0) 100
      [(id, none, 5), (id, none, 2), (id, none, 8)] _ r.2 r.1 hr).2
      (fun permille w h => Int.toNat_of_nonneg (le_trans (Int.ofNat_nonneg w) (le_of_lt h)))
      (fun c hc w => by
        simp only [List.mem_cons, List.mem_singleton, List.not_mem_nil, or_false] at hc
        rcases hc with rfl | rfl | rfl <;> rfl)).1⟩

/-! ## C14: the cancellation check of every report -/

/-- C14 (cancellation check at every report). `report_func` returns or throws
whenever `progresswidget` is set and the conversion of the mark is defined,
and for every node and mark it throws `ProgressCancelException` exactly when
the progress widget reports a cancel at the check, both when the call updated
the progress value (it then posted one value and processed events) and when
it did not (it then did nothing else). -/
theorem report_func_cancel_check (env : Env C) (progress_report_count : Int)
    (node : Option C.AbstractNode) (mark : Int) (s : MainWindow C) :
    ((report_func env progress_report_count node mark s).isSome = true ↔
      s.progresswidget = true ∧ (report_func_v progress_report_count mark).isSome = true) ∧
    ∀ r ∈ report_func env progress_report_count node mark s,
      (r.1 = true ↔ env.wasCanceled r.2.world = true) ∧
      (eventsSince s r.2 = [] ∨
        ∃ permille, eventsSince s r.2 =
          [Event.progressSetValue permille, Event.helper Helper.processEvents]) := by
  constructor
  · unfold report_func
    cases s.progresswidget <;> simp
  · intro r hr
    obtain ⟨h1, h2⟩ := report_func_spec env progress_report_count node mark s r hr
    refine ⟨by rw [h1], ?_⟩
    rcases h2 with h2 | ⟨permille, -, h2⟩
    · left
      rw [h2]; simp [eventsSince]
    · right
      refine ⟨permille, ?_⟩
      rw [h2]
      simp [eventsSince, callHelper, log]

set_option maxRecDepth 100000 in
/-- C14 witness: with the cancel button pressed (the widget shows 600), the
mark 2 of 100 updates nothing and the mark 70 of 100 posts 700, and both
throw; with the widget showing 0, the mark 5 of 100 posts 50 and returns. -/
theorem report_func_cancel_check_witness :
    (report_func (sampleEnv none none 0) 100 none 2
        { sampleWindow { Members.init sampleCarrier with progresswidget := true } with
          world := 600 }).map (fun r => (r.1, r.2.trace)) = some (true, []) ∧
    (report_func (sampleEnv none none 0) 100 none 70
        { sampleWindow { Members.init sampleCarrier with progresswidget := true } with
          world := 600 }).map (fun r => (r.1, r.2.trace)) =
      some (true, [Event.progressSetValue 700, Event.helper Helper.processEvents]) ∧
    (report_func (sampleEnv none none 0) 100 none 5
        (sampleWindow { Members.init sampleCarrier with progresswidget := true })).map
      (fun r => (r.1, r.2.trace)) =
      some (false, [Event.progressSetValue 50, Event.helper Helper.processEvents]) ∧
    ∀ r ∈ report_func (sampleEnv none none 0) 100 none 70
        { sampleWindow { Members.init sampleCarrier with progresswidget := true } with
          world := 600 },
      (r.1 = true ↔ (sampleEnv none none 0).wasCanceled r.2.world = true) :=
  ⟨by decide, by decide, by decide, fun r hr =>
    ((report_func_cancel_check (sampleEnv none none 0) 100 none 70 _).2 r hr).1⟩

/-! ## C15: an empty normalization is a warning -/

/-- C15 (empty normalization is a warning, not a fatal error). Whenever
`compileCSG` ends holding a non-empty primary term whose normalization is
empty, the primary chain is absent, the warning "CSG normalization resulted in
an empty tree" was printed, and the run went on: the highlight chain is the
import, in list order, of the normalized highlight terms whenever there is
one, likewise the background chain, and both the OpenCSG renderer and the
thrown-together renderer were created, over no primary chain and these two
chains. -/
theorem compileCSG_empty_normalization (env : Env C) (procevents : Bool) (s : MainWindow C)
    (root_node : C.AbstractNode) (hroot : s.root_node = some root_node) :
    ∃ t, compileCSG env procevents s = some t ∧
      (t.root_raw_term.isSome → t.root_norm_term = none →
        t.root_chain = none ∧
        Event.print "WARNING: CSG normalization resulted in an empty tree" ∈ eventsSince s t ∧
        (0 < t.highlight_terms.length →
          t.highlights_chain =
            some (t.highlight_terms.foldl env.chainImport (CSGChain.mk []))) ∧
        (0 < t.background_terms.length →
          t.background_chain =
            some (t.background_terms.foldl env.chainImport (CSGChain.mk []))) ∧
        t.opencsgRenderer =
          some (ChainRenderer.mk none t.highlights_chain t.background_chain) ∧
        t.thrownTogetherRenderer =
          some (ChainRenderer.mk none t.highlights_chain t.background_chain)) := by
  refine ⟨compileCSG_body env procevents root_node s, by simp [compileCSG, hroot], ?_⟩
  obtain ⟨threw, mid, hem, -, -, -, -, -, -, hnone, hsome⟩ :=
    compileCSG_body_chains env procevents root_node s
  cases hraw : mid.root_raw_term with
  | none =>
    intro h
    rw [hnone hraw, hraw] at h
    cases h
  | some term =>
    rw [hsome term hraw]
    intro _ hnorm
    obtain ⟨-, hrc, hlen, hhc, blen, hbc, hwarn, -, -⟩ :=
      compileCSG_products_chains env procevents term mid
    obtain ⟨-, htt, hoc⟩ := compileCSG_products_renderers env procevents term mid
    have hchain : (compileCSG_products env procevents term mid).root_chain = none := by
      rw [hrc, hnorm]; rfl
    have hdis : openCSGDisabled env (compileCSG_products env procevents term mid) = false := by
      simp [openCSGDisabled, hchain]
    refine ⟨hchain, ?_, ?_, ?_, ?_, ?_⟩
    · exact Emits.mem_right hem (compileCSG_products_emits env procevents term mid)
        (hwarn hnorm)
    · intro h
      rw [hhc, if_pos (hlen ▸ h)]
    · intro h
      rw [hbc, if_pos (blen ▸ h)]
    · rw [hoc, hdis, hchain]; rfl
    · rw [htt, hchain]

set_option maxRecDepth 100000 in
/-- C15 witness: limit 1, a primary term of 5 primitives, one highlight term
of 1 primitive and one background term of 2. -/
theorem compileCSG_empty_normalization_witness :
    ∃ t, compileCSG (sampleSceneEnv (some 5) [some 1] [some 2] 1) true
        (sampleWindow { Members.init sampleCarrier with root_node := some 0 }) = some t ∧
      t.root_raw_term = some 5 ∧ t.root_norm_term = none ∧ t.root_chain = none ∧
      t.highlights_chain.map (fun c => c.objects.length) = some 1 ∧
      t.background_chain.map (fun c => c.objects.length) = some 2 ∧
      t.opencsgRenderer.isSome = true ∧ t.thrownTogetherRenderer.isSome = true := by
  obtain ⟨t, ht, h⟩ := compileCSG_empty_normalization
    (sampleSceneEnv (some 5) [some 1] [some 2] 1) true
    (sampleWindow { Members.init sampleCarrier with root_node := some 0 }) 0 rfl
  have hyp : ∀ u ∈ compileCSG (sampleSceneEnv (some 5) [some 1] [some 2] 1) true
      (sampleWindow { Members.init sampleCarrier with root_node := some 0 }),
      u.root_raw_term = some 5 ∧ u.root_norm_term = none ∧
      u.highlights_chain.map (fun c => c.objects.length) = some 1 ∧
      u.background_chain.map (fun c => c.objects.length) = some 2 := by
    decide
  obtain ⟨h1, h2, h3, h4⟩ := hyp t ht
  obtain ⟨hc, -, -, -, ho, htt⟩ := h (by rw [h1]; rfl) h2
  exact ⟨t, ht, h1, h2, hc, h3, h4, by rw [ho]; rfl, by rw [htt]; rfl⟩

/-! ## C16: which chains `compileCSG` builds -/

set_option maxRecDepth 100000 in
/-- C16 fails as stated: for a scene whose only object is flagged background
the evaluator yields no primary term and one background term, and `compileCSG`
ends with that term in `background_terms` but with no background chain and no
renderer. -/
theorem compileCSG_background_only_builds_no_chain :
    (compileCSG (sampleSceneEnv none [] [some 1] 100) true
      (sampleWindow { Members.init sampleCarrier with root_node := some 0 })).isSome = true ∧
    ∀ t ∈ compileCSG (sampleSceneEnv none [] [some 1] 100) true
        (sampleWindow { Members.init sampleCarrier with root_node := some 0 }),
      t.root_raw_term = none ∧ t.background_terms = [some 1] ∧
      t.background_chain.isNone = true ∧ t.highlights_chain.isNone = true ∧
      t.thrownTogetherRenderer.isNone = true := by
  decide

/-- C16 as amended. `compileCSG` returns; when it ends holding a primary term,
the highlight chain is the import, in list order, of the normalized highlight
terms whenever at least one highlight term was produced, and likewise the
background chain; when it ends holding no primary term, no chain is built: the
three chains are the ones it was entered with. -/
theorem compileCSG_chains_need_primary_term (env : Env C) (procevents : Bool)
    (s : MainWindow C) (root_node : C.AbstractNode) (hroot : s.root_node = some root_node) :
    ∃ t, compileCSG env procevents s = some t ∧
      (t.root_raw_term.isSome →
        (0 < t.highlight_terms.length →
          t.highlights_chain =
            some (t.highlight_terms.foldl env.chainImport (CSGChain.mk []))) ∧
        (0 < t.background_terms.length →
          t.background_chain =
            some (t.background_terms.foldl env.chainImport (CSGChain.mk [])))) ∧
      (t.root_raw_term = none →
        t.root_chain = s.root_chain ∧ t.highlights_chain = s.highlights_chain ∧
        t.background_chain = s.background_chain) := by
  refine ⟨compileCSG_body env procevents root_node s, by simp [compileCSG, hroot], ?_⟩
  obtain ⟨threw, mid, hem, h1, h2, h3, -, -, -, hnone, hsome⟩ :=
    compileCSG_body_chains env procevents root_node s
  cases hraw : mid.root_raw_term with
  | none =>
    rw [hnone hraw]
    refine ⟨fun h => ?_, fun _ => ⟨h1, h2, h3⟩⟩
    rw [hraw] at h
    cases h
  | some term =>
    rw [hsome term hraw]
    obtain ⟨-, -, hlen, hhc, blen, hbc, -, -, -⟩ :=
      compileCSG_products_chains env procevents term mid
    obtain ⟨hkeep, -, -⟩ := compileCSG_products_renderers env procevents term mid
    refine ⟨fun _ => ⟨fun h => ?_, fun h => ?_⟩, fun h => ?_⟩
    · rw [hhc, if_pos (hlen ▸ h)]
    · rw [hbc, if_pos (blen ▸ h)]
    · rw [hkeep, hraw] at h
      cases h

set_option maxRecDepth 100000 in
/-- C16 witness: a primary term, one highlight term and two background terms. -/
theorem compileCSG_chains_need_primary_term_witness :
    ∃ t, compileCSG (sampleSceneEnv (some 3) [some 1] [some 2, some 4] 100) true
        (sampleWindow { Members.init sampleCarrier with root_node := some 0 }) = some t ∧
      t.highlights_chain =
        some (t.highlight_terms.foldl
          (sampleSceneEnv (some 3) [some 1] [some 2, some 4] 100).chainImport (CSGChain.mk [])) ∧
      t.background_chain.map (fun c => c.objects) = some [0, 1, 0, 1, 2, 3] := by
  obtain ⟨t, ht, h, -⟩ := compileCSG_chains_need_primary_term
    (sampleSceneEnv (some 3) [some 1] [some 2, some 4] 100) true
    (sampleWindow { Members.init sampleCarrier with root_node := some 0 }) 0 rfl
  have hyp : ∀ u ∈ compileCSG (sampleSceneEnv (some 3) [some 1] [some 2, some 4] 100) true
      (sampleWindow { Members.init sampleCarrier with root_node := some 0 }),
      u.root_raw_term.isSome = true ∧ 0 < u.highlight_terms.length ∧
      u.background_chain.map (fun c => c.objects) = some [0, 1, 0, 1, 2, 3] := by
    decide
  obtain ⟨h1, h2, h3⟩ := hyp t ht
  exact ⟨t, ht, (h h1).1 h2, h3⟩

/-! ## C17: chains never mix generations -/

/-- C17 (chains never mix generations). Every call of `compile` returns, and
when `compileCSG` was entered in it, this happened in a run of
`compileDone(true)`, after `instantiateRoot`, in a state `entry` that has a
root node, none of the three chains and empty highlight and background term
lists; `compileCSG` returned from there, only the view switch and
`compileEnded` followed, and at the end the primary chain is the import of the
normalized primary term into a new chain, the highlight chain, when there is
one, is the import in list order (index 0 first) of the highlight terms into
a new chain, likewise the background chain, and those terms are the
normalizations, in order, of the terms the evaluator produced in this run
from empty lists. -/
theorem compile_chains_one_generation (env : Env C) (reload forcedone : Bool)
    (s : MainWindow C) :
    ∃ t, compile env reload forcedone s = some t ∧
      (Event.compileCSG ∈ eventsSince s t →
        Event.compileDone true ∈ eventsSince s t ∧
        ∃ (entry body : MainWindow C) (procevents : Bool) (root_node : C.AbstractNode)
            (w : C.World),
          Emits Event.isPlain s entry ∧ Event.instantiateRoot ∈ eventsSince s entry ∧
          entry.root_node = some root_node ∧
          entry.root_chain = none ∧ entry.highlights_chain = none ∧
          entry.background_chain = none ∧
          entry.highlight_terms = [] ∧ entry.background_terms = [] ∧
          compileCSG env procevents entry = some body ∧
          Emits Event.isViewing body t ∧
          t.root_chain =
            t.root_norm_term.map (fun term => env.chainImport (CSGChain.mk []) (some term)) ∧
          t.highlights_chain =
            (if t.root_raw_term.isSome = true ∧ 0 < t.highlight_terms.length then
              some (t.highlight_terms.foldl env.chainImport (CSGChain.mk []))
            else none) ∧
          t.background_chain =
            (if t.root_raw_term.isSome = true ∧ 0 < t.background_terms.length then
              some (t.background_terms.foldl env.chainImport (CSGChain.mk []))
            else none) ∧
          (t.root_raw_term.isSome = true →
            ∃ nz nz',
              t.highlight_terms =
                (normalizeAndImport env nz (CSGChain.mk [])
                  (env.evaluateCSGTerm root_node [] [] w).1.highlights).2.2 ∧
              t.background_terms =
                (normalizeAndImport env nz' (CSGChain.mk [])
                  (env.evaluateCSGTerm root_node [] [] w).1.background).2.2)) := by
  obtain ⟨t, ht, -, -, -⟩ := compile_outcome env reload forcedone s
  refine ⟨t, ht, fun hc => ?_⟩
  have hup := (compile_upstream env reload s).mono isUpstream_isPlain
  rw [compile_eq] at ht
  split at ht
  · obtain rfl := Option.some.inj ht
    have hlog : Emits (fun e => e != Event.compileCSG) s
        (log { compile_atDependencyTest env reload s with
          waitAfterReloadTimerActive := true } Event.waitAfterReloadTimerStart) :=
      (hup.mono (fun e h => by cases e <;> simp_all [Event.isPlain, Event.isMilestone])).trans
        (Emits.of_left (Emits.log _ _ rfl) rfl)
    exact absurd hc (hlog.not_mem rfl)
  · have hpre : Emits Event.isPlain s
        (compile_highlightError reload (compile_didcompileValue env reload s)
          (compile_atDependencyTest env reload s)) :=
      hup.trans ((compile_highlightError_upstream _ _ _).mono isUpstream_isPlain)
    generalize compile_highlightError reload (compile_didcompileValue env reload s)
      (compile_atDependencyTest env reload s) = v at ht hpre
    generalize (compile_didcompileValue env reload s || forcedone) = d at ht
    have hany := compileDone_emits_any env d v t ht
    have hc' : Event.compileCSG ∈ eventsSince v t :=
      (mem_eventsSince_right_iff hpre hany (e := Event.compileCSG) rfl).mp hc
    obtain ⟨rfl, procevents, n, tail, htail, hn, hcall, rfl⟩ :=
      compileDone_compileCSG env d v t ht hc'
    obtain ⟨aplain, acd, air, -, -, afresh, ahl, abg, -⟩ := compileDone_atSlot_spec env v
    obtain ⟨w, g1, g2, g3, -, g5⟩ := compileCSG_body_generation env procevents n
      (compileDone_atSlot env v) afresh ahl abg
    -- the members of the final state are those `compileCSG` left, but for the view
    obtain ⟨a, he⟩ := compileEnded_frame env (tail (goToNonCGALViewMode env
      (compileCSG_body env procevents n (compileDone_atSlot env v))))
    obtain ⟨a', d', r', hg⟩ := goToNonCGALViewMode_frame env
      (compileCSG_body env procevents n (compileDone_atSlot env v))
    have hE := he.trans (by rw [(htail _).2, hg])
    have q : ∀ {α : Type} (f : Members C → α), f (compileEnded env (tail
        (goToNonCGALViewMode env (compileCSG_body env procevents n
          (compileDone_atSlot env v))))).toMembers = f _ := fun f => congrArg f hE
    have f1 := q (fun m => m.root_chain)
    have f2 := q (fun m => m.root_norm_term)
    have f3 := q (fun m => m.highlights_chain)
    have f4 := q (fun m => m.background_chain)
    have f5 := q (fun m => m.highlight_terms)
    have f6 := q (fun m => m.background_terms)
    have f7 := q (fun m => m.root_raw_term)
    simp only [] at f1 f2 f3 f4 f5 f6 f7
    change (compileEnded env _).root_chain = _ at f1
    change (compileEnded env _).root_norm_term = _ at f2
    change (compileEnded env _).highlights_chain = _ at f3
    change (compileEnded env _).background_chain = _ at f4
    change (compileEnded env _).highlight_terms = _ at f5
    change (compileEnded env _).background_terms = _ at f6
    change (compileEnded env _).root_raw_term = _ at f7
    have hview : Emits Event.isViewing (compileCSG_body env procevents n (compileDone_atSlot env v))
        (compileEnded env (tail (goToNonCGALViewMode env
          (compileCSG_body env procevents n (compileDone_atSlot env v))))) :=
      ((goToNonCGALViewMode_emits env _).trans (htail _).1).trans
        (compileEnded_emits _ rfl rfl rfl env _)
    have hbody : Emits (fun _ => true) (compileDone_atSlot env v)
        (compileCSG_body env procevents n (compileDone_atSlot env v)) := by
      obtain ⟨threw, mid, hem, -, -, -, hb⟩ :=
        compileCSG_body_cases env procevents n (compileDone_atSlot env v)
      refine hem.any.trans ?_
      rw [hb]
      split
      · exact (compileCSG_products_emits env procevents _ mid).any
      · exact Emits.refl _ _
    refine ⟨Emits.mem_right hpre hany (Emits.mem_left aplain (hbody.trans hview.any) acd),
      compileDone_atSlot env v, compileCSG_body env procevents n (compileDone_atSlot env v),
      procevents, n, w, hpre.trans aplain, Emits.mem_right hpre aplain air, hn,
      congrArg (fun p => p.2.2.2.1) afresh, congrArg (fun p => p.2.2.2.2.1) afresh,
      congrArg (fun p => p.2.2.2.2.2.1) afresh, ahl, abg, hcall, hview, ?_, ?_, ?_, ?_⟩
    · rw [f1, f2]; exact g1
    · rw [f3, f5, f7]; exact g2
    · rw [f4, f6, f7]; exact g3
    · rw [f5, f6, f7]; exact g5

set_option maxRecDepth 100000 in
/-- C17 witness: an explicit compile of a new window whose scene has a
primary term of 3 primitives, highlight terms of 1 and 4 primitives and a
background term of 2: the chains hold the imports of these terms, in order. -/
theorem compile_chains_one_generation_witness :
    ∃ t, compile (sampleSceneEnv (some 3) [some 1, some 4] [some 2] 100) false false
        (sampleWindow (Members.init sampleCarrier)) = some t ∧
      Event.compileCSG ∈ eventsSince (sampleWindow (Members.init sampleCarrier)) t ∧
      Event.compileDone true ∈ eventsSince (sampleWindow (Members.init sampleCarrier)) t ∧
      t.root_chain.map (fun c => c.objects) = some [0, 1, 2] ∧
      t.highlights_chain.map (fun c => c.objects) = some [0, 0, 1, 2, 3] ∧
      t.background_chain.map (fun c => c.objects) = some [0, 1] := by
  obtain ⟨t, ht, h⟩ := compile_chains_one_generation
    (sampleSceneEnv (some 3) [some 1, some 4] [some 2] 100) false false
    (sampleWindow (Members.init sampleCarrier))
  have hyp : ∀ u ∈ compile (sampleSceneEnv (some 3) [some 1, some 4] [some 2] 100) false false
      (sampleWindow (Members.init sampleCarrier)),
      Event.compileCSG ∈ eventsSince (sampleWindow (Members.init sampleCarrier)) u ∧
      u.root_chain.map (fun c => c.objects) = some [0, 1, 2] ∧
      u.highlights_chain.map (fun c => c.objects) = some [0, 0, 1, 2, 3] ∧
      u.background_chain.map (fun c => c.objects) = some [0, 1] := by
    decide
  obtain ⟨h1, h2, h3, h4⟩ := hyp t ht
  exact ⟨t, ht, h1, (h h1).1, h2, h3, h4⟩

/-! ## C18: the fingerprint check is idempotent -/

/-- C18 (the fingerprint check is idempotent). After one call of
`fileChangedOnDisk`, whatever it returned, a call that follows at once and for
which `stat` reports what it reported to the first call returns false and
leaves `autoReloadId` as the first call left it. -/
theorem fileChangedOnDisk_idempotent (env : Env C) (s : MainWindow C)
    (hsame : (env.stat s.fileName (fileChangedOnDisk env s).2.world).1 =
      (env.stat s.fileName s.world).1) :
    (fileChangedOnDisk env (fileChangedOnDisk env s).2).1 = false ∧
    (fileChangedOnDisk env (fileChangedOnDisk env s).2).2.autoReloadId =
      (fileChangedOnDisk env s).2.autoReloadId := by
  obtain ⟨-, hname, hmiss, hstat⟩ := fileChangedOnDisk_cases env s
  obtain ⟨-, -, hmiss', hstat'⟩ := fileChangedOnDisk_cases env (fileChangedOnDisk env s).2
  rw [hname] at hmiss' hstat'
  by_cases hf : s.fileName = ""
  · exact hmiss' (Or.inl hf)
  · cases hst : (env.stat s.fileName s.world).1 with
    | none => exact hmiss' (Or.inr (hsame.trans hst))
    | some p =>
      obtain ⟨mtime, size⟩ := p
      obtain ⟨h1, h2⟩ := hstat' mtime size hf (hsame.trans hst)
      obtain ⟨-, h3⟩ := hstat mtime size hf hst
      rw [h1, h2, h3]
      simp

set_option maxRecDepth 100000 in
/-- C18 witness: the file `a.scad` with modification time 26 and size 255
against an empty recorded fingerprint: the first call returns true and records
`1a.ff`, the second returns false and keeps it. -/
theorem fileChangedOnDisk_idempotent_witness :
    (fileChangedOnDisk (sampleStatEnv (some (26, 255)))
        (sampleWindow { Members.init sampleCarrier with fileName := "a.scad" })).1 = true ∧
    (fileChangedOnDisk (sampleStatEnv (some (26, 255)))
        (sampleWindow { Members.init sampleCarrier with fileName := "a.scad" })).2.autoReloadId =
      "1a.ff" ∧
    (fileChangedOnDisk (sampleStatEnv (some (26, 255)))
      (fileChangedOnDisk (sampleStatEnv (some (26, 255)))
        (sampleWindow { Members.init sampleCarrier with fileName := "a.scad" })).2).1 = false ∧
    (fileChangedOnDisk (sampleStatEnv (some (26, 255)))
      (fileChangedOnDisk (sampleStatEnv (some (26, 255)))
        (sampleWindow { Members.init sampleCarrier with fileName := "a.scad" })).2).2.autoReloadId =
      (fileChangedOnDisk (sampleStatEnv (some (26, 255)))
        (sampleWindow { Members.init sampleCarrier with fileName := "a.scad" })).2.autoReloadId :=
  ⟨by decide, by decide,
    fileChangedOnDisk_idempotent (sampleStatEnv (some (26, 255)))
      (sampleWindow { Members.init sampleCarrier with fileName := "a.scad" }) rfl⟩

/-! ## C19: fingerprint equality defines unchanged -/

/-- C19 (fingerprint equality defines unchanged). `fileChangedOnDisk` returns
true exactly when the document has a file name, `stat` succeeds on it, and the
`"%x.%x"` fingerprint of the modification time and size it reports differs from
`autoReloadId`, and then that fingerprint is recorded; the fingerprint is
injective, so that against a recorded fingerprint of a pair the result is
true exactly when the pair reported differs from it in a component; without a
file name or when `stat` fails the result is false and `autoReloadId` stays. -/
theorem fileChangedOnDisk_fingerprint (env : Env C) (s : MainWindow C) :
    ((fileChangedOnDisk env s).1 = true ↔
      s.fileName ≠ "" ∧ ∃ mtime size, (env.stat s.fileName s.world).1 = some (mtime, size) ∧
        hexString mtime ++ "." ++ hexString size ≠ s.autoReloadId) ∧
    (∀ mtime size, (fileChangedOnDisk env s).1 = true →
      (env.stat s.fileName s.world).1 = some (mtime, size) →
      (fileChangedOnDisk env s).2.autoReloadId = hexString mtime ++ "." ++ hexString size) ∧
    (∀ m₁ s₁ m₂ s₂ : Nat,
      hexString m₁ ++ "." ++ hexString s₁ = hexString m₂ ++ "." ++ hexString s₂ →
        m₁ = m₂ ∧ s₁ = s₂) ∧
    (∀ mtime₀ size₀, s.autoReloadId = hexString mtime₀ ++ "." ++ hexString size₀ →
      ((fileChangedOnDisk env s).1 = true ↔
        s.fileName ≠ "" ∧ ∃ mtime size, (env.stat s.fileName s.world).1 = some (mtime, size) ∧
          (mtime, size) ≠ (mtime₀, size₀))) ∧
    ((s.fileName = "" ∨ (env.stat s.fileName s.world).1 = none) →
      (fileChangedOnDisk env s).1 = false ∧
      (fileChangedOnDisk env s).2.autoReloadId = s.autoReloadId) := by
  obtain ⟨-, -, hmiss, hstat⟩ := fileChangedOnDisk_cases env s
  have hiff : (fileChangedOnDisk env s).1 = true ↔
      s.fileName ≠ "" ∧ ∃ mtime size, (env.stat s.fileName s.world).1 = some (mtime, size) ∧
        hexString mtime ++ "." ++ hexString size ≠ s.autoReloadId := by
    constructor
    · intro h
      by_cases hf : s.fileName = ""
      · rw [(hmiss (Or.inl hf)).1] at h; cases h
      · cases hst : (env.stat s.fileName s.world).1 with
        | none => rw [(hmiss (Or.inr hst)).1] at h; cases h
        | some p =>
          obtain ⟨mtime, size⟩ := p
          rw [(hstat mtime size hf hst).1] at h
          exact ⟨hf, mtime, size, rfl, of_decide_eq_true h⟩
    · rintro ⟨hf, mtime, size, hst, hne⟩
      rw [(hstat mtime size hf hst).1]
      exact decide_eq_true hne
  refine ⟨hiff, ?_, fun _ _ _ _ => autoReloadId_injective, ?_, hmiss⟩
  · intro mtime size h hst
    exact (hstat mtime size (hiff.mp h).1 hst).2
  · intro mtime₀ size₀ hrec
    rw [hiff, hrec]
    constructor
    · rintro ⟨hf, mtime, size, hst, hne⟩
      exact ⟨hf, mtime, size, hst, fun h => hne (by rw [(Prod.mk.inj h).1, (Prod.mk.inj h).2])⟩
    · rintro ⟨hf, mtime, size, hst, hne⟩
      refine ⟨hf, mtime, size, hst, fun h => hne ?_⟩
      obtain ⟨h1, h2⟩ := autoReloadId_injective h
      rw [h1, h2]

set_option maxRecDepth 100000 in
/-- C19 witness: the file `a.scad` with modification time 26 and size 255
against the recorded fingerprint of (26, 254), against its own, and when
`stat` fails. -/
theorem fileChangedOnDisk_fingerprint_witness :
    (fileChangedOnDisk (sampleStatEnv (some (26, 255)))
        (sampleWindow { Members.init sampleCarrier with
          fileName := "a.scad", autoReloadId := "1a.fe" })).1 = true ∧
    (fileChangedOnDisk (sampleStatEnv (some (26, 255)))
        (sampleWindow { Members.init sampleCarrier with
          fileName := "a.scad", autoReloadId := "1a.ff" })).1 = false ∧
    (fileChangedOnDisk (sampleStatEnv none)
        (sampleWindow { Members.init sampleCarrier with
          fileName := "a.scad", autoReloadId := "1a.ff" })).1 = false :=
  ⟨((fileChangedOnDisk_fingerprint (sampleStatEnv (some (26, 255)))
      (sampleWindow { Members.init sampleCarrier with
        fileName := "a.scad", autoReloadId := "1a.fe" })).2.2.2.1 26 254 (by decide)).mpr
      ⟨by decide, 26, 255, rfl, by decide⟩,
    by decide, by decide⟩

/-! ## C20: at most one worker computation is outstanding -/

/-- C20 (at most one worker computation is outstanding). In every state `s`
reached from a new window by requests, and for every request that can arrive
there and returns: the worker is started only by `actionRender`, only when it
found the GUI lock free and no worker computing, and it then holds the lock
with the worker computing; the lock is released only together with
`compileEnded`; and while the worker computes the lock is held, every request
other than the worker's `done` signal does nothing at all (a compile request
returns at once, leaving the window as it is), and the `done` signal reaches
`compileEnded` once, releases the lock and ends the computation. -/
theorem one_worker_outstanding (env : Env C) (world : C.World) (reqs : List (Request C))
    (s : MainWindow C) (hreach : run env reqs (MainWindow.init world) = some s)
    (r : Request C) (t : MainWindow C) (hen : r.enabled s = true)
    (hstep : dispatch env r s = some t) :
    (Event.cgalworkerStart ∈ eventsSince s t →
      r = Request.actionRender ∧ s.gui_locked = 0 ∧ s.cgalworker_running = false ∧
      milestones s t = [Event.guiLock, Event.cgalworkerStart] ∧
      t.gui_locked = 1 ∧ t.cgalworker_running = true) ∧
    (Event.guiUnlock ∈ eventsSince s t → Event.compileEnded ∈ eventsSince s t) ∧
    (s.cgalworker_running = true →
      s.gui_locked = 1 ∧
      ((∀ g, r ≠ Request.workerDone g) →
        eventsSince s t = [] ∧ t.cgalworker_running = true ∧ t.gui_locked = 1 ∧
        (r.isCompileRequest = true → t = s)) ∧
      (∀ g, r = Request.workerDone g →
        milestones s t = [Event.compileEnded, Event.guiUnlock] ∧
        t.gui_locked = 0 ∧ t.cgalworker_running = false)) := by
  have hinit : lockDiscipline (MainWindow.init (C := C) world).toMembers.lockState := by
    show lockDiscipline (0, false, false, Slot.csgRender)
    simp [lockDiscipline]
  have hinv := run_lockDiscipline env reqs _ s hinit hreach
  obtain ⟨-, hcase⟩ := dispatch_summary env r s t hinv hen hstep
  refine ⟨fun hstart => ?_, fun hunlock => ?_, fun hrun => ⟨(hinv.1 hrun).1, fun hnd => ?_,
    fun g hg => ?_⟩⟩
  · rcases hcase with ⟨a, -⟩ | ⟨-, a, -⟩ | ⟨a, -⟩ | h
    · rw [a] at hstart; cases hstart
    · exact absurd hstart a
    · exact absurd hstart a
    · exact h
  · rcases hcase with ⟨a, -⟩ | ⟨-, -, a, -⟩ | ⟨-, a, -⟩ | ⟨-, -, -, a, -⟩
    · rw [a] at hunlock; cases hunlock
    · exact absurd hunlock a
    · exact a
    · exact absurd hunlock (not_mem_eventsSince_of_milestones rfl (by rw [a]; simp))
  · rcases hcase with ⟨a, b, c⟩ | ⟨a, -⟩ | ⟨-, -, -, -, a⟩ | ⟨-, -, a, -⟩
    · have h2 : t.cgalworker_running = s.cgalworker_running := congrArg (fun p => p.2.1) b
      have h1 : t.gui_locked = s.gui_locked := congrArg (fun p => p.1) b
      exact ⟨a, h2.trans hrun, h1.trans (hinv.1 hrun).1, c⟩
    · rw [hrun] at a; cases a
    · obtain ⟨⟨g, hg⟩, -⟩ := a hrun
      exact absurd hg (hnd g)
    · rw [hrun] at a; cases a
  · subst hg
    have hstep' : actionRenderDone env g { s with cgalworker_running := false } = some t := hstep
    obtain ⟨-, hms, hls⟩ := actionRenderDone_outcome env g _ t hstep'
    refine ⟨hms, ?_, congrArg (fun p => p.2.1) hls⟩
    have h1 : t.gui_locked = (s.gui_locked + (2 ^ 32 - 1)) % 2 ^ 32 := congrArg (fun p => p.1) hls
    have hg1 : s.gui_locked = 1 := (hinv.1 hrun).1
    rw [h1, hg1]
    norm_num

set_option maxRecDepth 100000 in
/-- C20 witness: on a new window `actionRender` compiles a design and starts
the worker; the `actionRender` that follows returns at once. -/
theorem one_worker_outstanding_witness :
    ∃ s, run (sampleEnv (some 0) none 0) [Request.actionRender] (MainWindow.init 0) = some s ∧
      s.cgalworker_running = true ∧ s.gui_locked = 1 ∧
      ∃ t, dispatch (sampleEnv (some 0) none 0) Request.actionRender s = some t ∧
        eventsSince s t = [] ∧ t.cgalworker_running = true ∧ t.gui_locked = 1 := by
  have hsome : (run (sampleEnv (some 0) none 0) [Request.actionRender]
      (MainWindow.init 0)).isSome = true := by decide
  obtain ⟨s, hs⟩ := Option.isSome_iff_exists.mp hsome
  have hyp : ∀ u ∈ run (sampleEnv (some 0) none 0) [Request.actionRender] (MainWindow.init 0),
      u.cgalworker_running = true ∧
      (dispatch (sampleEnv (some 0) none 0) Request.actionRender u).isSome = true := by
    decide
  obtain ⟨hrun, hd⟩ := hyp s hs
  obtain ⟨t, ht⟩ := Option.isSome_iff_exists.mp hd
  obtain ⟨-, -, h⟩ := one_worker_outstanding (sampleEnv (some 0) none 0) 0
    [Request.actionRender] s hs Request.actionRender t rfl ht
  obtain ⟨hg, hidle, -⟩ := h hrun
  obtain ⟨h1, h2, h3, -⟩ := hidle (fun g hg => by cases hg)
  exact ⟨s, hs, hrun, hg, t, ht, h1, h2, h3⟩

/-! ## The error-highlight signals of `compile` -/

theorem filter_eq_nil_of_emits {P Q : Event → Bool} {s t : MainWindow C} (h : Emits P s t)
    (hPQ : ∀ e, P e = true → Q e = false) : (eventsSince s t).filter Q = [] := by
  rw [List.filter_eq_nil_iff]
  intro e he
  rw [hPQ e (h.forall_mem e he)]
  simp

/-- What `compileTopLevelDocument` parses and what it keeps of the result. -/
theorem compileTopLevelDocument_parse (env : Env C) (s : MainWindow C) :
    ∃ w, (compileTopLevelDocument env s).root_module =
        (env.parse (s.editorText ++ "\n" ++ env.commandline_commands)
          (if s.fileName = "" then "" else env.absolutePath s.fileName) w).1.1 ∧
      (compileTopLevelDocument env s).parser_error_pos =
        (env.parse (s.editorText ++ "\n" ++ env.commandline_commands)
          (if s.fileName = "" then "" else env.absolutePath s.fileName) w).1.2 ∧
      (compileTopLevelDocument env s).last_compiled_doc = s.editorText := by
  unfold compileTopLevelDocument
  lift_lets
  intro s1 s2 s3 s4 fulltext s5 s6 r s7
  refine ⟨s6.world, ?_, ?_, ?_⟩
  · show (updateCamera env s7).toMembers.root_module = _
    rw [updateCamera_toMembers]; rfl
  · show (updateCamera env s7).toMembers.parser_error_pos = _
    rw [updateCamera_toMembers]; rfl
  · show (updateCamera env s7).toMembers.last_compiled_doc = _
    rw [updateCamera_toMembers]; rfl

/-- The state of an explicit compile at the dependency test: the editor text
was parsed and recorded as the compiled text. -/
theorem compile_explicit_parse (env : Env C) (s : MainWindow C) :
    ∃ w, (compile_atDependencyTest env false s).toMembers =
        { s.toMembers with
            last_compiled_doc := s.editorText,
            root_module := (env.parse (s.editorText ++ "\n" ++ env.commandline_commands)
              (if s.fileName = "" then "" else env.absolutePath s.fileName) w).1.1,
            parser_error_pos := (env.parse (s.editorText ++ "\n" ++ env.commandline_commands)
              (if s.fileName = "" then "" else env.absolutePath s.fileName) w).1.2 } := by
  obtain ⟨-, m, pos, hmem, -, -, -⟩ := compile_recompiled env false s rfl
  have hs : (compile_shouldcompiletoplevel env false s).2 = s := rfl
  rw [hs] at hmem
  -- the text parsed
  have hat : compile_atDependencyTest env false s =
      (compile_handleDependencies env true (compileTopLevelDocument env
        (if env.isContentModified (log s Event.consoleClear).world then
          callHelper env Helper.saveBackup (log s Event.consoleClear)
        else log s Event.consoleClear))).2 := rfl
  have hin : ∀ u : MainWindow C, u.toMembers = s.toMembers →
      ∃ w, (compileTopLevelDocument env u).root_module =
          (env.parse (s.editorText ++ "\n" ++ env.commandline_commands)
            (if s.fileName = "" then "" else env.absolutePath s.fileName) w).1.1 ∧
        (compileTopLevelDocument env u).parser_error_pos =
          (env.parse (s.editorText ++ "\n" ++ env.commandline_commands)
            (if s.fileName = "" then "" else env.absolutePath s.fileName) w).1.2 := by
    intro u hu
    obtain ⟨w, h1, h2, -⟩ := compileTopLevelDocument_parse env u
    have he : u.editorText = s.editorText := congrArg (fun m : Members C => m.editorText) hu
    have hf : u.fileName = s.fileName := congrArg (fun m : Members C => m.fileName) hu
    rw [he, hf] at h1 h2
    exact ⟨w, h1, h2⟩
  obtain ⟨w, h1, h2⟩ := hin (if env.isContentModified (log s Event.consoleClear).world then
      callHelper env Helper.saveBackup (log s Event.consoleClear)
    else log s Event.consoleClear) (by split <;> rfl)
  refine ⟨w, ?_⟩
  have hd := (compile_handleDependencies_spec env true (compileTopLevelDocument env
        (if env.isContentModified (log s Event.consoleClear).world then
          callHelper env Helper.saveBackup (log s Event.consoleClear)
        else log s Event.consoleClear))).1
  have hm : m = (env.parse (s.editorText ++ "\n" ++ env.commandline_commands)
      (if s.fileName = "" then "" else env.absolutePath s.fileName) w).1.1 := by
    rw [← h1]
    have := congrArg (fun m : Members C => m.root_module) hmem
    simp only [] at this
    rw [← this, hat]
    exact congrArg (fun m : Members C => m.root_module) hd.symm ▸ rfl
  have hp : pos = (env.parse (s.editorText ++ "\n" ++ env.commandline_commands)
      (if s.fileName = "" then "" else env.absolutePath s.fileName) w).1.2 := by
    rw [← h2]
    have := congrArg (fun m : Members C => m.parser_error_pos) hmem
    simp only [] at this
    rw [← this, hat]
    exact congrArg (fun m : Members C => m.parser_error_pos) hd.symm ▸ rfl
  rw [hmem, hm, hp]

theorem isRenderWith_not_signal (threw : Bool) (e : Event) (h : e.isRenderWith threw = true) :
    e.isHighlightSignal = false := by
  cases e <;> simp_all [Event.isHighlightSignal, Event.isRenderWith, Event.isProducts,
    Event.isOutput]

theorem isChecking_not_signal (e : Event) (h : e.isChecking = true) :
    e.isHighlightSignal = false := by
  cases e <;> simp_all [Event.isHighlightSignal, Event.isChecking, Event.isOutput]

theorem isRecompilingWith_not_signal (ok : Bool) (e : Event)
    (h : e.isRecompilingWith ok = true) : e.isHighlightSignal = false := by
  cases e <;> simp_all [Event.isHighlightSignal, Event.isRecompilingWith, Event.isDependency,
    Event.isOutput]

/-- The error-highlight signals of a `compile` call are those of lines
774-781. -/
theorem compile_signals (env : Env C) (reload forcedone : Bool) (s : MainWindow C) :
    ∃ t, compile env reload forcedone s = some t ∧
      (eventsSince s t).filter Event.isHighlightSignal =
        (eventsSince (compile_atDependencyTest env reload s)
          (compile_highlightError reload (compile_didcompileValue env reload s)
            (compile_atDependencyTest env reload s))).filter Event.isHighlightSignal ∧
      (t.toMembers.document = (compile_atDependencyTest env reload s).toMembers.document ∨
        t.toMembers = { (compile_atDependencyTest env reload s).toMembers with
          waitAfterReloadTimerActive := true }) := by
  have hup : Emits (fun e => !e.isHighlightSignal) s (compile_atDependencyTest env reload s) := by
    by_cases hs : (compile_shouldcompiletoplevel env reload s).1 = true
    · obtain ⟨-, m, pos, -, hem, -, -⟩ := compile_recompiled env reload s hs
      refine hem.mono (fun e h => ?_)
      rcases Bool.or_eq_true _ _ ▸ h with h | h
      · rw [isChecking_not_signal e h]; rfl
      · rw [isRecompilingWith_not_signal _ e h]; rfl
    · obtain ⟨-, hem, -⟩ := compile_not_recompiled env reload s (by simpa using hs)
      refine hem.mono (fun e h => ?_)
      rcases Bool.or_eq_true _ _ ▸ h with h | h
      · rw [isChecking_not_signal e h]; rfl
      · rw [isRecompilingWith_not_signal true e (isDependency_isRecompilingWith true e h)]; rfl
  have hnil : ∀ {a b : MainWindow C}, Emits (fun e => !e.isHighlightSignal) a b →
      (eventsSince a b).filter Event.isHighlightSignal = [] := fun h =>
    filter_eq_nil_of_emits h (fun e he => by simpa using he)
  have hhl := (compile_highlightError_spec reload (compile_didcompileValue env reload s)
    (compile_atDependencyTest env reload s))
  rw [compile_eq]
  split
  · next hw =>
    have hr : reload = true := by
      cases reload
      · rw [compile_waits_false] at hw; cases hw
      · rfl
    refine ⟨_, rfl, ?_, Or.inr rfl⟩
    rw [hhl.2.2.2 hr]
    have hlog : Emits (fun e => !e.isHighlightSignal)
        (compile_atDependencyTest env reload s)
        (log { compile_atDependencyTest env reload s with
          waitAfterReloadTimerActive := true } Event.waitAfterReloadTimerStart) :=
      Emits.of_left (Emits.log _ _ rfl) rfl
    rw [hnil (hup.trans hlog), hnil (Emits.refl _ _)]
  · have hdone : ∀ (d : Bool) (v : MainWindow C),
        ∃ t, compileDone env d v = some t ∧ Emits (fun e => !e.isHighlightSignal) v t ∧
          t.toMembers.document = v.toMembers.document := by
      intro d v
      cases d with
      | false =>
        obtain ⟨t, ht, hem, -, -, -, hdoc, -⟩ := compileDone_false env v
        exact ⟨t, ht, hem.mono (fun e h => by
          rw [isRenderWith_not_signal false e (isEnding_isRenderWith false e h)]; rfl), hdoc⟩
      | true =>
        obtain ⟨t, threw, ht, hem, -, -, -, hdoc, -⟩ := compileDone_true env v
        exact ⟨t, ht, hem.mono (fun e h => by
          rw [isRenderWith_not_signal threw e h]; rfl), hdoc⟩
    obtain ⟨t, ht, hem, hdoc⟩ := hdone (compile_didcompileValue env reload s || forcedone)
      (compile_highlightError reload (compile_didcompileValue env reload s)
        (compile_atDependencyTest env reload s))
    refine ⟨t, ht, ?_, Or.inl ?_⟩
    · rw [eventsSince_append (hup.any.trans hhl.2.2.1.any) hem, List.filter_append, hnil hem,
        List.append_nil, eventsSince_append hup hhl.2.2.1, List.filter_append, hnil hup,
        List.nil_append]
    · rw [hdoc, hhl.1]

/-! ## The index counter in `instantiateRoot` -/

/-- An occurrence of an event of a class in a list that holds one event of
that class is that event. -/
theorem append_cons_cons_unique (P : Event → Bool) (r i x : Event) :
    ∀ (A B pre post : List Event), A ++ r :: i :: B = pre ++ x :: post →
      P x = true → (∀ e ∈ A, P e = false) → P r = false → (∀ e ∈ B, P e = false) →
      pre = A ++ [r] ∧ x = i ∧ post = B := by
  intro A
  induction A with
  | nil =>
    intro B pre post h hx _ hr hB
    cases pre with
    | nil =>
      simp only [List.nil_append, List.cons.injEq] at h
      rw [← h.1, hr] at hx; cases hx
    | cons p pre =>
      cases pre with
      | nil =>
        simp only [List.nil_append, List.cons_append, List.cons.injEq] at h
        exact ⟨by rw [h.1]; rfl, h.2.1.symm, h.2.2.symm⟩
      | cons q pre =>
        simp only [List.nil_append, List.cons_append, List.cons.injEq] at h
        have := hB x (by rw [h.2.2]; simp)
        rw [this] at hx; cases hx
  | cons a A ih =>
    intro B pre post h hx hA hr hB
    cases pre with
    | nil =>
      simp only [List.nil_append, List.cons_append, List.cons.injEq] at h
      have := hA a (List.mem_cons_self _ _)
      rw [h.1, hx] at this; cases this
    | cons p pre =>
      simp only [List.cons_append, List.cons.injEq] at h
      obtain ⟨h1, h2, h3⟩ := ih B pre post h.2 hx
        (fun e he => hA e (List.mem_cons_of_mem _ he)) hr hB
      exact ⟨by rw [h.1, h1]; rfl, h2, h3⟩

/-- Console output and event processing leave `root_inst`, the node-index
counter and the indices of the nodes alone. -/
theorem PRINT_counter (env : Env C) (msg : String) (s : MainWindow C) :
    (PRINT env msg s).root_inst = s.root_inst ∧
    (PRINT env msg s).idx_counter = s.idx_counter ∧
    (PRINT env msg s).node_indices = s.node_indices := by
  unfold PRINT consoleOutput processEventsIf
  split
  · split
    · exact ⟨rfl, rfl, rfl⟩
    · exact ⟨rfl, rfl, rfl⟩
  · exact ⟨rfl, rfl, rfl⟩

theorem processEventsIf_counter (env : Env C) (b : Bool) (s : MainWindow C) :
    (processEventsIf env b s).root_inst = s.root_inst ∧
    (processEventsIf env b s).idx_counter = s.idx_counter ∧
    (processEventsIf env b s).node_indices = s.node_indices := by
  unfold processEventsIf
  split
  · exact ⟨rfl, rfl, rfl⟩
  · exact ⟨rfl, rfl, rfl⟩

theorem instantiateRoot_setRoot_counter (env : Env C) (a : C.AbstractNode)
    (s : MainWindow C) :
    (instantiateRoot_setRoot env a s).root_inst = s.root_inst ∧
    (instantiateRoot_setRoot env a s).idx_counter = s.idx_counter ∧
    (instantiateRoot_setRoot env a s).node_indices = s.node_indices := by
  unfold instantiateRoot_setRoot
  cases env.find_root_tag a <;> exact ⟨rfl, rfl, rfl⟩

theorem instantiateRoot_failed_counter (env : Env C) (s : MainWindow C) :
    (instantiateRoot_failed env s).root_inst = s.root_inst ∧
    (instantiateRoot_failed env s).idx_counter = s.idx_counter ∧
    (instantiateRoot_failed env s).node_indices = s.node_indices := by
  unfold instantiateRoot_failed
  split
  · obtain ⟨h1, h2, h3⟩ := processEventsIf_counter env
      (PRINT env "ERROR: Compilation failed! (no top level object found)" s).procevents
      (PRINT env "ERROR: Compilation failed! (no top level object found)" s)
    obtain ⟨g1, g2, g3⟩ := PRINT_counter env
      "ERROR: Compilation failed! (no top level object found)" s
    exact ⟨h1.trans g1, h2.trans g2, h3.trans g3⟩
  · obtain ⟨h1, h2, h3⟩ := processEventsIf_counter env
      (PRINT env "ERROR: Compilation failed!" s).procevents
      (PRINT env "ERROR: Compilation failed!" s)
    obtain ⟨g1, g2, g3⟩ := PRINT_counter env "ERROR: Compilation failed!" s
    exact ⟨h1.trans g1, h2.trans g2, h3.trans g3⟩

/-- The `if (this->root_module)` block of `instantiateRoot`: after output, the
index counter is reset and the module instantiated, and only output follows.
The nodes created carry the indices from zero on, and the counter is left at
their number. -/
theorem instantiateRoot_instantiate_indices (env : Env C) (m : C.FileModule)
    (s : MainWindow C) :
    ∃ (b : MainWindow C) (post : List Event),
      Emits Event.isOutput s b ∧
      (instantiateRoot_instantiate env m s).trace =
        b.trace ++ Event.resetIndexCounter ::
          Event.instantiate (env.instantiate m b.world).1.isSome :: post ∧
      (∀ e ∈ post, e.isOutput = true) ∧
      (instantiateRoot_instantiate env m s).absolute_root_node =
        (env.instantiate m b.world).1 ∧
      (instantiateRoot_instantiate env m s).root_inst = "group" ∧
      (instantiateRoot_instantiate env m s).idx_counter = env.nodesCreated m b.world ∧
      (instantiateRoot_instantiate env m s).node_indices =
        AbstractNode_indices 0 (env.nodesCreated m b.world) := by
  unfold instantiateRoot_instantiate
  lift_lets
  intro s1 s2 s3 mi s3' r created s3'' s4
  have hb : Emits Event.isOutput s s2 :=
    (PRINT_emits _ env _ s).trans (processEventsIf_emits _ env _ _)
  have h4 : s4.trace = s2.trace ++ [Event.resetIndexCounter, Event.instantiate r.1.isSome] := by
    simp [s4, s3'', s3', s3, AbstractNode_resetIndexCounter, AbstractNode_create, log]
  have ha : s4.absolute_root_node = r.1 := rfl
  have hi : s4.root_inst = "group" := rfl
  have hc : s4.idx_counter = env.nodesCreated m s2.world := by
    show 0 + env.nodesCreated m s2.world = _
    exact Nat.zero_add _
  have hn : s4.node_indices = AbstractNode_indices 0 (env.nodesCreated m s2.world) := rfl
  have key : ∀ (o : Option C.AbstractNode) (u : MainWindow C),
      u.trace = s2.trace ++ [Event.resetIndexCounter, Event.instantiate o.isSome] →
      u.absolute_root_node = o → (env.instantiate m s2.world).1 = o →
      u.root_inst = "group" → u.idx_counter = env.nodesCreated m s2.world →
      u.node_indices = AbstractNode_indices 0 (env.nodesCreated m s2.world) →
      ∃ (b : MainWindow C) (post : List Event),
        Emits Event.isOutput s b ∧
        (match o with
          | some absolute_root_node => instantiateRoot_setRoot env absolute_root_node u
          | none => u).trace =
          b.trace ++ Event.resetIndexCounter ::
            Event.instantiate (env.instantiate m b.world).1.isSome :: post ∧
        (∀ e ∈ post, e.isOutput = true) ∧
        (match o with
          | some absolute_root_node => instantiateRoot_setRoot env absolute_root_node u
          | none => u).absolute_root_node = (env.instantiate m b.world).1 ∧
        (match o with
          | some absolute_root_node => instantiateRoot_setRoot env absolute_root_node u
          | none => u).root_inst = "group" ∧
        (match o with
          | some absolute_root_node => instantiateRoot_setRoot env absolute_root_node u
          | none => u).idx_counter = env.nodesCreated m b.world ∧
        (match o with
          | some absolute_root_node => instantiateRoot_setRoot env absolute_root_node u
          | none => u).node_indices = AbstractNode_indices 0 (env.nodesCreated m b.world) := by
    intro o u hu hua ho hui huc hun
    cases o with
    | none =>
      refine ⟨s2, [], hb, ?_, by simp, ?_, hui, huc, hun⟩
      · rw [ho]; exact hu
      · rw [ho]; exact hua
    | some a =>
      have hset : Emits Event.isOutput u (instantiateRoot_setRoot env a u) := by
        unfold instantiateRoot_setRoot
        cases env.find_root_tag a <;> exact callHelper_emits _ env Helper.treeGetString _
      obtain ⟨g1, g2, g3⟩ := instantiateRoot_setRoot_counter env a u
      obtain ⟨evs, he, hp⟩ := hset
      refine ⟨s2, evs, hb, ?_, hp, ?_, g1.trans hui, g2.trans huc, g3.trans hun⟩
      · rw [ho]
        show (instantiateRoot_setRoot env a u).trace = _
        rw [he, hu]; simp
      · rw [ho]
        show (instantiateRoot_setRoot env a u).toMembers.absolute_root_node = _
        rw [instantiateRoot_setRoot_toMembers]
        exact hua
  exact key r.1 s4 h4 ha rfl hi hc hn

/-- The run of `instantiateRoot` with a module: the renderers are invalidated
and the old tree dropped, then the index counter is reset and the module
instantiated, and only output follows; the nodes created carry the indices
from zero on. -/
theorem instantiateRoot_indices (env : Env C) (m : C.FileModule) (s : MainWindow C)
    (hm : s.root_module = some m) :
    ∃ (b : MainWindow C) (post : List Event),
      Emits Event.isClearing s b ∧
      (instantiateRoot env s).trace =
        b.trace ++ Event.resetIndexCounter ::
          Event.instantiate (env.instantiate m b.world).1.isSome :: post ∧
      (∀ e ∈ post, e.isOutput = true) ∧
      (instantiateRoot env s).absolute_root_node = (env.instantiate m b.world).1 ∧
      (instantiateRoot env s).root_inst = "group" ∧
      (instantiateRoot env s).idx_counter = env.nodesCreated m b.world ∧
      (instantiateRoot env s).node_indices =
        AbstractNode_indices 0 (env.nodesCreated m b.world) := by
  unfold instantiateRoot
  lift_lets
  intro s1 s2
  have h2 : Emits Event.isClearing s s2 :=
    (Emits.log s Event.instantiateRoot rfl).trans
      ((Emits.log _ (Event.setRenderer none) rfl).trans
        (Emits.of_right (callHelper_emits _ env Helper.deleteTree _) rfl))
  have hm2 : s2.root_module = some m := hm
  simp only [hm2]
  obtain ⟨b, post, hb, htr, hpost, habs, hi, hc, hn⟩ :=
    instantiateRoot_instantiate_indices env m s2
  have hb' : Emits Event.isClearing s b :=
    h2.trans (hb.mono (fun e h => OutputClosed.output e h))
  split
  · obtain ⟨evs, he, hp⟩ := instantiateRoot_failed_emits Event.isOutput env
      (instantiateRoot_instantiate env m s2)
    obtain ⟨g1, g2, g3⟩ := instantiateRoot_failed_counter env
      (instantiateRoot_instantiate env m s2)
    refine ⟨b, post ++ evs, hb', ?_, ?_, ?_, g1.trans hi, g2.trans hc, g3.trans hn⟩
    · rw [he, htr]; simp
    · intro e he'
      rcases List.mem_append.mp he' with h | h
      · exact hpost e h
      · exact hp e h
    · show (instantiateRoot_failed env _).toMembers.absolute_root_node = _
      rw [instantiateRoot_failed_toMembers]
      exact habs
  · exact ⟨b, post, hb', htr, hpost, habs, hi, hc, hn⟩

/-- Without a module `instantiateRoot` leaves `root_inst`, the index counter
and the indices of the nodes as they were. -/
theorem instantiateRoot_none_counter (env : Env C) (s : MainWindow C)
    (hm : s.root_module = none) :
    (instantiateRoot env s).root_inst = s.root_inst ∧
    (instantiateRoot env s).idx_counter = s.idx_counter ∧
    (instantiateRoot env s).node_indices = s.node_indices := by
  unfold instantiateRoot
  lift_lets
  intro s1 s2
  have hm2 : s2.root_module = none := hm
  simp only [hm2]
  split
  · exact instantiateRoot_failed_counter env s2
  · exact ⟨rfl, rfl, rfl⟩

/-- Without a module `instantiateRoot` neither resets the index counter nor
instantiates anything. -/
theorem instantiateRoot_trace_none (env : Env C) (s : MainWindow C)
    (hm : s.root_module = none) : Emits Event.isClearing s (instantiateRoot env s) := by
  unfold instantiateRoot
  lift_lets
  intro s1 s2
  have h2 : Emits Event.isClearing s s2 :=
    (Emits.log s Event.instantiateRoot rfl).trans
      ((Emits.log _ (Event.setRenderer none) rfl).trans
        (Emits.of_right (callHelper_emits _ env Helper.deleteTree _) rfl))
  have hm2 : s2.root_module = none := hm
  simp only [hm2]
  split
  · exact h2.trans (instantiateRoot_failed_emits _ env _)
  · exact h2

/-! ## The permille of `report_func` -/

/-- The converted quotient for a positive count and a mark that is not
negative, when it fits an `int`: the floor of the quotient. -/
theorem report_func_v_floor (progress_report_count mark : Int)
    (hcount : 0 < progress_report_count) (hmark : 0 ≤ mark)
    (hfit : mark * 1000 / progress_report_count < 2 ^ 31) :
    report_func_v progress_report_count mark = some (mark * 1000 / progress_report_count) := by
  unfold report_func_v
  have hq : Int.tdiv (mark * 1000) progress_report_count = mark * 1000 / progress_report_count :=
    Int.tdiv_eq_ediv (by positivity) (le_of_lt hcount)
  have h0 : 0 ≤ mark * 1000 / progress_report_count :=
    Int.ediv_nonneg (by positivity) (le_of_lt hcount)
  rw [if_neg (ne_of_gt hcount)]
  simp only [hq]
  rw [if_pos ⟨by omega, hfit⟩]

/-- What `report_func` does with the permille it computes. -/
theorem report_func_writes (env : Env C) (progress_report_count : Int)
    (node : Option C.AbstractNode) (mark : Int) (s : MainWindow C) (permille : Int)
    (hw : s.progresswidget = true)
    (hp : report_func_permille progress_report_count mark = some permille) :
    ∃ r, report_func env progress_report_count node mark s = some r ∧
      writtenValues (eventsSince s r.2) =
        if permille > env.progressValue s.world then [permille] else [] := by
  unfold report_func_permille at hp
  unfold report_func
  rw [if_pos hw]
  cases hv : report_func_v progress_report_count mark with
  | none => rw [hv] at hp; cases hp
  | some v =>
    rw [hv] at hp
    simp only [Option.map_some'] at hp ⊢
    obtain rfl := Option.some.inj hp
    refine ⟨_, rfl, ?_⟩
    dsimp only
    generalize (if v < 1000 then v else 999) = permille
    by_cases hgt : permille > env.progressValue s.world
    · rw [if_pos hgt, if_pos hgt]
      simp [eventsSince, callHelper, log, writtenValues]
    · rw [if_neg hgt, if_neg hgt]
      simp [eventsSince, writtenValues]

/-! ## `updateRecentFiles` -/

/-- With a round for every element beyond `maxRecentFiles`, the loop of
`updateRecentFiles` leaves the first `maxRecentFiles` elements. -/
theorem updateRecentFiles_removeLast_eq (maxRecentFiles : Nat) :
    ∀ (fuel : Nat) (files : List String), files.length ≤ maxRecentFiles + fuel →
      updateRecentFiles_removeLast maxRecentFiles fuel files = files.take maxRecentFiles := by
  intro fuel
  induction fuel with
  | zero =>
    intro files h
    simp only [updateRecentFiles_removeLast]
    exact (List.take_of_length_le (by simpa using h)).symm
  | succ fuel ih =>
    intro files h
    simp only [updateRecentFiles_removeLast]
    split
    · rename_i hgt
      rw [ih files.dropLast (by rw [List.length_dropLast]; omega), List.dropLast_eq_take,
        List.take_take]
      congr 1
      omega
    · rename_i hle
      exact (List.take_of_length_le (by omega)).symm

theorem updateRecentFiles_files_eq (maxRecentFiles : Nat) (infoFileName : String)
    (files : List String) :
    updateRecentFiles_files maxRecentFiles infoFileName files =
      (infoFileName :: files.filter (fun f => f ≠ infoFileName)).take maxRecentFiles := by
  unfold updateRecentFiles_files
  exact updateRecentFiles_removeLast_eq maxRecentFiles _ _ (by omega)

/-! ## Whether `compile` reaches `compileDone` -/

/-- When `compile` compiled something, `didcompile` is set at the dependency
test. -/
theorem compile_didcompile_of_events (env : Env C) (reload : Bool) (s : MainWindow C)
    (h : Event.compileTopLevelDocument ∈ eventsSince s (compile_atDependencyTest env reload s) ∨
      Event.handleDependencies true ∈
        eventsSince s (compile_atDependencyTest env reload s)) :
    compile_didcompileValue env reload s = true := by
  by_cases hs : (compile_shouldcompiletoplevel env reload s).1 = true
  · exact (compile_recompiled env reload s hs).1
  · have hs' : (compile_shouldcompiletoplevel env reload s).1 = false := by simpa using hs
    rcases h with h | h
    · exact absurd ((compile_recompiled_iff env reload s).mp h) hs
    · have hchk := (compile_shouldcompiletoplevel_emits env reload s).1
      have hat : compile_atDependencyTest env reload s =
          (compile_handleDependencies env false (compile_shouldcompiletoplevel env reload s).2).2 := by
        unfold compile_atDependencyTest compile_didcompile
        rw [hs']; rfl
      have hval : compile_didcompileValue env reload s =
          (compile_handleDependencies env false (compile_shouldcompiletoplevel env reload s).2).1 := by
        unfold compile_didcompileValue compile_didcompile
        rw [hs']; rfl
      obtain ⟨-, hdep, -, -, hconv⟩ := compile_handleDependencies_spec env false
        (compile_shouldcompiletoplevel env reload s).2
      rw [hval]
      apply hconv
      rw [hat] at h
      exact (mem_eventsSince_right_iff hchk hdep (e := Event.handleDependencies true) rfl).mp h

/-- Why `compile` waits: it was called with `reload` set, something was
compiled, and the module has includes or uses libraries. -/
theorem compile_waits_true (env : Env C) (reload didcompile : Bool) (s : MainWindow C)
    (h : compile_waits env reload didcompile s = true) :
    reload = true ∧ didcompile = true ∧
      ∃ m, s.root_module = some m ∧
        (env.hasIncludes m s.world || env.usesLibraries m s.world) = true := by
  unfold compile_waits at h
  cases hm : s.root_module with
  | none => rw [hm] at h; cases h
  | some m =>
    rw [hm] at h
    simp only [Bool.and_eq_true] at h
    exact ⟨h.1.1, h.1.2, m, rfl, h.2⟩

/-! ## A declined reload -/

/-- The one way `checkEditorModified` returns false: the editor text is
modified and the answer to the question is not Yes. -/
theorem checkEditorModified_false (env : Env C) (s : MainWindow C)
    (h : (checkEditorModified env s).1 = false) :
    env.isContentModified s.world = true ∧ (env.askReload s.world).1 = false ∧
    checkEditorModified env s =
      (false, log (designActionAutoReload_setChecked env false
        { s with world := (env.askReload s.world).2 }) (Event.checkEditorModified false)) := by
  by_cases hmod : env.isContentModified s.world = true
  · by_cases hret : (env.askReload s.world).1 = true
    · exfalso
      unfold checkEditorModified at h
      rw [if_pos hmod] at h
      simp only [hret, ne_eq, not_true_eq_false, if_false] at h
      cases h
    · refine ⟨hmod, by simpa using hret, ?_⟩
      unfold checkEditorModified
      rw [if_pos hmod]
      simp [hret]
  · exfalso
    unfold checkEditorModified at h
    rw [if_neg hmod] at h
    cases h

/-- When the user declines the reload, `checkEditorModified` unchecks the
auto-reload action and leaves the document alone. -/
theorem checkEditorModified_declined (env : Env C) (s : MainWindow C)
    (h : (checkEditorModified env s).1 = false) :
    (∃ b, (checkEditorModified env s).2.toMembers =
      { s.toMembers with designActionAutoReload := false, autoReloadTimerActive := b }) ∧
    Emits Event.isDeclining s (checkEditorModified env s).2 ∧
    Event.checkEditorModified false ∈ eventsSince s (checkEditorModified env s).2 := by
  obtain ⟨-, -, heq⟩ := checkEditorModified_false env s h
  rw [heq]
  have hset : ∀ u : MainWindow C, u.toMembers = s.toMembers → u.trace = s.trace →
      (∃ b, (designActionAutoReload_setChecked env false u).toMembers =
        { s.toMembers with designActionAutoReload := false, autoReloadTimerActive := b }) ∧
      Emits Event.isDeclining s (designActionAutoReload_setChecked env false u) := by
    intro u hu htr
    unfold designActionAutoReload_setChecked
    by_cases hd : u.designActionAutoReload = false
    · rw [if_pos hd]
      refine ⟨⟨s.autoReloadTimerActive, ?_⟩, Emits.of_trace_eq htr⟩
      have hd' : s.designActionAutoReload = false := by
        rw [← hd]; exact congrArg (fun m : Members C => m.designActionAutoReload) hu.symm
      rw [hu, ← hd']
    · rw [if_neg hd]
      refine ⟨⟨false, ?_⟩, ?_⟩
      · show { u.toMembers with designActionAutoReload := false, autoReloadTimerActive := false } = _
        rw [hu]
      · unfold autoReloadSet
        exact Emits.of_left ((callHelper_emits _ env Helper.settingsSetValue _).trans
          (Emits.of_left (Emits.log _ _ rfl) rfl)) htr
  obtain ⟨hm, hem⟩ := hset { s with world := (env.askReload s.world).2 } rfl rfl
  exact ⟨hm, hem.trans (Emits.log _ _ rfl),
    mem_eventsSince_of_log hem (Emits.refl Event.isDeclining _)⟩

/-- The one step of `fileChangedOnDisk`. -/
theorem fileChangedOnDisk_trace (env : Env C) (s : MainWindow C) :
    (fileChangedOnDisk env s).2.trace =
      s.trace ++ [Event.fileChangedOnDisk (fileChangedOnDisk env s).1] := by
  unfold fileChangedOnDisk
  split
  · lift_lets
    intro st s1
    split
    · rfl
    · dsimp only
      split <;> rfl
  · rfl

/-- The reload check when the file changed on disk and the user declined the
reload. -/
theorem compile_shouldcompiletoplevel_declined (env : Env C) (s : MainWindow C)
    (hch : (fileChangedOnDisk env s).1 = true)
    (hno : (checkEditorModified env (fileChangedOnDisk env s).2).1 = false) :
    (∃ b, (compile_shouldcompiletoplevel env true s).2.toMembers =
      { (fileChangedOnDisk env s).2.toMembers with
        designActionAutoReload := false, autoReloadTimerActive := b }) ∧
    Emits Event.isDeclining s (compile_shouldcompiletoplevel env true s).2 ∧
    Event.fileChangedOnDisk true ∈ eventsSince s (compile_shouldcompiletoplevel env true s).2 ∧
    Event.checkEditorModified false ∈
      eventsSince s (compile_shouldcompiletoplevel env true s).2 := by
  obtain ⟨hm, hem, hmem⟩ := checkEditorModified_declined env _ hno
  have hf : Emits Event.isDeclining s (fileChangedOnDisk env s).2 :=
    ⟨_, fileChangedOnDisk_trace env s, by simp [Event.isDeclining]⟩
  have hfm : Event.fileChangedOnDisk true ∈ eventsSince s (fileChangedOnDisk env s).2 := by
    have := (fileChangedOnDisk_emits env s).2
    rw [hch] at this
    exact this
  have key : ∀ v : MainWindow C, v = (checkEditorModified env (fileChangedOnDisk env s).2).2 →
      (compile_shouldcompiletoplevel env true s).2.toMembers = v.toMembers ∧
        Emits Event.isDeclining v (compile_shouldcompiletoplevel env true s).2 := by
    intro v hv
    unfold compile_shouldcompiletoplevel
    simp only [if_true, hch, hno, Bool.false_eq_true, if_false]
    rw [← hv]
    by_cases hc : v.editorText ≠ v.last_compiled_doc ∧ v.last_compiled_doc.length = 0
    · rw [if_pos hc]
      exact ⟨rfl, Emits.refl _ _⟩
    · rw [if_neg hc]
      rw [if_neg (by simp)]
      show (match v.root_module with
        | some root_module =>
          ((env.includesChanged root_module v.world).1,
            log { v with world := (env.includesChanged root_module v.world).2 }
              (Event.includesChanged (env.includesChanged root_module v.world).1))
        | none => (false, v)).2.toMembers = v.toMembers ∧
        Emits Event.isDeclining v (match v.root_module with
        | some root_module =>
          ((env.includesChanged root_module v.world).1,
            log { v with world := (env.includesChanged root_module v.world).2 }
              (Event.includesChanged (env.includesChanged root_module v.world).1))
        | none => (false, v)).2
      cases hmod : v.root_module with
      | none => exact ⟨rfl, Emits.refl _ _⟩
      | some m => exact ⟨rfl, Emits.of_left (Emits.log _ _ rfl) rfl⟩
  obtain ⟨k1, k2⟩ := key _ rfl
  refine ⟨?_, (hf.trans hem).trans k2, Emits.mem_left (hf.trans hem) k2 (Emits.mem_left hf hem hfm),
    Emits.mem_left (hf.trans hem) k2 (Emits.mem_right hf hem hmem)⟩
  obtain ⟨b, hb⟩ := hm
  exact ⟨b, k1.trans hb⟩

/-- What `compile` does after the reload check: the file name, the recorded
fingerprint, the editor text and the auto-reload action stay as the check left
them, and the document is not read again. -/
theorem compile_after_check (env : Env C) (reload forcedone : Bool) (s : MainWindow C) :
    ∃ t, compile env reload forcedone s = some t ∧
      t.fileName = (compile_shouldcompiletoplevel env reload s).2.fileName ∧
      t.autoReloadId = (compile_shouldcompiletoplevel env reload s).2.autoReloadId ∧
      t.editorText = (compile_shouldcompiletoplevel env reload s).2.editorText ∧
      t.designActionAutoReload =
        (compile_shouldcompiletoplevel env reload s).2.designActionAutoReload ∧
      Emits (fun e => e.isRecompilingWith true || e.isRecompilingWith false || e.isTail)
        (compile_shouldcompiletoplevel env reload s).2 t := by
  obtain ⟨t, ht, -, hmem⟩ := compile_signals env reload forcedone s
  obtain ⟨t', ht', htail⟩ := compile_tail env reload forcedone s
  obtain rfl : t' = t := Option.some.inj (ht'.symm.trans ht)
  have hat : compile_atDependencyTest env reload s =
      (compile_didcompile env (compile_shouldcompiletoplevel env reload s).1
        (compile_shouldcompiletoplevel env reload s).2).2 := rfl
  generalize compile_shouldcompiletoplevel env reload s = sc at hat ⊢
  have hmid : (compile_atDependencyTest env reload s).fileName = sc.2.fileName ∧
      (compile_atDependencyTest env reload s).autoReloadId = sc.2.autoReloadId ∧
      (compile_atDependencyTest env reload s).editorText = sc.2.editorText ∧
      (compile_atDependencyTest env reload s).designActionAutoReload =
        sc.2.designActionAutoReload ∧
      Emits (fun e => e.isRecompilingWith true || e.isRecompilingWith false || e.isTail)
        sc.2 (compile_atDependencyTest env reload s) := by
    rw [hat]
    cases hsc : sc.1 with
    | true =>
      obtain ⟨m, pos, -, hm, hem, -, -⟩ := compile_didcompile_true env sc.2
      refine ⟨?_, ?_, ?_, ?_, hem.mono (fun e h => ?_)⟩
      · show (compile_didcompile env true sc.2).2.toMembers.fileName = _
        rw [hm]
      · show (compile_didcompile env true sc.2).2.toMembers.autoReloadId = _
        rw [hm]
      · show (compile_didcompile env true sc.2).2.toMembers.editorText = _
        rw [hm]
      · show (compile_didcompile env true sc.2).2.toMembers.designActionAutoReload = _
        rw [hm]
      · cases hmm : m.isSome <;> rw [hmm] at h <;> simp [h]
    | false =>
      obtain ⟨hm, hem, -⟩ := compile_didcompile_false env sc.2
      refine ⟨?_, ?_, ?_, ?_, hem.mono (fun e h => ?_)⟩
      · show (compile_didcompile env false sc.2).2.toMembers.fileName = _
        rw [hm]
      · show (compile_didcompile env false sc.2).2.toMembers.autoReloadId = _
        rw [hm]
      · show (compile_didcompile env false sc.2).2.toMembers.editorText = _
        rw [hm]
      · show (compile_didcompile env false sc.2).2.toMembers.designActionAutoReload = _
        rw [hm]
      · simp [isDependency_isRecompilingWith true e h]
  obtain ⟨m1, m2, m3, m4, hem⟩ := hmid
  refine ⟨t', ht, ?_, ?_, ?_, ?_, hem.trans (htail.mono (fun e h => by simp [h]))⟩
  · rw [← m1]
    rcases hmem with h | h
    · exact congrArg (fun p => p.1) h
    · show t'.toMembers.fileName = _
      rw [h]
  · rw [← m2]
    rcases hmem with h | h
    · exact congrArg (fun p => p.2.1) h
    · show t'.toMembers.autoReloadId = _
      rw [h]
  · rw [← m3]
    rcases hmem with h | h
    · exact congrArg (fun p => p.2.2.1) h
    · show t'.toMembers.editorText = _
      rw [h]
  · rw [← m4]
    rcases hmem with h | h
    · exact congrArg (fun p => p.2.2.2.2.2.2.2.2.1) h
    · show t'.toMembers.designActionAutoReload = _
      rw [h]

/-! ## The normalizer of `compileCSG` -/

theorem normalizerBudgets_append (xs ys : List Event) :
    normalizerBudgets (xs ++ ys) = normalizerBudgets xs ++ normalizerBudgets ys := by
  induction xs with
  | nil => rfl
  | cons x xs ih =>
    cases x <;> simp [normalizerBudgets, ih]

theorem normalizerBudgets_of_emits {P : Event → Bool} {s t : MainWindow C} (h : Emits P s t)
    (hP : ∀ limit, P (Event.newNormalizer limit) = false) :
    normalizerBudgets (eventsSince s t) = [] := by
  have hall := h.forall_mem
  generalize eventsSince s t = l at hall
  induction l with
  | nil => rfl
  | cons x xs ih =>
    have hx := hall x (List.mem_cons_self _ _)
    have ih' := ih (fun e he => hall e (List.mem_cons_of_mem _ he))
    cases x <;> simp_all [normalizerBudgets]

/-- The run of `compileCSG` up to the test `if (root_raw_term)`. -/
theorem compileCSG_body_prefix (env : Env C) (procevents : Bool) (n : C.AbstractNode)
    (s : MainWindow C) :
    ∃ mid : MainWindow C,
      Emits Event.isEvaluating s mid ∧
      mid.opencsgRenderer = s.opencsgRenderer ∧
      (mid.root_raw_term = none → compileCSG_body env procevents n s = mid) ∧
      (∀ term, mid.root_raw_term = some term →
        compileCSG_body env procevents n s = compileCSG_products env procevents term mid) := by
  obtain ⟨w, mid', hmem, -, -⟩ := compileCSG_body_mid env procevents n s
  unfold compileCSG_body
  lift_lets
  intro s1 s2 s3 s4 s5 s6 s7 s8
  have hev : Emits Event.isEvaluating s5 s6 := by
    show Emits Event.isEvaluating s5 (compileCSG_evaluate env procevents n s5)
    unfold compileCSG_evaluate
    lift_lets
    intro t1 r t2
    have h1 : Emits Event.isEvaluating s5 t2 := (processEventsIf_emits _ env _ _).of_right rfl
    split
    · next term heq =>
      refine (h1.of_right (t := { t2 with root_raw_term := term }) rfl).trans ?_
      refine (Emits.log _ (Event.evaluateCSGTerm false) rfl).trans ?_
      refine Emits.trans ?_ ((callHelper_emits _ env Helper.cachePrint _).trans
        (processEventsIf_emits _ env _ _))
      split
      · exact PRINT_emits _ env _ _
      · exact Emits.refl _ _
    · exact h1.trans ((Emits.log _ (Event.evaluateCSGTerm true) rfl).trans (PRINT_emits _ env _ _))
  have h8 : Emits Event.isEvaluating s s8 :=
    (Emits.log s Event.compileCSG rfl).trans <|
      (PRINT_emits _ env _ _).trans <| (processEventsIf_emits _ env _ _).trans <|
      (Emits.of_left (Emits.log s4 Event.progressReportPrep rfl) rfl).trans <|
      hev.trans <| (Emits.log s6 Event.progressReportFin rfl).of_right rfl
  have ho : s8.opencsgRenderer = s.opencsgRenderer := by
    have e5 : s5.toMembers = { s.toMembers with progresswidget := true } := by
      simp [s5, s4, s3, s2, s1]
    obtain ⟨w', hw'⟩ := compileCSG_evaluate_toMembers env procevents n s5
    show ({ s6.toMembers with progresswidget := false } : Members C).opencsgRenderer = _
    show s6.toMembers.opencsgRenderer = _
    rw [hw']
    show s5.toMembers.opencsgRenderer = _
    rw [e5]
  refine ⟨s8, h8, ho, fun h => ?_, fun term h => ?_⟩
  · have h' : s8.root_raw_term = none := h
    rw [h']
  · have h' : s8.root_raw_term = some term := h
    rw [h']

/-- The normalizer `compileCSG_root` hands on. -/
theorem compileCSG_root_normalizer (env : Env C) (procevents : Bool)
    (normalizer : C.CSGTermNormalizer) (term : C.CSGTerm) (s : MainWindow C) :
    (compileCSG_root env procevents normalizer term s).1 =
      (env.normalize normalizer (some term)).2 ∧
    Emits Event.isOutput s (compileCSG_root env procevents normalizer term s).2 := by
  unfold compileCSG_root
  lift_lets
  intro r s1
  split
  · exact ⟨rfl, Emits.of_trace_eq rfl⟩
  · exact ⟨rfl, Emits.of_left ((PRINT_emits _ env _ _).trans
      (processEventsIf_emits _ env _ _)) rfl⟩

/-- The normalizer `compileCSG_highlights` hands on. -/
theorem compileCSG_highlights_normalizer (env : Env C) (procevents : Bool)
    (normalizer : C.CSGTermNormalizer) (s : MainWindow C) :
    (compileCSG_highlights env procevents normalizer s).1 =
      (if s.highlight_terms.length > 0 then
        (normalizeAndImport env normalizer (CSGChain.mk []) s.highlight_terms).1
      else normalizer) ∧
    Emits Event.isOutput s (compileCSG_highlights env procevents normalizer s).2 := by
  unfold compileCSG_highlights
  split
  · refine ⟨?_, Emits.of_left ((PRINTB_emits _ env _ _ s).trans
      (processEventsIf_emits _ env _ _)) rfl⟩
    have h : ∀ t : MainWindow C, t.highlight_terms = t.toMembers.highlight_terms :=
      fun _ => rfl
    simp [h]
  · exact ⟨rfl, Emits.refl _ _⟩

theorem compileCSG_background_output (env : Env C) (procevents : Bool)
    (normalizer : C.CSGTermNormalizer) (s : MainWindow C) :
    Emits Event.isOutput s (compileCSG_background env procevents normalizer s).2 := by
  unfold compileCSG_background
  split
  · exact Emits.of_left ((PRINTB_emits _ env _ _ s).trans (processEventsIf_emits _ env _ _)) rfl
  · exact Emits.refl _ _

theorem compileCSG_renderers_output (env : Env C) (s : MainWindow C) :
    Emits Event.isOutput s (compileCSG_renderers env s) := by
  unfold compileCSG_renderers
  split
  · exact Emits.of_left ((PRINTB_emits _ env _ _ s).trans (PRINT_emits _ env _ _)) rfl
  · exact Emits.of_left (PRINTB_emits _ env _ _ s) rfl

/-- The normalization part of `compileCSG`: one normalizer is created, with the
budget `(2 * openCSGLimit) mod 2^32`, and it normalizes the primary term, then
the highlight terms, then the background terms. -/
theorem compileCSG_products_normalizer (env : Env C) (procevents : Bool) (term : C.CSGTerm)
    (s : MainWindow C) :
    normalizerBudgets (eventsSince s (compileCSG_products env procevents term s)) =
      [(2 * env.openCSGLimit) % 2 ^ 32] ∧
    (compileCSG_products env procevents term s).root_norm_term =
      (env.normalize (env.newNormalizer ((2 * env.openCSGLimit) % 2 ^ 32)) (some term)).1 ∧
    (compileCSG_products env procevents term s).highlight_terms =
      (normalizeAndImport env
        (env.normalize (env.newNormalizer ((2 * env.openCSGLimit) % 2 ^ 32)) (some term)).2
        (CSGChain.mk []) s.highlight_terms).2.2 ∧
    (compileCSG_products env procevents term s).background_terms =
      (normalizeAndImport env
        (if s.highlight_terms.length > 0 then
          (normalizeAndImport env
            (env.normalize (env.newNormalizer ((2 * env.openCSGLimit) % 2 ^ 32)) (some term)).2
            (CSGChain.mk []) s.highlight_terms).1
        else (env.normalize (env.newNormalizer ((2 * env.openCSGLimit) % 2 ^ 32)) (some term)).2)
        (CSGChain.mk []) s.background_terms).2.2 := by
  unfold compileCSG_products
  lift_lets
  intro s1 s2 lim s3 r1 r2 r3 s4 s5 s6
  have e3 : s3.toMembers = s.toMembers := by simp [s3, s2, s1]
  have e1 : r1.2.toMembers = _ :=
    compileCSG_root_toMembers env procevents (env.newNormalizer lim) term s3
  have e2 : r2.2.toMembers = _ := compileCSG_highlights_toMembers env procevents r1.1 r1.2
  have e3' : r3.2.toMembers = _ := compileCSG_background_toMembers env procevents r2.1 r2.2
  have e4 := compileCSG_renderers_toMembers env r3.2
  have e6 : (processEventsIf env procevents s6).toMembers = s4.toMembers := by simp [s6, s5]
  obtain ⟨n1, o1⟩ := compileCSG_root_normalizer env procevents (env.newNormalizer lim) term s3
  obtain ⟨n2, o2⟩ := compileCSG_highlights_normalizer env procevents r1.1 r1.2
  have o3 := compileCSG_background_output env procevents r2.1 r2.2
  have o4 := compileCSG_renderers_output env r3.2
  have hl1 : r1.2.highlight_terms = s.highlight_terms := by
    show r1.2.toMembers.highlight_terms = s.toMembers.highlight_terms
    rw [e1, e3]
  have bg1 : r1.2.background_terms = s.background_terms := by
    show r1.2.toMembers.background_terms = s.toMembers.background_terms
    rw [e1, e3]
  have hn1 : r1.2.root_norm_term = (env.normalize (env.newNormalizer lim) (some term)).1 := by
    show r1.2.toMembers.root_norm_term = _
    rw [e1]
  have h2 : r2.2.root_norm_term = r1.2.root_norm_term ∧
      r2.2.background_terms = s.background_terms ∧
      r2.2.highlight_terms =
        (normalizeAndImport env r1.1 (CSGChain.mk []) s.highlight_terms).2.2 := by
    have p : ∀ {α : Type} (f : Members C → α), f r2.2.toMembers = f _ := fun f => congrArg f e2
    by_cases hc : r1.2.highlight_terms.length > 0
    · simp only [hc, if_true] at p
      refine ⟨p (fun m => m.root_norm_term), (p (fun m => m.background_terms)).trans bg1, ?_⟩
      rw [show r2.2.highlight_terms = _ from p (fun m => m.highlight_terms), hl1]
    · simp only [hc, if_false] at p
      refine ⟨p (fun m => m.root_norm_term), (p (fun m => m.background_terms)).trans bg1, ?_⟩
      have hnil : s.highlight_terms = [] := List.length_eq_zero.mp (by rw [← hl1]; omega)
      rw [show r2.2.highlight_terms = _ from p (fun m => m.highlight_terms), hl1, hnil]
      rfl
  obtain ⟨hn2, bg2, ht2⟩ := h2
  have h3 : r3.2.root_norm_term = r2.2.root_norm_term ∧
      r3.2.highlight_terms = r2.2.highlight_terms ∧
      r3.2.background_terms =
        (normalizeAndImport env r2.1 (CSGChain.mk []) s.background_terms).2.2 := by
    have p : ∀ {α : Type} (f : Members C → α), f r3.2.toMembers = f _ := fun f => congrArg f e3'
    by_cases hc : r2.2.background_terms.length > 0
    · simp only [hc, if_true] at p
      refine ⟨p (fun m => m.root_norm_term), p (fun m => m.highlight_terms), ?_⟩
      rw [show r3.2.background_terms = _ from p (fun m => m.background_terms), bg2]
    · simp only [hc, if_false] at p
      refine ⟨p (fun m => m.root_norm_term), p (fun m => m.highlight_terms), ?_⟩
      have hnil : s.background_terms = [] := List.length_eq_zero.mp (by rw [← bg2]; omega)
      rw [show r3.2.background_terms = _ from p (fun m => m.background_terms), bg2, hnil]
      rfl
  obtain ⟨hn3, ht3, hb3⟩ := h3
  have q : ∀ {α : Type} (f : Members C → α),
      f (processEventsIf env procevents s6).toMembers = f _ := fun f => congrArg f (e6.trans e4)
  have hpre : Emits Event.isOutput s s2 :=
    (PRINT_emits _ env _ s).trans (processEventsIf_emits _ env _ _)
  have hpost : Emits Event.isOutput s3 (processEventsIf env procevents s6) :=
    o1.trans <| o2.trans <| o3.trans <| o4.trans <|
      (PRINT_emits _ env _ _).trans <| (Emits.log _ Event.printRenderingTime rfl).trans
        (processEventsIf_emits _ env _ _)
  have hlog : Emits (fun _ => true) s2 s3 := Emits.log _ _ rfl
  refine ⟨?_, ?_, ?_, ?_⟩
  · rw [eventsSince_append (hpre.any.trans hlog) hpost, eventsSince_append hpre hlog,
      normalizerBudgets_append, normalizerBudgets_append,
      normalizerBudgets_of_emits hpre (fun _ => rfl),
      normalizerBudgets_of_emits hpost (fun _ => rfl),
      eventsSince_eq (log_trace s2 (Event.newNormalizer lim))]
    rfl
  · exact (q (fun m => m.root_norm_term)).trans (hn3.trans (hn2.trans hn1))
  · refine (q (fun m => m.highlight_terms)).trans (ht3.trans ?_)
    rw [ht2, n1]
  · refine (q (fun m => m.background_terms)).trans ?_
    rw [hb3, n2, n1, hl1]

/-! ## The module while `waitAfterReloadTimer` is pending -/

/-- A `compile` call that leaves the timer pending, entered with the timer not
pending, leaves a module. -/
theorem compile_module_when_waiting (env : Env C) (reload forcedone : Bool)
    (s t : MainWindow C) (h : compile env reload forcedone s = some t)
    (hs : s.toMembers.waitAfterReloadTimerActive = false)
    (ht : t.waitAfterReloadTimerActive = true) : t.root_module.isSome = true := by
  rw [compile_eq] at h
  split at h
  · next hw =>
    obtain rfl := Option.some.inj h
    obtain ⟨-, -, m, hm, -⟩ := compile_waits_true env reload _ _ hw
    show (compile_atDependencyTest env reload s).root_module.isSome = true
    rw [hm]; rfl
  · exfalso
    obtain ⟨t', ht', -, hw, -⟩ := compileDone_outcome env
      (compile_didcompileValue env reload s || forcedone)
      (compile_highlightError reload (compile_didcompileValue env reload s)
        (compile_atDependencyTest env reload s))
    obtain rfl : t' = t := Option.some.inj (ht'.symm.trans h)
    have h1 : (compile_highlightError reload (compile_didcompileValue env reload s)
        (compile_atDependencyTest env reload s)).waitAfterReloadTimerActive =
        (compile_atDependencyTest env reload s).waitAfterReloadTimerActive := by
      show (compile_highlightError reload (compile_didcompileValue env reload s)
        (compile_atDependencyTest env reload s)).toMembers.waitAfterReloadTimerActive = _
      rw [(compile_highlightError_spec reload _ _).1]
    have h2 : (compile_atDependencyTest env reload s).waitAfterReloadTimerActive =
        s.waitAfterReloadTimerActive :=
      congrArg (fun p => p.2.2.1) (compile_atDependencyTest_lockState env reload s)
    rw [hw, h1, h2] at ht
    rw [ht] at hs
    cases hs

/-- One request keeps the rule that a pending timer has a module, and while the
timer is pending only its timeout touches the module. -/
theorem dispatch_module (env : Env C) (r : Request C) (s t : MainWindow C)
    (hinv : lockDiscipline s.toMembers.lockState)
    (hmod : s.waitAfterReloadTimerActive = true → s.root_module.isSome = true)
    (hen : r.enabled s = true) (hkeep : r.keepsModule)
    (hstep : dispatch env r s = some t) :
    (t.waitAfterReloadTimerActive = true → t.root_module.isSome = true) ∧
    (s.waitAfterReloadTimerActive = true → r ≠ Request.waitAfterReloadTimeout →
      t.root_module = s.root_module ∧ t.waitAfterReloadTimerActive = true ∧
      (r.isCompileRequest = true → t = s)) := by
  have hfree : GuiLocker_isLocked s = false → s.waitAfterReloadTimerActive = false := by
    intro hf
    have h0 : s.gui_locked = 0 := by
      unfold GuiLocker_isLocked at hf
      simpa using hf
    cases hw : s.waitAfterReloadTimerActive with
    | false => rfl
    | true =>
      have := (hinv.2.1 hw).1
      have h1 : s.gui_locked = 1 := this
      omega
  have hlocked : s.waitAfterReloadTimerActive = true → GuiLocker_isLocked s = true := by
    intro hw
    cases hl : GuiLocker_isLocked s with
    | true => rfl
    | false => rw [hfree hl] at hw; cases hw
  -- a compile request
  have action : ∀ (reload : Bool) (s' : MainWindow C),
      (GuiLocker_isLocked s = true → t = s) →
      (GuiLocker_isLocked s = false →
        s'.toMembers.waitAfterReloadTimerActive = s.waitAfterReloadTimerActive ∧
        compile env reload false s' = some t) →
      (t.waitAfterReloadTimerActive = true → t.root_module.isSome = true) ∧
      (s.waitAfterReloadTimerActive = true →
        t.root_module = s.root_module ∧ t.waitAfterReloadTimerActive = true ∧ t = s) := by
    intro reload s' h1 h2
    cases hl : GuiLocker_isLocked s with
    | true =>
      obtain rfl := h1 hl
      exact ⟨hmod, fun hw => ⟨rfl, hw, rfl⟩⟩
    | false =>
      obtain ⟨hw', hc⟩ := h2 hl
      refine ⟨compile_module_when_waiting env reload false s' t hc (hw'.trans (hfree hl)), ?_⟩
      intro hw
      rw [hfree hl] at hw; cases hw
  cases r with
  | actionRenderPreview =>
    have hstep' : actionRenderPreview env s = some t := hstep
    obtain ⟨a1, a2⟩ := action false _
      (fun hl => by
        unfold actionRenderPreview at hstep'
        rw [if_pos hl] at hstep'
        exact (Option.some.inj hstep').symm)
      (fun hl => by
        unfold actionRenderPreview at hstep'
        rw [if_neg (by simp [hl])] at hstep'
        exact ⟨by simp [GuiLocker_lock, setCurrentOutput], hstep'⟩)
    exact ⟨a1, fun hw _ => ⟨(a2 hw).1, (a2 hw).2.1, fun _ => (a2 hw).2.2⟩⟩
  | actionReloadRenderPreview =>
    have hstep' : actionReloadRenderPreview env s = some t := hstep
    obtain ⟨a1, a2⟩ := action true _
      (fun hl => by
        unfold actionReloadRenderPreview at hstep'
        rw [if_pos hl] at hstep'
        exact (Option.some.inj hstep').symm)
      (fun hl => by
        unfold actionReloadRenderPreview at hstep'
        rw [if_neg (by simp [hl])] at hstep'
        exact ⟨by simp [GuiLocker_lock, setCurrentOutput], hstep'⟩)
    exact ⟨a1, fun hw _ => ⟨(a2 hw).1, (a2 hw).2.1, fun _ => (a2 hw).2.2⟩⟩
  | actionRender =>
    have hstep' : actionRender env s = some t := hstep
    obtain ⟨a1, a2⟩ := action false _
      (fun hl => by
        unfold actionRender at hstep'
        rw [if_pos hl] at hstep'
        exact (Option.some.inj hstep').symm)
      (fun hl => by
        unfold actionRender at hstep'
        rw [if_neg (by simp [hl])] at hstep'
        exact ⟨by simp [GuiLocker_lock, setCurrentOutput], hstep'⟩)
    exact ⟨a1, fun hw _ => ⟨(a2 hw).1, (a2 hw).2.1, fun _ => (a2 hw).2.2⟩⟩
  | waitAfterReloadTimeout =>
    refine ⟨?_, fun _ hne => absurd rfl hne⟩
    have hstep' : waitAfterReload env s = some t := hstep
    have hw : s.waitAfterReloadTimerActive = true := hen
    obtain ⟨hnone, hsome⟩ := waitAfterReload_cases env s
    cases hm : s.root_module with
    | none => rw [hnone hm] at hstep'; cases hstep'
    | some m =>
      obtain ⟨htrue, hfalse⟩ := hsome m hm
      cases hdep : (env.handleDependencies m s.world).1 with
      | true =>
        rw [htrue hdep] at hstep'
        obtain rfl := Option.some.inj hstep'
        intro _
        show s.root_module.isSome = true
        rw [hm]; rfl
      | false =>
        rw [hfalse hdep] at hstep'
        exact compile_module_when_waiting env true true _ t hstep' rfl
  | workerDone g =>
    have hrun : s.cgalworker_running = true := hen
    have hw : s.waitAfterReloadTimerActive = false := (hinv.1 hrun).2
    have hstep' : actionRenderDone env g { s with cgalworker_running := false } = some t := hstep
    obtain ⟨-, -, hls⟩ := actionRenderDone_outcome env g _ t hstep'
    have h3 : t.waitAfterReloadTimerActive = s.waitAfterReloadTimerActive :=
      congrArg (fun p => p.2.2.1) hls
    refine ⟨fun ht => ?_, fun hs => ?_⟩
    · rw [h3, hw] at ht; cases ht
    · rw [hw] at hs; cases hs
  | other edit act =>
    have hen' : (edit s.toMembers).lockState = s.toMembers.lockState := of_decide_eq_true hen
    have hk : ∀ m, (edit m).root_module = m.root_module := hkeep
    obtain rfl : ({ s with toMembers := edit s.toMembers, world := act s.world } :
        MainWindow C) = t := Option.some.inj hstep
    have h3 : (edit s.toMembers).waitAfterReloadTimerActive = s.waitAfterReloadTimerActive :=
      congrArg (fun p => p.2.2.1) hen'
    refine ⟨fun ht => ?_, fun hs _ => ⟨hk _, h3.trans hs, fun hc => by cases hc⟩⟩
    show (edit s.toMembers).root_module.isSome = true
    rw [hk]
    exact hmod (h3.symm.trans ht)

/-- In every state reached by requests that leave the module alone, a pending
timer has a module. -/
theorem run_module (env : Env C) (reqs : List (Request C)) :
    ∀ (s₀ s : MainWindow C), lockDiscipline s₀.toMembers.lockState →
      (s₀.waitAfterReloadTimerActive = true → s₀.root_module.isSome = true) →
      (∀ r ∈ reqs, r.keepsModule) →
      run env reqs s₀ = some s →
      (s.waitAfterReloadTimerActive = true → s.root_module.isSome = true) := by
  induction reqs with
  | nil =>
    intro s₀ s _ hm _ hrun
    obtain rfl := Option.some.inj hrun
    exact hm
  | cons r rs ih =>
    intro s₀ s h hm hk hrun
    unfold run at hrun
    split at hrun
    · next hen =>
      cases hd : dispatch env r s₀ with
      | none => rw [hd] at hrun; cases hrun
      | some u =>
        rw [hd] at hrun
        exact ih u s (dispatch_summary env r s₀ u h hen hd).1
          (dispatch_module env r s₀ u h hm hen (hk r (List.mem_cons_self _ _)) hd).1
          (fun r' hr' => hk r' (List.mem_cons_of_mem _ hr')) hrun
    · cases hrun

/-! ## Renderers and the data they refer to -/

theorem compile_shouldcompiletoplevel_sceneView (env : Env C) (reload : Bool)
    (s : MainWindow C) :
    (compile_shouldcompiletoplevel env reload s).2.toMembers.sceneView =
      s.toMembers.sceneView := by
  unfold compile_shouldcompiletoplevel
  lift_lets
  intro changed confirmed s1 current_doc r should s2
  have hch : changed.2.toMembers.sceneView = s.toMembers.sceneView := by
    obtain ⟨id, hid⟩ := fileChangedOnDisk_frame env s
    rw [show changed.2.toMembers = _ from hid]; rfl
  have hconf : confirmed.2.toMembers.sceneView = s.toMembers.sceneView := by
    simp only [confirmed]
    split
    · obtain ⟨a, b, h⟩ := checkEditorModified_frame env changed.2
      rw [h]; exact hch
    · exact hch
  have hr : r.2.toMembers.sceneView = s.toMembers.sceneView := by
    simp only [r]
    split
    · split
      · obtain ⟨text, h⟩ := refreshDocument_frame env confirmed.2
        rw [h]; exact hconf
      · split
        · exact hconf
        · exact hconf
    · rfl
  split
  · exact hr
  · split
    · exact hr
    · exact hr

/-- Up to the dependency test `compile` touches neither a renderer nor the
tree, the terms and the chains. -/
theorem compile_atDependencyTest_sceneView (env : Env C) (reload : Bool) (s : MainWindow C) :
    (compile_atDependencyTest env reload s).toMembers.sceneView = s.toMembers.sceneView := by
  have h1 := compile_shouldcompiletoplevel_sceneView env reload s
  cases h : (compile_shouldcompiletoplevel env reload s).1 with
  | true =>
    obtain ⟨-, m, pos, hM, -⟩ := compile_recompiled env reload s h
    rw [hM]; exact h1
  | false =>
    obtain ⟨hM, -⟩ := compile_not_recompiled env reload s h
    rw [hM]; exact h1

/-- The first steps of `instantiateRoot`. -/
theorem instantiateRoot_head (env : Env C) (s : MainWindow C) :
    ∃ rest, eventsSince s (instantiateRoot env s) =
      Event.instantiateRoot :: Event.setRenderer none :: Event.helper Helper.deleteTree ::
        rest := by
  have hcl : (instantiateRoot_clear env (log s Event.instantiateRoot)).trace =
      s.trace ++ [Event.instantiateRoot, Event.setRenderer none,
        Event.helper Helper.deleteTree] := by
    simp [instantiateRoot_clear, setRenderer, callHelper, log]
  suffices h : Emits (fun _ => true) (instantiateRoot_clear env (log s Event.instantiateRoot))
      (instantiateRoot env s) by
    obtain ⟨evs, he, -⟩ := h
    refine ⟨evs, eventsSince_eq ?_⟩
    rw [he, hcl]; simp
  unfold instantiateRoot
  lift_lets
  intro s1 s2 s3
  have h3 : Emits (fun _ => true) s2 s3 := by
    simp only [s3]
    split
    · exact (instantiateRoot_instantiate_emits false env _ _).any
    · exact Emits.refl _ _
  split
  · exact h3.trans (instantiateRoot_failed_emits _ env _)
  · exact h3

/-- The view after the switch to a view mode that is not the CGAL one: the
renderer it holds is one the window has. -/
theorem goToNonCGALViewMode_view (env : Env C) (s : MainWindow C) :
    ∃ a d r, (goToNonCGALViewMode env s).toMembers =
        { s.toMembers with
            viewActionPreview := a, viewActionSurfaces := false,
            viewActionWireframe := false, viewActionThrownTogether := d,
            qglview_renderer := r } ∧
      (r = some RendererRef.opencsg → s.opencsgRenderer.isSome = true) ∧
      (r = some RendererRef.thrownTogether → s.thrownTogetherRenderer.isSome = true) ∧
      r ≠ some RendererRef.cgal := by
  have htt : ∃ a d r, (viewModeThrownTogether env s).toMembers =
        { s.toMembers with
            viewActionPreview := a, viewActionSurfaces := false,
            viewActionWireframe := false, viewActionThrownTogether := d,
            qglview_renderer := r } ∧
      (r = some RendererRef.opencsg → s.opencsgRenderer.isSome = true) ∧
      (r = some RendererRef.thrownTogether → s.thrownTogetherRenderer.isSome = true) ∧
      r ≠ some RendererRef.cgal := by
    refine ⟨_, _, _, viewModeThrownTogether_toMembers env s, ?_, ?_, ?_⟩
    · cases s.thrownTogetherRenderer <;> simp
    · cases s.thrownTogetherRenderer <;> simp
    · cases s.thrownTogetherRenderer <;> simp
  unfold goToNonCGALViewMode
  split
  · exact htt
  · unfold viewModePreview
    split
    · refine ⟨_, _, _, rfl, ?_, ?_, ?_⟩
      · cases ho : s.opencsgRenderer <;> cases s.thrownTogetherRenderer <;>
          simp [viewModeActionsUncheck, ho]
      · cases ho : s.opencsgRenderer <;> cases htr : s.thrownTogetherRenderer <;>
          simp [viewModeActionsUncheck, ho, htr]
      · cases ho : s.opencsgRenderer <;> cases htr : s.thrownTogetherRenderer <;>
          simp [viewModeActionsUncheck, ho, htr]
    · exact htt

theorem viewRendererCurrent_of_none (m : Members C) (h : m.qglview_renderer = none) :
    viewRendererCurrent m := by
  unfold viewRendererCurrent
  rw [h]
  exact ⟨fun h => (by cases h), fun h => (by cases h), fun h => (by cases h)⟩

theorem viewRendererCurrent_congr {m m' : Members C} (h : m'.sceneView = m.sceneView)
    (hv : viewRendererCurrent m) : viewRendererCurrent m' := by
  have q : m'.qglview_renderer = m.qglview_renderer := congrArg (fun p => p.1) h
  have o : m'.opencsgRenderer = m.opencsgRenderer := congrArg (fun p => p.2.1) h
  have t : m'.thrownTogetherRenderer = m.thrownTogetherRenderer := congrArg (fun p => p.2.2.1) h
  have c : m'.cgalRenderer = m.cgalRenderer := congrArg (fun p => p.2.2.2.1) h
  have rc : m'.root_chain = m.root_chain := congrArg (fun p => p.2.2.2.2.2.2.2.2.2.2.2.1) h
  have hc : m'.highlights_chain = m.highlights_chain :=
    congrArg (fun p => p.2.2.2.2.2.2.2.2.2.2.2.2.1) h
  have bc : m'.background_chain = m.background_chain :=
    congrArg (fun p => p.2.2.2.2.2.2.2.2.2.2.2.2.2) h
  unfold viewRendererCurrent at hv ⊢
  rw [q, o, t, c, rc, hc, bc]
  exact hv

/-- A run of `compileCSG` entered without renderers leaves only renderers
built over the chains it leaves. -/
theorem compileCSG_body_renderers (env : Env C) (procevents : Bool) (n : C.AbstractNode)
    (s : MainWindow C) (ho : s.opencsgRenderer = none) (ht : s.thrownTogetherRenderer = none) :
    (∀ r, (compileCSG_body env procevents n s).opencsgRenderer = some r →
      r = ChainRenderer.mk (compileCSG_body env procevents n s).root_chain
        (compileCSG_body env procevents n s).highlights_chain
        (compileCSG_body env procevents n s).background_chain) ∧
    (∀ r, (compileCSG_body env procevents n s).thrownTogetherRenderer = some r →
      r = ChainRenderer.mk (compileCSG_body env procevents n s).root_chain
        (compileCSG_body env procevents n s).highlights_chain
        (compileCSG_body env procevents n s).background_chain) ∧
    Emits (fun _ => true) s (compileCSG_body env procevents n s) := by
  obtain ⟨threw, mid, hem, -, -, -, -, mo, mt, hnone, hsome⟩ :=
    compileCSG_body_chains env procevents n s
  cases hm : mid.root_raw_term with
  | none =>
    rw [hnone hm]
    refine ⟨fun r hr => ?_, fun r hr => ?_, hem.any⟩
    · rw [mo, ho] at hr; cases hr
    · rw [mt, ht] at hr; cases hr
  | some term =>
    rw [hsome term hm]
    obtain ⟨-, h2, h3⟩ := compileCSG_products_renderers env procevents term mid
    refine ⟨fun r hr => ?_, fun r hr => ?_,
      hem.any.trans (compileCSG_products_emits env procevents term mid).any⟩
    · rw [h3] at hr
      split at hr
      · rw [mo, ho] at hr; cases hr
      · exact (Option.some.inj hr).symm
    · rw [h2] at hr
      exact (Option.some.inj hr).symm

/-- The end of a slot that switches the view: the view holds a renderer built
over the chains the window holds. -/
theorem csgSlot_view (env : Env C) (tail : MainWindow C → MainWindow C)
    (htail : ∀ u, Emits Event.isViewing u (tail u) ∧ (tail u).toMembers = u.toMembers)
    (b : MainWindow C)
    (ho : ∀ r, b.opencsgRenderer = some r →
      r = ChainRenderer.mk b.root_chain b.highlights_chain b.background_chain)
    (ht : ∀ r, b.thrownTogetherRenderer = some r →
      r = ChainRenderer.mk b.root_chain b.highlights_chain b.background_chain) :
    viewRendererCurrent (compileEnded env (tail (goToNonCGALViewMode env b))).toMembers ∧
    Emits (fun _ => true) b (compileEnded env (tail (goToNonCGALViewMode env b))) := by
  obtain ⟨a, d, r, hg, r1, r2, r3⟩ := goToNonCGALViewMode_view env b
  obtain ⟨x, he⟩ := compileEnded_frame env (tail (goToNonCGALViewMode env b))
  have hsv : (compileEnded env (tail (goToNonCGALViewMode env b))).toMembers.sceneView =
      (goToNonCGALViewMode env b).toMembers.sceneView := by
    rw [he, (htail _).2]; rfl
  refine ⟨viewRendererCurrent_congr hsv ?_,
    ((goToNonCGALViewMode_emits env b).trans (htail _).1).any.trans
      (compileEnded_emits (fun _ => true) rfl rfl rfl env _)⟩
  rw [hg]
  refine ⟨fun h => ?_, fun h => ?_, fun h => absurd h r3⟩
  · have h' : r = some RendererRef.opencsg := h
    cases hb : b.opencsgRenderer with
    | none =>
      have := r1 h'
      rw [hb] at this; cases this
    | some r0 => exact congrArg some (ho r0 hb)
  · have h' : r = some RendererRef.thrownTogether := h
    cases hb : b.thrownTogetherRenderer with
    | none =>
      have := r2 h'
      rw [hb] at this; cases this
    | some r0 => exact congrArg some (ht r0 hb)

/-- After `instantiateRoot` the view holds no renderer and the window has
none. -/
theorem compileDone_atSlot_view (env : Env C) (s : MainWindow C) :
    (compileDone_atSlot env s).qglview_renderer = none ∧
    (compileDone_atSlot env s).opencsgRenderer = none ∧
    (compileDone_atSlot env s).thrownTogetherRenderer = none := by
  obtain ⟨r, hr, -⟩ := instantiateRoot_toMembers env (log s (Event.compileDone true))
  refine ⟨?_, ?_, ?_⟩
  · show (instantiateRoot env (log s (Event.compileDone true))).toMembers.qglview_renderer = _
    rw [hr]
    cases r <;> rfl
  · show (instantiateRoot env (log s (Event.compileDone true))).toMembers.opencsgRenderer = _
    rw [hr]
    cases r <;> rfl
  · show (instantiateRoot env (log s (Event.compileDone true))).toMembers.thrownTogetherRenderer
      = _
    rw [hr]
    cases r <;> rfl

/-- A run of `compileDone(true)`: it starts with `instantiateRoot`, whose first
step takes the renderer from the view, and at its end the view holds no
renderer or one built over the chains the window holds. -/
theorem compileDone_true_view (env : Env C) (s t : MainWindow C)
    (h : compileDone env true s = some t) :
    viewRendererCurrent t.toMembers ∧
    ∃ rest, eventsSince s t =
      Event.compileDone true :: Event.instantiateRoot :: Event.setRenderer none ::
        Event.helper Helper.deleteTree :: rest := by
  obtain ⟨v1, v2, v3⟩ := compileDone_atSlot_view env s
  have key : viewRendererCurrent t.toMembers ∧
      Emits (fun _ => true) (compileDone_atSlot env s) t := by
    obtain ⟨procevents, tail, htail, -, hcsg, hcgal, hend⟩ := compileDone_true_run env s
    have csg : (s.afterCompileSlot = Slot.csgRender ∨ s.afterCompileSlot = Slot.csgReloadRender) →
        viewRendererCurrent t.toMembers ∧
          Emits (fun _ => true) (compileDone_atSlot env s) t := by
      intro hslot
      obtain ⟨hn, hnone⟩ := hcsg hslot
      cases hroot : (compileDone_atSlot env s).root_node with
      | none =>
        obtain rfl := Option.some.inj ((hnone hroot).symm.trans h)
        exact csgSlot_view env tail htail _
          (fun r hr => by rw [v2] at hr; cases hr) (fun r hr => by rw [v3] at hr; cases hr)
      | some n =>
        obtain rfl := Option.some.inj ((hn n hroot).2.symm.trans h)
        obtain ⟨b1, b2, b3⟩ := compileCSG_body_renderers env procevents n _ v2 v3
        obtain ⟨c1, c2⟩ := csgSlot_view env tail htail _ b1 b2
        exact ⟨c1, b3.trans c2⟩
    cases hslot : s.afterCompileSlot with
    | csgRender => exact csg (Or.inl hslot)
    | csgReloadRender => exact csg (Or.inr hslot)
    | cgalRender =>
      obtain rfl := Option.some.inj ((hcgal hslot).symm.trans h)
      refine ⟨viewRendererCurrent_of_none _ ?_, (cgalRender_emits false env _).any⟩
      obtain ⟨hno, hyes⟩ := cgalRender_cases env (compileDone_atSlot env s)
      by_cases hc : (compileDone_atSlot env s).root_module = none ∨
          (compileDone_atSlot env s).root_node = none
      · rw [hno hc]
        obtain ⟨x, he⟩ := compileEnded_frame env (compileDone_atSlot env s)
        show (compileEnded env (compileDone_atSlot env s)).toMembers.qglview_renderer = none
        rw [he]
        exact v1
      · have hm : (compileDone_atSlot env s).root_module.isSome = true := by
          cases hx : (compileDone_atSlot env s).root_module with
          | none => exact absurd (Or.inl hx) hc
          | some _ => rfl
        have hr : (compileDone_atSlot env s).root_node.isSome = true := by
          cases hx : (compileDone_atSlot env s).root_node with
          | none => exact absurd (Or.inr hx) hc
          | some _ => rfl
        show (cgalRender env (compileDone_atSlot env s)).toMembers.qglview_renderer = none
        rw [(hyes hm hr).2]
    | compileEnded =>
      obtain rfl := Option.some.inj ((hend hslot).symm.trans h)
      refine ⟨viewRendererCurrent_of_none _ ?_,
        compileEnded_emits (fun _ => true) rfl rfl rfl env _⟩
      obtain ⟨x, he⟩ := compileEnded_frame env (compileDone_atSlot env s)
      show (compileEnded env (compileDone_atSlot env s)).toMembers.qglview_renderer = none
      rw [he]
      exact v1
  refine ⟨key.1, ?_⟩
  obtain ⟨rest0, hrest0⟩ := instantiateRoot_head env (log s (Event.compileDone true))
  have h1 := (instantiateRoot_emits false env (log s (Event.compileDone true))).trace_eq
  rw [hrest0] at h1
  obtain ⟨evs, he, -⟩ := key.2
  refine ⟨rest0 ++ Event.invokeMethod
    (instantiateRoot env (log s (Event.compileDone true))).afterCompileSlot :: evs,
    eventsSince_eq ?_⟩
  rw [he]
  show (instantiateRoot env (log s (Event.compileDone true))).trace ++ [_] ++ evs = _
  rw [h1]
  simp [log]

/-- A run of `compileDone(false)` touches neither a renderer nor the tree, the
terms and the chains. -/
theorem compileDone_false_sceneView (env : Env C) (s t : MainWindow C)
    (h : compileDone env false s = some t) :
    t.toMembers.sceneView = s.toMembers.sceneView ∧
    Emits Event.isEnding s t := by
  obtain ⟨t', ht', hem, -⟩ := compileDone_false env s
  obtain rfl : t' = t := Option.some.inj (ht'.symm.trans h)
  refine ⟨?_, hem⟩
  have heq : compileDone env false s =
      some (compileEnded env (log { log s (Event.compileDone false) with procevents := false }
        (Event.invokeMethod Slot.compileEnded))) := rfl
  obtain rfl := Option.some.inj (heq.symm.trans h)
  obtain ⟨x, he⟩ := compileEnded_frame env
    (log { log s (Event.compileDone false) with procevents := false }
      (Event.invokeMethod Slot.compileEnded))
  rw [he]
  rfl

/-! ## The reload check and the document -/

/-- The editor text after `refreshDocument`: the text read from the file, when
there is a file name and the file can be opened. -/
theorem refreshDocument_editorText (env : Env C) (s : MainWindow C) :
    (s.fileName ≠ "" → ∀ text, refreshDocument_readAll env s = Except.ok text →
      (refreshDocument env s).editorText = text) ∧
    (s.fileName ≠ "" → ∀ err, refreshDocument_readAll env s = Except.error err →
      (refreshDocument env s).editorText = s.editorText) ∧
    (s.fileName = "" → (refreshDocument env s).editorText = s.editorText) := by
  have key : ∀ (file : Except String String × C.World),
      file = env.readFile s.fileName (setCurrentOutput env (log s Event.refreshDocument)).world →
      (s.fileName ≠ "" → ∀ text, file.1 = Except.ok text →
        (refreshDocument env s).editorText = text) ∧
      (s.fileName ≠ "" → ∀ err, file.1 = Except.error err →
        (refreshDocument env s).editorText = s.editorText) := by
    intro file hfile
    unfold refreshDocument
    lift_lets
    intro s1 s2 file' s4
    have hf : file' = file := hfile.symm
    have hname : s2.fileName = s.fileName := rfl
    have hout : ∀ u : MainWindow C, (setCurrentOutput env u).editorText = u.editorText :=
      fun _ => rfl
    refine ⟨fun hn text ht => ?_, fun hn err ht => ?_⟩
    · rw [hout, if_pos (by rw [hname]; exact hn)]
      have h1 : file'.1 = Except.ok text := by rw [hf]; exact ht
      simp only [h1]
      by_cases hc : (PRINTB env "Loaded design \x27%s\x27." [s4.fileName] s4).editorText ≠ text
      · rw [if_pos hc]
      · rw [if_neg hc]
        exact not_not.mp hc
    · rw [hout, if_pos (by rw [hname]; exact hn)]
      have h1 : file'.1 = Except.error err := by rw [hf]; exact ht
      simp only [h1]
      show (PRINTB env _ _ s4).toMembers.editorText = _
      rw [PRINTB_toMembers]
      rfl
  obtain ⟨k1, k2⟩ := key _ rfl
  refine ⟨k1, k2, fun hn => ?_⟩
  unfold refreshDocument
  lift_lets
  intro s1 s2 file s4 s5 s6
  have hname : s2.fileName = s.fileName := rfl
  show s6.editorText = s.editorText
  simp only [s6]
  rw [if_neg (by rw [hname]; simp [hn])]
  rfl

/-- The reload check when the file changed and the reload is confirmed: the
document is refreshed in the state the two calls left. -/
theorem compile_shouldcompiletoplevel_refreshed (env : Env C) (s : MainWindow C)
    (hch : (fileChangedOnDisk env s).1 = true)
    (hconf : (checkEditorModified env (fileChangedOnDisk env s).2).1 = true) :
    compile_shouldcompiletoplevel env true s =
      (true, refreshDocument env (checkEditorModified env (fileChangedOnDisk env s).2).2) := by
  unfold compile_shouldcompiletoplevel
  simp only [if_true, hch, hconf]

/-- The reload check when the file did not change or the reload is declined:
the document is not read again. -/
theorem compile_shouldcompiletoplevel_not_refreshed (env : Env C) (s : MainWindow C)
    (hna : ¬((fileChangedOnDisk env s).1 = true ∧
      (checkEditorModified env (fileChangedOnDisk env s).2).1 = true)) :
    Emits Event.isDeclining s (compile_shouldcompiletoplevel env true s).2 := by
  cases hch : (fileChangedOnDisk env s).1 with
  | true =>
    have hno : (checkEditorModified env (fileChangedOnDisk env s).2).1 = false := by
      cases h : (checkEditorModified env (fileChangedOnDisk env s).2).1 with
      | false => rfl
      | true => exact absurd ⟨hch, h⟩ hna
    exact (compile_shouldcompiletoplevel_declined env s hch hno).2.1
  | false =>
    have hf : Emits Event.isDeclining s (fileChangedOnDisk env s).2 :=
      ⟨_, fileChangedOnDisk_trace env s, by simp [Event.isDeclining]⟩
    have key : ∀ v : MainWindow C, v = (fileChangedOnDisk env s).2 →
        Emits Event.isDeclining v (compile_shouldcompiletoplevel env true s).2 := by
      intro v hv
      unfold compile_shouldcompiletoplevel
      simp only [if_true, hch, Bool.false_eq_true, if_false]
      rw [← hv]
      by_cases hc : v.editorText ≠ v.last_compiled_doc ∧ v.last_compiled_doc.length = 0
      · rw [if_pos hc]
        exact Emits.refl _ _
      · rw [if_neg hc]
        rw [if_neg (by simp)]
        show Emits Event.isDeclining v (match v.root_module with
          | some root_module =>
            ((env.includesChanged root_module v.world).1,
              log { v with world := (env.includesChanged root_module v.world).2 }
                (Event.includesChanged (env.includesChanged root_module v.world).1))
          | none => (false, v)).2
        cases hmod : v.root_module with
        | none => exact Emits.refl _ _
        | some m => exact Emits.of_left (Emits.log _ _ rfl) rfl
    exact hf.trans (key _ rfl)

/-- The recompilation step: the editor text is recorded as the compiled text
and is the text that is parsed. -/
theorem compile_didcompile_parse (env : Env C) (s : MainWindow C) :
    ∃ w, (compile_didcompile env true s).2.toMembers =
        { s.toMembers with
            last_compiled_doc := s.editorText,
            root_module := (env.parse (s.editorText ++ "\n" ++ env.commandline_commands)
              (if s.fileName = "" then "" else env.absolutePath s.fileName) w).1.1,
            parser_error_pos := (env.parse (s.editorText ++ "\n" ++ env.commandline_commands)
              (if s.fileName = "" then "" else env.absolutePath s.fileName) w).1.2 } := by
  obtain ⟨m, pos, -, hmem, -, -, -⟩ := compile_didcompile_true env s
  have hat : (compile_didcompile env true s).2 =
      (compile_handleDependencies env true (compileTopLevelDocument env
        (if env.isContentModified (log s Event.consoleClear).world then
          callHelper env Helper.saveBackup (log s Event.consoleClear)
        else log s Event.consoleClear))).2 := rfl
  have hin : ∀ u : MainWindow C, u.toMembers = s.toMembers →
      ∃ w, (compileTopLevelDocument env u).root_module =
          (env.parse (s.editorText ++ "\n" ++ env.commandline_commands)
            (if s.fileName = "" then "" else env.absolutePath s.fileName) w).1.1 ∧
        (compileTopLevelDocument env u).parser_error_pos =
          (env.parse (s.editorText ++ "\n" ++ env.commandline_commands)
            (if s.fileName = "" then "" else env.absolutePath s.fileName) w).1.2 := by
    intro u hu
    obtain ⟨w, h1, h2, -⟩ := compileTopLevelDocument_parse env u
    have he : u.editorText = s.editorText := congrArg (fun m : Members C => m.editorText) hu
    have hf : u.fileName = s.fileName := congrArg (fun m : Members C => m.fileName) hu
    rw [he, hf] at h1 h2
    exact ⟨w, h1, h2⟩
  obtain ⟨w, h1, h2⟩ := hin (if env.isContentModified (log s Event.consoleClear).world then
      callHelper env Helper.saveBackup (log s Event.consoleClear)
    else log s Event.consoleClear) (by split <;> rfl)
  refine ⟨w, ?_⟩
  have hd := (compile_handleDependencies_spec env true (compileTopLevelDocument env
        (if env.isContentModified (log s Event.consoleClear).world then
          callHelper env Helper.saveBackup (log s Event.consoleClear)
        else log s Event.consoleClear))).1
  have hm : m = (env.parse (s.editorText ++ "\n" ++ env.commandline_commands)
      (if s.fileName = "" then "" else env.absolutePath s.fileName) w).1.1 := by
    rw [← h1]
    have : (compile_didcompile env true s).2.toMembers.root_module = m := by rw [hmem]
    rw [← this, hat]
    show _ = (compileTopLevelDocument env _).toMembers.root_module
    rw [← hd]
  have hp : pos = (env.parse (s.editorText ++ "\n" ++ env.commandline_commands)
      (if s.fileName = "" then "" else env.absolutePath s.fileName) w).1.2 := by
    rw [← h2]
    have : (compile_didcompile env true s).2.toMembers.parser_error_pos = pos := by rw [hmem]
    rw [← this, hat]
    show _ = (compileTopLevelDocument env _).toMembers.parser_error_pos
    rw [← hd]
  rw [hmem, hm, hp]

/-- What `compile` leaves of the document after the dependency test: the
editor text, the compiled text, the module and the file name are those of
that point. -/
theorem compile_final_document (env : Env C) (reload forcedone : Bool) (s : MainWindow C) :
    ∃ t, compile env reload forcedone s = some t ∧
      t.fileName = (compile_atDependencyTest env reload s).fileName ∧
      t.editorText = (compile_atDependencyTest env reload s).editorText ∧
      t.last_compiled_doc = (compile_atDependencyTest env reload s).last_compiled_doc ∧
      t.root_module = (compile_atDependencyTest env reload s).root_module := by
  obtain ⟨t, ht, -, hdoc⟩ := compile_signals env reload forcedone s
  refine ⟨t, ht, ?_⟩
  rcases hdoc with h | h
  · exact ⟨congrArg (fun p => p.1) h, congrArg (fun p => p.2.2.1) h,
      congrArg (fun p => p.2.2.2.1) h, congrArg (fun p => p.2.2.2.2.1) h⟩
  · refine ⟨?_, ?_, ?_, ?_⟩
    · show t.toMembers.fileName = _
      rw [h]
    · show t.toMembers.editorText = _
      rw [h]
    · show t.toMembers.last_compiled_doc = _
      rw [h]
    · show t.toMembers.root_module = _
      rw [h]

/-! ## C3: the checking decision of `compile(reload = true)` -/

/-- C3 (checking decision). In `compile(true, forcedone)`: when
`fileChangedOnDisk()` and then `checkEditorModified()` both return true, the
document is read again from the file and the top-level document is compiled:
the text read becomes the editor text (the editor keeps its text when the file
cannot be opened), and the editor text is recorded as `last_compiled_doc` and
is the text that is parsed into the new module. Otherwise the document is not
read again, and the top-level document is compiled when the editor text
differs from an empty `last_compiled_doc`: the editor text is recorded and
parsed. And when neither holds and no `includesChanged()` call returned true,
the top-level document is not compiled: nothing is parsed, and the editor
text, `last_compiled_doc` and the module stay as they were. -/
theorem compile_checking_decision (env : Env C) (forcedone : Bool) (s : MainWindow C) :
    ∃ t, compile env true forcedone s = some t ∧
      ((fileChangedOnDisk env s).1 = true →
        (checkEditorModified env (fileChangedOnDisk env s).2).1 = true →
        Event.refreshDocument ∈ eventsSince s t ∧
        Event.compileTopLevelDocument ∈ eventsSince s t ∧
        s.fileName ≠ "" ∧
        (∀ text, refreshDocument_readAll env
            (checkEditorModified env (fileChangedOnDisk env s).2).2 = Except.ok text →
          t.editorText = text) ∧
        (∀ err, refreshDocument_readAll env
            (checkEditorModified env (fileChangedOnDisk env s).2).2 = Except.error err →
          t.editorText = s.editorText) ∧
        t.last_compiled_doc = t.editorText ∧
        ∃ w, t.root_module =
          (env.parse (t.editorText ++ "\n" ++ env.commandline_commands)
            (if s.fileName = "" then "" else env.absolutePath s.fileName) w).1.1) ∧
      (¬((fileChangedOnDisk env s).1 = true ∧
          (checkEditorModified env (fileChangedOnDisk env s).2).1 = true) →
        (s.editorText ≠ s.last_compiled_doc ∧ s.last_compiled_doc.length = 0) →
        Event.compileTopLevelDocument ∈ eventsSince s t ∧
        Event.refreshDocument ∉ eventsSince s t ∧
        t.editorText = s.editorText ∧ t.last_compiled_doc = s.editorText ∧
        ∃ w, t.root_module =
          (env.parse (s.editorText ++ "\n" ++ env.commandline_commands)
            (if s.fileName = "" then "" else env.absolutePath s.fileName) w).1.1) ∧
      (¬((fileChangedOnDisk env s).1 = true ∧
          (checkEditorModified env (fileChangedOnDisk env s).2).1 = true) →
        ¬(s.editorText ≠ s.last_compiled_doc ∧ s.last_compiled_doc.length = 0) →
        Event.includesChanged true ∉ eventsSince s t →
        Event.compileTopLevelDocument ∉ eventsSince s t ∧
        Event.refreshDocument ∉ eventsSince s t ∧
        (∀ ok, Event.parse ok ∉ eventsSince s t) ∧
        t.editorText = s.editorText ∧ t.last_compiled_doc = s.last_compiled_doc ∧
        t.root_module = s.root_module) := by
  obtain ⟨t, hrun, hfn, het, hlc, hrm⟩ := compile_final_document env true forcedone s
  obtain ⟨t', hrun', htail⟩ := compile_tail env true forcedone s
  obtain rfl : t' = t := Option.some.inj (hrun'.symm.trans hrun)
  obtain ⟨t'', hrun'', -, -, -, -, hafter⟩ := compile_after_check env true forcedone s
  obtain rfl : t'' = t' := Option.some.inj (hrun''.symm.trans hrun)
  obtain ⟨h1E, hframe, -, ha, hb⟩ := compile_shouldcompiletoplevel_true env s
  have hup := compile_upstream env true s
  have hat : compile_atDependencyTest env true s =
      (compile_didcompile env (compile_shouldcompiletoplevel env true s).1
        (compile_shouldcompiletoplevel env true s).2).2 := rfl
  have hsfn : (compile_shouldcompiletoplevel env true s).2.fileName = s.fileName :=
    congrArg (fun p => p.2.1) hframe
  have hslc : (compile_shouldcompiletoplevel env true s).2.last_compiled_doc =
      s.last_compiled_doc := congrArg (fun p => p.2.2.1) hframe
  have hsrm : (compile_shouldcompiletoplevel env true s).2.root_module = s.root_module :=
    congrArg (fun p => p.2.2.2.1) hframe
  -- the recompilation step, entered with `shouldcompiletoplevel = true`
  have compiled : (compile_shouldcompiletoplevel env true s).1 = true →
      Event.compileTopLevelDocument ∈ eventsSince s t'' ∧
      t''.editorText = (compile_shouldcompiletoplevel env true s).2.editorText ∧
      t''.last_compiled_doc = (compile_shouldcompiletoplevel env true s).2.editorText ∧
      ∃ w, t''.root_module =
        (env.parse ((compile_shouldcompiletoplevel env true s).2.editorText ++ "\n" ++
            env.commandline_commands)
          (if s.fileName = "" then "" else env.absolutePath s.fileName) w).1.1 := by
    intro hs
    obtain ⟨m, pos, -, -, hE, hc, -⟩ := compile_didcompile_true env
      (compile_shouldcompiletoplevel env true s).2
    have hc' : Event.compileTopLevelDocument ∈
        eventsSince s (compile_atDependencyTest env true s) := by
      unfold compile_atDependencyTest
      rw [hs]
      exact Emits.mem_right h1E hE hc
    obtain ⟨w, hw⟩ := compile_didcompile_parse env (compile_shouldcompiletoplevel env true s).2
    rw [hs] at hat
    rw [hsfn] at hw
    refine ⟨Emits.mem_left hup htail hc', ?_, ?_, w, ?_⟩
    · rw [het, hat]
      show (compile_didcompile env true _).2.toMembers.editorText = _
      rw [hw]
    · rw [hlc, hat]
      show (compile_didcompile env true _).2.toMembers.last_compiled_doc = _
      rw [hw]
    · rw [hrm, hat]
      show (compile_didcompile env true _).2.toMembers.root_module = _
      rw [hw]
  have h2E : Emits Event.isUpstream (compile_shouldcompiletoplevel env true s).2
      (compile_atDependencyTest env true s) := by
    unfold compile_atDependencyTest
    cases (compile_shouldcompiletoplevel env true s).1
    · exact (compile_didcompile_false env _).2.1.mono isDependency_isUpstream
    · obtain ⟨m, pos, -, -, hE, -⟩ := compile_didcompile_true env
        (compile_shouldcompiletoplevel env true s).2
      exact hE.mono (isRecompilingWith_isUpstream _)
  have notread : ¬((fileChangedOnDisk env s).1 = true ∧
      (checkEditorModified env (fileChangedOnDisk env s).2).1 = true) →
      Event.refreshDocument ∉ eventsSince s t'' := by
    intro hna
    have hd := compile_shouldcompiletoplevel_not_refreshed env s hna
    have hall : Emits (fun e => e.isDeclining ||
        (e.isRecompilingWith true || e.isRecompilingWith false || e.isTail)) s t'' :=
      (hd.mono (fun e h => by simp [h])).trans (hafter.mono (fun e h => by simp [h]))
    exact hall.not_mem rfl
  refine ⟨t'', hrun, ?_, ?_, ?_⟩
  · intro hch hconf
    obtain ⟨hs, hr⟩ := ha hch hconf
    obtain ⟨hc, he, hl, w, hw⟩ := compiled hs
    have hname : s.fileName ≠ "" := by
      intro h0
      have := ((fileChangedOnDisk_cases env s).2.2.1 (Or.inl h0)).1
      rw [hch] at this
      cases this
    have hsc := compile_shouldcompiletoplevel_refreshed env s hch hconf
    have hsc2 : (compile_shouldcompiletoplevel env true s).2 =
        refreshDocument env (checkEditorModified env (fileChangedOnDisk env s).2).2 := by
      rw [hsc]
    obtain ⟨id, hid⟩ := fileChangedOnDisk_frame env s
    obtain ⟨a, b, hab⟩ := checkEditorModified_frame env (fileChangedOnDisk env s).2
    have hufn : (checkEditorModified env (fileChangedOnDisk env s).2).2.fileName =
        s.fileName := by
      show (checkEditorModified env (fileChangedOnDisk env s).2).2.toMembers.fileName = _
      rw [hab, hid]
    have huet : (checkEditorModified env (fileChangedOnDisk env s).2).2.editorText =
        s.editorText := by
      show (checkEditorModified env (fileChangedOnDisk env s).2).2.toMembers.editorText = _
      rw [hab, hid]
    obtain ⟨r1, r2, -⟩ := refreshDocument_editorText env
      (checkEditorModified env (fileChangedOnDisk env s).2).2
    rw [hufn] at r1 r2
    refine ⟨Emits.mem_left hup htail (Emits.mem_left h1E h2E hr), hc, hname, ?_, ?_, ?_, w, ?_⟩
    · intro text ht
      rw [he, hsc2]
      exact r1 hname text ht
    · intro err ht
      rw [he, hsc2, r2 hname err ht, huet]
    · rw [hl, he]
    · rw [he]
      exact hw
  · intro hna hp
    obtain ⟨hc, he, hl, w, hw⟩ := compiled ((hb hna).2.1 hp)
    rw [(hb hna).1] at he hl hw
    exact ⟨hc, notread hna, he, hl, w, hw⟩
  · intro hna hp hinc
    have hs : (compile_shouldcompiletoplevel env true s).1 = false := by
      cases h : (compile_shouldcompiletoplevel env true s).1 with
      | false => rfl
      | true =>
        exfalso
        apply hinc
        exact Emits.mem_left hup htail (Emits.mem_left h1E h2E ((hb hna).2.2 hp h))
    have h2 : Emits Event.isDependency (compile_shouldcompiletoplevel env true s).2
        (compile_atDependencyTest env true s) := by
      unfold compile_atDependencyTest
      rw [hs]
      exact (compile_didcompile_false env _).2.1
    have hall : Emits (fun e => e.isChecking || e.isDependency || e.isTail) s t'' :=
      ((h1E.mono (fun e h => by simp [h])).trans (h2.mono (fun e h => by simp [h]))).trans
        (htail.mono (fun e h => by simp [h]))
    obtain ⟨hM, -⟩ := compile_not_recompiled env true s hs
    refine ⟨hall.not_mem rfl, notread hna, fun ok => hall.not_mem rfl, ?_, ?_, ?_⟩
    · rw [het]
      show (compile_atDependencyTest env true s).toMembers.editorText = _
      rw [hM]
      exact (hb hna).1
    · rw [hlc]
      show (compile_atDependencyTest env true s).toMembers.last_compiled_doc = _
      rw [hM]
      exact hslc
    · rw [hrm]
      show (compile_atDependencyTest env true s).toMembers.root_module = _
      rw [hM]
      exact hsrm

set_option maxRecDepth 100000 in
/-- C3 witness: the file `a.scad` on disk has a fingerprint that differs from
the recorded one and the editor, which holds `sphere(2);`, is unmodified: the
text `cube(1);` of the file becomes the editor text and the compiled text. -/
theorem compile_checking_decision_witness :
    (fileChangedOnDisk (sampleEnv (some 0) none 0)
      (sampleWindow { Members.init sampleCarrier with
        fileName := "a.scad", editorText := "sphere(2);" })).1 = true ∧
    (checkEditorModified (sampleEnv (some 0) none 0)
      (fileChangedOnDisk (sampleEnv (some 0) none 0)
        (sampleWindow { Members.init sampleCarrier with
          fileName := "a.scad", editorText := "sphere(2);" })).2).1 = true ∧
    refreshDocument_readAll (sampleEnv (some 0) none 0)
      (checkEditorModified (sampleEnv (some 0) none 0)
        (fileChangedOnDisk (sampleEnv (some 0) none 0)
          (sampleWindow { Members.init sampleCarrier with
            fileName := "a.scad", editorText := "sphere(2);" })).2).2 =
      Except.ok "cube(1);" ∧
    ∃ t, compile (sampleEnv (some 0) none 0) true false
        (sampleWindow { Members.init sampleCarrier with
          fileName := "a.scad", editorText := "sphere(2);" }) = some t ∧
      Event.refreshDocument ∈
        eventsSince (sampleWindow { Members.init sampleCarrier with
          fileName := "a.scad", editorText := "sphere(2);" }) t ∧
      Event.compileTopLevelDocument ∈
        eventsSince (sampleWindow { Members.init sampleCarrier with
          fileName := "a.scad", editorText := "sphere(2);" }) t ∧
      t.editorText = "cube(1);" ∧ t.last_compiled_doc = "cube(1);" :=
  ⟨by decide, by decide, rfl, by
    obtain ⟨t, ht, ha, -, -⟩ := compile_checking_decision (sampleEnv (some 0) none 0) false
      (sampleWindow { Members.init sampleCarrier with
        fileName := "a.scad", editorText := "sphere(2);" })
    obtain ⟨h1, h2, -, h3, -, h4, -⟩ := ha (by decide) (by decide)
    have h5 := h3 "cube(1);" rfl
    exact ⟨t, ht, h1, h2, h5, h4.trans h5⟩⟩

/-! ## C21: when the renderers are invalidated -/

set_option maxRecDepth 100000 in
/-- C21 fails as stated: in an explicit compile of a window whose view holds
the OpenCSG renderer, the new module is parsed while the view still holds that
renderer and both renderers still exist; the renderer is taken from the view
only later, at the start of `instantiateRoot`. -/
theorem compile_parses_before_invalidating :
    (compile (sampleEnv (some 0) (some (some 1)) 100) false false
      { sampleCompiled with qglview_renderer := some RendererRef.opencsg }).isSome = true ∧
    Event.parse true ∈ eventsSince
      { sampleCompiled with qglview_renderer := some RendererRef.opencsg }
      (compile_atDependencyTest (sampleEnv (some 0) (some (some 1)) 100) false
        { sampleCompiled with qglview_renderer := some RendererRef.opencsg }) ∧
    Event.setRenderer none ∉ eventsSince
      { sampleCompiled with qglview_renderer := some RendererRef.opencsg }
      (compile_atDependencyTest (sampleEnv (some 0) (some (some 1)) 100) false
        { sampleCompiled with qglview_renderer := some RendererRef.opencsg }) ∧
    (compile_atDependencyTest (sampleEnv (some 0) (some (some 1)) 100) false
      { sampleCompiled with qglview_renderer := some RendererRef.opencsg }).qglview_renderer =
        some RendererRef.opencsg ∧
    (compile_atDependencyTest (sampleEnv (some 0) (some (some 1)) 100) false
      { sampleCompiled with qglview_renderer := some RendererRef.opencsg }).opencsgRenderer.isSome
        = true ∧
    (compile_atDependencyTest (sampleEnv (some 0) (some (some 1)) 100) false
      { sampleCompiled with
        qglview_renderer := some RendererRef.opencsg }).thrownTogetherRenderer.isSome = true ∧
    ∀ t ∈ compile (sampleEnv (some 0) (some (some 1)) 100) false false
        { sampleCompiled with qglview_renderer := some RendererRef.opencsg },
      Event.setRenderer none ∈ eventsSince
        { sampleCompiled with qglview_renderer := some RendererRef.opencsg } t ∧
      List.indexOf (Event.parse true) (eventsSince
          { sampleCompiled with qglview_renderer := some RendererRef.opencsg } t) <
        List.indexOf (Event.setRenderer none) (eventsSince
          { sampleCompiled with qglview_renderer := some RendererRef.opencsg } t) := by
  decide

/-- C21 as amended (renderers are invalidated before stale data is dropped).
Every `compile` call returns, and it has two parts. In the first, which checks,
reads and parses the document, no renderer is set or deleted and the tree, the
terms and the chains stay. All parsing lies in that part: the second part
parses nothing. When the call reaches `instantiateRoot`, the second part
starts with `compileDone(true)` and `instantiateRoot`, whose first step sets
the renderer of the view to none, before the previous tree is deleted; at the
end the view holds no renderer or one that was built over the chains the
window now holds. Otherwise nothing of this is touched. Inside
`instantiateRoot`, the renderer of the view is set to none and the OpenCSG and
thrown-together renderers are deleted while the previous tree, terms and
chains all still exist, which are deleted only after that. -/
theorem compile_invalidates_renderers (env : Env C) (reload forcedone : Bool)
    (s : MainWindow C) :
    ∃ t, compile env reload forcedone s = some t ∧
      (∃ v : MainWindow C,
        Emits Event.isUpstream s v ∧
        v.toMembers.sceneView = s.toMembers.sceneView ∧
        (∀ r, Event.setRenderer r ∉ eventsSince s v) ∧
        Event.instantiateRoot ∉ eventsSince s v ∧
        eventsSince s t = eventsSince s v ++ eventsSince v t ∧
        (∀ ok, Event.parse ok ∉ eventsSince v t) ∧
        (Event.instantiateRoot ∈ eventsSince s t →
          (∃ rest, eventsSince v t =
            Event.compileDone true :: Event.instantiateRoot :: Event.setRenderer none ::
              Event.helper Helper.deleteTree :: rest) ∧
          viewRendererCurrent t.toMembers) ∧
        (Event.instantiateRoot ∉ eventsSince s t →
          t.toMembers.sceneView = s.toMembers.sceneView)) ∧
      (∀ u : MainWindow C,
        instantiateRoot_clear env u = instantiateRoot_drop env (instantiateRoot_invalidate u) ∧
        (instantiateRoot_invalidate u).qglview_renderer = none ∧
        (instantiateRoot_invalidate u).opencsgRenderer = none ∧
        (instantiateRoot_invalidate u).thrownTogetherRenderer = none ∧
        (instantiateRoot_invalidate u).toMembers.sceneData = u.toMembers.sceneData ∧
        eventsSince u (instantiateRoot_invalidate u) = [Event.setRenderer none]) := by
  have hup : Emits Event.isUpstream s
      (compile_highlightError reload (compile_didcompileValue env reload s)
        (compile_atDependencyTest env reload s)) :=
    (compile_upstream env reload s).trans (compile_highlightError_upstream _ _ _)
  have hsv : (compile_highlightError reload (compile_didcompileValue env reload s)
      (compile_atDependencyTest env reload s)).toMembers.sceneView = s.toMembers.sceneView := by
    rw [(compile_highlightError_spec reload _ _).1]
    exact compile_atDependencyTest_sceneView env reload s
  have hinside : ∀ u : MainWindow C,
      instantiateRoot_clear env u = instantiateRoot_drop env (instantiateRoot_invalidate u) ∧
      (instantiateRoot_invalidate u).qglview_renderer = none ∧
      (instantiateRoot_invalidate u).opencsgRenderer = none ∧
      (instantiateRoot_invalidate u).thrownTogetherRenderer = none ∧
      (instantiateRoot_invalidate u).toMembers.sceneData = u.toMembers.sceneData ∧
      eventsSince u (instantiateRoot_invalidate u) = [Event.setRenderer none] :=
    fun u => ⟨rfl, rfl, rfl, rfl, rfl, eventsSince_eq rfl⟩
  have wrap : ∀ t : MainWindow C,
      Emits (fun e => e.isTail) (compile_highlightError reload
        (compile_didcompileValue env reload s) (compile_atDependencyTest env reload s)) t →
      (∀ ok, Event.parse ok ∉ eventsSince (compile_highlightError reload
        (compile_didcompileValue env reload s) (compile_atDependencyTest env reload s)) t) ∧
      eventsSince s t = eventsSince s (compile_highlightError reload
          (compile_didcompileValue env reload s) (compile_atDependencyTest env reload s)) ++
        eventsSince (compile_highlightError reload
          (compile_didcompileValue env reload s) (compile_atDependencyTest env reload s)) t :=
    fun t ht => ⟨fun ok => ht.not_mem rfl, eventsSince_append hup ht⟩
  rw [compile_eq]
  split
  · next hw =>
    obtain ⟨hr, -⟩ := compile_waits_true env reload _ _ hw
    have hid := (compile_highlightError_spec reload (compile_didcompileValue env reload s)
      (compile_atDependencyTest env reload s)).2.2.2 hr
    have hlog : Emits (fun e => e.isTail) (compile_highlightError reload
        (compile_didcompileValue env reload s) (compile_atDependencyTest env reload s))
        (log { compile_atDependencyTest env reload s with
          waitAfterReloadTimerActive := true } Event.waitAfterReloadTimerStart) := by
      rw [hid]
      exact Emits.of_left (Emits.log _ _ rfl) rfl
    have hnot : Event.instantiateRoot ∉ eventsSince s
        (log { compile_atDependencyTest env reload s with
          waitAfterReloadTimerActive := true } Event.waitAfterReloadTimerStart) := by
      rw [(wrap _ hlog).2, List.mem_append]
      rintro (h | h)
      · exact hup.not_mem (e := Event.instantiateRoot) rfl h
      · rw [hid] at h
        rw [show eventsSince (compile_atDependencyTest env reload s)
            (log { compile_atDependencyTest env reload s with
              waitAfterReloadTimerActive := true } Event.waitAfterReloadTimerStart) =
            [Event.waitAfterReloadTimerStart] from eventsSince_eq rfl] at h
        simp at h
    refine ⟨_, rfl, ⟨_, hup, hsv, fun r => hup.not_mem rfl, hup.not_mem rfl, (wrap _ hlog).2,
      (wrap _ hlog).1, fun h => absurd h hnot, fun _ => ?_⟩, hinside⟩
    exact compile_atDependencyTest_sceneView env reload s
  · cases hd : (compile_didcompileValue env reload s || forcedone) with
    | true =>
      obtain ⟨t, threw, ht, hem, -⟩ := compileDone_true env
        (compile_highlightError reload (compile_didcompileValue env reload s)
          (compile_atDependencyTest env reload s))
      obtain ⟨hv, rest, hrest⟩ := compileDone_true_view env _ t ht
      have htail := hem.mono (isRenderWith_isTail threw)
      have hin : Event.instantiateRoot ∈ eventsSince s t := by
        rw [(wrap t htail).2, hrest]
        simp
      exact ⟨t, ht, ⟨_, hup, hsv, fun r => hup.not_mem rfl, hup.not_mem rfl, (wrap t htail).2,
        (wrap t htail).1, fun _ => ⟨⟨rest, hrest⟩, hv⟩, fun h => absurd hin h⟩, hinside⟩
    | false =>
      obtain ⟨t, ht, hem, -⟩ := compileDone_false env
        (compile_highlightError reload (compile_didcompileValue env reload s)
          (compile_atDependencyTest env reload s))
      obtain ⟨hsame, -⟩ := compileDone_false_sceneView env _ t ht
      have htail := hem.mono isEnding_isTail
      have hnot : Event.instantiateRoot ∉ eventsSince s t := by
        rw [(wrap t htail).2, List.mem_append]
        rintro (h | h)
        · exact hup.not_mem (e := Event.instantiateRoot) rfl h
        · exact hem.not_mem (e := Event.instantiateRoot) rfl h
      exact ⟨t, ht, ⟨_, hup, hsv, fun r => hup.not_mem rfl, hup.not_mem rfl, (wrap t htail).2,
        (wrap t htail).1, fun h => absurd h hnot, fun _ => hsame.trans hsv⟩, hinside⟩

set_option maxRecDepth 100000 in
/-- C21 witness: the explicit compile of the counterexample: after the
parsing, `compileDone(true)` and `instantiateRoot` come, and the renderer is
taken from the view before the tree is deleted. -/
theorem compile_invalidates_renderers_witness :
    ∃ t, compile (sampleEnv (some 0) (some (some 1)) 100) false false
        { sampleCompiled with qglview_renderer := some RendererRef.opencsg } = some t ∧
      Event.instantiateRoot ∈ eventsSince
        { sampleCompiled with qglview_renderer := some RendererRef.opencsg } t ∧
      viewRendererCurrent t.toMembers := by
  obtain ⟨t, ht, ⟨v, -, -, -, -, -, -, h, -⟩, -⟩ := compile_invalidates_renderers
    (sampleEnv (some 0) (some (some 1)) 100) false false
    { sampleCompiled with qglview_renderer := some RendererRef.opencsg }
  have hyp : ∀ u ∈ compile (sampleEnv (some 0) (some (some 1)) 100) false false
      { sampleCompiled with qglview_renderer := some RendererRef.opencsg },
      Event.instantiateRoot ∈ eventsSince
        { sampleCompiled with qglview_renderer := some RendererRef.opencsg } u := by
    decide
  exact ⟨t, ht, hyp t ht, (h (hyp t ht)).2⟩

/-! ## C22: the error-highlight signals -/

set_option maxRecDepth 100000 in
/-- C22 fails as stated: a `compile(true)` call that parses the document emits
neither signal, whether parsing fails or succeeds, and neither does an explicit
compile while the animate panel is visible. -/
theorem compile_reload_parse_without_signals :
    (compile (sampleEnv none none 0) true false
      (sampleWindow { Members.init sampleCarrier with editorText := "cube(1);" })).isSome = true ∧
    (∀ t ∈ compile (sampleEnv none none 0) true false
        (sampleWindow { Members.init sampleCarrier with editorText := "cube(1);" }),
      Event.parse false ∈ eventsSince
        (sampleWindow { Members.init sampleCarrier with editorText := "cube(1);" }) t ∧
      t.root_module.isNone = true ∧
      (eventsSince (sampleWindow { Members.init sampleCarrier with editorText := "cube(1);" })
        t).filter Event.isHighlightSignal = []) ∧
    (compile (sampleEnv (some 0) none 0) true false
      (sampleWindow { Members.init sampleCarrier with editorText := "cube(1);" })).isSome = true ∧
    (∀ t ∈ compile (sampleEnv (some 0) none 0) true false
        (sampleWindow { Members.init sampleCarrier with editorText := "cube(1);" }),
      Event.parse true ∈ eventsSince
        (sampleWindow { Members.init sampleCarrier with editorText := "cube(1);" }) t ∧
      (eventsSince (sampleWindow { Members.init sampleCarrier with editorText := "cube(1);" })
        t).filter Event.isHighlightSignal = []) ∧
    (compile (sampleEnv none none 0) false false
      (sampleWindow { Members.init sampleCarrier with animate_panel_visible := true })).isSome =
        true ∧
    (∀ t ∈ compile (sampleEnv none none 0) false false
        (sampleWindow { Members.init sampleCarrier with animate_panel_visible := true }),
      Event.parse false ∈ eventsSince
        (sampleWindow { Members.init sampleCarrier with animate_panel_visible := true }) t ∧
      (eventsSince (sampleWindow { Members.init sampleCarrier with animate_panel_visible := true })
        t).filter Event.isHighlightSignal = []) := by
  decide

/-- C22 as amended (error highlight signals). Every `compile` call returns.
An explicit compile (`reload = false`) parses the editor text, and while the
animate panel is hidden it emits `unhighlightLastError`, followed, when
parsing failed, by `highlightError` with the error position the parser left,
and by nothing when parsing succeeded. A compile with `reload = true`, and any
compile while the animate panel is visible, emits neither signal. -/
theorem compile_highlight_signals (env : Env C) (reload forcedone : Bool) (s : MainWindow C) :
    ∃ t, compile env reload forcedone s = some t ∧
      (eventsSince s t).filter Event.isHighlightSignal =
        (if reload = false ∧ s.animate_panel_visible = false then
          if t.root_module.isSome then [Event.unhighlightLastError]
          else [Event.unhighlightLastError, Event.highlightError t.parser_error_pos]
        else []) ∧
      (reload = false →
        Event.parse t.root_module.isSome ∈ eventsSince s t ∧
        ∃ w, t.root_module =
            (env.parse (s.editorText ++ "\n" ++ env.commandline_commands)
              (if s.fileName = "" then "" else env.absolutePath s.fileName) w).1.1 ∧
          t.parser_error_pos =
            (env.parse (s.editorText ++ "\n" ++ env.commandline_commands)
              (if s.fileName = "" then "" else env.absolutePath s.fileName) w).1.2) := by
  obtain ⟨t, ht, hf, hmem⟩ := compile_signals env reload forcedone s
  have hm : t.root_module = (compile_atDependencyTest env reload s).root_module := by
    rcases hmem with h | h
    · exact congrArg (fun p => p.2.2.2.2.1) h
    · show t.toMembers.root_module = _
      rw [h]
  have hpos : t.parser_error_pos = (compile_atDependencyTest env reload s).parser_error_pos := by
    rcases hmem with h | h
    · exact congrArg (fun p => p.2.2.2.2.2.1) h
    · show t.toMembers.parser_error_pos = _
      rw [h]
  refine ⟨t, ht, ?_, ?_⟩
  · rw [hf]
    cases reload with
    | true =>
      rw [(compile_highlightError_spec true _ _).2.2.2 rfl]
      simp [eventsSince]
    | false =>
      obtain ⟨hd, m, pos, hmem', -, -, -⟩ := compile_recompiled env false s rfl
      have hs : (compile_shouldcompiletoplevel env false s).2 = s := rfl
      rw [hs] at hmem'
      have ha : (compile_atDependencyTest env false s).animate_panel_visible =
          s.animate_panel_visible := by
        show (compile_atDependencyTest env false s).toMembers.animate_panel_visible = _
        rw [hmem']
      rw [hd, hm, hpos]
      generalize compile_atDependencyTest env false s = v at ha ⊢
      unfold compile_highlightError
      cases hv : s.animate_panel_visible with
      | true =>
        rw [hv] at ha
        simp [ha, eventsSince]
      | false =>
        rw [hv] at ha
        cases hmod : v.root_module with
        | none => simp [ha, hmod, eventsSince, log, Event.isHighlightSignal]
        | some m => simp [ha, hmod, eventsSince, log, Event.isHighlightSignal]
  · intro hr
    subst hr
    obtain ⟨w, hw⟩ := compile_explicit_parse env s
    obtain ⟨-, m, pos, hmem', -, -, hparse⟩ := compile_recompiled env false s rfl
    have hs : (compile_shouldcompiletoplevel env false s).2 = s := rfl
    rw [hs] at hmem'
    have hmm : (compile_atDependencyTest env false s).root_module = m := by
      show (compile_atDependencyTest env false s).toMembers.root_module = _
      rw [hmem']
    obtain ⟨t', ht', htail⟩ := compile_tail env false forcedone s
    obtain rfl : t' = t := Option.some.inj (ht'.symm.trans ht)
    refine ⟨?_, w, ?_, ?_⟩
    · rw [hm, hmm]
      exact Emits.mem_left (compile_upstream env false s) htail hparse
    · rw [hm]
      show (compile_atDependencyTest env false s).toMembers.root_module = _
      rw [hw]
    · rw [hpos]
      show (compile_atDependencyTest env false s).toMembers.parser_error_pos = _
      rw [hw]

set_option maxRecDepth 100000 in
/-- C22 witness: an explicit compile of a new window whose text does not
parse: the highlight is cleared, then set at the position 0 the parser left. -/
theorem compile_highlight_signals_witness :
    ∃ t, compile (sampleEnv none none 0) false false
        (sampleWindow (Members.init sampleCarrier)) = some t ∧
      (eventsSince (sampleWindow (Members.init sampleCarrier)) t).filter
        Event.isHighlightSignal = [Event.unhighlightLastError, Event.highlightError 0] ∧
      Event.parse false ∈ eventsSince (sampleWindow (Members.init sampleCarrier)) t := by
  obtain ⟨t, ht, hf, hp⟩ := compile_highlight_signals (sampleEnv none none 0) false false
    (sampleWindow (Members.init sampleCarrier))
  have hyp : ∀ u ∈ compile (sampleEnv none none 0) false false
      (sampleWindow (Members.init sampleCarrier)),
      u.root_module = none ∧ u.parser_error_pos = 0 := by
    decide
  obtain ⟨h1, h2⟩ := hyp t ht
  refine ⟨t, ht, ?_, ?_⟩
  · rw [hf, h1, h2]; rfl
  · have := (hp rfl).1
    rw [h1] at this
    exact this

/-! ## C23: the index counter reset -/

/-- C23 (index counter reset). In every run of `instantiateRoot`, each call of
`root_module->instantiate` comes right after `AbstractNode::resetIndexCounter()`,
which sets the node-index counter to zero: no step lies between the two but
the assignment of `root_inst`, which creates no node, and the module is
instantiated in the external world the reset was made in. With a module there
is exactly one such pair in the run; its result is the new
`absolute_root_node`, and whatever the counter was before the run, the nodes
it creates carry the indices 0, 1, 2, ... in the order of their creation, so
that the counter is left at their number. Without a module there is neither a
reset nor an instantiation, and the counter stays. -/
theorem instantiateRoot_resets_index_counter (env : Env C) (s : MainWindow C) :
    (∀ u : MainWindow C, (AbstractNode_resetIndexCounter u).idx_counter = 0 ∧
      eventsSince u (AbstractNode_resetIndexCounter u) = [Event.resetIndexCounter]) ∧
    (∀ pre post ok,
      eventsSince s (instantiateRoot env s) = pre ++ Event.instantiate ok :: post →
      ∃ pre', pre = pre' ++ [Event.resetIndexCounter]) ∧
    (∀ m, s.root_module = some m →
      ∃ (pre post : List Event) (w : C.World),
        eventsSince s (instantiateRoot env s) =
          pre ++ [Event.resetIndexCounter, Event.instantiate (env.instantiate m w).1.isSome] ++
            post ∧
        (∀ e ∈ pre ++ post, e.isInstantiate = false ∧ e ≠ Event.resetIndexCounter) ∧
        (instantiateRoot env s).absolute_root_node = (env.instantiate m w).1 ∧
        (instantiateRoot env s).root_inst = "group" ∧
        (instantiateRoot env s).node_indices = List.range (env.nodesCreated m w) ∧
        (instantiateRoot env s).idx_counter = env.nodesCreated m w) ∧
    (s.root_module = none →
      (∀ e ∈ eventsSince s (instantiateRoot env s),
        e.isInstantiate = false ∧ e ≠ Event.resetIndexCounter) ∧
      (instantiateRoot env s).idx_counter = s.idx_counter ∧
      (instantiateRoot env s).node_indices = s.node_indices) := by
  have hcl : ∀ e : Event, e.isClearing = true →
      e.isInstantiate = false ∧ e ≠ Event.resetIndexCounter := by
    intro e h
    cases e <;> simp_all [Event.isClearing, Event.isInstantiate, Event.isOutput]
  have hout : ∀ e : Event, e.isOutput = true →
      e.isInstantiate = false ∧ e ≠ Event.resetIndexCounter := by
    intro e h
    cases e <;> simp_all [Event.isInstantiate, Event.isOutput]
  have hsome : ∀ m, s.root_module = some m →
      ∃ (pre post : List Event) (w : C.World),
        eventsSince s (instantiateRoot env s) =
          pre ++ [Event.resetIndexCounter, Event.instantiate (env.instantiate m w).1.isSome] ++
            post ∧
        (∀ e ∈ pre ++ post, e.isInstantiate = false ∧ e ≠ Event.resetIndexCounter) ∧
        (instantiateRoot env s).absolute_root_node = (env.instantiate m w).1 ∧
        (instantiateRoot env s).root_inst = "group" ∧
        (instantiateRoot env s).node_indices = List.range (env.nodesCreated m w) ∧
        (instantiateRoot env s).idx_counter = env.nodesCreated m w := by
    intro m hm
    obtain ⟨b, post, hb, htr, hpost, habs, hi, hc, hn⟩ := instantiateRoot_indices env m s hm
    refine ⟨eventsSince s b, post, b.world, ?_, ?_, habs, hi, ?_, hc⟩
    · apply eventsSince_eq
      rw [htr, hb.trace_eq]; simp
    · intro e he
      rcases List.mem_append.mp he with h | h
      · exact hcl e (hb.forall_mem e h)
      · exact hout e (hpost e h)
    · rw [hn]
      unfold AbstractNode_indices
      exact (List.range_eq_range' (n := env.nodesCreated m b.world)).symm
  refine ⟨fun u => ⟨rfl, eventsSince_eq rfl⟩, ?_, hsome, ?_⟩
  · intro pre post ok h
    cases hm : s.root_module with
    | none =>
      have := (instantiateRoot_trace_none env s hm).forall_mem (Event.instantiate ok)
        (by rw [h]; simp)
      cases this
    | some m =>
      obtain ⟨A, B, w, hev, hAB, -⟩ := hsome m hm
      rw [hev, List.append_assoc] at h
      obtain ⟨h1, -, -⟩ := append_cons_cons_unique Event.isInstantiate
        Event.resetIndexCounter _ (Event.instantiate ok) A B pre post h rfl
        (fun e he => (hAB e (List.mem_append_left _ he)).1) rfl
        (fun e he => (hAB e (List.mem_append_right _ he)).1)
      exact ⟨A, h1⟩
  · intro hm
    obtain ⟨-, g2, g3⟩ := instantiateRoot_none_counter env s hm
    exact ⟨fun e he => hcl e ((instantiateRoot_trace_none env s hm).forall_mem e he), g2, g3⟩

set_option maxRecDepth 100000 in
/-- C23 witness: `instantiateRoot` on a window that holds module 2 and meets
the counter at 41 from earlier instantiations: the reset is the step before
the one instantiation, and the three nodes created carry the indices 0, 1
and 2. -/
theorem instantiateRoot_resets_index_counter_witness :
    ({ sampleCompiled with root_module := some 2, idx_counter := 41 } :
      MainWindow sampleCarrier).root_module = some 2 ∧
    (instantiateRoot (sampleEnv (some 2) none 0)
      { sampleCompiled with root_module := some 2, idx_counter := 41 }).node_indices =
        [0, 1, 2] ∧
    (instantiateRoot (sampleEnv (some 2) none 0)
      { sampleCompiled with root_module := some 2, idx_counter := 41 }).idx_counter = 3 ∧
    ∃ (pre post : List Event) (w : Nat),
      eventsSince { sampleCompiled with root_module := some 2, idx_counter := 41 }
        (instantiateRoot (sampleEnv (some 2) none 0)
          { sampleCompiled with root_module := some 2, idx_counter := 41 }) =
        pre ++ [Event.resetIndexCounter,
          Event.instantiate ((sampleEnv (some 2) none 0).instantiate 2 w).1.isSome] ++ post ∧
      (instantiateRoot (sampleEnv (some 2) none 0)
        { sampleCompiled with root_module := some 2, idx_counter := 41 }).node_indices =
          List.range ((sampleEnv (some 2) none 0).nodesCreated 2 w) :=
  ⟨rfl, by decide, by decide, by
    obtain ⟨pre, post, w, h1, -, -, -, h2, -⟩ :=
      (instantiateRoot_resets_index_counter (sampleEnv (some 2) none 0)
        { sampleCompiled with root_module := some 2, idx_counter := 41 }).2.2.1 2 rfl
    exact ⟨pre, post, w, h1, h2⟩⟩

/-! ## C24: `compile` calls `compileDone` if anything was compiled -/

set_option maxRecDepth 100000 in
/-- C24 fails as stated: a `compile(true, true)` call that recompiles the
document into module 2, which uses libraries or has includes, starts
`waitAfterReloadTimer` and returns without a call of `compileDone`. -/
theorem compile_reload_returns_without_compileDone :
    (compile (sampleEnv (some 2) (some (some 1)) 0) true true
      (sampleWindow { Members.init sampleCarrier with editorText := "use <lib.scad>" })).isSome =
        true ∧
    ∀ t ∈ compile (sampleEnv (some 2) (some (some 1)) 0) true true
        (sampleWindow { Members.init sampleCarrier with editorText := "use <lib.scad>" }),
      Event.compileTopLevelDocument ∈ eventsSince
        (sampleWindow { Members.init sampleCarrier with editorText := "use <lib.scad>" }) t ∧
      Event.parse true ∈ eventsSince
        (sampleWindow { Members.init sampleCarrier with editorText := "use <lib.scad>" }) t ∧
      Event.compileDone true ∉ eventsSince
        (sampleWindow { Members.init sampleCarrier with editorText := "use <lib.scad>" }) t ∧
      Event.compileDone false ∉ eventsSince
        (sampleWindow { Members.init sampleCarrier with editorText := "use <lib.scad>" }) t ∧
      eventsSince (sampleWindow { Members.init sampleCarrier with editorText := "use <lib.scad>" })
        t ≠ [] ∧
      (eventsSince (sampleWindow { Members.init sampleCarrier with editorText := "use <lib.scad>" })
        t).getLast? = some Event.waitAfterReloadTimerStart := by
  decide

/-- C24 as amended (`compile` calls `compileDone` if anything was compiled).
Every call `compile(reload, forcedone)` returns. When in it the top-level
document was recompiled or `handleDependencies` reported a recompiled
dependency, it either called `compileDone(true)` before it returned, or
`reload` is set and the module has includes or uses libraries, and it started
`waitAfterReloadTimer` and returned without any call of `compileDone`. An
explicit request `compile(false, _)` always parses the current editor text,
records it as `last_compiled_doc`, and calls `compileDone(true)`. -/
theorem compile_calls_compileDone (env : Env C) (reload forcedone : Bool) (s : MainWindow C) :
    ∃ t, compile env reload forcedone s = some t ∧
      ((Event.compileTopLevelDocument ∈ eventsSince s t ∨
          Event.handleDependencies true ∈ eventsSince s t) →
        (Event.compileDone true ∈ eventsSince s t ∧
          Event.waitAfterReloadTimerStart ∉ eventsSince s t) ∨
        (reload = true ∧ Event.waitAfterReloadTimerStart ∈ eventsSince s t ∧
          (∀ b, Event.compileDone b ∉ eventsSince s t) ∧
          ∃ m, t.root_module = some m ∧
            (env.hasIncludes m (compile_atDependencyTest env reload s).world ||
              env.usesLibraries m (compile_atDependencyTest env reload s).world) = true)) ∧
      (reload = false →
        Event.compileTopLevelDocument ∈ eventsSince s t ∧
        Event.parse t.root_module.isSome ∈ eventsSince s t ∧
        (∃ w, t.root_module =
          (env.parse (s.editorText ++ "\n" ++ env.commandline_commands)
            (if s.fileName = "" then "" else env.absolutePath s.fileName) w).1.1) ∧
        t.last_compiled_doc = s.editorText ∧ t.editorText = s.editorText ∧
        Event.compileDone true ∈ eventsSince s t ∧
        Event.waitAfterReloadTimerStart ∉ eventsSince s t) := by
  have hup := compile_upstream env reload s
  obtain ⟨t, ht, htail⟩ := compile_tail env reload forcedone s
  refine ⟨t, ht, ?_, ?_⟩
  · intro hev
    have hev' : Event.compileTopLevelDocument ∈
          eventsSince s (compile_atDependencyTest env reload s) ∨
        Event.handleDependencies true ∈
          eventsSince s (compile_atDependencyTest env reload s) := by
      rcases hev with h | h
      · exact Or.inl ((mem_eventsSince_left_iff hup htail
          (e := Event.compileTopLevelDocument) rfl).mp h)
      · exact Or.inr ((mem_eventsSince_left_iff hup htail
          (e := Event.handleDependencies true) rfl).mp h)
    have hd := compile_didcompile_of_events env reload s hev'
    rw [compile_eq, hd] at ht
    split at ht
    · next hw =>
      obtain rfl := Option.some.inj ht
      obtain ⟨hr, -, m, hm, hinc⟩ := compile_waits_true env reload true _ hw
      have hlog : Emits Event.isWaiting (compile_atDependencyTest env reload s)
          (log { compile_atDependencyTest env reload s with
            waitAfterReloadTimerActive := true } Event.waitAfterReloadTimerStart) :=
        Emits.of_left (Emits.log _ _ rfl) rfl
      refine Or.inr ⟨hr, ?_, fun b => ?_, m, hm, hinc⟩
      · exact mem_eventsSince_of_log (hup.of_right
          (t := { compile_atDependencyTest env reload s with
            waitAfterReloadTimerActive := true }) rfl) (Emits.refl Event.isWaiting _)
      · exact ((hup.mono isUpstream_isWaiting).trans hlog).not_mem rfl
    · have hpre : Emits Event.isUpstream s
          (compile_highlightError reload true (compile_atDependencyTest env reload s)) :=
        hup.trans (compile_highlightError_upstream reload true _)
      simp only [Bool.true_or] at ht
      obtain ⟨t', threw, hrun, hem, hcd, -⟩ := compileDone_true env
        (compile_highlightError reload true (compile_atDependencyTest env reload s))
      obtain rfl : t' = t := Option.some.inj (hrun.symm.trans ht)
      refine Or.inl ⟨Emits.mem_right hpre hem hcd, ?_⟩
      exact ((hpre.mono (fun e h => by simp [h]) :
          Emits (fun e => e.isUpstream || e.isRenderWith threw) s _).trans
        (hem.mono (fun e h => by simp [h]))).not_mem (by cases threw <;> rfl)
  · intro hr
    subst hr
    obtain ⟨hd, m, pos, hmem, -, hc, hparse⟩ := compile_recompiled env false s rfl
    have hs : (compile_shouldcompiletoplevel env false s).2 = s := rfl
    rw [hs] at hmem
    obtain ⟨w, hw⟩ := compile_explicit_parse env s
    rw [compile_eq, compile_waits_false, hd] at ht
    simp only [Bool.false_eq_true, if_false, Bool.true_or] at ht
    have hpre : Emits Event.isUpstream s
        (compile_highlightError false true (compile_atDependencyTest env false s)) :=
      hup.trans (compile_highlightError_upstream false true _)
    obtain ⟨t', threw, hrun, hem, hcd, -, -, hdoc, -⟩ := compileDone_true env
      (compile_highlightError false true (compile_atDependencyTest env false s))
    obtain rfl : t' = t := Option.some.inj (hrun.symm.trans ht)
    rw [(compile_highlightError_spec false true _).1] at hdoc
    have hm : t'.root_module = (compile_atDependencyTest env false s).root_module :=
      congrArg (fun p => p.2.2.2.2.1) hdoc
    have hl : t'.last_compiled_doc = (compile_atDependencyTest env false s).last_compiled_doc :=
      congrArg (fun p => p.2.2.2.1) hdoc
    have het : t'.editorText = (compile_atDependencyTest env false s).editorText :=
      congrArg (fun p => p.2.2.1) hdoc
    have hmm : (compile_atDependencyTest env false s).root_module = m := by
      show (compile_atDependencyTest env false s).toMembers.root_module = _
      rw [hmem]
    refine ⟨Emits.mem_left hup htail hc, ?_, ⟨w, ?_⟩, ?_, ?_, Emits.mem_right hpre hem hcd, ?_⟩
    · rw [hm, hmm]
      exact Emits.mem_left hup htail hparse
    · rw [hm]
      show (compile_atDependencyTest env false s).toMembers.root_module = _
      rw [hw]
    · rw [hl]
      show (compile_atDependencyTest env false s).toMembers.last_compiled_doc = _
      rw [hmem]
    · rw [het]
      show (compile_atDependencyTest env false s).toMembers.editorText = _
      rw [hmem]
    · exact ((hpre.mono (fun e h => by simp [h]) :
          Emits (fun e => e.isUpstream || e.isRenderWith threw) s _).trans
        (hem.mono (fun e h => by simp [h]))).not_mem (by cases threw <;> rfl)

set_option maxRecDepth 100000 in
/-- C24 witness: an explicit compile of `cube(1);` in a new window. -/
theorem compile_calls_compileDone_witness :
    ∃ t, compile (sampleEnv (some 0) (some (some 1)) 0) false false
        (sampleWindow { Members.init sampleCarrier with editorText := "cube(1);" }) = some t ∧
      Event.compileTopLevelDocument ∈ eventsSince
        (sampleWindow { Members.init sampleCarrier with editorText := "cube(1);" }) t ∧
      t.last_compiled_doc = "cube(1);" ∧
      Event.compileDone true ∈ eventsSince
        (sampleWindow { Members.init sampleCarrier with editorText := "cube(1);" }) t := by
  obtain ⟨t, ht, -, h⟩ := compile_calls_compileDone (sampleEnv (some 0) (some (some 1)) 0)
    false false (sampleWindow { Members.init sampleCarrier with editorText := "cube(1);" })
  obtain ⟨h1, -, -, h4, -, h6, -⟩ := h rfl
  exact ⟨t, ht, h1, h4, h6⟩

/-! ## C25: the normalizer budget and the preview limit -/

/-- C25 (normalizer budget versus preview limit). Entered with a root node and
no OpenCSG renderer, `compileCSG` returns. When it ends holding a primary
term, it created exactly one normalizer, with the budget
`(2 * openCSGLimit) mod 2^32`, which is `2 * openCSGLimit` whenever
`openCSGLimit < 2^31`; that one normalizer normalized the primary term, then
every highlight term and then every background term the evaluator left; and
the OpenCSG renderer is absent exactly when the primary chain has more than
`openCSGLimit` objects. When it ends holding no primary term no normalizer
was created. -/
theorem compileCSG_normalizer_budget (env : Env C) (procevents : Bool) (s : MainWindow C)
    (root_node : C.AbstractNode) (hroot : s.root_node = some root_node)
    (hentry : s.opencsgRenderer = none) :
    ∃ t, compileCSG env procevents s = some t ∧
      (env.openCSGLimit < 2 ^ 31 → (2 * env.openCSGLimit) % 2 ^ 32 = 2 * env.openCSGLimit) ∧
      (t.root_raw_term = none → normalizerBudgets (eventsSince s t) = []) ∧
      (∀ raw, t.root_raw_term = some raw →
        normalizerBudgets (eventsSince s t) = [(2 * env.openCSGLimit) % 2 ^ 32] ∧
        (t.opencsgRenderer = none ↔
          ∃ chain, t.root_chain = some chain ∧ chain.objects.length > env.openCSGLimit) ∧
        ∃ mid : MainWindow C,
          Emits Event.isEvaluating s mid ∧ mid.root_raw_term = some raw ∧
          t = compileCSG_products env procevents raw mid ∧
          t.root_norm_term =
            (env.normalize (env.newNormalizer ((2 * env.openCSGLimit) % 2 ^ 32))
              (some raw)).1 ∧
          t.highlight_terms =
            (normalizeAndImport env
              (env.normalize (env.newNormalizer ((2 * env.openCSGLimit) % 2 ^ 32))
                (some raw)).2
              (CSGChain.mk []) mid.highlight_terms).2.2 ∧
          t.background_terms =
            (normalizeAndImport env
              (if mid.highlight_terms.length > 0 then
                (normalizeAndImport env
                  (env.normalize (env.newNormalizer ((2 * env.openCSGLimit) % 2 ^ 32))
                    (some raw)).2
                  (CSGChain.mk []) mid.highlight_terms).1
              else (env.normalize (env.newNormalizer ((2 * env.openCSGLimit) % 2 ^ 32))
                (some raw)).2)
              (CSGChain.mk []) mid.background_terms).2.2) := by
  refine ⟨compileCSG_body env procevents root_node s, by simp [compileCSG, hroot], ?_, ?_, ?_⟩
  · intro h
    exact Nat.mod_eq_of_lt (by omega)
  · obtain ⟨mid, hem, -, hnone, hsome⟩ := compileCSG_body_prefix env procevents root_node s
    intro hraw
    cases hm : mid.root_raw_term with
    | none =>
      rw [hnone hm]
      exact normalizerBudgets_of_emits hem (fun _ => rfl)
    | some term =>
      exfalso
      rw [hsome term hm, (compileCSG_products_renderers env procevents term mid).1, hm] at hraw
      cases hraw
  · obtain ⟨mid, hem, hopen, hnone, hsome⟩ := compileCSG_body_prefix env procevents root_node s
    intro raw hraw
    cases hm : mid.root_raw_term with
    | none =>
      exfalso
      rw [hnone hm, hm] at hraw
      cases hraw
    | some term =>
      rw [hsome term hm] at hraw ⊢
      rw [(compileCSG_products_renderers env procevents term mid).1, hm] at hraw
      obtain rfl := Option.some.inj hraw
      obtain ⟨b1, b2, b3, b4⟩ := compileCSG_products_normalizer env procevents term mid
      obtain ⟨-, -, h3⟩ := compileCSG_products_renderers env procevents term mid
      refine ⟨?_, ?_, mid, hem, hm, rfl, b2, b3, b4⟩
      · rw [eventsSince_append hem (compileCSG_products_emits env procevents term mid),
          normalizerBudgets_append, normalizerBudgets_of_emits hem (fun _ => rfl), b1]
        rfl
      · rw [h3, hopen, hentry, ← openCSGDisabled_iff]
        cases openCSGDisabled env (compileCSG_products env procevents term mid) <;> simp

set_option maxRecDepth 100000 in
/-- C25 witness: with the limit 3 the normalizer gets the budget 6, and a
primary chain of 5 objects disables the OpenCSG renderer. -/
theorem compileCSG_normalizer_budget_witness :
    ∃ t, compileCSG (sampleEnv (some 0) (some (some 5)) 3) true
        (sampleWindow { Members.init sampleCarrier with root_node := some 0 }) = some t ∧
      normalizerBudgets (eventsSince
        (sampleWindow { Members.init sampleCarrier with root_node := some 0 }) t) = [6] ∧
      t.opencsgRenderer = none := by
  obtain ⟨t, ht, -, -, h⟩ := compileCSG_normalizer_budget (sampleEnv (some 0) (some (some 5)) 3)
    true (sampleWindow { Members.init sampleCarrier with root_node := some 0 }) 0 rfl rfl
  have hyp : ∀ u ∈ compileCSG (sampleEnv (some 0) (some (some 5)) 3) true
      (sampleWindow { Members.init sampleCarrier with root_node := some 0 }),
      u.root_raw_term = some 5 ∧ u.root_chain.map (fun c => c.objects.length) = some 5 := by
    decide
  obtain ⟨h1, h2⟩ := hyp t ht
  obtain ⟨b, hiff, -⟩ := h 5 h1
  refine ⟨t, ht, b, hiff.mpr ?_⟩
  cases hc : t.root_chain with
  | none => rw [hc] at h2; cases h2
  | some chain =>
    rw [hc] at h2
    refine ⟨chain, rfl, ?_⟩
    have h5 : chain.objects.length = 5 := Option.some.inj h2
    rw [h5]
    decide

/-! ## C26: the permille computation of `report_func` -/

/-- C26 fails as stated: for the count 1 and the mark 2147484 the quotient
2147484000 is not an `int`, so that its conversion is undefined: no permille
is computed, and `report_func` has no defined result. -/
theorem report_func_permille_out_of_range :
    (0 : Int) < 1 ∧ (0 : Int) ≤ 2147484 ∧
    (2147484 * 1000 / 1 : Int) = 2147484000 ∧ ¬ ((2147484000 : Int) < 2 ^ 31) ∧
    report_func_v 1 2147484 = none ∧
    report_func_permille 1 2147484 = none ∧
    (report_func (sampleEnv none none 0) 1 none 2147484
      (sampleWindow { Members.init sampleCarrier with progresswidget := true })).isNone = true := by
  decide

/-- C26 as amended (permille computation in `report_func`). For every count
above 0 and every mark that is not negative, when the floor of
1000·mark / count is below 2^31, so that it is an `int`, the permille computed
is the smaller of that floor and 999: it lies in 0..999, and a mark that is
the count or more yields 999, never 1000. That permille is the one value
`report_func` writes to the progress widget, when it is above the value
shown, and otherwise nothing is written. -/
theorem report_func_permille_clamped (progress_report_count mark : Int)
    (hcount : 0 < progress_report_count) (hmark : 0 ≤ mark)
    (hfit : mark * 1000 / progress_report_count < 2 ^ 31) :
    report_func_permille progress_report_count mark =
      some (min (mark * 1000 / progress_report_count) 999) ∧
    0 ≤ min (mark * 1000 / progress_report_count) 999 ∧
    min (mark * 1000 / progress_report_count) 999 ≤ 999 ∧
    (progress_report_count ≤ mark →
      report_func_permille progress_report_count mark = some 999) ∧
    ∀ (env : Env C) (node : Option C.AbstractNode) (s : MainWindow C),
      s.progresswidget = true →
      ∃ r, report_func env progress_report_count node mark s = some r ∧
        writtenValues (eventsSince s r.2) =
          if min (mark * 1000 / progress_report_count) 999 > env.progressValue s.world then
            [min (mark * 1000 / progress_report_count) 999]
          else [] := by
  have hv := report_func_v_floor progress_report_count mark hcount hmark hfit
  have h0 : 0 ≤ mark * 1000 / progress_report_count :=
    Int.ediv_nonneg (by positivity) (le_of_lt hcount)
  have hp : report_func_permille progress_report_count mark =
      some (min (mark * 1000 / progress_report_count) 999) := by
    unfold report_func_permille
    rw [hv]
    simp only [Option.map_some']
    congr 1
    by_cases h : mark * 1000 / progress_report_count < 1000
    · rw [if_pos h]; omega
    · rw [if_neg h]; omega
  refine ⟨hp, by omega, by omega, ?_, ?_⟩
  · intro hge
    rw [hp]
    congr 1
    have : 1000 ≤ mark * 1000 / progress_report_count := by
      rw [Int.le_ediv_iff_mul_le hcount]
      nlinarith
    omega
  · intro env node s hw
    exact report_func_writes env progress_report_count node mark s _ hw hp

set_option maxRecDepth 100000 in
/-- C26 witness: of 7 nodes, the mark 3 gives 428 and the marks 7 and 9 give
999. -/
theorem report_func_permille_clamped_witness :
    report_func_permille 7 3 = some 428 ∧ report_func_permille 7 7 = some 999 ∧
    report_func_permille 7 9 = some 999 ∧
    report_func_permille 7 3 = some (min (3 * 1000 / 7) 999) :=
  ⟨by decide, by decide, by decide,
    (report_func_permille_clamped (C := sampleCarrier) 7 3 (by decide) (by decide)
      (by decide)).1⟩

/-! ## C27: `waitAfterReload` never meets a missing module -/

/-- C27 (`waitAfterReload` never dereferences a missing module). In every
state reached from a new window by requests, where the other activity of the
user interface leaves `root_module` alone: while `waitAfterReloadTimer` is
pending, `root_module` is not null and the GUI lock is held, so that
`waitAfterReload` returns; and every request other than the timeout of the
timer leaves `root_module` as it is and the timer pending, a compile request
returning at once with the window as it was. -/
theorem waitAfterReload_module_present (env : Env C) (world : C.World)
    (reqs : List (Request C)) (hkeep : ∀ r ∈ reqs, r.keepsModule) (s : MainWindow C)
    (hreach : run env reqs (MainWindow.init world) = some s) :
    (s.waitAfterReloadTimerActive = true →
      s.root_module.isSome = true ∧ s.gui_locked = 1 ∧ GuiLocker_isLocked s = true ∧
      (waitAfterReload env s).isSome = true) ∧
    (∀ (r : Request C) (t : MainWindow C), r.enabled s = true → r.keepsModule →
      dispatch env r s = some t → s.waitAfterReloadTimerActive = true →
      r ≠ Request.waitAfterReloadTimeout →
      t.root_module = s.root_module ∧ t.waitAfterReloadTimerActive = true ∧
      (r.isCompileRequest = true → t = s)) := by
  have hinit : lockDiscipline (MainWindow.init (C := C) world).toMembers.lockState := by
    show lockDiscipline (0, false, false, Slot.csgRender)
    simp [lockDiscipline]
  have hinv := run_lockDiscipline env reqs _ s hinit hreach
  have hmod := run_module env reqs _ s hinit (fun h => by cases h) hkeep hreach
  refine ⟨fun hw => ?_, fun r t hen hk hstep hw hne =>
    (dispatch_module env r s t hinv hmod hen hk hstep).2 hw hne⟩
  have hg : s.gui_locked = 1 := (hinv.2.1 hw).1
  refine ⟨hmod hw, hg, by simp [GuiLocker_isLocked, hg], ?_⟩
  obtain ⟨-, hsome⟩ := waitAfterReload_cases env s
  cases hm : s.root_module with
  | none =>
    have := hmod hw
    rw [hm] at this
    cases this
  | some m =>
    obtain ⟨htrue, hfalse⟩ := hsome m hm
    cases hdep : (env.handleDependencies m s.world).1 with
    | true => rw [htrue hdep]; rfl
    | false =>
      rw [hfalse hdep]
      obtain ⟨t, ht, -⟩ := compile_outcome env true true
        (log { s with world := (env.handleDependencies m s.world).2,
                      waitAfterReloadTimerActive := false }
          (Event.handleDependencies false))
      rw [ht]; rfl

set_option maxRecDepth 100000 in
/-- C27 witness: the user types a text with an include into a new window and
asks for a reload preview; the module has includes, so the request is parked
on the timer, with the module and the lock. -/
theorem waitAfterReload_module_present_witness :
    (run (sampleEnv (some 1) (some (some 1)) 0)
      [Request.other (fun m => { m with editorText := "include <a.scad>" }) id,
        Request.actionReloadRenderPreview] (MainWindow.init 0)).isSome = true ∧
    ∀ s ∈ run (sampleEnv (some 1) (some (some 1)) 0)
        [Request.other (fun m => { m with editorText := "include <a.scad>" }) id,
          Request.actionReloadRenderPreview] (MainWindow.init 0),
      s.waitAfterReloadTimerActive = true ∧ s.root_module.isSome = true ∧ s.gui_locked = 1 ∧
      (waitAfterReload (sampleEnv (some 1) (some (some 1)) 0) s).isSome = true := by
  have hyp : ∀ u ∈ run (sampleEnv (some 1) (some (some 1)) 0)
      [Request.other (fun m => { m with editorText := "include <a.scad>" }) id,
        Request.actionReloadRenderPreview] (MainWindow.init 0),
      u.waitAfterReloadTimerActive = true := by
    decide
  refine ⟨by decide, fun s hs => ?_⟩
  obtain ⟨h1, h2, -, h4⟩ := (waitAfterReload_module_present (sampleEnv (some 1) (some (some 1)) 0)
    0 [Request.other (fun m => { m with editorText := "include <a.scad>" }) id,
      Request.actionReloadRenderPreview]
    (fun r hr => by
      simp only [List.mem_cons, List.mem_singleton, List.not_mem_nil, or_false] at hr
      rcases hr with rfl | rfl
      · exact fun m => rfl
      · trivial) s hs).1 (hyp s hs)
  exact ⟨hyp s hs, h1, h2, h4⟩

/-! ## C28: a declined reload consumes the change -/

/-- C28 (a declined reload consumes the change). In `compile(reload = true)`,
when the fingerprint of the file changed on disk, the editor text is modified
and the user declines the reload: the call returns with the new fingerprint
recorded, the document was not read again and the editor text is as it was,
the auto-reload action is unchecked, and a `fileChangedOnDisk` call that
follows with the file in the same state returns false and leaves the
fingerprint. -/
theorem compile_declined_reload_consumes_change (env : Env C) (forcedone : Bool)
    (s : MainWindow C) (mtime size : Nat)
    (hname : s.fileName ≠ "")
    (hstat : (env.stat s.fileName s.world).1 = some (mtime, size))
    (hnew : hexString mtime ++ "." ++ hexString size ≠ s.autoReloadId)
    (hmod : env.isContentModified (env.stat s.fileName s.world).2 = true)
    (hno : (env.askReload (env.stat s.fileName s.world).2).1 = false) :
    ∃ t, compile env true forcedone s = some t ∧
      Event.fileChangedOnDisk true ∈ eventsSince s t ∧
      Event.checkEditorModified false ∈ eventsSince s t ∧
      t.autoReloadId = hexString mtime ++ "." ++ hexString size ∧
      Event.refreshDocument ∉ eventsSince s t ∧
      t.editorText = s.editorText ∧ t.fileName = s.fileName ∧
      t.designActionAutoReload = false ∧
      ((env.stat t.fileName t.world).1 = some (mtime, size) →
        (fileChangedOnDisk env t).1 = false ∧
        (fileChangedOnDisk env t).2.autoReloadId = t.autoReloadId) := by
  obtain ⟨hworld, hfn, -, hcase⟩ := fileChangedOnDisk_cases env s
  obtain ⟨hres, hid⟩ := hcase mtime size hname hstat
  have hch : (fileChangedOnDisk env s).1 = true := by
    rw [hres]; exact decide_eq_true hnew
  rw [if_pos hname] at hworld
  obtain ⟨d, hframe⟩ := fileChangedOnDisk_frame env s
  have hdecl : (checkEditorModified env (fileChangedOnDisk env s).2).1 = false := by
    unfold checkEditorModified
    rw [hworld, if_pos hmod]
    simp [hno]
  obtain ⟨⟨b, hu⟩, hem, hm1, hm2⟩ := compile_shouldcompiletoplevel_declined env s hch hdecl
  obtain ⟨t, ht, h1, h2, h3, h4, htl⟩ := compile_after_check env true forcedone s
  have hu1 : (compile_shouldcompiletoplevel env true s).2.fileName = s.fileName := by
    show (compile_shouldcompiletoplevel env true s).2.toMembers.fileName = _
    rw [hu]; exact hfn
  have hu2 : (compile_shouldcompiletoplevel env true s).2.autoReloadId =
      hexString mtime ++ "." ++ hexString size := by
    show (compile_shouldcompiletoplevel env true s).2.toMembers.autoReloadId = _
    rw [hu]; exact hid
  have hu3 : (compile_shouldcompiletoplevel env true s).2.editorText = s.editorText := by
    show (compile_shouldcompiletoplevel env true s).2.toMembers.editorText = _
    rw [hu]
    show (fileChangedOnDisk env s).2.toMembers.editorText = _
    rw [hframe]
  have hu4 : (compile_shouldcompiletoplevel env true s).2.designActionAutoReload = false := by
    show (compile_shouldcompiletoplevel env true s).2.toMembers.designActionAutoReload = _
    rw [hu]
  refine ⟨t, ht, Emits.mem_left hem htl hm1, Emits.mem_left hem htl hm2, h2.trans hu2, ?_,
    h3.trans hu3, h1.trans hu1, h4.trans hu4, ?_⟩
  · exact ((hem.mono (fun e h => by simp [h]) :
        Emits (fun e => e.isDeclining || (e.isRecompilingWith true ||
          e.isRecompilingWith false || e.isTail)) s _).trans
      (htl.mono (fun e h => by
        simp only [Bool.or_eq_true] at h ⊢
        exact Or.inr h))).not_mem rfl
  · intro hsame
    obtain ⟨-, -, -, hcase'⟩ := fileChangedOnDisk_cases env t
    obtain ⟨r1, r2⟩ := hcase' mtime size (by rw [h1.trans hu1]; exact hname) hsame
    rw [r1, r2, h2.trans hu2]
    simp

set_option maxRecDepth 100000 in
/-- C28 witness: the file `a.scad` with modification time 26 and size 255
against the recorded fingerprint `1a.fe`, with the editor text modified and
the reload declined. -/
theorem compile_declined_reload_consumes_change_witness :
    ∃ t, compile
        ({ sampleStatEnv (some (26, 255)) with
            isContentModified := fun _ => true
            askReload := fun w => (false, w) } : Env sampleCarrier) true false
        (sampleWindow { Members.init sampleCarrier with
          fileName := "a.scad"
          autoReloadId := "1a.fe"
          designActionAutoReload := true }) = some t ∧
      t.autoReloadId = "1a.ff" ∧ t.designActionAutoReload = false ∧
      Event.refreshDocument ∉ eventsSince
        (sampleWindow { Members.init sampleCarrier with
          fileName := "a.scad"
          autoReloadId := "1a.fe"
          designActionAutoReload := true }) t := by
  obtain ⟨t, ht, -, -, h3, h4, -, -, h7, -⟩ := compile_declined_reload_consumes_change
    ({ sampleStatEnv (some (26, 255)) with
        isContentModified := fun _ => true
        askReload := fun w => (false, w) } : Env sampleCarrier) false
    (sampleWindow { Members.init sampleCarrier with
      fileName := "a.scad"
      autoReloadId := "1a.fe"
      designActionAutoReload := true }) 26 255 (by decide) rfl (by decide) rfl rfl
  exact ⟨t, ht, by rw [h3]; decide, h7, h4⟩

/-! ## C29: the table of known file types -/

set_option maxRecDepth 100000 in
/-- C29 on the code, at the file name `notes.txt` and the table of the
constructor: `txt` is not in the table, and the first `openFile` yields an
untitled document with empty text, but it leaves the table with an entry for
`txt`; a second `openFile` of the same name then makes the file the document
of the window, and so does `handleFileDrop` of that name on the table of the
constructor. -/
theorem openFile_unknown_suffix_reclassified :
    knownFileExtensions_contains knownFileExtensions_init "txt" = false ∧
    (openFile (sampleEnv (some 0) (some (some 1)) 100) false "notes.txt"
      (knownFileExtensions_init, sampleWindow (Members.init sampleCarrier))).1 =
        knownFileExtensions_init ++ [("txt", "")] ∧
    (openFile (sampleEnv (some 0) (some (some 1)) 100) false "notes.txt"
      (knownFileExtensions_init, sampleWindow (Members.init sampleCarrier))).2.fileName = "" ∧
    (openFile (sampleEnv (some 0) (some (some 1)) 100) false "notes.txt"
      (knownFileExtensions_init, sampleWindow (Members.init sampleCarrier))).2.editorText = "" ∧
    (openFile (sampleEnv (some 0) (some (some 1)) 100) false "notes.txt"
      (openFile (sampleEnv (some 0) (some (some 1)) 100) false "notes.txt"
        (knownFileExtensions_init,
          sampleWindow (Members.init sampleCarrier)))).2.fileName = "notes.txt" ∧
    (handleFileDrop (sampleEnv (some 0) (some (some 1)) 100) false (fun s => (true, s))
      "notes.txt" (knownFileExtensions_init, sampleWindow (Members.init sampleCarrier))).1 =
        knownFileExtensions_init ++ [("txt", "")] ∧
    (handleFileDrop (sampleEnv (some 0) (some (some 1)) 100) false (fun s => (true, s))
      "notes.txt"
      (knownFileExtensions_init, sampleWindow (Members.init sampleCarrier))).2.fileName =
        "notes.txt" := by
  decide

/-! ## C30: the recent-files update -/

/-- C30 (recent-files update). `updateRecentFiles` writes back one list,
computed from the stored list and the absolute path of the current file. With
`maxRecentFiles` at least 1 that list starts with the current path, holds it
nowhere else, has at most `maxRecentFiles` elements, and continues with the
other entries of the stored list in their order: the first
`maxRecentFiles - 1` of them, a prefix of them that is all of them when they
fit. -/
theorem updateRecentFiles_list (env : Env C) (s : MainWindow C)
    (hmax : 1 ≤ env.maxRecentFiles) :
    (updateRecentFiles env s).world =
      env.helper Helper.updateRecentFileActions
        (env.setRecentFileList
          (updateRecentFiles_files env.maxRecentFiles (env.absoluteFilePath s.fileName)
            (env.recentFileList s.world)) s.world) ∧
    (updateRecentFiles env s).toMembers = s.toMembers ∧
    ∃ rest,
      updateRecentFiles_files env.maxRecentFiles (env.absoluteFilePath s.fileName)
          (env.recentFileList s.world) = env.absoluteFilePath s.fileName :: rest ∧
      env.absoluteFilePath s.fileName ∉ rest ∧
      rest.length + 1 ≤ env.maxRecentFiles ∧
      rest = ((env.recentFileList s.world).filter
        (fun f => f ≠ env.absoluteFilePath s.fileName)).take (env.maxRecentFiles - 1) ∧
      rest <+: (env.recentFileList s.world).filter
        (fun f => f ≠ env.absoluteFilePath s.fileName) ∧
      (((env.recentFileList s.world).filter
          (fun f => f ≠ env.absoluteFilePath s.fileName)).length + 1 ≤ env.maxRecentFiles →
        rest = (env.recentFileList s.world).filter
          (fun f => f ≠ env.absoluteFilePath s.fileName)) := by
  refine ⟨rfl, rfl, ?_⟩
  generalize env.absoluteFilePath s.fileName = x
  generalize env.recentFileList s.world = files
  obtain ⟨k, hk⟩ : ∃ k, env.maxRecentFiles = k + 1 := ⟨env.maxRecentFiles - 1, by omega⟩
  refine ⟨(files.filter (fun f => f ≠ x)).take k, ?_, ?_, ?_, ?_, ?_, ?_⟩
  · rw [updateRecentFiles_files_eq, hk, List.take_succ_cons]
  · intro hmem
    have := List.mem_of_mem_take hmem
    simp at this
  · rw [hk, List.length_take]
    omega
  · rw [hk]; rfl
  · exact List.take_prefix _ _
  · intro hfit
    exact List.take_of_length_le (by omega)

set_option maxRecDepth 100000 in
/-- C30 witness: with room for 3 entries, the path `b` and the stored list
`a, b, c, d, b`: the list written is `b, a, c`. -/
theorem updateRecentFiles_list_witness :
    updateRecentFiles_files 3 "b" ["a", "b", "c", "d", "b"] = ["b", "a", "c"] ∧
    ∃ rest,
      updateRecentFiles_files
          ({ sampleEnv none none 0 with
              maxRecentFiles := 3
              recentFileList := fun _ => ["a", "b", "c", "d", "b"] } : Env sampleCarrier).maxRecentFiles
          "b" ["a", "b", "c", "d", "b"] = "b" :: rest ∧
      "b" ∉ rest ∧ rest.length + 1 ≤ 3 :=
  ⟨by decide,
    let h := (updateRecentFiles_list
      ({ sampleEnv none none 0 with
          maxRecentFiles := 3
          recentFileList := fun _ => ["a", "b", "c", "d", "b"] } : Env sampleCarrier)
      (sampleWindow { Members.init sampleCarrier with fileName := "b" }) (by decide)).2.2
    ⟨h.choose, h.choose_spec.1, h.choose_spec.2.1, h.choose_spec.2.2.1⟩⟩

end OpenSCAD
